import Mathlib

/-!
# affyio: CEL file parsing (read_abatch.c, read_multichannel_celfile_generic.c)

A shallow embedding of the text, gzipped text and binary CEL readers of
`src/read_abatch.c` (body readers, mask routines, header readers, the reading
steps of the drivers, `read_cel_file`, `storeIntensities` and the byte swaps
of the read primitives) and of the channel count, the three channel readers
and the mask routines of `src/read_multichannel_celfile_generic.c`.

Modelling conventions

* A file is the list of its bytes, each byte a `Char`; `fopen` failing is
  `none`.  A text stream is the unread remainder of the file; a binary stream
  (`FILE`) is the file with a read position, since the binary readers seek.
* The host of the readers is little-endian (their `WORDS_BIGENDIAN` branches
  are not taken); the swap statements of these branches are modelled on their
  own (`swap_int32`, `swap_int16`, `swap_float_4`).
* A C string is the list of its characters before the terminating NUL.
* `error(...)` of R (a non-local exit) is `Except.error`; reading a token or
  pointer that does not exist is `Err.undefined_behaviour`.
* `int` values are `Int`.  Values read from a binary file, the values `atoi`
  returns and the products `cols*rows` and `n_cells*sizeofrecords` are reduced
  to 32 bits (`wrap32`); a `long` has 64 bits and a pointer 8 bytes.  The
  index arithmetic `chip_num*rows + x + chip_dim_rows*y` is exact (signed
  overflow is undefined in C and is not modelled).
* Loops are structural recursions on the number of iterations left; the two
  loops without such a number (`findStartsWith`, `tokenize`) take a bound that
  is proved never to be reached.  The walk over the data groups of a generic
  file can run forever; it takes a bound and returns `none` when the bound is
  reached.
* A gzipped stream is the stream of decompressed bytes that zlib delivers; the
  decompression is a parameter.
* The readers of read_generic.c are not among the sources; for one file they
  are given by what they decode at each read position (`generic_file`).
* A `short*` array is the list of its entries, a `char*` the C string it
  points to; a pointer that is `NULL` is `none`.
* A `double*` matrix is a map from offsets (relative to its base) to cells;
  a cell is a number, `R_NaN` or `R_NaReal`.  Numbers are kept abstract
  (`atof` and the float decoder are parameters).
-/

set_option autoImplicit false
set_option linter.unusedVariables false
set_option maxRecDepth 100000

namespace Affyio

/-! ## Outcomes -/

/-- Errors raised through `error(...)`, named after their messages, plus the
marker for behaviour that C leaves undefined. -/
inductive Err
  | could_not_open
  | eof_unexpected
  | not_a_cel_file
  | wrong_dimensions
  | wrong_chip_type
  | no_cdf_information
  | bad_magic_number
  | not_version_4
  | binary_corrupted
  | ncells_mismatch
  | cannot_allocate
  | undefined_behaviour
  | not_really_a_cel_file
  | file_corrupted
  | cel_file_corrupted
  deriving DecidableEq, Repr

/-- Cells of an R numeric matrix: an ordinary number, `R_NaN` or `R_NaReal` (NA). -/
inductive RDouble (F : Type)
  | num (f : F)
  | R_NaN
  | R_NaReal
  deriving DecidableEq, Repr

deriving instance DecidableEq for Except

/-- The `#define BUF_SIZE 1024` of the source. -/
def BUF_SIZE : Nat := 1024

/-! ## libc primitives -/

/-- The C string held by a buffer: its characters up to the first NUL. -/
def cstr (buf : List Char) : List Char :=
  buf.takeWhile (fun c => c != Char.ofNat 0)

/-- Characters consumed by one `fgets` call that may store at most `n` characters. -/
def fgets_take : Nat → List Char → List Char × List Char
  | 0, s => ([], s)
  | _ + 1, [] => ([], [])
  | n + 1, c :: s =>
    if c = '\n' then ([c], s) else ((fgets_take n s).1.cons c, (fgets_take n s).2)

/-- Model of `fgets(buffer, size, stream)`: `none` at end of file, otherwise the
bytes stored (at most `size - 1`, ending after the first newline) and the
remaining stream. -/
def fgets (size : Nat) (stream : List Char) : Option (List Char × List Char) :=
  match stream with
  | [] => none
  | _ :: _ => some (fgets_take (size - 1) stream)

/-- Model of `strncmp(a, b, n)` on C strings (difference of the first differing
unsigned characters, the terminator counting as 0). -/
def strncmp : List Char → List Char → Nat → Int
  | _, _, 0 => 0
  | [], [], _ + 1 => 0
  | [], b :: _, _ + 1 => 0 - (b.toNat : Int)
  | a :: _, [], _ + 1 => (a.toNat : Int)
  | a :: as, b :: bs, n + 1 =>
    if a = b then strncmp as bs n else (a.toNat : Int) - (b.toNat : Int)

/-- Model of `strcmp`. -/
def strcmp (a b : List Char) : Int :=
  strncmp a b (max a.length b.length + 1)

/-- Model of `strncasecmp(a, b, n)`: `strncmp` after `tolower` of each character. -/
def strncasecmp (a b : List Char) (n : Nat) : Int :=
  strncmp (a.map Char.toLower) (b.map Char.toLower) n

/-- Model of one `strtok` step on the text still to scan: skip leading
delimiters; `none` if nothing is left, otherwise the token and the text after
the delimiter that ended it. -/
def strtok (s : List Char) (delimiters : List Char) : Option (List Char × List Char) :=
  match s.dropWhile (fun c => delimiters.contains c) with
  | [] => none
  | c :: r =>
    some ((c :: r).takeWhile (fun d => !delimiters.contains d),
          ((c :: r).dropWhile (fun d => !delimiters.contains d)).drop 1)

/-- Model of `isspace` in the C locale. -/
def isspace (c : Char) : Bool :=
  c = ' ' || c = '\t' || c = '\n' || c = Char.ofNat 11 || c = Char.ofNat 12 || c = '\r'

/-- Value of the leading decimal digits of a string, given the value so far. -/
def atoi_digits : List Char → Nat → Nat
  | [], acc => acc
  | c :: s, acc => if c.isDigit then atoi_digits s (10 * acc + (c.toNat - '0'.toNat)) else acc

/-- Value of a 32-bit `int` holding the mathematical value `v` (two's complement). -/
def wrap32 (v : Int) : Int := (v + 2147483648) % 4294967296 - 2147483648

/-- Value of a 16-bit `short` holding the mathematical value `v` (two's complement). -/
def wrap16 (v : Int) : Int := (v + 32768) % 65536 - 32768

/-- Model of `strtol(nptr, NULL, 10)` on a host with a 64-bit `long`: optional
white space, optional sign, decimal digits; a value outside the range of
`long` is replaced by `LONG_MIN` or `LONG_MAX`. -/
def strtol (nptr : List Char) : Int :=
  match nptr.dropWhile isspace with
  | '-' :: r => max (-9223372036854775808) (- (atoi_digits r 0 : Int))
  | '+' :: r => min 9223372036854775807 (atoi_digits r 0 : Int)
  | r => min 9223372036854775807 (atoi_digits r 0 : Int)

/-- Model of `atoi`, which the C library defines as
`(int) strtol(nptr, NULL, 10)`: the value of the digits is converted to the
32-bit `int`, so "4294967298" gives 2. -/
def atoi (nptr : List Char) : Int :=
  wrap32 (strtol nptr)

/-! ## Tokens (read_abatch.c, lines 239-388) -/

/-- The `while (current_token != NULL)` loop of `tokenize`; the first argument
bounds the number of iterations. -/
def tokenize_loop (delimiters : List Char) : Nat → Option (List Char × List Char) → List (List Char)
  | 0, _ => []
  | _, none => []
  | fuel + 1, some (current_token, saved) =>
    current_token :: tokenize_loop delimiters fuel (strtok saved delimiters)

/-- Model of `tokenize(str, delimiters)`: the tokens of the returned tokenset. -/
def tokenize (str : List Char) (delimiters : List Char) : List (List Char) :=
  tokenize_loop delimiters (str.length + 1) (strtok str delimiters)

/-- Model of `tokenset_size`. -/
def tokenset_size (x : List (List Char)) : Int := (x.length : Int)

/-- Model of `get_token(x, i)`: reading past the token array is undefined. -/
def get_token (x : List (List Char)) (i : Int) : Except Err (List Char) :=
  if i < 0 then .error .undefined_behaviour
  else match x.get? i.toNat with
    | some t => .ok t
    | none => .error .undefined_behaviour

/-- Model of `token_ends_with(token, ends_in)`. -/
def token_ends_with (token ends_in : List Char) : Int :=
  let tokenlength : Int := token.length
  let ends_length : Int := ends_in.length
  if tokenlength ≤ ends_length then 0
  else
    let start_pos := tokenlength - ends_length
    if strcmp (token.drop start_pos.toNat) ends_in = 0 then start_pos else 0

/-! ## Text CEL files (read_abatch.c, lines 399-1065) -/

/-- Model of `ReadFileLine`: the C string left in the buffer and the advanced stream. -/
def ReadFileLine (buffersize : Nat) (currentFile : List Char) :
    Except Err (List Char × List Char) :=
  match fgets buffersize currentFile with
  | none => .error .eof_unexpected
  | some (buffer, rest) => .ok (cstr buffer, rest)

/-- Model of `open_cel_file`: the stream, rewound to the start of the file. -/
def open_cel_file (file : Option (List Char)) : Except Err (List Char) :=
  match file with
  | none => .error .could_not_open
  | some content =>
    match ReadFileLine BUF_SIZE content with
    | .error e => .error e
    | .ok (buffer, _) =>
      if strncmp "[CEL]".toList buffer 4 = 0 then .ok content
      else .error .not_a_cel_file

/-- The `do ... while (match != 0)` loop of `findStartsWith`; the first argument
bounds the number of iterations. -/
def findStartsWith_loop (starts : List Char) : Nat → List Char → Except Err (List Char × List Char)
  | 0, _ => .error .undefined_behaviour
  | fuel + 1, my_file =>
    match ReadFileLine BUF_SIZE my_file with
    | .error e => .error e
    | .ok (buffer, rest) =>
      if strncmp starts buffer starts.length = 0 then .ok (buffer, rest)
      else findStartsWith_loop starts fuel rest

/-- Model of `findStartsWith`: the matching line left in the buffer and the
stream after it.  Every iteration consumes at least one byte, so the bound
`my_file.length + 1` is never reached. -/
def findStartsWith (my_file : List Char) (starts : List Char) :
    Except Err (List Char × List Char) :=
  findStartsWith_loop starts (my_file.length + 1) my_file

/-- Model of `AdvanceToSection`. -/
def AdvanceToSection (my_file : List Char) (sectiontitle : List Char) :
    Except Err (List Char × List Char) :=
  findStartsWith my_file sectiontitle

/-- The chip-type loop of `check_cel_file` (lines 548-555) over the tokens not
yet examined: `break` on the first token that matches `ref_cdfName` over
`strlen(ref_cdfName)` characters, the chip-type error after the last token. -/
def check_cel_file_loop (ref_cdfName : List Char) : List (List Char) → Except Err Unit
  | [] => .ok ()
  | token :: later =>
    if strncasecmp token ref_cdfName ref_cdfName.length = 0 then .ok ()
    else if later = [] then .error .wrong_chip_type
    else check_cel_file_loop ref_cdfName later

/-- Model of `check_cel_file(filename, ref_cdfName, ref_dim_1, ref_dim_2)`. -/
def check_cel_file (file : Option (List Char)) (ref_cdfName : List Char)
    (ref_dim_1 ref_dim_2 : Int) : Except Err Int :=
  match open_cel_file file with
  | .error e => .error e
  | .ok currentFile =>
  match AdvanceToSection currentFile "[HEADER]".toList with
  | .error e => .error e
  | .ok (_, currentFile) =>
  match findStartsWith currentFile "Cols".toList with
  | .error e => .error e
  | .ok (buffer, currentFile) =>
  match get_token (tokenize buffer "=".toList) 1 with
  | .error e => .error e
  | .ok token1 =>
  let dim1 := atoi token1
  match findStartsWith currentFile "Rows".toList with
  | .error e => .error e
  | .ok (buffer, currentFile) =>
  match get_token (tokenize buffer "=".toList) 1 with
  | .error e => .error e
  | .ok token1 =>
  let dim2 := atoi token1
  if dim1 ≠ ref_dim_1 ∨ dim2 ≠ ref_dim_2 then .error .wrong_dimensions
  else
  match findStartsWith currentFile "DatHeader".toList with
  | .error e => .error e
  | .ok (buffer, _) =>
  match check_cel_file_loop ref_cdfName (tokenize buffer " ".toList) with
  | .error e => .error e
  | .ok _ => .ok 0

/-- The two messages that `read_cel_file_intensities` prints with `Rprintf`
before it stops early, with the two numbers it prints. -/
inductive Warning
  | empty_line (read expected : Int)
  | incomplete_line (read expected : Int)
  deriving DecidableEq, Repr

/-- What a body reader leaves behind: its return value, the matrix and the
warnings printed. -/
structure ReadResult (F : Type) where
  ret : Int
  intensity : Int → RDouble F
  warnings : List Warning

/-- The `for (i=0; i < rows; i++)` loop of `read_cel_file_intensities`
(lines 593-630); the first argument is the number of iterations still to run.
Returns the value of `i` at loop exit, the matrix and the warnings printed. -/
def read_cel_file_intensities_loop {F : Type} (atof : List Char → F)
    (chip_num rows chip_dim_rows : Int) :
    Nat → Int → List Char → (Int → RDouble F) →
      Except Err (Int × (Int → RDouble F) × List Warning)
  | 0, i, _, intensity => .ok (i, intensity, [])
  | n + 1, i, currentFile, intensity =>
    match ReadFileLine BUF_SIZE currentFile with
    | .error e => .error e
    | .ok (buffer, currentFile) =>
      if buffer.length ≤ 2 then .ok (i, intensity, [Warning.empty_line (i - 1) i])
      else
      match strtok buffer " \t".toList with
      | none => .ok (i, intensity, [Warning.incomplete_line (i - 1) rows])
      | some (token_x, saved) =>
      let cur_x := atoi token_x
      match strtok saved " \t".toList with
      | none => .ok (i, intensity, [Warning.incomplete_line (i - 1) rows])
      | some (token_y, saved) =>
      let cur_y := atoi token_y
      match strtok saved " \t".toList with
      | none => .ok (i, intensity, [Warning.incomplete_line (i - 1) rows])
      | some (token_mean, _) =>
      let cur_mean := atof token_mean
      let cur_index := cur_x + chip_dim_rows * cur_y
      read_cel_file_intensities_loop atof chip_num rows chip_dim_rows n (i + 1) currentFile
        (Function.update intensity (chip_num * rows + cur_index) (RDouble.num cur_mean))

/-- Model of `read_cel_file_intensities(filename, intensity, chip_num, rows,
cols, chip_dim_rows)`. -/
def read_cel_file_intensities {F : Type} (atof : List Char → F)
    (file : Option (List Char)) (intensity : Int → RDouble F)
    (chip_num rows cols chip_dim_rows : Int) : Except Err (ReadResult F) :=
  match open_cel_file file with
  | .error e => .error e
  | .ok currentFile =>
  match AdvanceToSection currentFile "[INTENSITY]".toList with
  | .error e => .error e
  | .ok (_, currentFile) =>
  match findStartsWith currentFile "CellHeader=".toList with
  | .error e => .error e
  | .ok (_, currentFile) =>
  match read_cel_file_intensities_loop atof chip_num rows chip_dim_rows
      rows.toNat 0 currentFile intensity with
  | .error e => .error e
  | .ok (i, intensity, warnings) =>
    if i ≠ rows then .ok ⟨1, intensity, warnings⟩ else .ok ⟨0, intensity, warnings⟩

/-- The coordinate loops of `apply_masks` (lines 882-893 with `R_NaN`, lines
906-915 with `R_NaReal`): `value` is the constant the loop stores; the first
argument is the number of iterations still to run. -/
def apply_masks_loop {F : Type} (value : RDouble F) (chip_num rows chip_dim_rows : Int) :
    Nat → List Char → (Int → RDouble F) → Except Err (List Char × (Int → RDouble F))
  | 0, currentFile, intensity => .ok (currentFile, intensity)
  | n + 1, currentFile, intensity =>
    match ReadFileLine BUF_SIZE currentFile with
    | .error e => .error e
    | .ok (buffer, currentFile) =>
    let cur_tokenset := tokenize buffer " \t".toList
    match get_token cur_tokenset 0 with
    | .error e => .error e
    | .ok token0 =>
    let cur_x := atoi token0
    match get_token cur_tokenset 1 with
    | .error e => .error e
    | .ok token1 =>
    let cur_y := atoi token1
    let cur_index := cur_x + chip_dim_rows * cur_y
    apply_masks_loop value chip_num rows chip_dim_rows n currentFile
      (Function.update intensity (chip_num * rows + cur_index) value)

/-- One section of `apply_masks` (lines 874-893 for `[MASKS]`, 900-915 for
`[OUTLIERS]`): advance to the section, read `NumberCells=`, skip `CellHeader=`,
then run the coordinate loop. -/
def apply_masks_section {F : Type} (sectiontitle : List Char) (value : RDouble F)
    (chip_num rows chip_dim_rows : Int) (currentFile : List Char)
    (intensity : Int → RDouble F) : Except Err (List Char × (Int → RDouble F)) :=
  match AdvanceToSection currentFile sectiontitle with
  | .error e => .error e
  | .ok (_, currentFile) =>
  match findStartsWith currentFile "NumberCells=".toList with
  | .error e => .error e
  | .ok (buffer, currentFile) =>
  match get_token (tokenize buffer "=".toList) 1 with
  | .error e => .error e
  | .ok token1 =>
  let numcells := atoi token1
  match findStartsWith currentFile "CellHeader=".toList with
  | .error e => .error e
  | .ok (_, currentFile) =>
  apply_masks_loop value chip_num rows chip_dim_rows numcells.toNat currentFile intensity

/-- Model of `apply_masks(filename, intensity, chip_num, rows, cols,
chip_dim_rows, rm_mask, rm_outliers)`: the matrix after the call. -/
def apply_masks {F : Type} (file : Option (List Char)) (intensity : Int → RDouble F)
    (chip_num rows cols chip_dim_rows : Int) (rm_mask rm_outliers : Bool) :
    Except Err (Int → RDouble F) :=
  if !rm_mask && !rm_outliers then .ok intensity
  else
  match open_cel_file file with
  | .error e => .error e
  | .ok currentFile =>
  match (if rm_mask then
      apply_masks_section "[MASKS]".toList RDouble.R_NaN chip_num rows chip_dim_rows
        currentFile intensity
    else .ok (currentFile, intensity)) with
  | .error e => .error e
  | .ok (currentFile, intensity) =>
  match (if rm_outliers then
      apply_masks_section "[OUTLIERS]".toList RDouble.R_NaReal chip_num rows chip_dim_rows
        currentFile intensity
    else .ok (currentFile, intensity)) with
  | .error e => .error e
  | .ok (_, intensity) => .ok intensity

/-- The loop that looks for the CDF name (lines 1046-1061, repeated at
2691-2705) over the tokens not yet examined: the first token that
`token_ends_with` accepts for ".1sq" gives the name (`strncpy` of its first
`endpos` characters); the error is raised after the last token.  `none` is
the `NULL` that `cdfName` keeps when the loop body never runs. -/
def cdfName_loop : List (List Char) → Except Err (Option (List Char))
  | [] => .ok none
  | token :: later =>
    let endpos := token_ends_with token ".1sq".toList
    if endpos > 0 then .ok (some (token.take endpos.toNat))
    else if later = [] then .error .no_cdf_information
    else cdfName_loop later

/-- Model of `get_header_info(filename, dim1, dim2)`: the returned `cdfName`
with the values stored in `*dim1` and `*dim2`. -/
def get_header_info (file : Option (List Char)) : Except Err (Option (List Char) × Int × Int) :=
  match open_cel_file file with
  | .error e => .error e
  | .ok currentFile =>
  match AdvanceToSection currentFile "[HEADER]".toList with
  | .error e => .error e
  | .ok (_, currentFile) =>
  match findStartsWith currentFile "Cols".toList with
  | .error e => .error e
  | .ok (buffer, currentFile) =>
  match get_token (tokenize buffer "=".toList) 1 with
  | .error e => .error e
  | .ok token1 =>
  let dim1 := atoi token1
  match findStartsWith currentFile "Rows".toList with
  | .error e => .error e
  | .ok (buffer, currentFile) =>
  match get_token (tokenize buffer "=".toList) 1 with
  | .error e => .error e
  | .ok token1 =>
  let dim2 := atoi token1
  match findStartsWith currentFile "DatHeader".toList with
  | .error e => .error e
  | .ok (buffer, _) =>
  match cdfName_loop (tokenize buffer " ".toList) with
  | .error e => .error e
  | .ok cdfName => .ok (cdfName, dim1, dim2)

/-! ## Binary CEL files (read_abatch.c, lines 2106-2996) -/

/-- A `FILE*` opened on a binary file: the bytes of the file and the read position. -/
structure FILE where
  content : List Char
  pos : Nat
  deriving DecidableEq, Repr

/-- Little-endian value of a sequence of bytes. -/
def le_uint : List Char → Nat
  | [] => 0
  | b :: bs => b.toNat % 256 + 256 * le_uint bs

/-- The `width` little-endian bytes of `v`. -/
def le_bytes : Nat → Nat → List Char
  | 0, _ => []
  | width + 1, v => Char.ofNat (v % 256) :: le_bytes width (v / 256)

/-- Model of `fread(dest, size, n, stream)`: the number of complete items, the
bytes transferred and the advanced stream. -/
def fread (size n : Nat) (instream : FILE) : Nat × List Char × FILE :=
  let bytes := (instream.content.drop instream.pos).take (size * n)
  (bytes.length / size, bytes, { instream with pos := instream.pos + bytes.length })

/-- Memory of a `width`-byte object that held the bit pattern `old` after
`bytes` have been stored at its start (little-endian host). -/
def stored (width : Nat) (old : Nat) (bytes : List Char) : Nat :=
  le_uint (bytes ++ (le_bytes width old).drop bytes.length)

/-- Model of `fread_int32(destination, 1, instream)` on a little-endian host:
the result of `fread`, the new value of `*destination` and the stream. -/
def fread_int32 (destination : Int) (instream : FILE) : Nat × Int × FILE :=
  let r := fread 4 1 instream
  (r.1, wrap32 (stored 4 (destination % 4294967296).toNat r.2.1), r.2.2)

/-- Model of `fread_uint32(destination, 1, instream)` on a little-endian host. -/
def fread_uint32 (destination : Nat) (instream : FILE) : Nat × Nat × FILE :=
  let r := fread 4 1 instream
  (r.1, stored 4 (destination % 4294967296) r.2.1, r.2.2)

/-- Model of `fread_int16(destination, 1, instream)` on a little-endian host. -/
def fread_int16 (destination : Int) (instream : FILE) : Nat × Int × FILE :=
  let r := fread 2 1 instream
  (r.1, wrap16 (stored 2 (destination % 65536).toNat r.2.1), r.2.2)

/-- Model of `fread_float32(destination, 1, instream)` on a little-endian host;
a `float` is kept as its 32-bit pattern. -/
def fread_float32 (destination : Nat) (instream : FILE) : Nat × Nat × FILE :=
  let r := fread 4 1 instream
  (r.1, stored 4 (destination % 4294967296) r.2.1, r.2.2)

/-- Model of `fread_char(destination, n, instream)`. -/
def fread_char (n : Nat) (instream : FILE) : Nat × List Char × FILE :=
  fread 1 n instream

/-- Model of `fseek(stream, offset, SEEK_CUR)`; a seek before the start of the
file fails and leaves the position where it was. -/
def fseek_cur (stream : FILE) (offset : Int) : FILE :=
  if 0 ≤ (stream.pos : Int) + offset then { stream with pos := ((stream.pos : Int) + offset).toNat }
  else stream

/-- The struct `binary_header`.  The three blobs are kept as the C strings
that their zero-filled, NUL-terminated buffers hold. -/
structure binary_header where
  magic_number : Int
  version_number : Int
  cols : Int
  rows : Int
  n_cells : Int
  header_len : Int
  header : List Char
  alg_len : Int
  algorithm : List Char
  alg_param_len : Int
  alg_param : List Char
  celmargin : Int
  n_outliers : Nat
  n_masks : Nat
  n_subgrids : Int
  infile : Option FILE
  deriving DecidableEq, Repr

/-- The struct `celintens_record`; the two floats are kept as bit patterns. -/
structure celintens_record where
  cur_intens : Nat
  cur_sd : Nat
  npixels : Int
  deriving DecidableEq, Repr

/-- The struct `outliermask_loc`. -/
structure outliermask_loc where
  x : Int
  y : Int
  deriving DecidableEq, Repr

/-- The pattern `buf = Calloc(len+1, char); if (!fread(buf, 1, len, infile)) error(...)`
of `read_binary_header` (lines 2397-2401, 2407-2411, 2417-2421): the C string
left in the buffer and the stream.  A negative `len` makes `Calloc` fail, or
(for -1) lets `fread` write past an empty buffer.  Errors carry the read
position. -/
def read_blob (len : Int) (infile : FILE) : Except (Err × Nat) (List Char × FILE) :=
  if len < -1 then .error (.cannot_allocate, infile.pos)
  else if len = -1 then .error (.undefined_behaviour, infile.pos)
  else
    let r := fread 1 len.toNat infile
    if r.1 = 0 then .error (.binary_corrupted, r.2.2.pos)
    else .ok (cstr r.2.1, r.2.2)

/-- First part of `read_binary_header` (lines 2355-2390): magic number,
version, `cols`, `rows` and `n_cells` with their checks.  `.ok none` is the
`return 0` taken without `error(...)` when the version cannot be read; an
error carries the read position at which it was raised. -/
def read_binary_header_dims (infile : FILE) :
    Except (Err × Nat) (Option (Int × Int × Int × Int × Int × FILE)) :=
  match fread_int32 0 infile with
  | (result, magic_number, infile) =>
  if result = 0 then .error (.bad_magic_number, infile.pos)
  else if magic_number ≠ 64 then .error (.bad_magic_number, infile.pos)
  else
  match fread_int32 0 infile with
  | (result, version_number, infile) =>
  if result = 0 then .ok none
  else if version_number ≠ 4 then .error (.not_version_4, infile.pos)
  else
  match fread_int32 0 infile with
  | (result, cols, infile) =>
  if result = 0 then .error (.binary_corrupted, infile.pos)
  else
  match fread_int32 0 infile with
  | (result, rows, infile) =>
  if result = 0 then .error (.binary_corrupted, infile.pos)
  else
  match fread_int32 0 infile with
  | (result, n_cells, infile) =>
  if result = 0 then .error (.binary_corrupted, infile.pos)
  else if n_cells ≠ wrap32 (cols * rows) then .error (.ncells_mismatch, infile.pos)
  else .ok (some (magic_number, version_number, cols, rows, n_cells, infile))

/-- One length-prefixed blob of `read_binary_header` (lines 2393-2401,
2403-2411, 2413-2421): its length field and its C string. -/
def read_binary_header_blob (infile : FILE) : Except (Err × Nat) (Int × List Char × FILE) :=
  match fread_int32 0 infile with
  | (result, len, infile) =>
  if result = 0 then .error (.binary_corrupted, infile.pos)
  else
  match read_blob len infile with
  | .error e => .error e
  | .ok (blob, infile) => .ok (len, blob, infile)

/-- Last part of `read_binary_header` (lines 2423-2437): `celmargin`,
`n_outliers`, `n_masks` and `n_subgrids`. -/
def read_binary_header_counts (infile : FILE) :
    Except (Err × Nat) (Int × Nat × Nat × Int × FILE) :=
  match fread_int32 0 infile with
  | (result, celmargin, infile) =>
  if result = 0 then .error (.binary_corrupted, infile.pos)
  else
  match fread_uint32 0 infile with
  | (result, n_outliers, infile) =>
  if result = 0 then .error (.binary_corrupted, infile.pos)
  else
  match fread_uint32 0 infile with
  | (result, n_masks, infile) =>
  if result = 0 then .error (.binary_corrupted, infile.pos)
  else
  match fread_int32 0 infile with
  | (result, n_subgrids, infile) =>
  if result = 0 then .error (.binary_corrupted, infile.pos)
  else .ok (celmargin, n_outliers, n_masks, n_subgrids, infile)

/-- Model of `read_binary_header(filename, return_stream)`.  `.ok none` is the
`return 0` taken without `error(...)`; an error carries the read position at
which it was raised (0 when no stream was opened). -/
def read_binary_header (file : Option (List Char)) (return_stream : Int) :
    Except (Err × Nat) (Option binary_header) :=
  match file with
  | none => .error (.could_not_open, 0)
  | some content =>
  match read_binary_header_dims ⟨content, 0⟩ with
  | .error e => .error e
  | .ok none => .ok none
  | .ok (some (magic_number, version_number, cols, rows, n_cells, infile)) =>
  match read_binary_header_blob infile with
  | .error e => .error e
  | .ok (header_len, header, infile) =>
  match read_binary_header_blob infile with
  | .error e => .error e
  | .ok (alg_len, algorithm, infile) =>
  match read_binary_header_blob infile with
  | .error e => .error e
  | .ok (alg_param_len, alg_param, infile) =>
  match read_binary_header_counts infile with
  | .error e => .error e
  | .ok (celmargin, n_outliers, n_masks, n_subgrids, infile) =>
  .ok (some
    { magic_number := magic_number, version_number := version_number, cols := cols,
      rows := rows, n_cells := n_cells, header_len := header_len,
      header := header, alg_len := alg_len, algorithm := algorithm,
      alg_param_len := alg_param_len, alg_param := alg_param,
      celmargin := celmargin, n_outliers := n_outliers, n_masks := n_masks,
      n_subgrids := n_subgrids,
      infile := if return_stream = 0 then none else some infile })

/-- Model of `check_binary_cel_file(filename, ref_cdfName, ref_dim_1, ref_dim_2)`.
Using the `NULL` header, or the `NULL` name left by an empty token set, is
undefined. -/
def check_binary_cel_file (file : Option (List Char)) (ref_cdfName : List Char)
    (ref_dim_1 ref_dim_2 : Int) : Except Err Int :=
  match read_binary_header file 0 with
  | .error e => .error e.1
  | .ok none => .error .undefined_behaviour
  | .ok (some my_header) =>
  if my_header.cols ≠ ref_dim_1 ∨ my_header.rows ≠ ref_dim_2 then .error .wrong_dimensions
  else
  match cdfName_loop (tokenize my_header.header " ".toList) with
  | .error e => .error e
  | .ok none => .error .undefined_behaviour
  | .ok (some cdfName) =>
  if strncasecmp cdfName ref_cdfName ref_cdfName.length ≠ 0 then .error .wrong_chip_type
  else .ok 0

/-- The `for (j=0; j < my_header->cols; j++)` loop of
`read_binarycel_file_intensities` (lines 2746-2759); the first argument is the
number of iterations still to run.  The Boolean is true when a short record
made the function `return 1`. -/
def read_binarycel_file_intensities_cols {F : Type} (f32 : Nat → F) (chip_num : Int)
    (my_header : binary_header) (i : Int) :
    Nat → Int → celintens_record → FILE → (Int → RDouble F) →
      Bool × celintens_record × FILE × (Int → RDouble F)
  | 0, _, cur_intensity, infile, intensity => (false, cur_intensity, infile, intensity)
  | n + 1, j, cur_intensity, infile, intensity =>
    let cur_index := j + my_header.rows * i
    let r1 := fread_float32 cur_intensity.cur_intens infile
    let r2 := fread_float32 cur_intensity.cur_sd r1.2.2
    let r3 := fread_int16 cur_intensity.npixels r2.2.2
    let fread_err := r1.1 + r2.1 + r3.1
    if fread_err < 3 then (true, ⟨r1.2.1, r2.2.1, r3.2.1⟩, r3.2.2, intensity)
    else
      read_binarycel_file_intensities_cols f32 chip_num my_header i n (j + 1)
        ⟨r1.2.1, r2.2.1, r3.2.1⟩ r3.2.2
        (Function.update intensity (chip_num * my_header.n_cells + cur_index)
          (RDouble.num (f32 r1.2.1)))

/-- The `for (i=0; i < my_header->rows; i++)` loop of
`read_binarycel_file_intensities` (lines 2745-2760). -/
def read_binarycel_file_intensities_rows {F : Type} (f32 : Nat → F) (chip_num : Int)
    (my_header : binary_header) :
    Nat → Int → celintens_record → FILE → (Int → RDouble F) →
      Bool × celintens_record × FILE × (Int → RDouble F)
  | 0, _, cur_intensity, infile, intensity => (false, cur_intensity, infile, intensity)
  | n + 1, i, cur_intensity, infile, intensity =>
    let r := read_binarycel_file_intensities_cols f32 chip_num my_header i
      my_header.cols.toNat 0 cur_intensity infile intensity
    if r.1 then r
    else read_binarycel_file_intensities_rows f32 chip_num my_header n (i + 1) r.2.1 r.2.2.1 r.2.2.2

/-- Model of `read_binarycel_file_intensities(filename, intensity, chip_num,
rows, cols, chip_dim_rows)`: the return value and the matrix. -/
def read_binarycel_file_intensities {F : Type} (f32 : Nat → F)
    (file : Option (List Char)) (intensity : Int → RDouble F)
    (chip_num rows cols chip_dim_rows : Int) : Except Err (Int × (Int → RDouble F)) :=
  match read_binary_header file 1 with
  | .error e => .error e.1
  | .ok none => .error .undefined_behaviour
  | .ok (some my_header) =>
  match my_header.infile with
  | none => .error .undefined_behaviour
  | some infile =>
  let r := read_binarycel_file_intensities_rows f32 chip_num my_header
    my_header.rows.toNat 0 ⟨0, 0, 0⟩ infile intensity
  if r.1 then .ok (1, r.2.2.2) else .ok (0, r.2.2.2)

/-- The coordinate loops of `binary_apply_masks` (lines 2903-2912 and
2919-2925, which both store `R_NaN`); the first argument is the number of
iterations still to run.  The results of `fread_int16` are not checked, so
`cur_loc` keeps what a short read leaves in it. -/
def binary_apply_masks_loop {F : Type} (chip_num rows : Int) (my_header : binary_header) :
    Nat → outliermask_loc → FILE → (Int → RDouble F) →
      outliermask_loc × FILE × (Int → RDouble F)
  | 0, cur_loc, infile, intensity => (cur_loc, infile, intensity)
  | n + 1, cur_loc, infile, intensity =>
    let rx := fread_int16 cur_loc.x infile
    let ry := fread_int16 cur_loc.y rx.2.2
    let cur_index := rx.2.1 + my_header.rows * ry.2.1
    binary_apply_masks_loop chip_num rows my_header n ⟨rx.2.1, ry.2.1⟩ ry.2.2
      (Function.update intensity (chip_num * rows + cur_index) RDouble.R_NaN)

/-- Model of `binary_apply_masks(filename, intensity, chip_num, rows, cols,
chip_dim_rows, rm_mask, rm_outliers)`: the matrix after the call.
`sizeof_pointer` is `sizeof(cur_loc)`, the size of a pointer on the host. -/
def binary_apply_masks {F : Type} (sizeof_pointer : Nat) (file : Option (List Char))
    (intensity : Int → RDouble F) (chip_num rows cols chip_dim_rows : Int)
    (rm_mask rm_outliers : Bool) : Except Err (Int → RDouble F) :=
  match read_binary_header file 1 with
  | .error e => .error e.1
  | .ok none => .error .undefined_behaviour
  | .ok (some my_header) =>
  match my_header.infile with
  | none => .error .undefined_behaviour
  | some infile =>
  let sizeofrecords : Int := 2 * 4 + 2
  let infile := fseek_cur infile (wrap32 (my_header.n_cells * sizeofrecords))
  let masks :=
    if rm_mask then
      binary_apply_masks_loop chip_num rows my_header my_header.n_masks ⟨0, 0⟩ infile intensity
    else ((⟨0, 0⟩ : outliermask_loc), fseek_cur infile (my_header.n_masks * sizeof_pointer), intensity)
  let outliers :=
    if rm_outliers then
      binary_apply_masks_loop chip_num rows my_header my_header.n_outliers masks.1 masks.2.1
        masks.2.2
    else (masks.1, fseek_cur masks.2.1 (my_header.n_outliers * sizeof_pointer), masks.2.2)
  .ok outliers.2.2

/-! ## Call sites in `read_abatch` (read_abatch.c, lines 3033-3176) -/

/-- The call of `read_cel_file_intensities` that `read_abatch` makes for the
text file number `i` (line 3099). -/
def read_abatch_read_cel_file {F : Type} (atof : List Char → F) (file : Option (List Char))
    (intensityMatrix : Int → RDouble F) (i n_files ref_dim_1 ref_dim_2 : Int) :
    Except Err (ReadResult F) :=
  read_cel_file_intensities atof file intensityMatrix i (ref_dim_1 * ref_dim_2) n_files ref_dim_1

/-- The call of `read_binarycel_file_intensities` that `read_abatch` makes for
the binary file number `i` (line 3107). -/
def read_abatch_read_binarycel_file {F : Type} (f32 : Nat → F) (file : Option (List Char))
    (intensityMatrix : Int → RDouble F) (i n_files ref_dim_1 ref_dim_2 : Int) :
    Except Err (Int × (Int → RDouble F)) :=
  read_binarycel_file_intensities f32 file intensityMatrix i (ref_dim_1 * ref_dim_2) n_files
    ref_dim_1

/-- The calls of `apply_masks` that `read_abatch` makes for the text file
number `i` (lines 3128-3132). -/
def read_abatch_apply_masks {F : Type} (file : Option (List Char))
    (intensityMatrix : Int → RDouble F) (i n_files ref_dim_1 ref_dim_2 : Int)
    (rm_mask rm_outliers rm_extra : Bool) : Except Err (Int → RDouble F) :=
  if rm_extra then
    apply_masks file intensityMatrix i (ref_dim_1 * ref_dim_2) n_files ref_dim_1 true true
  else
    apply_masks file intensityMatrix i (ref_dim_1 * ref_dim_2) n_files ref_dim_1 rm_mask
      rm_outliers

/-- The calls of `binary_apply_masks` that `read_abatch` makes for the binary
file number `i` (lines 3144-3148). -/
def read_abatch_binary_apply_masks {F : Type} (sizeof_pointer : Nat)
    (file : Option (List Char)) (intensityMatrix : Int → RDouble F)
    (i n_files ref_dim_1 ref_dim_2 : Int) (rm_mask rm_outliers rm_extra : Bool) :
    Except Err (Int → RDouble F) :=
  if rm_extra then
    binary_apply_masks sizeof_pointer file intensityMatrix i (ref_dim_1 * ref_dim_2) n_files
      ref_dim_1 true true
  else
    binary_apply_masks sizeof_pointer file intensityMatrix i (ref_dim_1 * ref_dim_2) n_files
      ref_dim_1 rm_mask rm_outliers

/-! ## Vocabulary of the statements -/

/-- The first `n` cells of a matrix, from offset 0. -/
def cells {F : Type} (intensity : Int → RDouble F) (n : Nat) : List (RDouble F) :=
  (List.range n).map (fun k => intensity (k : Int))

/-- A matrix whose cells all hold the number `v`. -/
def filled {F : Type} (v : F) : Int → RDouble F := fun _ => RDouble.num v

/-- A physical line that one `ReadFileLine` call delivers whole: it ends in
its only newline, holds no NUL and fits the buffer. -/
def isLine (l : List Char) : Bool :=
  l.getLast? == some '\n' && !l.dropLast.contains '\n' && !l.contains (Char.ofNat 0)
    && decide (l.length < BUF_SIZE)

/-- The last, unterminated line of a file that ends inside a line: not
empty, without newline or NUL, and fitting the buffer. -/
def isPartialLine (l : List Char) : Bool :=
  !l.isEmpty && !l.contains '\n' && !l.contains (Char.ofNat 0) && decide (l.length < BUF_SIZE)

/-- The `k`-th space/tab-delimited token of a data line (empty if there is none). -/
def token_at (line : List Char) (k : Nat) : List Char :=
  (tokenize line " \t".toList).getD k []

/-- The linear index `cur_x + chip_dim_rows*cur_y` of the coordinates that a
data line starts with. -/
def line_index (chip_dim_rows : Int) (line : List Char) : Int :=
  atoi (token_at line 0) + chip_dim_rows * atoi (token_at line 1)

/-- The coordinates `(cur_x, cur_y)` that a coordinate line starts with. -/
def line_coords (line : List Char) : Int × Int :=
  (atoi (token_at line 0), atoi (token_at line 1))

/-- The matrix after the value of one data line has been stored: the cell at
offset `chip_num*rows + line_index` receives `atof` of the third token. -/
def store_line {F : Type} (atof : List Char → F) (chip_num rows chip_dim_rows : Int)
    (intensity : Int → RDouble F) (line : List Char) : Int → RDouble F :=
  Function.update intensity (chip_num * rows + line_index chip_dim_rows line)
    (RDouble.num (atof (token_at line 2)))

/-- The matrix `out` is `intensity` with the values of the data lines `lines`
stored in file order: every cell that no line addresses is unchanged, and the
cell at `chip_num*rows + x + chip_dim_rows*y` holds the value of the last line
with these coordinates. -/
def StoredLines {F : Type} (atof : List Char → F) (chip_num rows chip_dim_rows : Int)
    (intensity : Int → RDouble F) (lines : List (List Char)) (out : Int → RDouble F) : Prop :=
  out = lines.foldl (store_line atof chip_num rows chip_dim_rows) intensity ∧
  (∀ p : Int, (∀ l ∈ lines, chip_num * rows + line_index chip_dim_rows l ≠ p) →
    out p = intensity p) ∧
  (∀ (before : List (List Char)) (l : List Char) (later : List (List Char)),
    lines = before ++ l :: later →
    (∀ x ∈ later, chip_num * rows + line_index chip_dim_rows x
        ≠ chip_num * rows + line_index chip_dim_rows l) →
    out (chip_num * rows + line_index chip_dim_rows l) = RDouble.num (atof (token_at l 2)))

/-- The matrix after `value` has been stored in the cell at offset
`base + (x + stride*y)`. -/
def set_cell {F : Type} (value : RDouble F) (base stride : Int)
    (intensity : Int → RDouble F) (xy : Int × Int) : Int → RDouble F :=
  Function.update intensity (base + (xy.1 + stride * xy.2)) value

/-- The matrix after `value` has been stored, for every `(x, y)` of `coords` in
turn, in the cell at offset `base + (x + stride*y)`. -/
def set_cells {F : Type} (value : RDouble F) (base stride : Int)
    (coords : List (Int × Int)) (intensity : Int → RDouble F) : Int → RDouble F :=
  coords.foldl (set_cell value base stride) intensity

/-- From `stream` on, the next section `sectiontitle` of a text CEL file
announces (`NumberCells=`) and lists, after its `CellHeader=` line, exactly the
coordinate lines `lines`, each a whole line with at least two space/tab
delimited tokens; `tail` is what follows them in the file. -/
def SectionLists (stream sectiontitle : List Char) (lines : List (List Char))
    (tail : List Char) : Prop :=
  ∃ b1 s1 b2 s2 count b3 : List Char,
    AdvanceToSection stream sectiontitle = .ok (b1, s1) ∧
    findStartsWith s1 "NumberCells=".toList = .ok (b2, s2) ∧
    get_token (tokenize b2 "=".toList) 1 = .ok count ∧
    atoi count = lines.length ∧
    findStartsWith s2 "CellHeader=".toList = .ok (b3, lines.flatten ++ tail) ∧
    ∀ l ∈ lines, isLine l = true ∧ 2 ≤ (tokenize l " \t".toList).length

/-- The 32-bit `int` stored little-endian at byte offset `pos` of a file. -/
def int32_at (content : List Char) (pos : Nat) : Int :=
  wrap32 (le_uint ((content.drop pos).take 4))

/-- The 16-bit `short` stored little-endian at byte offset `pos` of a file. -/
def int16_at (content : List Char) (pos : Nat) : Int :=
  wrap16 (le_uint ((content.drop pos).take 2))

/-- The 32-bit pattern stored little-endian at byte offset `pos` of a file. -/
def uint32_at (content : List Char) (pos : Nat) : Nat :=
  le_uint ((content.drop pos).take 4)

/-- The `n` records `(int16 x, int16 y)` stored from byte offset `pos` of a file. -/
def locs_at (content : List Char) : Nat → Nat → List (Int × Int)
  | _, 0 => []
  | pos, n + 1 => (int16_at content pos, int16_at content (pos + 2)) :: locs_at content (pos + 4) n

/-! ## Example files -/

/-- The bytes of one intensity record `(float32, float32, int16)`. -/
def example_record (r : Nat × Nat × Nat) : List Char :=
  le_bytes 4 r.1 ++ le_bytes 4 r.2.1 ++ le_bytes 2 r.2.2

/-- The bytes of one mask or outlier record `(int16 x, int16 y)`. -/
def example_loc (xy : Nat × Nat) : List Char :=
  le_bytes 2 xy.1 ++ le_bytes 2 xy.2

/-- The free-text header blob of the example binary files. -/
def example_blob : List Char :=
  "DatHeader=[0..46111]  t1:CLS=4733 RWS=4733 XIN=3  YIN=3  VE=17 \x14  \x14 HG_U95Av2.1sq \x14  \x14 6\n".toList

/-- A binary CEL file (version 4) with the given `cols` and `rows`, the given
records, mask entries and outlier entries. -/
def example_binary (cols rows : Nat) (records : List (Nat × Nat × Nat))
    (masks outliers : List (Nat × Nat)) : List Char :=
  le_bytes 4 64 ++ le_bytes 4 4 ++ le_bytes 4 cols ++ le_bytes 4 rows ++ le_bytes 4 (cols * rows)
    ++ le_bytes 4 example_blob.length ++ example_blob
    ++ le_bytes 4 7 ++ "Percent".toList
    ++ le_bytes 4 13 ++ "Percentile:75".toList
    ++ le_bytes 4 2 ++ le_bytes 4 outliers.length ++ le_bytes 4 masks.length ++ le_bytes 4 0
    ++ (records.map example_record).flatten
    ++ (masks.map example_loc).flatten ++ (outliers.map example_loc).flatten

/-- The four records of the 2x2 scenario: 1.0, 2.0, 3.0, 4.0 with standard
deviations 0.1 .. 0.4 (as float32 bit patterns) and 10 .. 40 pixels. -/
def example_records_4 : List (Nat × Nat × Nat) :=
  [(0x3F800000, 0x3DCCCCCD, 10), (0x40000000, 0x3E4CCCCD, 20),
   (0x40400000, 0x3E99999A, 30), (0x40800000, 0x3ECCCCCD, 40)]

/-- Six records with the intensities 1.0 .. 6.0 (as float32 bit patterns). -/
def example_records_6 : List (Nat × Nat × Nat) :=
  example_records_4 ++ [(0x40A00000, 0x3DCCCCCD, 50), (0x40C00000, 0x3DCCCCCD, 60)]

/-- The `DatHeader=` line of the example text files: the token
"HG_U95Av2.1sq" stands between spaces. -/
def example_datheader : List Char :=
  "DatHeader=[0..46111]  t1:CLS=4733 RWS=4733 XIN=3  YIN=3  VE=17 \x14  \x14 HG_U95Av2.1sq \x14  \x14 6\n".toList

/-- A `DatHeader=` line on which the token "HG_U95Av2.1sq" is the last one. -/
def example_datheader_last : List Char :=
  "DatHeader=[0..46111]  t1:CLS=4733 RWS=4733 XIN=3  YIN=3  VE=17 HG_U95Av2.1sq\n".toList

/-- A `DatHeader=` line on which the token "HG_U95Av2.1sq" stands between tabs. -/
def example_datheader_tab : List Char :=
  "DatHeader=[0..46111]  t1:CLS=4733 RWS=4733 XIN=3  YIN=3  VE=17\tHG_U95Av2.1sq\t6\n".toList

/-- The lines of a text CEL file up to the `[INTENSITY]` marker, for a chip
with 2 columns and `rows` rows and with the given `DatHeader=` line. -/
def example_header_with (rows : Nat) (datheader : List Char) : List Char :=
  "[CEL]\nVersion=3\n\n[HEADER]\nCols=2\nRows=".toList ++ (Nat.repr rows).toList ++
  ("\nTotalX=2\nTotalY=".toList ++ (Nat.repr rows).toList ++
  ("\n".toList ++ datheader ++ "Algorithm=Percentile\n\n".toList))

/-- The lines of the example text files up to the `[INTENSITY]` marker, for a
chip with 2 columns and `rows` rows. -/
def example_header (rows : Nat) : List Char :=
  example_header_with rows example_datheader

/-- The lines of the `[INTENSITY]` section that precede the data lines. -/
def example_intensity_head (rows : Nat) : List Char :=
  "NumberCells=".toList ++ (Nat.repr (2 * rows)).toList ++
    "\nCellHeader=X\tY\tMEAN\tSTDV\tNPIXELS\n".toList

/-- The `CellHeader=` line of the `[INTENSITY]` section. -/
def example_cellheader : List Char := "CellHeader=X\tY\tMEAN\tSTDV\tNPIXELS\n".toList

/-- Six data lines in row-major order of a chip with 2 columns; the first four
are the data lines of the 2x2 chip. -/
def example_data : List (List Char) :=
  ["  0\t  0\t1.0\t0.1\t 10\n".toList, "  1\t  0\t2.0\t0.2\t 20\n".toList,
   "  0\t  1\t3.0\t0.3\t 30\n".toList, "  1\t  1\t4.0\t0.4\t 40\n".toList,
   "  0\t  2\t5.0\t0.1\t 50\n".toList, "  1\t  2\t6.0\t0.1\t 60\n".toList]

/-- The end of the example text files: a blank line, `[MASKS]` with the cell
(0, 1) and `[OUTLIERS]` with the cell (1, 1). -/
def example_masks : List Char :=
  ("\n[MASKS]\nNumberCells=1\nCellHeader=X\tY\n0\t1\n\n" ++
   "[OUTLIERS]\nNumberCells=1\nCellHeader=X\tY\n1\t1\n").toList

/-- What follows the `[INTENSITY]` line in the example text files: the head of
the section, the first `k` data lines and `tail`. -/
def example_body (rows k : Nat) (tail : List Char) : List Char :=
  example_intensity_head rows ++ ((example_data.take k).flatten ++ tail)

/-- A text CEL file of a chip with 2 columns and `rows` rows that holds the
first `k` data lines, followed by `tail`. -/
def example_text (rows k : Nat) (tail : List Char) : List Char :=
  example_header rows ++ ("[INTENSITY]\n".toList ++ example_body rows k tail)

/-- The complete text CEL file of a chip with 2 columns and 3 rows with the
given `DatHeader=` line. -/
def example_text_with (datheader : List Char) : List Char :=
  example_header_with 3 datheader ++ ("[INTENSITY]\n".toList ++ example_body 3 6 example_masks)

/-- The complete text CEL file of the example chip with 2 columns and 3 rows. -/
def example_text_2x3 : List Char := example_text 3 6 example_masks

/-- The complete text CEL file of the example chip with 2 columns and 2 rows. -/
def example_text_2x2 : List Char := example_text 2 4 example_masks

/-- The start of a binary CEL file whose header says cols = 2, rows = 2 and
n_cells = 5, followed by a header blob. -/
def example_bad_ncells : List Char :=
  le_bytes 4 64 ++ le_bytes 4 4 ++ le_bytes 4 2 ++ le_bytes 4 2 ++ le_bytes 4 5
    ++ le_bytes 4 example_blob.length ++ example_blob

/-- The header that `read_binary_header` builds from `example_binary`; the
records start at byte 157 of the file. -/
def example_binary_header (cols rows : Int) (n_outliers n_masks : Nat)
    (infile : Option FILE) : binary_header :=
  { magic_number := 64, version_number := 4, cols := cols, rows := rows,
    n_cells := cols * rows, header_len := 89, header := example_blob,
    alg_len := 7, algorithm := "Percent".toList,
    alg_param_len := 13, alg_param := "Percentile:75".toList,
    celmargin := 2, n_outliers := n_outliers, n_masks := n_masks, n_subgrids := 0,
    infile := infile }

/-! ## Gzipped text CEL files (read_abatch.c, lines 1225-2035)

`HAVE_ZLIB` is defined.  A `gzFile` is the unread remainder of the stream of
decompressed bytes; `inflate` stands for the decompression that zlib performs
on the bytes of the file.  The messages "End of file reached unexpectedly" and
"End of gz file reached unexpectedly" are both `Err.eof_unexpected`. -/

/-- Model of `gzopen(filename, "rb")`: `none` when the file cannot be opened,
otherwise the decompressed stream. -/
def gzopen (inflate : List Char → List Char) (file : Option (List Char)) :
    Option (List Char) :=
  match file with
  | none => none
  | some content => some (inflate content)

/-- Model of `gzgets(file, buf, len)`: `none` at the end of the decompressed
stream, otherwise the bytes stored (at most `len - 1`, ending after the first
newline) and the remaining stream. -/
def gzgets (len : Nat) (file : List Char) : Option (List Char × List Char) :=
  match file with
  | [] => none
  | _ :: _ => some (fgets_take (len - 1) file)

/-- Model of `ReadgzFileLine`. -/
def ReadgzFileLine (buffersize : Nat) (currentFile : List Char) :
    Except Err (List Char × List Char) :=
  match gzgets buffersize currentFile with
  | none => .error .eof_unexpected
  | some (buffer, rest) => .ok (cstr buffer, rest)

/-- Model of `open_gz_cel_file`: the stream after `gzrewind`. -/
def open_gz_cel_file (inflate : List Char → List Char) (file : Option (List Char)) :
    Except Err (List Char) :=
  match gzopen inflate file with
  | none => .error .could_not_open
  | some stream =>
    match ReadgzFileLine BUF_SIZE stream with
    | .error e => .error e
    | .ok (buffer, _) =>
      if strncmp "[CEL]".toList buffer 4 = 0 then .ok stream
      else .error .not_a_cel_file

/-- The `do ... while (match != 0)` loop of `gzfindStartsWith`; the first
argument bounds the number of iterations. -/
def gzfindStartsWith_loop (starts : List Char) :
    Nat → List Char → Except Err (List Char × List Char)
  | 0, _ => .error .undefined_behaviour
  | fuel + 1, my_file =>
    match ReadgzFileLine BUF_SIZE my_file with
    | .error e => .error e
    | .ok (buffer, rest) =>
      if strncmp starts buffer starts.length = 0 then .ok (buffer, rest)
      else gzfindStartsWith_loop starts fuel rest

/-- Model of `gzfindStartsWith`; as for `findStartsWith` the bound
`my_file.length + 1` is never reached. -/
def gzfindStartsWith (my_file : List Char) (starts : List Char) :
    Except Err (List Char × List Char) :=
  gzfindStartsWith_loop starts (my_file.length + 1) my_file

/-- Model of `gzAdvanceToSection`. -/
def gzAdvanceToSection (my_file : List Char) (sectiontitle : List Char) :
    Except Err (List Char × List Char) :=
  gzfindStartsWith my_file sectiontitle

/-- The coordinate loops of `gz_apply_masks` (lines 1689-1700 with `R_NaN`,
lines 1713-1722 with `R_NaReal`): `value` is the constant the loop stores; the
first argument is the number of iterations still to run. -/
def gz_apply_masks_loop {F : Type} (value : RDouble F) (chip_num rows chip_dim_rows : Int) :
    Nat → List Char → (Int → RDouble F) → Except Err (List Char × (Int → RDouble F))
  | 0, currentFile, intensity => .ok (currentFile, intensity)
  | n + 1, currentFile, intensity =>
    match ReadgzFileLine BUF_SIZE currentFile with
    | .error e => .error e
    | .ok (buffer, currentFile) =>
    let cur_tokenset := tokenize buffer " \t".toList
    match get_token cur_tokenset 0 with
    | .error e => .error e
    | .ok token0 =>
    let cur_x := atoi token0
    match get_token cur_tokenset 1 with
    | .error e => .error e
    | .ok token1 =>
    let cur_y := atoi token1
    let cur_index := cur_x + chip_dim_rows * cur_y
    gz_apply_masks_loop value chip_num rows chip_dim_rows n currentFile
      (Function.update intensity (chip_num * rows + cur_index) value)

/-- One section of `gz_apply_masks` (lines 1681-1700 for `[MASKS]`, 1707-1722
for `[OUTLIERS]`). -/
def gz_apply_masks_section {F : Type} (sectiontitle : List Char) (value : RDouble F)
    (chip_num rows chip_dim_rows : Int) (currentFile : List Char)
    (intensity : Int → RDouble F) : Except Err (List Char × (Int → RDouble F)) :=
  match gzAdvanceToSection currentFile sectiontitle with
  | .error e => .error e
  | .ok (_, currentFile) =>
  match gzfindStartsWith currentFile "NumberCells=".toList with
  | .error e => .error e
  | .ok (buffer, currentFile) =>
  match get_token (tokenize buffer "=".toList) 1 with
  | .error e => .error e
  | .ok token1 =>
  let numcells := atoi token1
  match gzfindStartsWith currentFile "CellHeader=".toList with
  | .error e => .error e
  | .ok (_, currentFile) =>
  gz_apply_masks_loop value chip_num rows chip_dim_rows numcells.toNat currentFile intensity

/-- Model of `gz_apply_masks(filename, intensity, chip_num, rows, cols,
chip_dim_rows, rm_mask, rm_outliers)`: the matrix after the call. -/
def gz_apply_masks {F : Type} (inflate : List Char → List Char) (file : Option (List Char))
    (intensity : Int → RDouble F) (chip_num rows cols chip_dim_rows : Int)
    (rm_mask rm_outliers : Bool) : Except Err (Int → RDouble F) :=
  if !rm_mask && !rm_outliers then .ok intensity
  else
  match open_gz_cel_file inflate file with
  | .error e => .error e
  | .ok currentFile =>
  match (if rm_mask then
      gz_apply_masks_section "[MASKS]".toList RDouble.R_NaN chip_num rows chip_dim_rows
        currentFile intensity
    else .ok (currentFile, intensity)) with
  | .error e => .error e
  | .ok (currentFile, intensity) =>
  match (if rm_outliers then
      gz_apply_masks_section "[OUTLIERS]".toList RDouble.R_NaReal chip_num rows chip_dim_rows
        currentFile intensity
    else .ok (currentFile, intensity)) with
  | .error e => .error e
  | .ok (_, intensity) => .ok intensity

/-- Model of `gz_get_header_info(filename, dim1, dim2)`: the returned `cdfName`
with the values stored in `*dim1` and `*dim2`. -/
def gz_get_header_info (inflate : List Char → List Char) (file : Option (List Char)) :
    Except Err (Option (List Char) × Int × Int) :=
  match open_gz_cel_file inflate file with
  | .error e => .error e
  | .ok currentFile =>
  match gzAdvanceToSection currentFile "[HEADER]".toList with
  | .error e => .error e
  | .ok (_, currentFile) =>
  match gzfindStartsWith currentFile "Cols".toList with
  | .error e => .error e
  | .ok (buffer, currentFile) =>
  match get_token (tokenize buffer "=".toList) 1 with
  | .error e => .error e
  | .ok token1 =>
  let dim1 := atoi token1
  match gzfindStartsWith currentFile "Rows".toList with
  | .error e => .error e
  | .ok (buffer, currentFile) =>
  match get_token (tokenize buffer "=".toList) 1 with
  | .error e => .error e
  | .ok token1 =>
  let dim2 := atoi token1
  match gzfindStartsWith currentFile "DatHeader".toList with
  | .error e => .error e
  | .ok (buffer, _) =>
  match cdfName_loop (tokenize buffer " ".toList) with
  | .error e => .error e
  | .ok cdfName => .ok (cdfName, dim1, dim2)

/-! ## Format probes and the dispatch of `ReadHeader`
(read_abatch.c, lines 1195-1214, 2007-2026, 2274-2309, 2462-2497, 3191-3245) -/

/-- Model of `isTextCelFile(filename)`. -/
def isTextCelFile (file : Option (List Char)) : Except Err Int :=
  match file with
  | none => .error .could_not_open
  | some content =>
    match ReadFileLine BUF_SIZE content with
    | .error e => .error e
    | .ok (buffer, _) =>
      if strncmp "[CEL]".toList buffer 4 = 0 then .ok 1 else .ok 0

/-- Model of `isgzTextCelFile(filename)`. -/
def isgzTextCelFile (inflate : List Char → List Char) (file : Option (List Char)) :
    Except Err Int :=
  match gzopen inflate file with
  | none => .error .could_not_open
  | some stream =>
    match ReadgzFileLine BUF_SIZE stream with
    | .error e => .error e
    | .ok (buffer, _) =>
      if strncmp "[CEL]".toList buffer 4 = 0 then .ok 1 else .ok 0

/-- Model of `isBinaryCelFile(filename)`.  `magicnumber` and `version_number`
are the indeterminate values that the two locals hold before they are read. -/
def isBinaryCelFile (magicnumber version_number : Int) (file : Option (List Char)) :
    Except Err Int :=
  match file with
  | none => .error .could_not_open
  | some content =>
    match fread_int32 magicnumber ⟨content, 0⟩ with
    | (result, magicnumber, infile) =>
    if result = 0 then .ok 0
    else
    match fread_int32 version_number infile with
    | (result, version_number, infile) =>
    if result = 0 then .ok 0
    else if magicnumber ≠ 64 then .ok 0
    else if version_number ≠ 4 then .ok 0
    else .ok 1

/-- Model of `binary_get_header_info(filename, dim1, dim2)`: the returned
`cdfName` with the values stored in `*dim1` and `*dim2`.  Using the `NULL`
header is undefined. -/
def binary_get_header_info (file : Option (List Char)) :
    Except Err (Option (List Char) × Int × Int) :=
  match read_binary_header file 0 with
  | .error e => .error e.1
  | .ok none => .error .undefined_behaviour
  | .ok (some my_header) =>
  match cdfName_loop (tokenize my_header.header " ".toList) with
  | .error e => .error e
  | .ok cdfName => .ok (cdfName, my_header.cols, my_header.rows)

/-- Model of the dispatch of `ReadHeader(filename)` (lines 3212-3228): the
`cdfName` pointer and the values of `ref_dim_1` and `ref_dim_2` from which the
returned list is built.  `magicnumber` and `version_number` are the
indeterminate initial values of the locals of `isBinaryCelFile`. -/
def ReadHeader (inflate : List Char → List Char) (magicnumber version_number : Int)
    (file : Option (List Char)) : Except Err (Option (List Char) × Int × Int) :=
  match isTextCelFile file with
  | .error e => .error e
  | .ok is_text =>
  if is_text ≠ 0 then get_header_info file
  else
  match isgzTextCelFile inflate file with
  | .error e => .error e
  | .ok is_gz =>
  if is_gz ≠ 0 then gz_get_header_info inflate file
  else
  match isBinaryCelFile magicnumber version_number file with
  | .error e => .error e
  | .ok is_binary =>
  if is_binary ≠ 0 then binary_get_header_info file
  else .error .not_really_a_cel_file

/-! ## Generic multi-channel files (read_multichannel_celfile_generic.c, lines 88-151)

The readers `read_generic_*` and the types they fill live in read_generic.c
and read_generic.h, which are not among the sources at hand.  They are taken
as parameters: `generic_file` below is what they decode from one open file. -/

/-- Modelled from the spec: a DataSet is "a named, typed table of columns"; the
type `AWSTRING` of its name is declared in the absent read_generic.h.  The
fields are the two that `compare_AWSTRING_Intensity` uses: the length and the
wide characters. -/
structure AWSTRING where
  len : Int
  value : List Char
  deriving DecidableEq, Repr

/-- Modelled from the spec: a DataGroup is "a named collection of DataSets plus
an absolute file offset to the next sibling group (0 = none)"; the type
`generic_data_group` is declared in the absent read_generic.h.  The fields are
those that read_multichannel_celfile_generic.c uses. -/
structure generic_data_group where
  file_position_nextgroup : Nat
  n_data_sets : Int
  data_group_name : AWSTRING
  deriving DecidableEq, Repr

/-- Modelled from the spec: a DataSet is "a named, typed table of columns plus
the file offset immediately following its row data"; the type
`generic_data_set` is declared in the absent read_generic.h.  The fields are
those that read_multichannel_celfile_generic.c uses: the offset
`file_pos_last`, the name, the number of rows and the columns `Data`, each
column kept as the sequence of its values (a float as its bit pattern). -/
structure generic_data_set where
  file_pos_last : Nat
  data_set_name : AWSTRING
  nrows : Int
  Data : List (List Int)
  deriving DecidableEq, Repr

/-- Modelled from the spec: the "sequential, cursor-based reader" of the
generic container, whose functions (read_generic.c) are absent.  For one file,
each reader is given by what it decodes at a read position and by the position
at which it leaves the cursor.  `read_generic_data_set_rows` is given by two
functions: the position at which it leaves the cursor and the columns that it
stores in `Data`.  `affymetrix_cel_rows` is the number that `find_nvt`,
`determine_MIMETYPE` and `decode_MIME_value` extract from the data header for
the parameter "affymetrix-cel-rows". -/
structure generic_file where
  read_generic_file_header : Nat → Nat
  read_generic_data_header : Nat → Nat
  read_generic_data_group : Nat → generic_data_group × Nat
  read_generic_data_set : Nat → generic_data_set × Nat
  read_generic_data_set_rows : generic_data_set → Nat → Nat
  read_generic_data_set_rows_Data : generic_data_set → Nat → List (List Int)
  affymetrix_cel_rows : Int

/-- Model of `wcstombs(dest, src, n)` into a zero-filled buffer of `n + 1`
bytes, for wide characters that convert to one byte each: the C string left in
`dest`. -/
def wcstombs (src : List Char) (n : Nat) : List Char :=
  (cstr src).take n

/-- Model of `compare_AWSTRING_Intensity(string)`. -/
def compare_AWSTRING_Intensity (string : AWSTRING) : Int :=
  if string.len > 0 then strcmp (wcstombs string.value string.len.toNat) "Intensity".toList
  else 0

/-- The `for (j=0; j < my_data_group.n_data_sets; j++)` loop of
`multichannel_determine_number_channels` (lines 133-141); the first argument is
the number of iterations still to run, the second the read position.  The
result is true when the loop was left through `returnvalue++; break;`. -/
def multichannel_data_sets_loop (infile : generic_file) : Nat → Nat → Bool
  | 0, _ => false
  | n + 1, pos =>
    let my_data_set := infile.read_generic_data_set pos
    if compare_AWSTRING_Intensity my_data_set.1.data_set_name = 0 then true
    else
      multichannel_data_sets_loop infile n
        (infile.read_generic_data_set_rows my_data_set.1 my_data_set.2)

/-- The `do ... while (next_group > 0)` loop of
`multichannel_determine_number_channels` (lines 130-144).  The first argument
bounds the number of iterations (`none`: the loop is still running when the
bound is reached), the second is the read position at the start of an
iteration, the third the value of `returnvalue`. -/
def multichannel_groups_loop (infile : generic_file) : Nat → Nat → Int → Option Int
  | 0, _, _ => none
  | fuel + 1, pos, returnvalue =>
    let my_data_group := infile.read_generic_data_group pos
    let next_group := my_data_group.1.file_position_nextgroup
    let returnvalue :=
      if multichannel_data_sets_loop infile my_data_group.1.n_data_sets.toNat my_data_group.2
      then returnvalue + 1 else returnvalue
    if next_group > 0 then multichannel_groups_loop infile fuel next_group returnvalue
    else some returnvalue

/-- Model of `multichannel_determine_number_channels(filename)`; `fuel` bounds
the number of iterations of the walk over the data groups, and `none` means
that the walk is still running when the bound is reached. -/
def multichannel_determine_number_channels (fuel : Nat) (file : Option generic_file) :
    Option (Except Err Int) :=
  match file with
  | none => some (.error .could_not_open)
  | some infile =>
    match multichannel_groups_loop infile fuel
        (infile.read_generic_data_header (infile.read_generic_file_header 0)) 0 with
    | none => none
    | some returnvalue => some (.ok returnvalue)

/-! ## Vocabulary of the statements (masks, probes, generic files) -/

/-- The matrix after a sequence of stores `intensity[offset] = value`, done in
the order of the list. -/
def apply_stores {F : Type} (stores : List (Int × RDouble F))
    (intensity : Int → RDouble F) : Int → RDouble F :=
  stores.foldl (fun m s => Function.update m s.1 s.2) intensity

/-- The offset `chip_num*rows + x + chip_dim_rows*y` that a coordinate line
addresses. -/
def line_offset (chip_num rows chip_dim_rows : Int) (line : List Char) : Int :=
  chip_num * rows + ((line_coords line).1 + chip_dim_rows * (line_coords line).2)

/-- A run that is bounded by a number of loop iterations returns `a`: every
bound from some bound on gives `a`. -/
def Returns {α : Type} (run : Nat → Option α) (a : α) : Prop :=
  ∃ fuel : Nat, ∀ n : Nat, fuel ≤ n → run n = some a

/-- A run that is bounded by a number of loop iterations never finishes: no
bound is large enough. -/
def Diverges {α : Type} (run : Nat → Option α) : Prop :=
  ∀ fuel : Nat, run fuel = none

/-- The read position at which the `k`-th iteration (from 0) of the data-group
walk starts: `start` for the first one, then the next-group offset of the
group read by the iteration before. -/
def group_position (infile : generic_file) (start : Nat) : Nat → Nat
  | 0 => start
  | k + 1 =>
    (infile.read_generic_data_group (group_position infile start k)).1.file_position_nextgroup

/-- The next-group offset of the group that the `k`-th iteration of the walk reads. -/
def group_next (infile : generic_file) (start : Nat) (k : Nat) : Nat :=
  (infile.read_generic_data_group (group_position infile start k)).1.file_position_nextgroup

/-- The data sets that the channel count examines in a group with `n` data
sets whose first data set starts at `pos`: each one is read, then its rows are
read, which leaves the cursor at the next one. -/
def data_sets_at (infile : generic_file) : Nat → Nat → List generic_data_set
  | 0, _ => []
  | n + 1, pos =>
    (infile.read_generic_data_set pos).1 ::
      data_sets_at infile n
        (infile.read_generic_data_set_rows (infile.read_generic_data_set pos).1
          (infile.read_generic_data_set pos).2)

/-- The data sets of the group that the `k`-th iteration of the walk reads. -/
def group_data_sets (infile : generic_file) (start : Nat) (k : Nat) : List generic_data_set :=
  data_sets_at infile
    (infile.read_generic_data_group (group_position infile start k)).1.n_data_sets.toNat
    (infile.read_generic_data_group (group_position infile start k)).2

/-- The number of the first `k` groups of the walk in which some data set has
a name that `compare_AWSTRING_Intensity` accepts. -/
def groups_counted (infile : generic_file) (start : Nat) : Nat → Int
  | 0 => 0
  | k + 1 =>
    groups_counted infile start k +
      (if (group_data_sets infile start k).any
            (fun s => compare_AWSTRING_Intensity s.data_set_name = 0)
        then 1 else 0)

/-! ## Example files (masks, probes, generic files) -/

/-- The end of a text file of the 2x2 chip whose `[MASKS]` section lists the
single cell (0, 0) and whose `[OUTLIERS]` section lists the cell (1, 1). -/
def example_masks_00 : List Char :=
  ("\n[MASKS]\nNumberCells=1\nCellHeader=X\tY\n0\t0\n\n" ++
   "[OUTLIERS]\nNumberCells=1\nCellHeader=X\tY\n1\t1\n").toList

/-- The text CEL file of the 2x2 chip with the masked cell (0, 0). -/
def example_text_masked_00 : List Char := example_text 2 4 example_masks_00

/-- The end of a text file of the 2x2 chip in which the cell (1, 1) is listed
both in `[MASKS]` and in `[OUTLIERS]`. -/
def example_masks_both : List Char :=
  ("\n[MASKS]\nNumberCells=2\nCellHeader=X\tY\n0\t1\n1\t1\n\n" ++
   "[OUTLIERS]\nNumberCells=1\nCellHeader=X\tY\n1\t1\n").toList

/-- The text CEL file of the 2x2 chip with the masked cells (0, 1) and (1, 1)
and the outlier cell (1, 1). -/
def example_text_both : List Char := example_text 2 4 example_masks_both

/-- What stands at an offset of an example generic file: the header of a data
group (next-group offset, number of data sets, name, size of the header in
bytes), a data set without rows (name, size of its header, size of its rows)
or a data set with its columns (name, size of its header, size of its rows,
columns). -/
inductive example_item
  | group (next : Nat) (n_data_sets : Int) (name : List Char) (size : Nat)
  | data_set (name : List Char) (header_size rows_size : Nat)
  | table (name : List Char) (header_size rows_size : Nat) (columns : List (List Int))
  deriving DecidableEq, Repr

/-- An example generic file, given by the offset of its first data group and
by the items that stand at the offsets listed in `table`. -/
def example_generic (first_group : Nat) (table : List (Nat × example_item)) : generic_file where
  read_generic_file_header := fun _ => 10
  read_generic_data_header := fun _ => first_group
  read_generic_data_group := fun pos =>
    match table.lookup pos with
    | some (.group next n_data_sets name size) =>
      (⟨next, n_data_sets, ⟨name.length, name⟩⟩, pos + size)
    | _ => (⟨0, 0, ⟨0, []⟩⟩, pos)
  read_generic_data_set := fun pos =>
    match table.lookup pos with
    | some (.data_set name header_size rows_size) =>
      (⟨pos + header_size + rows_size, ⟨name.length, name⟩, 0, []⟩, pos + header_size)
    | some (.table name header_size rows_size columns) =>
      (⟨pos + header_size + rows_size, ⟨name.length, name⟩, (columns.headD []).length, []⟩,
        pos + header_size)
    | _ => (⟨pos, ⟨0, []⟩, 0, []⟩, pos)
  read_generic_data_set_rows := fun my_data_set _ => my_data_set.file_pos_last
  read_generic_data_set_rows_Data := fun _ pos =>
    match table.find? (fun e =>
        match e.2 with
        | .table _ header_size _ _ => e.1 + header_size == pos
        | _ => false) with
    | some (_, .table _ _ _ columns) => columns
    | _ => []
  affymetrix_cel_rows := 0

/-- A multi-channel file with three sibling data groups, each holding an
"Intensity" data set; in the second group it stands after "StdDev". -/
def example_three_channels : generic_file :=
  example_generic 100
    [(100, .group 400 2 "Channel1".toList 30),
     (130, .data_set "Intensity".toList 50 80), (260, .data_set "StdDev".toList 50 80),
     (400, .group 700 2 "Channel2".toList 30),
     (430, .data_set "StdDev".toList 50 80), (560, .data_set "Intensity".toList 50 80),
     (700, .group 0 2 "Channel3".toList 30),
     (730, .data_set "Intensity".toList 50 80), (860, .data_set "StdDev".toList 50 80)]

/-- A file with one data group whose only data set has a name of length 0. -/
def example_empty_name : generic_file :=
  example_generic 100
    [(100, .group 0 1 "Channel1".toList 30), (130, .data_set [] 50 80)]

/-- A corrupt file whose only data group, at offset 100, gives 100 as its
next-group offset. -/
def example_cyclic : generic_file :=
  example_generic 100
    [(100, .group 100 1 "Channel1".toList 30), (130, .data_set "Intensity".toList 50 80)]

/-- A corrupt file whose second data group, at offset 400, gives the offset 100
of the first data group as its next-group offset. -/
def example_cyclic_back : generic_file :=
  example_generic 100
    [(100, .group 400 1 "Channel1".toList 30), (130, .data_set "Intensity".toList 50 80),
     (400, .group 100 1 "Channel2".toList 30), (430, .data_set "Intensity".toList 50 80)]

/-! ## Generic multi-channel files: channel readers and masks
(read_multichannel_celfile_generic.c, lines 212-260 and 395-581) -/

/-- The `while (k < channelindex)` loops (lines 239-245, 423-429): read a data
group and seek to its next-group offset; the first argument is the number of
iterations still to run, the result the read position when the loop ends. -/
def multichannel_skip_groups (infile : generic_file) : Nat → Nat → Nat
  | 0, pos => pos
  | n + 1, pos =>
    multichannel_skip_groups infile n
      (infile.read_generic_data_group pos).1.file_position_nextgroup

/-- Model of the element access `((T *)my_data_set.Data[column])[i]`; reading a
column or an element that does not exist is undefined. -/
def Data_at (Data : List (List Int)) (column : Nat) (i : Nat) : Except Err Int :=
  match Data.get? column with
  | none => .error .undefined_behaviour
  | some values =>
    match values.get? i with
    | none => .error .undefined_behaviour
    | some v => .ok v

/-- The `for (i=0; i < my_data_set.nrows; i++)` loop of
`read_genericcel_file_intensities_multichannel` (lines 251-253); the first
argument is the number of iterations still to run. -/
def read_genericcel_file_intensities_multichannel_loop {F : Type} (f32 : Nat → F)
    (chip_num : Int) (my_data_set : generic_data_set) :
    Nat → Int → (Int → RDouble F) → Except Err (Int → RDouble F)
  | 0, _, intensity => .ok intensity
  | n + 1, i, intensity =>
    match Data_at my_data_set.Data 0 i.toNat with
    | .error e => .error e
    | .ok v =>
      read_genericcel_file_intensities_multichannel_loop f32 chip_num my_data_set n (i + 1)
        (Function.update intensity (chip_num * my_data_set.nrows + i) (RDouble.num (f32 v.toNat)))

/-- Model of `read_genericcel_file_intensities_multichannel(filename, intensity,
chip_num, rows, cols, chip_dim_rows, channelindex)`: the return value and the
matrix. -/
def read_genericcel_file_intensities_multichannel {F : Type} (f32 : Nat → F)
    (file : Option generic_file) (intensity : Int → RDouble F)
    (chip_num rows cols chip_dim_rows channelindex : Int) :
    Except Err (Int × (Int → RDouble F)) :=
  match file with
  | none => .error .could_not_open
  | some infile =>
    let pos := infile.read_generic_data_header (infile.read_generic_file_header 0)
    let pos := multichannel_skip_groups infile channelindex.toNat pos
    let my_data_group := infile.read_generic_data_group pos
    let my_data_set := infile.read_generic_data_set my_data_group.2
    let my_data_set : generic_data_set :=
      { my_data_set.1 with
        Data := infile.read_generic_data_set_rows_Data my_data_set.1 my_data_set.2 }
    match read_genericcel_file_intensities_multichannel_loop f32 chip_num my_data_set
        my_data_set.nrows.toNat 0 intensity with
    | .error e => .error e
    | .ok intensity => .ok (0, intensity)

/-- The pattern `read_generic_data_set(&my_data_set,infile);
fseek(infile, my_data_set.file_pos_last, SEEK_SET);` that passes by a data set
(lines 434-446, 535-547): the read position after it. -/
def generic_pass_data_set (infile : generic_file) (pos : Nat) : Nat :=
  (infile.read_generic_data_set pos).1.file_pos_last

/-- The coordinate loops of `generic_apply_masks_multichannel` (lines 553-558
and 568-573, which both store `R_NaN`); the first argument is the number of
iterations still to run. -/
def generic_apply_masks_multichannel_loop {F : Type} (chip_num rows nrows : Int)
    (my_data_set : generic_data_set) :
    Nat → Int → (Int → RDouble F) → Except Err (Int → RDouble F)
  | 0, _, intensity => .ok intensity
  | n + 1, i, intensity =>
    match Data_at my_data_set.Data 0 i.toNat with
    | .error e => .error e
    | .ok cur_x =>
    match Data_at my_data_set.Data 1 i.toNat with
    | .error e => .error e
    | .ok cur_y =>
    let cur_index := cur_x + nrows * cur_y
    generic_apply_masks_multichannel_loop chip_num rows nrows my_data_set n (i + 1)
      (Function.update intensity (chip_num * rows + cur_index) RDouble.R_NaN)

/-- One of the two blocks of `generic_apply_masks_multichannel` (lines 549-562
for "Outlier", 564-575 for "Mask"): read the data set at `pos` and, when
`flag` is set, read its rows and run the coordinate loop.  The result is the
matrix and the data set, whose `file_pos_last` the first block seeks to. -/
def generic_apply_masks_multichannel_block {F : Type} (infile : generic_file)
    (chip_num rows nrows : Int) (flag : Bool) (pos : Nat) (intensity : Int → RDouble F) :
    Except Err ((Int → RDouble F) × generic_data_set) :=
  let my_data_set := infile.read_generic_data_set pos
  if flag then
    let filled_set : generic_data_set :=
      { my_data_set.1 with
        Data := infile.read_generic_data_set_rows_Data my_data_set.1 my_data_set.2 }
    match generic_apply_masks_multichannel_loop chip_num rows nrows filled_set
        filled_set.nrows.toNat 0 intensity with
    | .error e => .error e
    | .ok intensity => .ok (intensity, filled_set)
  else .ok (intensity, my_data_set.1)

/-- Model of `generic_apply_masks_multichannel(filename, intensity, chip_num,
rows, cols, chip_dim_rows, rm_mask, rm_outliers, channelindex)`: the matrix
after the call. -/
def generic_apply_masks_multichannel {F : Type} (file : Option generic_file)
    (intensity : Int → RDouble F) (chip_num rows cols chip_dim_rows : Int)
    (rm_mask rm_outliers : Bool) (channelindex : Int) : Except Err (Int → RDouble F) :=
  match file with
  | none => .error .could_not_open
  | some infile =>
    let pos := infile.read_generic_data_header (infile.read_generic_file_header 0)
    let my_data_group := infile.read_generic_data_group pos
    let nrows := infile.affymetrix_cel_rows
    let pos := generic_pass_data_set infile my_data_group.2
    let pos := generic_pass_data_set infile pos
    let pos := generic_pass_data_set infile pos
    match generic_apply_masks_multichannel_block infile chip_num rows nrows rm_outliers pos
        intensity with
    | .error e => .error e
    | .ok (intensity, my_data_set) =>
    match generic_apply_masks_multichannel_block infile chip_num rows nrows rm_mask
        my_data_set.file_pos_last intensity with
    | .error e => .error e
    | .ok (intensity, _) => .ok intensity

/-- What `generic_get_masks_outliers_multichannel` and `get_masks_outliers`
hand back: the two counts and the four arrays. -/
structure masks_outliers where
  nmasks : Int
  masks_x : List Int
  masks_y : List Int
  noutliers : Int
  outliers_x : List Int
  outliers_y : List Int
  deriving DecidableEq, Repr

/-- The copy loops of `generic_get_masks_outliers_multichannel` (lines 458-461
and 476-479): both store row `i` of the data set in `(*outliers_x)[i]` and
`(*outliers_y)[i]`; the first argument is the number of iterations still to
run.  A store past the end of the arrays is undefined. -/
def generic_get_masks_outliers_multichannel_loop (my_data_set : generic_data_set) :
    Nat → Int → List Int → List Int → Except Err (List Int × List Int)
  | 0, _, outliers_x, outliers_y => .ok (outliers_x, outliers_y)
  | n + 1, i, outliers_x, outliers_y =>
    match Data_at my_data_set.Data 0 i.toNat with
    | .error e => .error e
    | .ok x =>
    match Data_at my_data_set.Data 1 i.toNat with
    | .error e => .error e
    | .ok y =>
    if i.toNat < outliers_x.length ∧ i.toNat < outliers_y.length then
      generic_get_masks_outliers_multichannel_loop my_data_set n (i + 1)
        (outliers_x.set i.toNat x) (outliers_y.set i.toNat y)
    else .error .undefined_behaviour

/-- Model of `generic_get_masks_outliers_multichannel(filename, nmasks, masks_x,
masks_y, noutliers, outliers_x, outliers_y, channelindex)`: the values left in
the six output parameters. -/
def generic_get_masks_outliers_multichannel (file : Option generic_file)
    (channelindex : Int) : Except Err masks_outliers :=
  match file with
  | none => .error .could_not_open
  | some infile =>
    let pos := infile.read_generic_data_header (infile.read_generic_file_header 0)
    let pos := multichannel_skip_groups infile channelindex.toNat pos
    let my_data_group := infile.read_generic_data_group pos
    let pos := generic_pass_data_set infile my_data_group.2
    let pos := generic_pass_data_set infile pos
    let pos := generic_pass_data_set infile pos
    let my_data_set := infile.read_generic_data_set pos
    let noutliers := my_data_set.1.nrows
    let outlier_set : generic_data_set :=
      { my_data_set.1 with
        Data := infile.read_generic_data_set_rows_Data my_data_set.1 my_data_set.2 }
    match generic_get_masks_outliers_multichannel_loop outlier_set outlier_set.nrows.toNat 0
        (List.replicate noutliers.toNat 0) (List.replicate noutliers.toNat 0) with
    | .error e => .error e
    | .ok (outliers_x, outliers_y) =>
    let my_data_set := infile.read_generic_data_set outlier_set.file_pos_last
    let nmasks := my_data_set.1.nrows
    let mask_set : generic_data_set :=
      { my_data_set.1 with
        Data := infile.read_generic_data_set_rows_Data my_data_set.1 my_data_set.2 }
    match generic_get_masks_outliers_multichannel_loop mask_set mask_set.nrows.toNat 0
        outliers_x outliers_y with
    | .error e => .error e
    | .ok (outliers_x, outliers_y) =>
      .ok { nmasks := nmasks,
            masks_x := List.replicate nmasks.toNat 0,
            masks_y := List.replicate nmasks.toNat 0,
            noutliers := noutliers, outliers_x := outliers_x, outliers_y := outliers_y }

/-! ## The other body readers (read_abatch.c, lines 660-815, 1416-1640, 2780-2862)

`of_int` is the conversion `(double)` of an `int` or `short`. -/

/-- The `for (i=0; i < rows; i++)` loop of `read_cel_file_stddev` (lines
674-718); the first argument is the number of iterations still to run. -/
def read_cel_file_stddev_loop {F : Type} (atof : List Char → F)
    (chip_num rows chip_dim_rows : Int) :
    Nat → Int → List Char → (Int → RDouble F) →
      Except Err (Int × (Int → RDouble F) × List Warning)
  | 0, i, _, intensity => .ok (i, intensity, [])
  | n + 1, i, currentFile, intensity =>
    match ReadFileLine BUF_SIZE currentFile with
    | .error e => .error e
    | .ok (buffer, currentFile) =>
      if buffer.length ≤ 2 then .ok (i, intensity, [Warning.empty_line (i - 1) i])
      else
      match strtok buffer " \t".toList with
      | none => .ok (i, intensity, [Warning.incomplete_line (i - 1) rows])
      | some (token_x, saved) =>
      let cur_x := atoi token_x
      match strtok saved " \t".toList with
      | none => .ok (i, intensity, [Warning.incomplete_line (i - 1) rows])
      | some (token_y, saved) =>
      let cur_y := atoi token_y
      match strtok saved " \t".toList with
      | none => .ok (i, intensity, [Warning.incomplete_line (i - 1) rows])
      | some (_, saved) =>
      match strtok saved " \t".toList with
      | none => .ok (i, intensity, [Warning.incomplete_line (i - 1) rows])
      | some (token_stddev, _) =>
      let cur_stddev := atof token_stddev
      let cur_index := cur_x + chip_dim_rows * cur_y
      read_cel_file_stddev_loop atof chip_num rows chip_dim_rows n (i + 1) currentFile
        (Function.update intensity (chip_num * rows + cur_index) (RDouble.num cur_stddev))

/-- Model of `read_cel_file_stddev(filename, intensity, chip_num, rows, cols,
chip_dim_rows)`. -/
def read_cel_file_stddev {F : Type} (atof : List Char → F)
    (file : Option (List Char)) (intensity : Int → RDouble F)
    (chip_num rows cols chip_dim_rows : Int) : Except Err (ReadResult F) :=
  match open_cel_file file with
  | .error e => .error e
  | .ok currentFile =>
  match AdvanceToSection currentFile "[INTENSITY]".toList with
  | .error e => .error e
  | .ok (_, currentFile) =>
  match findStartsWith currentFile "CellHeader=".toList with
  | .error e => .error e
  | .ok (_, currentFile) =>
  match read_cel_file_stddev_loop atof chip_num rows chip_dim_rows
      rows.toNat 0 currentFile intensity with
  | .error e => .error e
  | .ok (i, intensity, warnings) =>
    if i ≠ rows then .ok ⟨1, intensity, warnings⟩ else .ok ⟨0, intensity, warnings⟩

/-- The `for (i=0; i < rows; i++)` loop of `read_cel_file_npixels` (lines
763-815); the first argument is the number of iterations still to run. -/
def read_cel_file_npixels_loop {F : Type} (of_int : Int → F)
    (chip_num rows chip_dim_rows : Int) :
    Nat → Int → List Char → (Int → RDouble F) →
      Except Err (Int × (Int → RDouble F) × List Warning)
  | 0, i, _, intensity => .ok (i, intensity, [])
  | n + 1, i, currentFile, intensity =>
    match ReadFileLine BUF_SIZE currentFile with
    | .error e => .error e
    | .ok (buffer, currentFile) =>
      if buffer.length ≤ 2 then .ok (i, intensity, [Warning.empty_line (i - 1) i])
      else
      match strtok buffer " \t".toList with
      | none => .ok (i, intensity, [Warning.incomplete_line (i - 1) rows])
      | some (token_x, saved) =>
      let cur_x := atoi token_x
      match strtok saved " \t".toList with
      | none => .ok (i, intensity, [Warning.incomplete_line (i - 1) rows])
      | some (token_y, saved) =>
      let cur_y := atoi token_y
      match strtok saved " \t".toList with
      | none => .ok (i, intensity, [Warning.incomplete_line (i - 1) rows])
      | some (_, saved) =>
      match strtok saved " \t".toList with
      | none => .ok (i, intensity, [Warning.incomplete_line (i - 1) rows])
      | some (_, saved) =>
      match strtok saved " \t".toList with
      | none => .ok (i, intensity, [Warning.incomplete_line (i - 1) rows])
      | some (token_npixels, _) =>
      let cur_npixels := atoi token_npixels
      let cur_index := cur_x + chip_dim_rows * cur_y
      read_cel_file_npixels_loop of_int chip_num rows chip_dim_rows n (i + 1) currentFile
        (Function.update intensity (chip_num * rows + cur_index)
          (RDouble.num (of_int cur_npixels)))

/-- Model of `read_cel_file_npixels(filename, intensity, chip_num, rows, cols,
chip_dim_rows)`. -/
def read_cel_file_npixels {F : Type} (of_int : Int → F)
    (file : Option (List Char)) (intensity : Int → RDouble F)
    (chip_num rows cols chip_dim_rows : Int) : Except Err (ReadResult F) :=
  match open_cel_file file with
  | .error e => .error e
  | .ok currentFile =>
  match AdvanceToSection currentFile "[INTENSITY]".toList with
  | .error e => .error e
  | .ok (_, currentFile) =>
  match findStartsWith currentFile "CellHeader=".toList with
  | .error e => .error e
  | .ok (_, currentFile) =>
  match read_cel_file_npixels_loop of_int chip_num rows chip_dim_rows
      rows.toNat 0 currentFile intensity with
  | .error e => .error e
  | .ok (i, intensity, warnings) =>
    if i ≠ rows then .ok ⟨1, intensity, warnings⟩ else .ok ⟨0, intensity, warnings⟩

/-- The `for (i=0; i < rows; i++)` loop of `read_gzcel_file_intensities` (lines
1430-1461), which has no test for an empty line; the first argument is the
number of iterations still to run. -/
def read_gzcel_file_intensities_loop {F : Type} (atof : List Char → F)
    (chip_num rows chip_dim_rows : Int) :
    Nat → Int → List Char → (Int → RDouble F) →
      Except Err (Int × (Int → RDouble F) × List Warning)
  | 0, i, _, intensity => .ok (i, intensity, [])
  | n + 1, i, currentFile, intensity =>
    match ReadgzFileLine BUF_SIZE currentFile with
    | .error e => .error e
    | .ok (buffer, currentFile) =>
      match strtok buffer " \t".toList with
      | none => .ok (i, intensity, [Warning.incomplete_line (i - 1) rows])
      | some (token_x, saved) =>
      let cur_x := atoi token_x
      match strtok saved " \t".toList with
      | none => .ok (i, intensity, [Warning.incomplete_line (i - 1) rows])
      | some (token_y, saved) =>
      let cur_y := atoi token_y
      match strtok saved " \t".toList with
      | none => .ok (i, intensity, [Warning.incomplete_line (i - 1) rows])
      | some (token_mean, _) =>
      let cur_mean := atof token_mean
      let cur_index := cur_x + chip_dim_rows * cur_y
      read_gzcel_file_intensities_loop atof chip_num rows chip_dim_rows n (i + 1) currentFile
        (Function.update intensity (chip_num * rows + cur_index) (RDouble.num cur_mean))

/-- Model of `read_gzcel_file_intensities(filename, intensity, chip_num, rows,
cols, chip_dim_rows)`. -/
def read_gzcel_file_intensities {F : Type} (atof : List Char → F)
    (inflate : List Char → List Char) (file : Option (List Char))
    (intensity : Int → RDouble F) (chip_num rows cols chip_dim_rows : Int) :
    Except Err (ReadResult F) :=
  match open_gz_cel_file inflate file with
  | .error e => .error e
  | .ok currentFile =>
  match gzAdvanceToSection currentFile "[INTENSITY]".toList with
  | .error e => .error e
  | .ok (_, currentFile) =>
  match gzfindStartsWith currentFile "CellHeader=".toList with
  | .error e => .error e
  | .ok (_, currentFile) =>
  match read_gzcel_file_intensities_loop atof chip_num rows chip_dim_rows
      rows.toNat 0 currentFile intensity with
  | .error e => .error e
  | .ok (i, intensity, warnings) =>
    if i ≠ rows then .ok ⟨1, intensity, warnings⟩ else .ok ⟨0, intensity, warnings⟩

/-- The `for (i=0; i < rows; i++)` loop of `read_gzcel_file_stddev` (lines
1503-1543); the first argument is the number of iterations still to run. -/
def read_gzcel_file_stddev_loop {F : Type} (atof : List Char → F)
    (chip_num rows chip_dim_rows : Int) :
    Nat → Int → List Char → (Int → RDouble F) →
      Except Err (Int × (Int → RDouble F) × List Warning)
  | 0, i, _, intensity => .ok (i, intensity, [])
  | n + 1, i, currentFile, intensity =>
    match ReadgzFileLine BUF_SIZE currentFile with
    | .error e => .error e
    | .ok (buffer, currentFile) =>
      match strtok buffer " \t".toList with
      | none => .ok (i, intensity, [Warning.incomplete_line (i - 1) rows])
      | some (token_x, saved) =>
      let cur_x := atoi token_x
      match strtok saved " \t".toList with
      | none => .ok (i, intensity, [Warning.incomplete_line (i - 1) rows])
      | some (token_y, saved) =>
      let cur_y := atoi token_y
      match strtok saved " \t".toList with
      | none => .ok (i, intensity, [Warning.incomplete_line (i - 1) rows])
      | some (_, saved) =>
      match strtok saved " \t".toList with
      | none => .ok (i, intensity, [Warning.incomplete_line (i - 1) rows])
      | some (token_stddev, _) =>
      let cur_stddev := atof token_stddev
      let cur_index := cur_x + chip_dim_rows * cur_y
      read_gzcel_file_stddev_loop atof chip_num rows chip_dim_rows n (i + 1) currentFile
        (Function.update intensity (chip_num * rows + cur_index) (RDouble.num cur_stddev))

/-- Model of `read_gzcel_file_stddev(filename, intensity, chip_num, rows, cols,
chip_dim_rows)`. -/
def read_gzcel_file_stddev {F : Type} (atof : List Char → F)
    (inflate : List Char → List Char) (file : Option (List Char))
    (intensity : Int → RDouble F) (chip_num rows cols chip_dim_rows : Int) :
    Except Err (ReadResult F) :=
  match open_gz_cel_file inflate file with
  | .error e => .error e
  | .ok currentFile =>
  match gzAdvanceToSection currentFile "[INTENSITY]".toList with
  | .error e => .error e
  | .ok (_, currentFile) =>
  match gzfindStartsWith currentFile "CellHeader=".toList with
  | .error e => .error e
  | .ok (_, currentFile) =>
  match read_gzcel_file_stddev_loop atof chip_num rows chip_dim_rows
      rows.toNat 0 currentFile intensity with
  | .error e => .error e
  | .ok (i, intensity, warnings) =>
    if i ≠ rows then .ok ⟨1, intensity, warnings⟩ else .ok ⟨0, intensity, warnings⟩

/-- The `for (i=0; i < rows; i++)` loop of `read_gzcel_file_npixels` (lines
1587-1630); the first argument is the number of iterations still to run. -/
def read_gzcel_file_npixels_loop {F : Type} (of_int : Int → F)
    (chip_num rows chip_dim_rows : Int) :
    Nat → Int → List Char → (Int → RDouble F) →
      Except Err (Int × (Int → RDouble F) × List Warning)
  | 0, i, _, intensity => .ok (i, intensity, [])
  | n + 1, i, currentFile, intensity =>
    match ReadgzFileLine BUF_SIZE currentFile with
    | .error e => .error e
    | .ok (buffer, currentFile) =>
      match strtok buffer " \t".toList with
      | none => .ok (i, intensity, [Warning.incomplete_line (i - 1) rows])
      | some (token_x, saved) =>
      let cur_x := atoi token_x
      match strtok saved " \t".toList with
      | none => .ok (i, intensity, [Warning.incomplete_line (i - 1) rows])
      | some (token_y, saved) =>
      let cur_y := atoi token_y
      match strtok saved " \t".toList with
      | none => .ok (i, intensity, [Warning.incomplete_line (i - 1) rows])
      | some (_, saved) =>
      match strtok saved " \t".toList with
      | none => .ok (i, intensity, [Warning.incomplete_line (i - 1) rows])
      | some (_, saved) =>
      match strtok saved " \t".toList with
      | none => .ok (i, intensity, [Warning.incomplete_line (i - 1) rows])
      | some (token_npixels, _) =>
      let cur_npixels := atoi token_npixels
      let cur_index := cur_x + chip_dim_rows * cur_y
      read_gzcel_file_npixels_loop of_int chip_num rows chip_dim_rows n (i + 1) currentFile
        (Function.update intensity (chip_num * rows + cur_index)
          (RDouble.num (of_int cur_npixels)))

/-- Model of `read_gzcel_file_npixels(filename, intensity, chip_num, rows, cols,
chip_dim_rows)`. -/
def read_gzcel_file_npixels {F : Type} (of_int : Int → F)
    (inflate : List Char → List Char) (file : Option (List Char))
    (intensity : Int → RDouble F) (chip_num rows cols chip_dim_rows : Int) :
    Except Err (ReadResult F) :=
  match open_gz_cel_file inflate file with
  | .error e => .error e
  | .ok currentFile =>
  match gzAdvanceToSection currentFile "[INTENSITY]".toList with
  | .error e => .error e
  | .ok (_, currentFile) =>
  match gzfindStartsWith currentFile "CellHeader=".toList with
  | .error e => .error e
  | .ok (_, currentFile) =>
  match read_gzcel_file_npixels_loop of_int chip_num rows chip_dim_rows
      rows.toNat 0 currentFile intensity with
  | .error e => .error e
  | .ok (i, intensity, warnings) =>
    if i ≠ rows then .ok ⟨1, intensity, warnings⟩ else .ok ⟨0, intensity, warnings⟩

/-- The two nested loops of `read_binarycel_file_stddev` and of
`read_binarycel_file_npixels` (lines 2792-2807 and 2839-2854), which differ
from those of `read_binarycel_file_intensities` only in the field of the record
that is stored: `value` computes the stored number from the record.  The
columns loop; the first argument is the number of iterations still to run. -/
def read_binarycel_file_field_cols {F : Type} (value : celintens_record → F) (chip_num : Int)
    (my_header : binary_header) (i : Int) :
    Nat → Int → celintens_record → FILE → (Int → RDouble F) →
      Bool × celintens_record × FILE × (Int → RDouble F)
  | 0, _, cur_intensity, infile, intensity => (false, cur_intensity, infile, intensity)
  | n + 1, j, cur_intensity, infile, intensity =>
    let cur_index := j + my_header.rows * i
    let r1 := fread_float32 cur_intensity.cur_intens infile
    let r2 := fread_float32 cur_intensity.cur_sd r1.2.2
    let r3 := fread_int16 cur_intensity.npixels r2.2.2
    let fread_err := r1.1 + r2.1 + r3.1
    if fread_err < 3 then (true, ⟨r1.2.1, r2.2.1, r3.2.1⟩, r3.2.2, intensity)
    else
      read_binarycel_file_field_cols value chip_num my_header i n (j + 1)
        ⟨r1.2.1, r2.2.1, r3.2.1⟩ r3.2.2
        (Function.update intensity (chip_num * my_header.n_cells + cur_index)
          (RDouble.num (value ⟨r1.2.1, r2.2.1, r3.2.1⟩)))

/-- The rows loop of `read_binarycel_file_stddev` and `read_binarycel_file_npixels`. -/
def read_binarycel_file_field_rows {F : Type} (value : celintens_record → F) (chip_num : Int)
    (my_header : binary_header) :
    Nat → Int → celintens_record → FILE → (Int → RDouble F) →
      Bool × celintens_record × FILE × (Int → RDouble F)
  | 0, _, cur_intensity, infile, intensity => (false, cur_intensity, infile, intensity)
  | n + 1, i, cur_intensity, infile, intensity =>
    let r := read_binarycel_file_field_cols value chip_num my_header i
      my_header.cols.toNat 0 cur_intensity infile intensity
    if r.1 then r
    else read_binarycel_file_field_rows value chip_num my_header n (i + 1) r.2.1 r.2.2.1 r.2.2.2

/-- Model of `read_binarycel_file_stddev(filename, intensity, chip_num, rows,
cols, chip_dim_rows)`: the return value and the matrix. -/
def read_binarycel_file_stddev {F : Type} (f32 : Nat → F)
    (file : Option (List Char)) (intensity : Int → RDouble F)
    (chip_num rows cols chip_dim_rows : Int) : Except Err (Int × (Int → RDouble F)) :=
  match read_binary_header file 1 with
  | .error e => .error e.1
  | .ok none => .error .undefined_behaviour
  | .ok (some my_header) =>
  match my_header.infile with
  | none => .error .undefined_behaviour
  | some infile =>
  let r := read_binarycel_file_field_rows (fun record => f32 record.cur_sd) chip_num my_header
    my_header.rows.toNat 0 ⟨0, 0, 0⟩ infile intensity
  if r.1 then .ok (1, r.2.2.2) else .ok (0, r.2.2.2)

/-- Model of `read_binarycel_file_npixels(filename, intensity, chip_num, rows,
cols, chip_dim_rows)`: the return value and the matrix. -/
def read_binarycel_file_npixels {F : Type} (of_int : Int → F)
    (file : Option (List Char)) (intensity : Int → RDouble F)
    (chip_num rows cols chip_dim_rows : Int) : Except Err (Int × (Int → RDouble F)) :=
  match read_binary_header file 1 with
  | .error e => .error e.1
  | .ok none => .error .undefined_behaviour
  | .ok (some my_header) =>
  match my_header.infile with
  | none => .error .undefined_behaviour
  | some infile =>
  let r := read_binarycel_file_field_rows (fun record => of_int record.npixels) chip_num
    my_header my_header.rows.toNat 0 ⟨0, 0, 0⟩ infile intensity
  if r.1 then .ok (1, r.2.2.2) else .ok (0, r.2.2.2)

/-! ## Detailed header information (read_abatch.c, lines 163-175, 1080-1174,
1803-1897, 2523-2644) -/

/-- The struct `detailed_header_info`; a `char *` field is `none` when it is `NULL`. -/
structure detailed_header_info where
  cdfName : Option (List Char)
  cols : Int
  rows : Int
  GridCornerULx : Int
  GridCornerULy : Int
  GridCornerURx : Int
  GridCornerURy : Int
  GridCornerLRx : Int
  GridCornerLRy : Int
  GridCornerLLx : Int
  GridCornerLLy : Int
  DatHeader : Option (List Char)
  Algorithm : Option (List Char)
  AlgorithmParameters : Option (List Char)
  deriving DecidableEq, Repr

/-- A `detailed_header_info` whose bytes are all zero, as `Calloc` leaves it. -/
def detailed_header_info_zero : detailed_header_info :=
  ⟨none, 0, 0, 0, 0, 0, 0, 0, 0, 0, 0, none, none, none⟩

/-- The three statements that read a grid corner from a line (lines 1101-1103,
repeated at 1107-1109, 1113-1115, 1119-1121, 1824-1844 and 2565-2567,
2575-2577, 2585-2587, 2595-2597): the second and third token of the line
split at '=' and ' '. -/
def GridCorner_xy (line : List Char) : Except Err (Int × Int) :=
  let cur_tokenset := tokenize line "= ".toList
  match get_token cur_tokenset 1 with
  | .error e => .error e
  | .ok token1 =>
  match get_token cur_tokenset 2 with
  | .error e => .error e
  | .ok token2 => .ok (atoi token1, atoi token2)

/-- The copy of the DatHeader value (lines 1127-1133): the first token of the
line split at CR and LF, from its eleventh character on.  The copy starts
outside the token when the token has fewer than 10 characters. -/
def DatHeader_value (buffer : List Char) : Except Err (List Char) :=
  match get_token (tokenize buffer "\r\n".toList) 0 with
  | .error e => .error e
  | .ok token0 =>
    if token0.length < 10 then .error .undefined_behaviour else .ok (token0.drop 10)

/-- First part of `get_detailed_header_info` (lines 1089-1099): open the file,
advance to `[HEADER]`, read `Cols` and `Rows`. -/
def get_detailed_header_info_dims (file : Option (List Char)) :
    Except Err (Int × Int × List Char) :=
  match open_cel_file file with
  | .error e => .error e
  | .ok currentFile =>
  match AdvanceToSection currentFile "[HEADER]".toList with
  | .error e => .error e
  | .ok (_, currentFile) =>
  match findStartsWith currentFile "Cols".toList with
  | .error e => .error e
  | .ok (buffer, currentFile) =>
  match get_token (tokenize buffer "=".toList) 1 with
  | .error e => .error e
  | .ok token1 =>
  let cols := atoi token1
  match findStartsWith currentFile "Rows".toList with
  | .error e => .error e
  | .ok (buffer, currentFile) =>
  match get_token (tokenize buffer "=".toList) 1 with
  | .error e => .error e
  | .ok token1 => .ok (cols, atoi token1, currentFile)

/-- One grid corner of `get_detailed_header_info` (lines 1100-1104, repeated
for the four corners): find the line that starts with `key` and read the
corner from it. -/
def get_detailed_header_info_corner (currentFile : List Char) (key : List Char) :
    Except Err ((Int × Int) × List Char) :=
  match findStartsWith currentFile key with
  | .error e => .error e
  | .ok (buffer, currentFile) =>
  match GridCorner_xy buffer with
  | .error e => .error e
  | .ok xy => .ok (xy, currentFile)

/-- Third part of `get_detailed_header_info` (lines 1124-1155): the DatHeader
line, its value and the chip name. -/
def get_detailed_header_info_DatHeader (currentFile : List Char) :
    Except Err (List Char × Option (List Char) × List Char) :=
  match findStartsWith currentFile "DatHeader".toList with
  | .error e => .error e
  | .ok (buffer, currentFile) =>
  match DatHeader_value buffer with
  | .error e => .error e
  | .ok DatHeader =>
  match cdfName_loop (tokenize buffer " ".toList) with
  | .error e => .error e
  | .ok cdfName => .ok (DatHeader, cdfName, currentFile)

/-- Last part of `get_detailed_header_info` (lines 1157-1170): the values of
the `Algorithm` and `AlgorithmParameters` lines, each the second token of the
line split at '=', CR and LF. -/
def get_detailed_header_info_Algorithm (currentFile : List Char) :
    Except Err (List Char × List Char) :=
  match findStartsWith currentFile "Algorithm".toList with
  | .error e => .error e
  | .ok (buffer, currentFile) =>
  match get_token (tokenize buffer "=\r\n".toList) 1 with
  | .error e => .error e
  | .ok Algorithm =>
  match findStartsWith currentFile "AlgorithmParameters".toList with
  | .error e => .error e
  | .ok (buffer, _) =>
  match get_token (tokenize buffer "=\r\n".toList) 1 with
  | .error e => .error e
  | .ok AlgorithmParameters => .ok (Algorithm, AlgorithmParameters)

/-- Model of `get_detailed_header_info(filename, header_info)`: the struct
after the call; `header_info` is what it held before. -/
def get_detailed_header_info (file : Option (List Char)) (header_info : detailed_header_info) :
    Except Err detailed_header_info :=
  match get_detailed_header_info_dims file with
  | .error e => .error e
  | .ok (cols, rows, currentFile) =>
  match get_detailed_header_info_corner currentFile "GridCornerUL".toList with
  | .error e => .error e
  | .ok (UL, currentFile) =>
  match get_detailed_header_info_corner currentFile "GridCornerUR".toList with
  | .error e => .error e
  | .ok (UR, currentFile) =>
  match get_detailed_header_info_corner currentFile "GridCornerLR".toList with
  | .error e => .error e
  | .ok (LR, currentFile) =>
  match get_detailed_header_info_corner currentFile "GridCornerLL".toList with
  | .error e => .error e
  | .ok (LL, currentFile) =>
  match get_detailed_header_info_DatHeader currentFile with
  | .error e => .error e
  | .ok (DatHeader, cdfName, currentFile) =>
  match get_detailed_header_info_Algorithm currentFile with
  | .error e => .error e
  | .ok (Algorithm, AlgorithmParameters) =>
    .ok { cdfName := match cdfName with
            | some name => some name
            | none => header_info.cdfName,
          cols := cols, rows := rows,
          GridCornerULx := UL.1, GridCornerULy := UL.2,
          GridCornerURx := UR.1, GridCornerURy := UR.2,
          GridCornerLRx := LR.1, GridCornerLRy := LR.2,
          GridCornerLLx := LL.1, GridCornerLLy := LL.2,
          DatHeader := some DatHeader, Algorithm := some Algorithm,
          AlgorithmParameters := some AlgorithmParameters }

/-- First part of `gz_get_detailed_header_info` (lines 1812-1822). -/
def gz_get_detailed_header_info_dims (inflate : List Char → List Char)
    (file : Option (List Char)) : Except Err (Int × Int × List Char) :=
  match open_gz_cel_file inflate file with
  | .error e => .error e
  | .ok currentFile =>
  match gzAdvanceToSection currentFile "[HEADER]".toList with
  | .error e => .error e
  | .ok (_, currentFile) =>
  match gzfindStartsWith currentFile "Cols".toList with
  | .error e => .error e
  | .ok (buffer, currentFile) =>
  match get_token (tokenize buffer "=".toList) 1 with
  | .error e => .error e
  | .ok token1 =>
  let cols := atoi token1
  match gzfindStartsWith currentFile "Rows".toList with
  | .error e => .error e
  | .ok (buffer, currentFile) =>
  match get_token (tokenize buffer "=".toList) 1 with
  | .error e => .error e
  | .ok token1 => .ok (cols, atoi token1, currentFile)

/-- One grid corner of `gz_get_detailed_header_info` (lines 1823-1827,
repeated for the four corners). -/
def gz_get_detailed_header_info_corner (currentFile : List Char) (key : List Char) :
    Except Err ((Int × Int) × List Char) :=
  match gzfindStartsWith currentFile key with
  | .error e => .error e
  | .ok (buffer, currentFile) =>
  match GridCorner_xy buffer with
  | .error e => .error e
  | .ok xy => .ok (xy, currentFile)

/-- Third part of `gz_get_detailed_header_info` (lines 1847-1878). -/
def gz_get_detailed_header_info_DatHeader (currentFile : List Char) :
    Except Err (List Char × Option (List Char) × List Char) :=
  match gzfindStartsWith currentFile "DatHeader".toList with
  | .error e => .error e
  | .ok (buffer, currentFile) =>
  match DatHeader_value buffer with
  | .error e => .error e
  | .ok DatHeader =>
  match cdfName_loop (tokenize buffer " ".toList) with
  | .error e => .error e
  | .ok cdfName => .ok (DatHeader, cdfName, currentFile)

/-- Last part of `gz_get_detailed_header_info` (lines 1880-1893). -/
def gz_get_detailed_header_info_Algorithm (currentFile : List Char) :
    Except Err (List Char × List Char) :=
  match gzfindStartsWith currentFile "Algorithm".toList with
  | .error e => .error e
  | .ok (buffer, currentFile) =>
  match get_token (tokenize buffer "=\r\n".toList) 1 with
  | .error e => .error e
  | .ok Algorithm =>
  match gzfindStartsWith currentFile "AlgorithmParameters".toList with
  | .error e => .error e
  | .ok (buffer, _) =>
  match get_token (tokenize buffer "=\r\n".toList) 1 with
  | .error e => .error e
  | .ok AlgorithmParameters => .ok (Algorithm, AlgorithmParameters)

/-- Model of `gz_get_detailed_header_info(filename, header_info)`. -/
def gz_get_detailed_header_info (inflate : List Char → List Char) (file : Option (List Char))
    (header_info : detailed_header_info) : Except Err detailed_header_info :=
  match gz_get_detailed_header_info_dims inflate file with
  | .error e => .error e
  | .ok (cols, rows, currentFile) =>
  match gz_get_detailed_header_info_corner currentFile "GridCornerUL".toList with
  | .error e => .error e
  | .ok (UL, currentFile) =>
  match gz_get_detailed_header_info_corner currentFile "GridCornerUR".toList with
  | .error e => .error e
  | .ok (UR, currentFile) =>
  match gz_get_detailed_header_info_corner currentFile "GridCornerLR".toList with
  | .error e => .error e
  | .ok (LR, currentFile) =>
  match gz_get_detailed_header_info_corner currentFile "GridCornerLL".toList with
  | .error e => .error e
  | .ok (LL, currentFile) =>
  match gz_get_detailed_header_info_DatHeader currentFile with
  | .error e => .error e
  | .ok (DatHeader, cdfName, currentFile) =>
  match gz_get_detailed_header_info_Algorithm currentFile with
  | .error e => .error e
  | .ok (Algorithm, AlgorithmParameters) =>
    .ok { cdfName := match cdfName with
            | some name => some name
            | none => header_info.cdfName,
          cols := cols, rows := rows,
          GridCornerULx := UL.1, GridCornerULy := UL.2,
          GridCornerURx := UR.1, GridCornerURy := UR.2,
          GridCornerLRx := LR.1, GridCornerLRy := LR.2,
          GridCornerLLx := LL.1, GridCornerLLy := LL.2,
          DatHeader := some DatHeader, Algorithm := some Algorithm,
          AlgorithmParameters := some AlgorithmParameters }

/-- The body of the loop over the lines of the header blob in
`binary_get_detailed_header_info` (lines 2562-2607) for one line: five tests
in a row, each of which can store fields of `header_info`. -/
def binary_get_detailed_header_info_line (header_info : detailed_header_info)
    (token : List Char) : Except Err detailed_header_info :=
  match (if strncmp "GridCornerUL".toList token 12 = 0 then
      match GridCorner_xy token with
      | .error e => .error e
      | .ok xy => .ok { header_info with GridCornerULx := xy.1, GridCornerULy := xy.2 }
    else .ok header_info : Except Err detailed_header_info) with
  | .error e => .error e
  | .ok header_info =>
  match (if strncmp "GridCornerUR".toList token 12 = 0 then
      match GridCorner_xy token with
      | .error e => .error e
      | .ok xy => .ok { header_info with GridCornerURx := xy.1, GridCornerURy := xy.2 }
    else .ok header_info : Except Err detailed_header_info) with
  | .error e => .error e
  | .ok header_info =>
  match (if strncmp "GridCornerLR".toList token 12 = 0 then
      match GridCorner_xy token with
      | .error e => .error e
      | .ok xy => .ok { header_info with GridCornerLRx := xy.1, GridCornerLRy := xy.2 }
    else .ok header_info : Except Err detailed_header_info) with
  | .error e => .error e
  | .ok header_info =>
  match (if strncmp "GridCornerLL".toList token 12 = 0 then
      match GridCorner_xy token with
      | .error e => .error e
      | .ok xy => .ok { header_info with GridCornerLLx := xy.1, GridCornerLLy := xy.2 }
    else .ok header_info : Except Err detailed_header_info) with
  | .error e => .error e
  | .ok header_info =>
  if strncmp "DatHeader".toList token 9 = 0 then
    if token.length < 10 then .error .undefined_behaviour
    else .ok { header_info with DatHeader := some (token.drop 10) }
  else .ok header_info

/-- The loop over the lines of the header blob in
`binary_get_detailed_header_info` (lines 2560-2608). -/
def binary_get_detailed_header_info_lines :
    List (List Char) → detailed_header_info → Except Err detailed_header_info
  | [], header_info => .ok header_info
  | token :: later, header_info =>
    match binary_get_detailed_header_info_line header_info token with
    | .error e => .error e
    | .ok header_info => binary_get_detailed_header_info_lines later header_info

/-- Model of `binary_get_detailed_header_info(filename, header_info)`: the
struct after the call; `header_info` is what it held before.  `strncpy` with
the count `strlen(alg_param) - 1` runs past the buffer when the string is
empty. -/
def binary_get_detailed_header_info (file : Option (List Char))
    (header_info : detailed_header_info) : Except Err detailed_header_info :=
  match read_binary_header file 0 with
  | .error e => .error e.1
  | .ok none => .error .undefined_behaviour
  | .ok (some my_header) =>
  if my_header.alg_param = [] then .error .undefined_behaviour
  else
  let header_info : detailed_header_info :=
    { header_info with
      cols := my_header.cols, rows := my_header.rows,
      Algorithm := some my_header.algorithm,
      AlgorithmParameters := some my_header.alg_param.dropLast }
  match binary_get_detailed_header_info_lines (tokenize my_header.header "\n".toList)
      header_info with
  | .error e => .error e
  | .ok header_info =>
  match cdfName_loop (tokenize my_header.header " ".toList) with
  | .error e => .error e
  | .ok none => .ok header_info
  | .ok (some cdfName) => .ok { header_info with cdfName := some cdfName }

/-! ## Mask and outlier coordinates of text files and `read_cel_file`
(read_abatch.c, lines 177-205, 923-1006, 1913-1980, 3936-4033) -/

/-- The coordinate loops of `get_masks_outliers` (lines 960-971 and 987-998):
line `i` gives the entries `i` of the two arrays, each cast to `short`; the
first argument is the number of iterations still to run. -/
def get_masks_outliers_loop :
    Nat → Int → List Char → List Int → List Int →
      Except Err (List Char × List Int × List Int)
  | 0, _, currentFile, xs, ys => .ok (currentFile, xs, ys)
  | n + 1, i, currentFile, xs, ys =>
    match ReadFileLine BUF_SIZE currentFile with
    | .error e => .error e
    | .ok (buffer, currentFile) =>
    let cur_tokenset := tokenize buffer " \t".toList
    match get_token cur_tokenset 0 with
    | .error e => .error e
    | .ok token_x =>
    let cur_x := atoi token_x
    match get_token cur_tokenset 1 with
    | .error e => .error e
    | .ok token_y =>
    let cur_y := atoi token_y
    get_masks_outliers_loop n (i + 1) currentFile (xs.set i.toNat (wrap16 cur_x))
      (ys.set i.toNat (wrap16 cur_y))

/-- One section of `get_masks_outliers` (lines 947-971 for `[MASKS]`, lines
976-998 for `[OUTLIERS]`): the stream after the section, `numcells` and the
two arrays that were allocated and filled. -/
def get_masks_outliers_section (sectiontitle : List Char) (currentFile : List Char) :
    Except Err (List Char × Int × List Int × List Int) :=
  match AdvanceToSection currentFile sectiontitle with
  | .error e => .error e
  | .ok (_, currentFile) =>
  match findStartsWith currentFile "NumberCells=".toList with
  | .error e => .error e
  | .ok (buffer, currentFile) =>
  match get_token (tokenize buffer "=".toList) 1 with
  | .error e => .error e
  | .ok token1 =>
  let numcells := atoi token1
  match findStartsWith currentFile "CellHeader=".toList with
  | .error e => .error e
  | .ok (_, currentFile) =>
  if numcells < 0 then .error .cannot_allocate
  else
  match get_masks_outliers_loop numcells.toNat 0 currentFile
      (List.replicate numcells.toNat 0) (List.replicate numcells.toNat 0) with
  | .error e => .error e
  | .ok (currentFile, xs, ys) => .ok (currentFile, numcells, xs, ys)

/-- Model of `get_masks_outliers(filename, nmasks, masks_x, masks_y, noutliers,
outliers_x, outliers_y)`.  The function has the parameters `short *masks_x`,
`short *masks_y`, `short *outliers_x`, `short *outliers_y` and assigns the
allocated arrays to them, that is to its own copies; through `nmasks` and
`noutliers` it stores into the variables of the caller.  The result holds the
two counts stored and the four arrays as the function's own variables hold
them when it returns. -/
def get_masks_outliers (file : Option (List Char)) : Except Err masks_outliers :=
  match open_cel_file file with
  | .error e => .error e
  | .ok currentFile =>
  match get_masks_outliers_section "[MASKS]".toList currentFile with
  | .error e => .error e
  | .ok (currentFile, nmasks, masks_x, masks_y) =>
  match get_masks_outliers_section "[OUTLIERS]".toList currentFile with
  | .error e => .error e
  | .ok (_, noutliers, outliers_x, outliers_y) =>
    .ok { nmasks := nmasks, masks_x := masks_x, masks_y := masks_y,
          noutliers := noutliers, outliers_x := outliers_x, outliers_y := outliers_y }

/-- The coordinate loops of `gz_get_masks_outliers` (lines 1939-1950 and
1966-1976). -/
def gz_get_masks_outliers_loop :
    Nat → Int → List Char → List Int → List Int →
      Except Err (List Char × List Int × List Int)
  | 0, _, currentFile, xs, ys => .ok (currentFile, xs, ys)
  | n + 1, i, currentFile, xs, ys =>
    match ReadgzFileLine BUF_SIZE currentFile with
    | .error e => .error e
    | .ok (buffer, currentFile) =>
    let cur_tokenset := tokenize buffer " \t".toList
    match get_token cur_tokenset 0 with
    | .error e => .error e
    | .ok token_x =>
    let cur_x := atoi token_x
    match get_token cur_tokenset 1 with
    | .error e => .error e
    | .ok token_y =>
    let cur_y := atoi token_y
    gz_get_masks_outliers_loop n (i + 1) currentFile (xs.set i.toNat (wrap16 cur_x))
      (ys.set i.toNat (wrap16 cur_y))

/-- One section of `gz_get_masks_outliers` (lines 1926-1950 and 1955-1976). -/
def gz_get_masks_outliers_section (sectiontitle : List Char) (currentFile : List Char) :
    Except Err (List Char × Int × List Int × List Int) :=
  match gzAdvanceToSection currentFile sectiontitle with
  | .error e => .error e
  | .ok (_, currentFile) =>
  match gzfindStartsWith currentFile "NumberCells=".toList with
  | .error e => .error e
  | .ok (buffer, currentFile) =>
  match get_token (tokenize buffer "=".toList) 1 with
  | .error e => .error e
  | .ok token1 =>
  let numcells := atoi token1
  match gzfindStartsWith currentFile "CellHeader=".toList with
  | .error e => .error e
  | .ok (_, currentFile) =>
  if numcells < 0 then .error .cannot_allocate
  else
  match gz_get_masks_outliers_loop numcells.toNat 0 currentFile
      (List.replicate numcells.toNat 0) (List.replicate numcells.toNat 0) with
  | .error e => .error e
  | .ok (currentFile, xs, ys) => .ok (currentFile, numcells, xs, ys)

/-- Model of `gz_get_masks_outliers`, with the same parameters and the same
reading of the result as `get_masks_outliers`. -/
def gz_get_masks_outliers (inflate : List Char → List Char) (file : Option (List Char)) :
    Except Err masks_outliers :=
  match open_gz_cel_file inflate file with
  | .error e => .error e
  | .ok currentFile =>
  match gz_get_masks_outliers_section "[MASKS]".toList currentFile with
  | .error e => .error e
  | .ok (currentFile, nmasks, masks_x, masks_y) =>
  match gz_get_masks_outliers_section "[OUTLIERS]".toList currentFile with
  | .error e => .error e
  | .ok (_, noutliers, outliers_x, outliers_y) =>
    .ok { nmasks := nmasks, masks_x := masks_x, masks_y := masks_y,
          noutliers := noutliers, outliers_x := outliers_x, outliers_y := outliers_y }

/-- The struct `CEL` (lines 190-205).  The three `double *` members are
matrices of one column; a `short *` member is `none` when it is `NULL`. -/
structure CEL (F : Type) where
  header : detailed_header_info
  intensities : Int → RDouble F
  stddev : Int → RDouble F
  npixels : Int → RDouble F
  nmasks : Int
  noutliers : Int
  masks_x : Option (List Int)
  masks_y : Option (List Int)
  outliers_x : Option (List Int)
  outliers_y : Option (List Int)

/-- The three formats that the drivers tell apart. -/
inductive cel_format
  | text
  | gz_text
  | binary
  deriving DecidableEq, Repr

/-- The chain `if (isTextCelFile(..)) .. else if (isgzTextCelFile(..)) .. else
if (isBinaryCelFile(..)) .. else error("Is %s really a CEL file? ..")` that
every driver repeats (for instance lines 3098-3116 and 3957-3973): the branch
taken.  `magicnumber` and `version_number` are the indeterminate initial values
of the locals of `isBinaryCelFile`. -/
def cel_file_format (inflate : List Char → List Char) (magicnumber version_number : Int)
    (file : Option (List Char)) : Except Err cel_format :=
  match isTextCelFile file with
  | .error e => .error e
  | .ok is_text =>
  if is_text ≠ 0 then .ok .text
  else
  match isgzTextCelFile inflate file with
  | .error e => .error e
  | .ok is_gz =>
  if is_gz ≠ 0 then .ok .gz_text
  else
  match isBinaryCelFile magicnumber version_number file with
  | .error e => .error e
  | .ok is_binary =>
  if is_binary ≠ 0 then .ok .binary
  else .error .not_really_a_cel_file

/-- First step of `read_cel_file` (lines 3957-3973): the header of the zeroed
`CEL` after the header reader of the file's format has run. -/
def read_cel_file_header (inflate : List Char → List Char) (magicnumber version_number : Int)
    (file : Option (List Char)) : Except Err detailed_header_info :=
  match cel_file_format inflate magicnumber version_number file with
  | .error e => .error e
  | .ok .text => get_detailed_header_info file detailed_header_info_zero
  | .ok .gz_text => gz_get_detailed_header_info inflate file detailed_header_info_zero
  | .ok .binary => binary_get_detailed_header_info file detailed_header_info_zero

/-- Second step of `read_cel_file` (lines 3978-4006): the three arrays,
allocated with `cols*rows` zeroed entries and filled by the three body readers
of the file's format, whose return values are not looked at. -/
def read_cel_file_arrays {F : Type} (atof : List Char → F) (of_int : Int → F) (f32 : Nat → F)
    (inflate : List Char → List Char) (magicnumber version_number : Int)
    (file : Option (List Char)) (header : detailed_header_info) :
    Except Err ((Int → RDouble F) × (Int → RDouble F) × (Int → RDouble F)) :=
  let n := header.cols * header.rows
  if n < -2147483648 ∨ 2147483647 < n then .error .undefined_behaviour
  else if n < 0 then .error .cannot_allocate
  else
  match cel_file_format inflate magicnumber version_number file with
  | .error e => .error e
  | .ok .text =>
    match read_cel_file_intensities atof file (filled (of_int 0)) 0 n 1 header.cols with
    | .error e => .error e
    | .ok intensities =>
    match read_cel_file_stddev atof file (filled (of_int 0)) 0 n 1 header.cols with
    | .error e => .error e
    | .ok stddev =>
    match read_cel_file_npixels of_int file (filled (of_int 0)) 0 n 1 header.cols with
    | .error e => .error e
    | .ok npixels => .ok (intensities.intensity, stddev.intensity, npixels.intensity)
  | .ok .gz_text =>
    match read_gzcel_file_intensities atof inflate file (filled (of_int 0)) 0 n 1
        header.cols with
    | .error e => .error e
    | .ok intensities =>
    match read_gzcel_file_stddev atof inflate file (filled (of_int 0)) 0 n 1 header.cols with
    | .error e => .error e
    | .ok stddev =>
    match read_gzcel_file_npixels of_int inflate file (filled (of_int 0)) 0 n 1
        header.cols with
    | .error e => .error e
    | .ok npixels => .ok (intensities.intensity, stddev.intensity, npixels.intensity)
  | .ok .binary =>
    match read_binarycel_file_intensities f32 file (filled (of_int 0)) 0 n 1 header.cols with
    | .error e => .error e
    | .ok intensities =>
    match read_binarycel_file_stddev f32 file (filled (of_int 0)) 0 n 1 header.cols with
    | .error e => .error e
    | .ok stddev =>
    match read_binarycel_file_npixels of_int file (filled (of_int 0)) 0 n 1 header.cols with
    | .error e => .error e
    | .ok npixels => .ok (intensities.2, stddev.2, npixels.2)

/-- Third step of `read_cel_file` (lines 4010-4028): the values of
`my_CEL->nmasks` and `my_CEL->noutliers` after it.  The four pointers of
`my_CEL` are passed by value and are not assigned here; the branch for binary
files is empty. -/
def read_cel_file_masks (inflate : List Char → List Char) (magicnumber version_number : Int)
    (file : Option (List Char)) : Except Err (Int × Int) :=
  match cel_file_format inflate magicnumber version_number file with
  | .error e => .error e
  | .ok .text =>
    match get_masks_outliers file with
    | .error e => .error e
    | .ok r => .ok (r.nmasks, r.noutliers)
  | .ok .gz_text =>
    match gz_get_masks_outliers inflate file with
    | .error e => .error e
    | .ok r => .ok (r.nmasks, r.noutliers)
  | .ok .binary => .ok (0, 0)

/-- Model of `read_cel_file(filename)`: the `CEL` that the returned pointer
points to.  `Calloc(1, CEL)` zeroes the struct, so a pointer member that is
never assigned is `NULL`. -/
def read_cel_file {F : Type} (atof : List Char → F) (of_int : Int → F) (f32 : Nat → F)
    (inflate : List Char → List Char) (magicnumber version_number : Int)
    (file : Option (List Char)) : Except Err (CEL F) :=
  match read_cel_file_header inflate magicnumber version_number file with
  | .error e => .error e
  | .ok header =>
  match read_cel_file_arrays atof of_int f32 inflate magicnumber version_number file
      header with
  | .error e => .error e
  | .ok (intensities, stddev, npixels) =>
  match read_cel_file_masks inflate magicnumber version_number file with
  | .error e => .error e
  | .ok (nmasks, noutliers) =>
    .ok { header := header, intensities := intensities, stddev := stddev,
          npixels := npixels, nmasks := nmasks, noutliers := noutliers,
          masks_x := none, masks_y := none, outliers_x := none, outliers_y := none }

/-! ## The body-reading step of the four drivers
(read_abatch.c, lines 3093-3118, 3489-3518, 3662-3685, 3846-3868) -/

/-- The body of the reading loop of `read_abatch` for file number `i` (lines
3098-3116): the matrix after it. -/
def read_abatch_read_file {F : Type} (atof : List Char → F) (f32 : Nat → F)
    (inflate : List Char → List Char) (magicnumber version_number : Int)
    (file : Option (List Char)) (intensityMatrix : Int → RDouble F)
    (i n_files ref_dim_1 ref_dim_2 : Int) : Except Err (Int → RDouble F) :=
  match cel_file_format inflate magicnumber version_number file with
  | .error e => .error e
  | .ok .text =>
    match read_cel_file_intensities atof file intensityMatrix i (ref_dim_1 * ref_dim_2)
        n_files ref_dim_1 with
    | .error e => .error e
    | .ok r => .ok r.intensity
  | .ok .gz_text =>
    match read_gzcel_file_intensities atof inflate file intensityMatrix i
        (ref_dim_1 * ref_dim_2) n_files ref_dim_1 with
    | .error e => .error e
    | .ok r => .ok r.intensity
  | .ok .binary =>
    match read_binarycel_file_intensities f32 file intensityMatrix i (ref_dim_1 * ref_dim_2)
        n_files ref_dim_1 with
    | .error e => .error e
    | .ok r => if r.1 ≠ 0 then .error .file_corrupted else .ok r.2

/-- The body of the reading loop of `read_abatch_stddev` for file number `i`
(lines 3667-3685). -/
def read_abatch_stddev_read_file {F : Type} (atof : List Char → F) (f32 : Nat → F)
    (inflate : List Char → List Char) (magicnumber version_number : Int)
    (file : Option (List Char)) (intensityMatrix : Int → RDouble F)
    (i n_files ref_dim_1 ref_dim_2 : Int) : Except Err (Int → RDouble F) :=
  match cel_file_format inflate magicnumber version_number file with
  | .error e => .error e
  | .ok .text =>
    match read_cel_file_stddev atof file intensityMatrix i (ref_dim_1 * ref_dim_2)
        n_files ref_dim_1 with
    | .error e => .error e
    | .ok r => .ok r.intensity
  | .ok .gz_text =>
    match read_gzcel_file_stddev atof inflate file intensityMatrix i
        (ref_dim_1 * ref_dim_2) n_files ref_dim_1 with
    | .error e => .error e
    | .ok r => .ok r.intensity
  | .ok .binary =>
    match read_binarycel_file_stddev f32 file intensityMatrix i (ref_dim_1 * ref_dim_2)
        n_files ref_dim_1 with
    | .error e => .error e
    | .ok r => if r.1 ≠ 0 then .error .file_corrupted else .ok r.2

/-- The body of the reading loop of `read_abatch_npixels` for file number `i`
(lines 3850-3868). -/
def read_abatch_npixels_read_file {F : Type} (of_int : Int → F)
    (inflate : List Char → List Char) (magicnumber version_number : Int)
    (file : Option (List Char)) (intensityMatrix : Int → RDouble F)
    (i n_files ref_dim_1 ref_dim_2 : Int) : Except Err (Int → RDouble F) :=
  match cel_file_format inflate magicnumber version_number file with
  | .error e => .error e
  | .ok .text =>
    match read_cel_file_npixels of_int file intensityMatrix i (ref_dim_1 * ref_dim_2)
        n_files ref_dim_1 with
    | .error e => .error e
    | .ok r => .ok r.intensity
  | .ok .gz_text =>
    match read_gzcel_file_npixels of_int inflate file intensityMatrix i
        (ref_dim_1 * ref_dim_2) n_files ref_dim_1 with
    | .error e => .error e
    | .ok r => .ok r.intensity
  | .ok .binary =>
    match read_binarycel_file_npixels of_int file intensityMatrix i (ref_dim_1 * ref_dim_2)
        n_files ref_dim_1 with
    | .error e => .error e
    | .ok r => if r.1 ≠ 0 then .error .file_corrupted else .ok r.2

/-- The body of the reading loop of `read_probeintensities` for one file
(lines 3494-3516), up to the call of `storeIntensities`: the matrix
`CurintensityMatrix` that is handed to `storeIntensities`. -/
def read_probeintensities_read_file {F : Type} (atof : List Char → F) (f32 : Nat → F)
    (inflate : List Char → List Char) (magicnumber version_number : Int)
    (file : Option (List Char)) (CurintensityMatrix : Int → RDouble F)
    (n_files ref_dim_1 ref_dim_2 : Int) : Except Err (Int → RDouble F) :=
  match cel_file_format inflate magicnumber version_number file with
  | .error e => .error e
  | .ok .text =>
    match read_cel_file_intensities atof file CurintensityMatrix 0 (ref_dim_1 * ref_dim_2)
        n_files ref_dim_1 with
    | .error e => .error e
    | .ok r => if r.ret ≠ 0 then .error .cel_file_corrupted else .ok r.intensity
  | .ok .gz_text =>
    match read_gzcel_file_intensities atof inflate file CurintensityMatrix 0
        (ref_dim_1 * ref_dim_2) n_files ref_dim_1 with
    | .error e => .error e
    | .ok r => if r.ret ≠ 0 then .error .cel_file_corrupted else .ok r.intensity
  | .ok .binary =>
    match read_binarycel_file_intensities f32 file CurintensityMatrix 0
        (ref_dim_1 * ref_dim_2) n_files ref_dim_1 with
    | .error e => .error e
    | .ok r => .ok r.2

/-! ## Example inputs, third part -/

/-- A binary CEL file of the 2x2 chip that ends after its second record: the
header announces four cells. -/
def example_binary_truncated : List Char :=
  example_binary 2 2 (example_records_4.take 2) [] []

/-- A multi-channel file of a 2x2 chip with two data groups, each holding the
data sets "Intensity", "StdDev", "Pixel", "Outlier" and "Mask" in this order.
The first group lists the outlier cell (1, 1) and the masked cell (0, 1), the
second the outlier cells (0, 0) and (1, 0) and the masked cell (1, 1). -/
def example_two_channels : generic_file :=
  { example_generic 100
      [(100, .group 1000 5 "Channel1".toList 30),
       (130, .table "Intensity".toList 50 80 [[1, 2, 3, 4]]),
       (260, .data_set "StdDev".toList 50 80), (390, .data_set "Pixel".toList 50 80),
       (520, .table "Outlier".toList 50 80 [[1], [1]]),
       (650, .table "Mask".toList 50 80 [[0], [1]]),
       (1000, .group 0 5 "Channel2".toList 30),
       (1030, .table "Intensity".toList 50 80 [[5, 6, 7, 8]]),
       (1160, .data_set "StdDev".toList 50 80), (1290, .data_set "Pixel".toList 50 80),
       (1420, .table "Outlier".toList 50 80 [[0, 1], [0, 0]]),
       (1550, .table "Mask".toList 50 80 [[1], [1]])] with
    affymetrix_cel_rows := 2 }

/-- A file with one data group whose "Outlier" data set has no rows and whose
"Mask" data set lists the cell (0, 1). -/
def example_mask_only : generic_file :=
  { example_generic 100
      [(100, .group 0 5 "Channel1".toList 30),
       (130, .table "Intensity".toList 50 80 [[1, 2, 3, 4]]),
       (260, .data_set "StdDev".toList 50 80), (390, .data_set "Pixel".toList 50 80),
       (520, .table "Outlier".toList 50 80 [[], []]),
       (650, .table "Mask".toList 50 80 [[0], [1]])] with
    affymetrix_cel_rows := 2 }

/-- The `AlgorithmParameters=` line of the example headers. -/
def example_parameters : List Char :=
  "AlgorithmParameters=Percentile:75;CellMargin:2\n".toList

/-- The header lines of a 2x2 chip in the order in which CEL files hold them,
with the given `DatHeader=` and `AlgorithmParameters=` lines. -/
def example_header_lines (datheader parameters : List Char) : List (List Char) :=
  ["Cols=2\n".toList, "Rows=2\n".toList, "TotalX=2\n".toList, "TotalY=2\n".toList,
   "OffsetX=0\n".toList, "OffsetY=0\n".toList,
   "GridCornerUL=219 235\n".toList, "GridCornerUR=4484 253\n".toList,
   "GridCornerLR=4470 4518\n".toList, "GridCornerLL=205 4501\n".toList,
   "Axis-invertX=0\n".toList, "AxisInvertY=0\n".toList, "swapXY=0\n".toList,
   datheader, "Algorithm=Percentile\n".toList, parameters]

/-- A short `DatHeader=` line on which the token "HG_U95Av2.1sq" stands
between spaces. -/
def example_datheader_short : List Char :=
  "DatHeader=[0..46111]  t1:CLS=4733 \x14 HG_U95Av2.1sq \x14 6\n".toList

/-- A `DatHeader=` line on which the token that ends in ".1sq" follows the
'=' directly. -/
def example_datheader_glued : List Char :=
  "DatHeader=HG_U95Av2.1sq \x14 6\n".toList

/-- A complete text CEL file of the 2x2 chip with the given header lines, the
masked cell (0, 1) and the outlier cell (1, 1). -/
def example_detailed_text (lines : List (List Char)) : List Char :=
  "[CEL]\nVersion=3\n\n[HEADER]\n".toList ++ (lines.flatten ++
    ("\n[INTENSITY]\n".toList ++ example_body 2 4 example_masks))

/-- A binary CEL file (version 4) of the 2x2 chip whose header blob consists
of the given header lines, with the mask entry (0, 1) and the outlier entry
(1, 1). -/
def example_detailed_binary (lines : List (List Char)) : List Char :=
  le_bytes 4 64 ++ le_bytes 4 4 ++ le_bytes 4 2 ++ le_bytes 4 2 ++ le_bytes 4 4
    ++ le_bytes 4 lines.flatten.length ++ lines.flatten
    ++ le_bytes 4 10 ++ "Percentile".toList
    ++ le_bytes 4 27 ++ "Percentile:75;CellMargin:2\n".toList
    ++ le_bytes 4 2 ++ le_bytes 4 1 ++ le_bytes 4 1 ++ le_bytes 4 0
    ++ (example_records_4.map example_record).flatten
    ++ example_loc (0, 1) ++ example_loc (1, 1)

/-- The header lines of the example chip. -/
def example_lines : List (List Char) :=
  example_header_lines example_datheader_short example_parameters

/-- A text CEL file of the 2x2 chip whose fourth data line names the cell
(5, 0), which the chip does not have. -/
def example_text_x5 : List Char :=
  example_text 2 3 ("  5\t  0\t9.0\t0.9\t 90\n".toList ++ example_masks)

/-- An `AlgorithmParameters=` line whose value holds a '='. -/
def example_parameters_eq : List Char :=
  "AlgorithmParameters=Percentile:75;CellMargin=2\n".toList

/-- The header lines of the example chip with the `AlgorithmParameters=` line
whose value holds a '='. -/
def example_lines_eq : List (List Char) :=
  example_header_lines example_datheader_short example_parameters_eq

/-- The header that `read_binary_header` builds from
`example_detailed_binary lines` when the stream is not handed back. -/
def example_detailed_header (lines : List (List Char)) : binary_header :=
  { magic_number := 64, version_number := 4, cols := 2, rows := 2, n_cells := 4,
    header_len := lines.flatten.length, header := lines.flatten,
    alg_len := 10, algorithm := "Percentile".toList,
    alg_param_len := 27, alg_param := "Percentile:75;CellMargin:2\n".toList,
    celmargin := 2, n_outliers := 1, n_masks := 1, n_subgrids := 0,
    infile := none }

/-- The header lines of the example chip with a second `GridCornerUL=` line
after the `AlgorithmParameters=` line. -/
def example_lines_twice : List (List Char) :=
  example_lines ++ ["GridCornerUL=1 2\n".toList]

/-- The header lines of the example chip with the two lower grid corners in
the other order. -/
def example_lines_swapped : List (List Char) :=
  ["Cols=2\n".toList, "Rows=2\n".toList,
   "GridCornerUL=219 235\n".toList, "GridCornerUR=4484 253\n".toList,
   "GridCornerLL=205 4501\n".toList, "GridCornerLR=4470 4518\n".toList,
   example_datheader_short, "Algorithm=Percentile\n".toList, example_parameters]

/-- The header lines of the example chip with the `DatHeader=` line on which
the token that ends in ".1sq" follows the '=' directly. -/
def example_lines_glued : List (List Char) :=
  example_header_lines example_datheader_glued example_parameters

/-- The end of a text file whose `[MASKS]` section announces two cells and
lists one: the blank line that ends the section is read as second coordinate
line. -/
def example_masks_one_of_two : List Char :=
  ("\n[MASKS]\nNumberCells=2\nCellHeader=X\tY\n0\t1\n\n" ++
   "[OUTLIERS]\nNumberCells=1\nCellHeader=X\tY\n1\t1\n").toList

/-- The end of a text file whose `[MASKS]` section lists a coordinate line
with one number. -/
def example_masks_one_token : List Char :=
  ("\n[MASKS]\nNumberCells=1\nCellHeader=X\tY\n5\n\n" ++
   "[OUTLIERS]\nNumberCells=1\nCellHeader=X\tY\n1\t1\n").toList

/-- The end of a text file that stops after "NumberCells=" in `[MASKS]`. -/
def example_masks_cut : List Char := "\n[MASKS]\nNumberCells=".toList

/-- The end of a text file whose `[MASKS]` section has a `NumberCells=` line
without value and no coordinate line. -/
def example_masks_no_value : List Char :=
  ("\n[MASKS]\nNumberCells=\nCellHeader=X\tY\n\n" ++
   "[OUTLIERS]\nNumberCells=1\nCellHeader=X\tY\n1\t1\n").toList

/-- The end of a text file whose `[OUTLIERS]` section announces two cells and
ends after the first. -/
def example_masks_short_end : List Char :=
  ("\n[MASKS]\nNumberCells=1\nCellHeader=X\tY\n0\t1\n" ++
   "[OUTLIERS]\nNumberCells=2\nCellHeader=X\tY\n1\t1\n").toList

/-! ## Vocabulary of the statements, third part -/

/-- The maximal non-empty substrings of `s` that contain no character of `d`,
from left to right, in the words of the specification: the pieces into which
the delimiter characters cut `s`, the empty pieces left out. -/
def maximal_runs (d : List Char) (s : List Char) : List (List Char) :=
  (s.splitOnP (fun c => d.contains c)).filter (fun piece => !piece.isEmpty)

/-- The first of the lines `lines` that starts with `key`, together with the
lines after it. -/
def first_line_with (key : List Char) : List (List Char) → Option (List Char × List (List Char))
  | [] => none
  | l :: later => if key <+: l then some (l, later) else first_line_with key later

/-- The lines at which a reader stops that looks for a line starting with the
first key, from there on for a line starting with the second key, and so on;
`none` if one of the keys is not found. -/
def scan_keys : List (List Char) → List (List Char) → Option (List (List Char))
  | [], _ => some []
  | key :: keys, lines =>
    match first_line_with key lines with
    | none => none
    | some (l, later) =>
      match scan_keys keys later with
      | none => none
      | some found => some (l :: found)

/-- The keys that `get_detailed_header_info` looks for, in its order. -/
def detailed_header_keys : List (List Char) :=
  ["Cols".toList, "Rows".toList, "GridCornerUL".toList, "GridCornerUR".toList,
   "GridCornerLR".toList, "GridCornerLL".toList, "DatHeader".toList, "Algorithm".toList,
   "AlgorithmParameters".toList]

/-- The part of the detailed header that the readers of the three encodings
are compared on: `cols`, `rows`, the four grid corners (upper left, upper
right, lower right, lower left) and the chip name. -/
def compared_fields (h : detailed_header_info) :
    Int × Int × List (Int × Int) × Option (List Char) :=
  (h.cols, h.rows,
   [(h.GridCornerULx, h.GridCornerULy), (h.GridCornerURx, h.GridCornerURy),
    (h.GridCornerLRx, h.GridCornerLRy), (h.GridCornerLLx, h.GridCornerLLy)],
   h.cdfName)

/-! ## Vocabulary of the statements, fourth part -/

/-- A piece of a line that fills the buffer of one `ReadFileLine` call:
`BUF_SIZE - 1` characters without newline and NUL. -/
def isFullChunk (c : List Char) : Bool :=
  decide (c.length = BUF_SIZE - 1) && !c.contains '\n' && !c.contains (Char.ofNat 0)

/-- What one `ReadFileLine` call delivers from inside a file: a whole line that
fits the buffer, or a piece of a longer line that fills the buffer. -/
def isChunk (c : List Char) : Bool :=
  isLine c || isFullChunk c

/-- The position after the characters `consumed` is the start of a physical
line: nothing was consumed, or the last character consumed is a newline. -/
def at_line_start (consumed : List Char) : Bool :=
  consumed.isEmpty || consumed.getLast? == some '\n'

/-- A line of 1030 characters: 1023 times 'x', then "Cols=9" and the newline. -/
def example_long_line : List Char :=
  List.replicate 1023 'x' ++ "Cols=9\n".toList

/-! ## Generic multi-channel files: the standard deviation and pixel readers
(read_multichannel_celfile_generic.c, lines 266-390) -/

/-- Model of `read_genericcel_file_stddev_multichannel(filename, intensity,
chip_num, rows, cols, chip_dim_rows, channelindex)`: the return value and the
matrix.  Its copy loop (lines 308-310) is the statement of the intensity
reader (lines 251-253). -/
def read_genericcel_file_stddev_multichannel {F : Type} (f32 : Nat → F)
    (file : Option generic_file) (intensity : Int → RDouble F)
    (chip_num rows cols chip_dim_rows channelindex : Int) :
    Except Err (Int × (Int → RDouble F)) :=
  match file with
  | none => .error .could_not_open
  | some infile =>
    let pos := infile.read_generic_data_header (infile.read_generic_file_header 0)
    let pos := multichannel_skip_groups infile channelindex.toNat pos
    let my_data_group := infile.read_generic_data_group pos
    let pos := generic_pass_data_set infile my_data_group.2
    let my_data_set := infile.read_generic_data_set pos
    let my_data_set : generic_data_set :=
      { my_data_set.1 with
        Data := infile.read_generic_data_set_rows_Data my_data_set.1 my_data_set.2 }
    match read_genericcel_file_intensities_multichannel_loop f32 chip_num my_data_set
        my_data_set.nrows.toNat 0 intensity with
    | .error e => .error e
    | .ok intensity => .ok (0, intensity)

/-- The `for (i=0; i < my_data_set.nrows; i++)` loop of
`read_genericcel_file_npixels_multichannel` (lines 375-377), which converts
`short` values; the first argument is the number of iterations still to run. -/
def read_genericcel_file_npixels_multichannel_loop {F : Type} (of_int : Int → F)
    (chip_num : Int) (my_data_set : generic_data_set) :
    Nat → Int → (Int → RDouble F) → Except Err (Int → RDouble F)
  | 0, _, intensity => .ok intensity
  | n + 1, i, intensity =>
    match Data_at my_data_set.Data 0 i.toNat with
    | .error e => .error e
    | .ok v =>
      read_genericcel_file_npixels_multichannel_loop of_int chip_num my_data_set n (i + 1)
        (Function.update intensity (chip_num * my_data_set.nrows + i) (RDouble.num (of_int v)))

/-- Model of `read_genericcel_file_npixels_multichannel(filename, intensity,
chip_num, rows, cols, chip_dim_rows, channelindex)`: the return value and the
matrix. -/
def read_genericcel_file_npixels_multichannel {F : Type} (of_int : Int → F)
    (file : Option generic_file) (intensity : Int → RDouble F)
    (chip_num rows cols chip_dim_rows channelindex : Int) :
    Except Err (Int × (Int → RDouble F)) :=
  match file with
  | none => .error .could_not_open
  | some infile =>
    let pos := infile.read_generic_data_header (infile.read_generic_file_header 0)
    let pos := multichannel_skip_groups infile channelindex.toNat pos
    let my_data_group := infile.read_generic_data_group pos
    let pos := generic_pass_data_set infile my_data_group.2
    let pos := generic_pass_data_set infile pos
    let my_data_set := infile.read_generic_data_set pos
    let my_data_set : generic_data_set :=
      { my_data_set.1 with
        Data := infile.read_generic_data_set_rows_Data my_data_set.1 my_data_set.2 }
    match read_genericcel_file_npixels_multichannel_loop of_int chip_num my_data_set
        my_data_set.nrows.toNat 0 intensity with
    | .error e => .error e
    | .ok intensity => .ok (0, intensity)

/-- The read position of the `j`-th data set (from 0) of a data group whose
first data set starts at `first`: each earlier data set is read and passed by
seeking to its `file_pos_last`. -/
def data_set_position (infile : generic_file) (first : Nat) : Nat → Nat
  | 0 => first
  | j + 1 => generic_pass_data_set infile (data_set_position infile first j)

/-- The `j`-th data set (from 0) of the `k`-th data group (from 0) of a file,
with its rows read: the groups are reached through their next-group offsets,
the data sets by position. -/
def channel_data_set (infile : generic_file) (k j : Nat) : generic_data_set :=
  let first := (infile.read_generic_data_group
    (group_position infile
      (infile.read_generic_data_header (infile.read_generic_file_header 0)) k)).2
  let my_data_set := infile.read_generic_data_set (data_set_position infile first j)
  { my_data_set.1 with
    Data := infile.read_generic_data_set_rows_Data my_data_set.1 my_data_set.2 }

/-- A multi-channel file of a 2x2 chip with two data groups whose "StdDev" and
"Pixel" data sets hold values. -/
def example_two_channels_full : generic_file :=
  example_generic 100
    [(100, .group 1000 5 "Channel1".toList 30),
     (130, .table "Intensity".toList 50 80 [[1, 2, 3, 4]]),
     (260, .table "StdDev".toList 50 80 [[11, 12, 13, 14]]),
     (390, .table "Pixel".toList 50 80 [[21, 22, 23, 24]]),
     (520, .table "Outlier".toList 50 80 [[1], [1]]),
     (650, .table "Mask".toList 50 80 [[0], [1]]),
     (1000, .group 0 5 "Channel2".toList 30),
     (1030, .table "Intensity".toList 50 80 [[5, 6, 7, 8]]),
     (1160, .table "StdDev".toList 50 80 [[15, 16, 17, 18]]),
     (1290, .table "Pixel".toList 50 80 [[25, 26, 27, 28]]),
     (1420, .table "Outlier".toList 50 80 [[0, 1], [0, 0]]),
     (1550, .table "Mask".toList 50 80 [[1], [1]])]

/-! ## Probe-level matrices (read_abatch.c, lines 2052-2102) -/

/-- One element of the `cdfInfo` list: an R matrix of probe indices.  `nrow` is
`INTEGER(getAttrib(curIndices, R_DimSymbol))[0]`, `index` holds the values
`(int)cur_index[k]` of the matrix data in storage (column-major) order. -/
structure probeset where
  nrow : Int
  index : List Int
  deriving DecidableEq, Repr

/-- The `for` loop of `CountCDFProbes` (lines 2058-2060) with the running
`n_probes`. -/
def CountCDFProbes_loop : List probeset → Int → Int
  | [], n_probes => n_probes
  | p :: rest, n_probes => CountCDFProbes_loop rest (n_probes + p.nrow)

/-- Model of `CountCDFProbes(cdfInfo)`. -/
def CountCDFProbes (cdfInfo : List probeset) : Int :=
  CountCDFProbes_loop cdfInfo 0

/-- Model of the read `(int)cur_index[k]`; an element past the end of the
matrix data is undefined. -/
def cur_index_at (cur_index : List Int) (k : Int) : Except Err Int :=
  match cur_index.get? k.toNat with
  | none => .error .undefined_behaviour
  | some v => .ok v

/-- The inner loop `for (j=0; j < n_probes; j++)` of `storeIntensities`
(lines 2092-2100); the first argument is the number of iterations still to
run, the result is `currow` and the two matrices. -/
def storeIntensities_probes {F : Type} (CurintensityMatrix : Int → RDouble F)
    (curcol tot_n_probes which n_probes : Int) (cur_index : List Int) :
    Nat → Int → Int → (Int → RDouble F) → (Int → RDouble F) →
      Except Err (Int × (Int → RDouble F) × (Int → RDouble F))
  | 0, _, currow, pmMatrix, mmMatrix => .ok (currow, pmMatrix, mmMatrix)
  | n + 1, j, currow, pmMatrix, mmMatrix =>
    match (if which ≥ 0 then
        match cur_index_at cur_index j with
        | .error e => .error e
        | .ok v =>
          .ok (Function.update pmMatrix (curcol * tot_n_probes + currow)
            (CurintensityMatrix (v - 1)))
      else .ok pmMatrix : Except Err (Int → RDouble F)) with
    | .error e => .error e
    | .ok pmMatrix =>
      match (if which ≤ 0 then
          match cur_index_at cur_index (j + n_probes) with
          | .error e => .error e
          | .ok v =>
            .ok (Function.update mmMatrix (curcol * tot_n_probes + currow)
              (CurintensityMatrix (v - 1)))
        else .ok mmMatrix : Except Err (Int → RDouble F)) with
      | .error e => .error e
      | .ok mmMatrix =>
        storeIntensities_probes CurintensityMatrix curcol tot_n_probes which n_probes
          cur_index n (j + 1) (currow + 1) pmMatrix mmMatrix

/-- The outer loop `for (i=0; i < n_probesets; i++)` of `storeIntensities`
(lines 2087-2101) over the remaining probesets. -/
def storeIntensities_loop {F : Type} (CurintensityMatrix : Int → RDouble F)
    (curcol tot_n_probes which : Int) :
    List probeset → Int → (Int → RDouble F) → (Int → RDouble F) →
      Except Err ((Int → RDouble F) × (Int → RDouble F))
  | [], _, pmMatrix, mmMatrix => .ok (pmMatrix, mmMatrix)
  | curIndices :: rest, currow, pmMatrix, mmMatrix =>
    match storeIntensities_probes CurintensityMatrix curcol tot_n_probes which
        curIndices.nrow curIndices.index curIndices.nrow.toNat 0 currow pmMatrix mmMatrix with
    | .error e => .error e
    | .ok (currow, pmMatrix, mmMatrix) =>
      storeIntensities_loop CurintensityMatrix curcol tot_n_probes which rest currow
        pmMatrix mmMatrix

/-- Model of `storeIntensities(CurintensityMatrix, pmMatrix, mmMatrix, curcol,
rows, cols, tot_n_probes, cdfInfo, which)`: the two matrices after the call. -/
def storeIntensities {F : Type} (CurintensityMatrix pmMatrix mmMatrix : Int → RDouble F)
    (curcol rows cols tot_n_probes : Int) (cdfInfo : List probeset) (which : Int) :
    Except Err ((Int → RDouble F) × (Int → RDouble F)) :=
  storeIntensities_loop CurintensityMatrix curcol tot_n_probes which cdfInfo 0
    pmMatrix mmMatrix

/-- The `which_flag` of `read_probeintensities` (lines 3406-3412): 1 for "pm",
-1 for "mm", 0 for anything else. -/
def which_flag (which : List Char) : Int :=
  if which = "pm".toList then 1
  else if which = "mm".toList then -1
  else 0

/-- The store step of `read_probeintensities` for chip `i` (lines 3463 and
3496/3502/3508): `num_probes = CountCDFProbes(cdfInfo)` is passed as
`tot_n_probes`. -/
def read_probeintensities_store {F : Type}
    (CurintensityMatrix pmMatrix mmMatrix : Int → RDouble F)
    (i ref_dim_1 ref_dim_2 n_files : Int) (cdfInfo : List probeset) (which : List Char) :
    Except Err ((Int → RDouble F) × (Int → RDouble F)) :=
  let num_probes := CountCDFProbes cdfInfo
  storeIntensities CurintensityMatrix pmMatrix mmMatrix i (ref_dim_1 * ref_dim_2) n_files
    num_probes cdfInfo (which_flag which)

/-- A `cdfInfo` list with a probeset of two probes (PM cells 1 and 2, MM cells
5 and 6) and a probeset of one probe (PM cell 4, MM cell 8). -/
def example_cdfInfo : List probeset :=
  [{ nrow := 2, index := [1, 2, 5, 6] }, { nrow := 1, index := [4, 8] }]

/-- A chip of eight cells holding 10, 20, ..., 80. -/
def example_chip : Int → RDouble Int :=
  fun p => .num (10 * (p + 1))

/-! ## Byte swaps of the read primitives on a big-endian host
(read_abatch.c, lines 2160-2242, the code under `#ifdef WORDS_BIGENDIAN`)

A C `int` or `short` is its mathematical value; `>>` on a signed value is the
arithmetic shift `Int.shiftRight`, `&` and `|` are `Int.land` and `Int.lor` on
the two's complement bit patterns, and the value stored back into the `int`
(`short`) is the 32-bit (16-bit) two's complement value of the expression. -/

/-- The statement `*destination=(((*destination>>24)&0xff) |
((*destination&0xff)<<24) | ((*destination>>8)&0xff00) |
((*destination&0xff00)<<8));` of `fread_int32` (lines 2170-2171). -/
def swap_int32 (destination : Int) : Int :=
  wrap32
    (Int.lor
      (Int.lor
        (Int.lor (Int.land (destination >>> (24 : Nat)) 0xff)
          (Int.land destination 0xff <<< (24 : Int)))
        (Int.land (destination >>> (8 : Nat)) 0xff00))
      (Int.land destination 0xff00 <<< (8 : Int)))

/-- The statement `*destination=(((*destination>>8)&0xff) |
((*destination&0xff)<<8));` of `fread_int16` (line 2209); the `short` is
promoted to `int` and the result converted back to `short`. -/
def swap_int16 (destination : Int) : Int :=
  wrap16
    (Int.lor (Int.land (destination >>> (8 : Nat)) 0xff)
      (Int.land destination 0xff <<< (8 : Int)))

/-- Model of `swap_float_4(tnf4)` (lines 2218-2223): the 32-bit pattern of the
`float` is read as an `int` through `int *tni4=(int *)tnf4`, swapped by the
statement of `fread_int32` and stored back. -/
def swap_float_4 (tnf4 : Nat) : Nat :=
  (swap_int32 (wrap32 (tnf4 : Int)) % 4294967296).toNat

/-- Byte `i` (from the least significant one) of the two's complement pattern
of `v`. -/
def byte_of (v : Int) (i : Nat) : Int :=
  v / 256 ^ i % 256

/-! ## Example files with lines longer than the buffer -/

/-- The data line of cell (0, 0) of the example chip with 1010 blanks before
its newline: a line of 1030 characters with six tokens (the last one is
the newline). -/
def example_long_data_line : List Char :=
  "  0\t  0\t1.0\t0.1\t 10".toList ++ List.replicate 1010 ' ' ++ "\n".toList

/-- The four data lines of the 2x2 chip, the first one 1030 characters long. -/
def example_data_long : List (List Char) :=
  example_long_data_line :: (example_data.take 4).drop 1

/-- The text CEL file of the 2x2 chip whose first data line is 1030 characters
long. -/
def example_text_long_line : List Char :=
  example_header 2 ++ ("[INTENSITY]\n".toList ++
    (example_intensity_head 2 ++ (example_data_long.flatten ++ example_masks)))

/-- A coordinate line of 1027 characters: the cell (0, 0), 1020 blanks, and
the further tokens "1" and "1". -/
def example_long_coordinate_line : List Char :=
  "0\t0".toList ++ List.replicate 1020 ' ' ++ "1\t1\n".toList

/-- The coordinate lines of a `[MASKS]` section that lists the cells (0, 0),
on the line of 1027 characters, and (0, 1). -/
def example_mask_lines_long : List (List Char) :=
  [example_long_coordinate_line, "0\t1\n".toList]

/-- The end of a text file whose `[MASKS]` section announces and lists the two
coordinate lines of `example_mask_lines_long` and whose `[OUTLIERS]` section
lists the cell (1, 0). -/
def example_masks_long_line : List Char :=
  "\n[MASKS]\nNumberCells=2\nCellHeader=X\tY\n".toList ++
    (example_mask_lines_long.flatten ++
     "\n[OUTLIERS]\nNumberCells=1\nCellHeader=X\tY\n1\t0\n".toList)

/-- The lines of a text file whose fourth line consists of 1023 times 'y'
followed by "[HEADER]"; no line starts with "[HEADER]". -/
def example_no_header_lines : List (List Char) :=
  ["[CEL]\n".toList, "Version=3\n".toList, "\n".toList,
   List.replicate 1023 'y' ++ "[HEADER]\n".toList,
   "Cols=2\n".toList, "Rows=2\n".toList, "TotalX=2\n".toList, "TotalY=2\n".toList,
   example_datheader, "Algorithm=Percentile\n".toList, "\n".toList]

/-- The text file that consists of the lines `example_no_header_lines`. -/
def example_no_header_line : List Char :=
  example_no_header_lines.flatten

/-- The complete text CEL file of the example chip with 2 columns and 3 rows
whose header says "Cols=4294967298". -/
def example_text_big_cols : List Char :=
  "[CEL]\nVersion=3\n\n[HEADER]\nCols=4294967298\nRows=3\nTotalX=2\nTotalY=3\n".toList ++
    (example_datheader ++ ("Algorithm=Percentile\n\n".toList ++
      ("[INTENSITY]\n".toList ++ example_body 3 6 example_masks)))

/-! # Theorems -/

/-! ## General lemmas: reading lines -/

theorem cstr_eq_self (l : List Char) (h : Char.ofNat 0 ∉ l) : cstr l = l := by
  unfold cstr
  rw [List.takeWhile_eq_self_iff]
  intro c hc
  have : c ≠ Char.ofNat 0 := fun e => h (e ▸ hc)
  simpa using this

theorem fgets_take_line (b rest : List Char) (hb : '\n' ∉ b) :
    ∀ n, b.length < n → fgets_take n (b ++ '\n' :: rest) = (b ++ ['\n'], rest) := by
  induction b with
  | nil =>
    intro n hn
    cases n with
    | zero => simp at hn
    | succ n => simp [fgets_take]
  | cons c b ih =>
    intro n hn
    cases n with
    | zero => simp at hn
    | succ n =>
      have hc : c ≠ '\n' := fun e => hb (by simp [e])
      have hb2 : '\n' ∉ b := fun e => hb (by simp [e])
      have := ih hb2 n (by simpa using hn)
      simp [fgets_take, hc, this]

theorem fgets_take_unterminated (b : List Char) (hb : '\n' ∉ b) :
    ∀ n, b.length ≤ n → fgets_take n b = (b, []) := by
  induction b with
  | nil => intro n _; cases n <;> simp [fgets_take]
  | cons c b ih =>
    intro n hn
    cases n with
    | zero => simp at hn
    | succ n =>
      have hc : c ≠ '\n' := fun e => hb (by simp [e])
      have hb2 : '\n' ∉ b := fun e => hb (by simp [e])
      have := ih hb2 n (by simpa using hn)
      simp [fgets_take, hc, this]

theorem fgets_of_ne_nil (size : Nat) (s : List Char) (h : s ≠ []) :
    fgets size s = some (fgets_take (size - 1) s) := by
  cases s with
  | nil => exact absurd rfl h
  | cons c t => rfl

theorem isLine_split {l : List Char} (h : isLine l = true) :
    ∃ b, l = b ++ ['\n'] ∧ '\n' ∉ b ∧ Char.ofNat 0 ∉ l ∧ l.length < BUF_SIZE := by
  simp only [isLine, Bool.and_eq_true, beq_iff_eq, Bool.not_eq_true', decide_eq_true_eq] at h
  obtain ⟨⟨⟨h1, h2⟩, h3⟩, h4⟩ := h
  refine ⟨l.dropLast, ?_, ?_, ?_, h4⟩
  · have hne : l ≠ [] := by rintro rfl; simp at h1
    have := List.dropLast_append_getLast hne
    rw [List.getLast?_eq_getLast _ hne] at h1
    simp only [Option.some.injEq] at h1
    rw [h1] at this; exact this.symm
  · simpa using h2
  · simpa using h3

theorem ReadFileLine_line {l : List Char} (h : isLine l = true) (rest : List Char) :
    ReadFileLine BUF_SIZE (l ++ rest) = .ok (l, rest) := by
  obtain ⟨b, rfl, hb, h0, hlen⟩ := isLine_split h
  have hne : (b ++ ['\n']) ++ rest = b ++ '\n' :: rest := by simp
  rw [hne]
  have hlen2 : b.length < BUF_SIZE - 1 := by simp [BUF_SIZE] at hlen ⊢; omega
  have hf : fgets BUF_SIZE (b ++ '\n' :: rest) = some (b ++ ['\n'], rest) := by
    rw [fgets_of_ne_nil _ _ (by simp), fgets_take_line b rest hb _ hlen2]
  simp [ReadFileLine, hf, cstr_eq_self _ h0]

theorem ReadFileLine_unterminated {l : List Char} (h : isPartialLine l = true) :
    ReadFileLine BUF_SIZE l = .ok (l, []) := by
  simp only [isPartialLine, Bool.and_eq_true, Bool.not_eq_true', decide_eq_true_eq] at h
  obtain ⟨⟨⟨h1, h2⟩, h3⟩, h4⟩ := h
  have hn : '\n' ∉ l := by simpa using h2
  have h0 : Char.ofNat 0 ∉ l := by simpa using h3
  have hne : l ≠ [] := by rintro rfl; simp at h1
  have hf : fgets BUF_SIZE l = some (l, []) := by
    rw [fgets_of_ne_nil _ _ hne, fgets_take_unterminated l hn _ (by simp [BUF_SIZE] at h4 ⊢; omega)]
  simp [ReadFileLine, hf, cstr_eq_self _ h0]

theorem ReadFileLine_nil : ReadFileLine BUF_SIZE [] = .error .eof_unexpected := rfl

theorem Char_toNat_inj {a b : Char} (h : a.toNat = b.toNat) : a = b := by
  rw [← Char.ofNat_toNat a, ← Char.ofNat_toNat b, h]

theorem Char_toNat_ne_zero {a : Char} (h : a ≠ Char.ofNat 0) : a.toNat ≠ 0 := by
  intro e
  apply h
  rw [← Char.ofNat_toNat a, e]

theorem strncmp_eq_zero_iff (a : List Char) (ha : Char.ofNat 0 ∉ a) :
    ∀ b : List Char, strncmp a b a.length = 0 ↔ a <+: b := by
  induction a with
  | nil => intro b; simp [strncmp]
  | cons x as ih =>
    intro b
    have hx : x ≠ Char.ofNat 0 := fun e => ha (by simp [e])
    have has : Char.ofNat 0 ∉ as := fun e => ha (by simp [e])
    cases b with
    | nil =>
      have := Char_toNat_ne_zero hx
      simp only [List.length_cons, strncmp]
      constructor
      · intro h; exact absurd (by exact_mod_cast h) this
      · intro h; simp at h
    | cons y bs =>
      simp only [List.length_cons, strncmp]
      by_cases hxy : x = y
      · subst hxy
        simp [ih has bs, List.cons_prefix_cons]
      · have hne : (x.toNat : Int) - (y.toNat : Int) ≠ 0 := by
          intro e
          apply hxy
          apply Char_toNat_inj
          omega
        simp [hxy, hne, List.cons_prefix_cons]

theorem isLine_ne_nil {l : List Char} (h : isLine l = true) : l ≠ [] := by
  obtain ⟨b, rfl, -⟩ := isLine_split h
  simp

theorem length_le_length_flatten (lines : List (List Char)) (h : ∀ l ∈ lines, l ≠ []) :
    lines.length ≤ lines.flatten.length := by
  induction lines with
  | nil => simp
  | cons l ls ih =>
    have h1 : l ≠ [] := h l (by simp)
    have h2 := ih (fun x hx => h x (by simp [hx]))
    have h3 : 0 < l.length := List.length_pos.mpr h1
    simp only [List.flatten_cons, List.length_append, List.length_cons]
    omega

theorem findStartsWith_loop_skip (starts : List Char) (hs : Char.ofNat 0 ∉ starts)
    (pre : List (List Char)) (hpre : ∀ l ∈ pre, isLine l = true ∧ ¬ starts <+: l)
    (rest : List Char) :
    ∀ fuel, findStartsWith_loop starts (pre.length + fuel) (pre.flatten ++ rest)
      = findStartsWith_loop starts fuel rest := by
  induction pre with
  | nil => intro fuel; simp
  | cons l ls ih =>
    intro fuel
    have hl := hpre l (by simp)
    have hls : ∀ x ∈ ls, isLine x = true ∧ ¬ starts <+: x := fun x hx => hpre x (by simp [hx])
    have hnm : strncmp starts l starts.length ≠ 0 := by
      rw [Ne, strncmp_eq_zero_iff starts hs]; exact hl.2
    have e1 : (l :: ls).length + fuel = (ls.length + fuel) + 1 := by simp; omega
    have e2 : (l :: ls).flatten ++ rest = l ++ (ls.flatten ++ rest) := by simp
    rw [e1, e2, findStartsWith_loop, ReadFileLine_line hl.1]
    simp only [hnm, if_false]
    exact ih hls fuel

theorem findStartsWith_loop_hit (starts : List Char) (hs : Char.ofNat 0 ∉ starts)
    (l rest : List Char) (hl : isLine l = true) (hm : starts <+: l) (fuel : Nat) :
    findStartsWith_loop starts (fuel + 1) (l ++ rest) = .ok (l, rest) := by
  have : strncmp starts l starts.length = 0 := (strncmp_eq_zero_iff starts hs l).mpr hm
  rw [findStartsWith_loop, ReadFileLine_line hl]
  simp [this]

theorem findStartsWith_loop_end (starts : List Char) (hs : Char.ofNat 0 ∉ starts)
    (last : List Char) (hlast : last = [] ∨ (isPartialLine last = true ∧ ¬ starts <+: last))
    (fuel : Nat) :
    findStartsWith_loop starts (fuel + 2) last = .error .eof_unexpected := by
  rcases hlast with rfl | ⟨hp, hn⟩
  · rfl
  · have hnm : strncmp starts last starts.length ≠ 0 := by
      rw [Ne, strncmp_eq_zero_iff starts hs]; exact hn
    rw [findStartsWith_loop, ReadFileLine_unterminated hp]
    simp only [hnm, if_false]
    rfl

theorem isPartialLine_ne_nil {l : List Char} (h : isPartialLine l = true) : l ≠ [] := by
  rintro rfl; simp [isPartialLine] at h

theorem findStartsWith_found (starts : List Char) (hs : Char.ofNat 0 ∉ starts)
    (pre : List (List Char)) (hpre : ∀ l ∈ pre, isLine l = true ∧ ¬ starts <+: l)
    (l rest : List Char) (hl : isLine l = true) (hm : starts <+: l) :
    findStartsWith (pre.flatten ++ (l ++ rest)) starts = .ok (l, rest) := by
  unfold findStartsWith
  have h1 := length_le_length_flatten pre (fun x hx => isLine_ne_nil (hpre x hx).1)
  have h2 : 0 < l.length := List.length_pos.mpr (isLine_ne_nil hl)
  obtain ⟨k, hk⟩ : ∃ k, (pre.flatten ++ (l ++ rest)).length + 1 = pre.length + (k + 1) :=
    ⟨(pre.flatten ++ (l ++ rest)).length - pre.length, by
      simp only [List.length_append] at *; omega⟩
  rw [hk, findStartsWith_loop_skip starts hs pre hpre, findStartsWith_loop_hit starts hs l rest hl hm]

theorem findStartsWith_missing (starts : List Char) (hs : Char.ofNat 0 ∉ starts)
    (pre : List (List Char)) (hpre : ∀ l ∈ pre, isLine l = true ∧ ¬ starts <+: l)
    (last : List Char) (hlast : last = [] ∨ (isPartialLine last = true ∧ ¬ starts <+: last)) :
    findStartsWith (pre.flatten ++ last) starts = .error .eof_unexpected := by
  unfold findStartsWith
  have h1 := length_le_length_flatten pre (fun x hx => isLine_ne_nil (hpre x hx).1)
  have h2 : last = [] ∨ 0 < last.length := by
    rcases hlast with h | ⟨h, -⟩
    · exact Or.inl h
    · exact Or.inr (List.length_pos.mpr (isPartialLine_ne_nil h))
  rcases h2 with rfl | h2
  · obtain ⟨k, hk⟩ : ∃ k, (pre.flatten ++ []).length + 1 = pre.length + (k + 1) :=
      ⟨(pre.flatten).length - pre.length, by simp only [List.length_append, List.length_nil]; omega⟩
    rw [hk, findStartsWith_loop_skip starts hs pre hpre]
    rfl
  · obtain ⟨k, hk⟩ : ∃ k, (pre.flatten ++ last).length + 1 = pre.length + (k + 2) :=
      ⟨(pre.flatten ++ last).length - pre.length - 1, by
        simp only [List.length_append] at *; omega⟩
    rw [hk, findStartsWith_loop_skip starts hs pre hpre,
      findStartsWith_loop_end starts hs last hlast]

theorem ReadFileLine_error {size : Nat} {s : List Char} {e : Err}
    (h : ReadFileLine size s = .error e) : e = .eof_unexpected := by
  unfold ReadFileLine at h
  cases hf : fgets size s with
  | none => rw [hf] at h; injection h with h; exact h.symm
  | some p => rw [hf] at h; cases h

theorem open_cel_file_cases (content : List Char) :
    open_cel_file (some content) = .ok content ∨
    open_cel_file (some content) = .error .eof_unexpected ∨
    open_cel_file (some content) = .error .not_a_cel_file := by
  cases h : ReadFileLine BUF_SIZE content with
  | error e =>
    right; left
    have he := ReadFileLine_error h
    subst he
    simp only [open_cel_file, h]
  | ok p =>
    obtain ⟨buffer, r⟩ := p
    by_cases hc : strncmp "[CEL]".toList buffer 4 = 0
    · left; simp only [open_cel_file, h, hc, if_true]
    · right; right; simp only [open_cel_file, h, hc, if_false]

theorem fgets_take_length (n : Nat) : ∀ s : List Char, (fgets_take n s).2.length ≤ s.length := by
  induction n with
  | zero => intro s; simp [fgets_take]
  | succ n ih =>
    intro s
    cases s with
    | nil => simp [fgets_take]
    | cons c t =>
      by_cases hc : c = '\n'
      · simp [fgets_take, hc]
      · have := ih t
        simp only [fgets_take, hc, if_false, List.length_cons]
        omega

theorem ReadFileLine_shorter {s b rest : List Char}
    (h : ReadFileLine BUF_SIZE s = .ok (b, rest)) : rest.length < s.length := by
  unfold ReadFileLine fgets at h
  cases s with
  | nil => simp at h
  | cons c t =>
    simp only [Except.ok.injEq, Prod.mk.injEq] at h
    rw [← h.2]
    by_cases hc : c = '\n'
    · simp [BUF_SIZE, fgets_take, hc]
    · have := fgets_take_length 1022 t
      simp only [BUF_SIZE, Nat.add_one_sub_one, fgets_take, hc, if_false, List.length_cons]
      omega

/-- The bound on the iterations of `findStartsWith` is never reached: the
model never reports undefined behaviour for it. -/
theorem findStartsWith_loop_defined (starts : List Char) :
    ∀ (fuel : Nat) (s : List Char), s.length < fuel →
      findStartsWith_loop starts fuel s ≠ .error .undefined_behaviour := by
  intro fuel
  induction fuel with
  | zero => intro s h; exact absurd h (Nat.not_lt_zero _)
  | succ n ih =>
    intro s hs
    rw [findStartsWith_loop]
    cases hr : ReadFileLine BUF_SIZE s with
    | error e =>
      have := ReadFileLine_error hr
      subst this
      simp
    | ok p =>
      obtain ⟨b, rest⟩ := p
      have hlt := ReadFileLine_shorter hr
      simp only
      by_cases hm : strncmp starts b starts.length = 0
      · simp [hm]
      · simp only [hm, if_false]
        exact ih rest (by omega)

theorem findStartsWith_defined (s starts : List Char) :
    findStartsWith s starts ≠ .error .undefined_behaviour :=
  findStartsWith_loop_defined starts _ s (Nat.lt_succ_self _)

/-! ## General lemmas: binary reads -/

theorem le_bytes_length (width v : Nat) : (le_bytes width v).length = width := by
  induction width generalizing v with
  | zero => rfl
  | succ n ih => simp [le_bytes, ih]

theorem fread_int32_full (destination : Int) (content : List Char) (pos : Nat)
    (h : pos + 4 ≤ content.length) :
    fread_int32 destination ⟨content, pos⟩ = (1, int32_at content pos, ⟨content, pos + 4⟩) := by
  have hlen : ((content.drop pos).take 4).length = 4 := by
    simp only [List.length_take, List.length_drop]; omega
  have hd : (le_bytes 4 (destination % 4294967296).toNat).drop 4 = [] :=
    List.drop_of_length_le (by rw [le_bytes_length])
  simp only [fread_int32, fread, Nat.mul_one, hlen, stored, int32_at, hd, List.append_nil]

/-! ## General lemmas: tokens and the body loop of the text reader -/

theorem dropWhile_head_false {α : Type} (p : α → Bool) :
    ∀ (s : List α) (c : α) (r : List α), s.dropWhile p = c :: r → p c = false := by
  intro s
  induction s with
  | nil => intro c r h; cases h
  | cons x xs ih =>
    intro c r h
    by_cases hx : p x = true
    · rw [List.dropWhile_cons_of_pos hx] at h; exact ih c r h
    · rw [List.dropWhile_cons_of_neg hx] at h
      injection h with h1 h2
      subst h1
      simpa using hx

theorem strtok_some {s d t r : List Char} (h : strtok s d = some (t, r)) :
    r.length < s.length ∧ t ≠ [] := by
  unfold strtok at h
  cases hs : s.dropWhile (fun c => d.contains c) with
  | nil => rw [hs] at h; cases h
  | cons c r' =>
    rw [hs] at h
    simp only [Option.some.injEq, Prod.mk.injEq] at h
    obtain ⟨ht, hr⟩ := h
    have hc : (d.contains c) = false :=
      dropWhile_head_false (fun c => d.contains c) s c r' hs
    have hc2 : (!d.contains c) = true := by rw [hc]; rfl
    have hlen : (c :: r').length ≤ s.length := by
      rw [← hs]; exact (List.dropWhile_sublist _).length_le
    constructor
    · rw [← hr]
      have h1 : ((c :: r').dropWhile (fun x => !d.contains x)).length ≤ r'.length := by
        rw [List.dropWhile_cons_of_pos (p := fun x => !d.contains x) (a := c) hc2]
        exact (List.dropWhile_sublist _).length_le
      simp only [List.length_drop, List.length_cons] at *
      omega
    · rw [← ht, List.takeWhile_cons_of_pos (p := fun x => !d.contains x) (a := c) hc2]
      simp

theorem tokenize_loop_fuel (d : List Char) :
    ∀ (fuel1 fuel2 : Nat) (s : List Char), s.length < fuel1 → s.length < fuel2 →
      tokenize_loop d fuel1 (strtok s d) = tokenize_loop d fuel2 (strtok s d) := by
  intro fuel1
  induction fuel1 with
  | zero => intro fuel2 s h; exact absurd h (Nat.not_lt_zero _)
  | succ n ih =>
    intro fuel2 s h1 h2
    cases fuel2 with
    | zero => exact absurd h2 (Nat.not_lt_zero _)
    | succ m =>
      cases hs : strtok s d with
      | none => simp [tokenize_loop]
      | some p =>
        obtain ⟨t, r⟩ := p
        have := (strtok_some hs).1
        simp only [tokenize_loop]
        rw [ih m r (by omega) (by omega)]

theorem tokenize_none {s d : List Char} (h : strtok s d = none) : tokenize s d = [] := by
  simp [tokenize, h, tokenize_loop]

theorem tokenize_some {s d t r : List Char} (h : strtok s d = some (t, r)) :
    tokenize s d = t :: tokenize r d := by
  have hr := (strtok_some h).1
  simp only [tokenize, h, tokenize_loop]
  rw [tokenize_loop_fuel d s.length (r.length + 1) r hr (by omega)]

theorem tokenize_length_lt {s d : List Char} : (tokenize s d).length ≤ s.length := by
  generalize hn : s.length = n
  induction n using Nat.strong_induction_on generalizing s with
  | _ n ih =>
    cases hs : strtok s d with
    | none => simp [tokenize_none hs]
    | some p =>
      obtain ⟨t, r⟩ := p
      have hr := (strtok_some hs).1
      rw [tokenize_some hs]
      have := ih r.length (by omega) rfl
      simp only [List.length_cons]
      omega

theorem read_loop_good {F : Type} (atof : List Char → F) (c r d : Int)
    (s l rest : List Char) (hs : ReadFileLine BUF_SIZE s = .ok (l, rest))
    (h3 : 3 ≤ (tokenize l " \t".toList).length) (n : Nat) (i : Int) (I : Int → RDouble F) :
    read_cel_file_intensities_loop atof c r d (n + 1) i s I
      = read_cel_file_intensities_loop atof c r d n (i + 1) rest (store_line atof c r d I l) := by
  have hlen : ¬ l.length ≤ 2 := by
    have := tokenize_length_lt (s := l) (d := " \t".toList)
    omega
  cases h1 : strtok l " \t".toList with
  | none => rw [tokenize_none h1] at h3; simp at h3
  | some p1 =>
    obtain ⟨tx, s1⟩ := p1
    rw [tokenize_some h1] at h3
    cases h2 : strtok s1 " \t".toList with
    | none => rw [tokenize_none h2] at h3; simp at h3
    | some p2 =>
      obtain ⟨ty, s2⟩ := p2
      rw [tokenize_some h2] at h3
      cases h4 : strtok s2 " \t".toList with
      | none => rw [tokenize_none h4] at h3; simp at h3
      | some p3 =>
        obtain ⟨tm, s3⟩ := p3
        have ht : tokenize l " \t".toList = tx :: ty :: tm :: tokenize s3 " \t".toList := by
          rw [tokenize_some h1, tokenize_some h2, tokenize_some h4]
        rw [read_cel_file_intensities_loop]
        simp only [hs, hlen, if_false, h1, h2, h4, store_line, line_index, token_at, ht,
          List.getD_cons_zero, List.getD_cons_succ]

theorem read_loop_short {F : Type} (atof : List Char → F) (c r d : Int)
    (s l rest : List Char) (hs : ReadFileLine BUF_SIZE s = .ok (l, rest))
    (h3 : (tokenize l " \t".toList).length < 3) (n : Nat) (i : Int) (I : Int → RDouble F) :
    read_cel_file_intensities_loop atof c r d (n + 1) i s I
      = .ok (i, I, [if l.length ≤ 2 then Warning.empty_line (i - 1) i
                    else Warning.incomplete_line (i - 1) r]) := by
  rw [read_cel_file_intensities_loop]
  simp only [hs]
  by_cases hlen : l.length ≤ 2
  · simp only [hlen, if_true]
  · simp only [hlen, if_false]
    cases h1 : strtok l " \t".toList with
    | none => rfl
    | some p1 =>
      obtain ⟨tx, s1⟩ := p1
      rw [tokenize_some h1] at h3
      cases h2 : strtok s1 " \t".toList with
      | none => simp only [h2]
      | some p2 =>
        obtain ⟨ty, s2⟩ := p2
        rw [tokenize_some h2] at h3
        cases h4 : strtok s2 " \t".toList with
        | none => simp only [h2, h4]
        | some p3 =>
          obtain ⟨tm, s3⟩ := p3
          rw [tokenize_some h4] at h3
          simp at h3
          omega

theorem read_loop_eof {F : Type} (atof : List Char → F) (c r d : Int)
    (n : Nat) (i : Int) (I : Int → RDouble F) :
    read_cel_file_intensities_loop atof c r d (n + 1) i [] I = .error .eof_unexpected := by
  rw [read_cel_file_intensities_loop]
  rfl

theorem read_loop_lines {F : Type} (atof : List Char → F) (c r d : Int)
    (lines : List (List Char))
    (hlines : ∀ l ∈ lines, isLine l = true ∧ 3 ≤ (tokenize l " \t".toList).length) :
    ∀ (tail : List Char) (n : Nat) (i : Int) (I : Int → RDouble F),
      read_cel_file_intensities_loop atof c r d (lines.length + n) i (lines.flatten ++ tail) I
        = read_cel_file_intensities_loop atof c r d n (i + lines.length) tail
            (lines.foldl (store_line atof c r d) I) := by
  induction lines with
  | nil => intro tail n i I; simp
  | cons l ls ih =>
    intro tail n i I
    have hl := hlines l (by simp)
    have hls : ∀ x ∈ ls, isLine x = true ∧ 3 ≤ (tokenize x " \t".toList).length :=
      fun x hx => hlines x (by simp [hx])
    have e1 : (l :: ls).length + n = (ls.length + n) + 1 := by simp; omega
    have e2 : (l :: ls).flatten ++ tail = l ++ (ls.flatten ++ tail) := by simp
    rw [e1, e2, read_loop_good atof c r d _ l _ (ReadFileLine_line hl.1 _) hl.2, ih hls]
    simp only [List.foldl_cons, List.length_cons, Nat.cast_add, Nat.cast_one]
    congr 1
    omega

theorem foldl_store_other {F : Type} (atof : List Char → F) (c r d : Int)
    (lines : List (List Char)) (p : Int) (hp : ∀ l ∈ lines, c * r + line_index d l ≠ p) :
    ∀ I : Int → RDouble F, lines.foldl (store_line atof c r d) I p = I p := by
  induction lines with
  | nil => intro I; rfl
  | cons l ls ih =>
    intro I
    have h1 := hp l (by simp)
    rw [List.foldl_cons, ih (fun x hx => hp x (by simp [hx]))]
    simp [store_line, Function.update, Ne.symm h1]

theorem foldl_store_last {F : Type} (atof : List Char → F) (c r d : Int)
    (before : List (List Char)) (l : List Char) (later : List (List Char))
    (hlater : ∀ x ∈ later, c * r + line_index d x ≠ c * r + line_index d l)
    (I : Int → RDouble F) :
    (before ++ l :: later).foldl (store_line atof c r d) I (c * r + line_index d l)
      = RDouble.num (atof (token_at l 2)) := by
  rw [List.foldl_append, List.foldl_cons, foldl_store_other atof c r d later _ hlater]
  simp [store_line]

theorem storedLines_foldl {F : Type} (atof : List Char → F) (c r d : Int)
    (I : Int → RDouble F) (lines : List (List Char)) :
    StoredLines atof c r d I lines (lines.foldl (store_line atof c r d) I) := by
  refine ⟨rfl, fun p hp => foldl_store_other atof c r d lines p hp I, ?_⟩
  intro before l later hl hlater
  rw [hl]
  exact foldl_store_last atof c r d before l later hlater I

/-! ## General lemmas: the coordinate loops of mask application -/

theorem get_token_of_lt (x : List (List Char)) (k : Nat) (h : k < x.length) :
    get_token x (k : Int) = .ok (x.getD k []) := by
  have h1 : ¬ ((k : Int) < 0) := by omega
  simp only [get_token, h1, if_false, Int.toNat_ofNat]
  rw [List.get?_eq_getElem?, List.getElem?_eq_getElem h]
  simp [List.getD, List.getElem?_eq_getElem h]

theorem apply_masks_loop_step {F : Type} (value : RDouble F) (c r d : Int)
    (s l rest : List Char) (hs : ReadFileLine BUF_SIZE s = .ok (l, rest))
    (h2 : 2 ≤ (tokenize l " \t".toList).length) (n : Nat) (I : Int → RDouble F) :
    apply_masks_loop value c r d (n + 1) s I
      = apply_masks_loop value c r d n rest (set_cell value (c * r) d I (line_coords l)) := by
  have g0 := get_token_of_lt (tokenize l " \t".toList) 0 (by omega)
  have g1 := get_token_of_lt (tokenize l " \t".toList) 1 (by omega)
  simp only [Nat.cast_zero, Nat.cast_one] at g0 g1
  rw [apply_masks_loop]
  simp only [hs, g0, g1, set_cell, line_coords, token_at]

theorem apply_masks_loop_lines {F : Type} (value : RDouble F) (c r d : Int)
    (lines : List (List Char))
    (hlines : ∀ l ∈ lines, isLine l = true ∧ 2 ≤ (tokenize l " \t".toList).length) :
    ∀ (tail : List Char) (n : Nat) (I : Int → RDouble F),
      apply_masks_loop value c r d (lines.length + n) (lines.flatten ++ tail) I
        = apply_masks_loop value c r d n tail
            (set_cells value (c * r) d (lines.map line_coords) I) := by
  induction lines with
  | nil => intro tail n I; simp [set_cells]
  | cons l ls ih =>
    intro tail n I
    have hl := hlines l (by simp)
    have hls : ∀ x ∈ ls, isLine x = true ∧ 2 ≤ (tokenize x " \t".toList).length :=
      fun x hx => hlines x (by simp [hx])
    have e1 : (l :: ls).length + n = (ls.length + n) + 1 := by simp; omega
    have e2 : (l :: ls).flatten ++ tail = l ++ (ls.flatten ++ tail) := by simp
    rw [e1, e2, apply_masks_loop_step value c r d _ l _ (ReadFileLine_line hl.1 _) hl.2, ih hls]
    simp [set_cells]

theorem apply_masks_section_lines {F : Type} (sectiontitle : List Char) (value : RDouble F)
    (c r d : Int) (currentFile : List Char) (I : Int → RDouble F)
    (b1 s1 b2 s2 count b3 tail : List Char) (lines : List (List Char))
    (hsec : AdvanceToSection currentFile sectiontitle = .ok (b1, s1))
    (hnum : findStartsWith s1 "NumberCells=".toList = .ok (b2, s2))
    (hcount : get_token (tokenize b2 "=".toList) 1 = .ok count)
    (hn : atoi count = lines.length)
    (hcell : findStartsWith s2 "CellHeader=".toList = .ok (b3, lines.flatten ++ tail))
    (hlines : ∀ l ∈ lines, isLine l = true ∧ 2 ≤ (tokenize l " \t".toList).length) :
    apply_masks_section sectiontitle value c r d currentFile I
      = .ok (tail, set_cells value (c * r) d (lines.map line_coords) I) := by
  have hloop := apply_masks_loop_lines value c r d lines hlines tail 0 I
  simp only [Nat.add_zero] at hloop
  simp only [apply_masks_section, hsec, hnum, hcount, hn, Int.toNat_ofNat, hcell, hloop,
    apply_masks_loop]

theorem fread_int16_full (destination : Int) (content : List Char) (pos : Nat)
    (h : pos + 2 ≤ content.length) :
    fread_int16 destination ⟨content, pos⟩ = (1, int16_at content pos, ⟨content, pos + 2⟩) := by
  have hlen : ((content.drop pos).take 2).length = 2 := by
    simp only [List.length_take, List.length_drop]; omega
  have hd : (le_bytes 2 (destination % 65536).toNat).drop 2 = [] :=
    List.drop_of_length_le (by rw [le_bytes_length])
  simp only [fread_int16, fread, Nat.mul_one, hlen, stored, int16_at, hd, List.append_nil]

theorem fread_float32_full (destination : Nat) (content : List Char) (pos : Nat)
    (h : pos + 4 ≤ content.length) :
    fread_float32 destination ⟨content, pos⟩ = (1, uint32_at content pos, ⟨content, pos + 4⟩) := by
  have hlen : ((content.drop pos).take 4).length = 4 := by
    simp only [List.length_take, List.length_drop]; omega
  have hd : (le_bytes 4 (destination % 4294967296)).drop 4 = [] :=
    List.drop_of_length_le (by rw [le_bytes_length])
  simp only [fread_float32, fread, Nat.mul_one, hlen, stored, uint32_at, hd, List.append_nil]

theorem binary_apply_masks_loop_step {F : Type} (c r : Int) (hdr : binary_header)
    (content : List Char) (pos : Nat) (h : pos + 4 ≤ content.length)
    (n : Nat) (cur_loc : outliermask_loc) (I : Int → RDouble F) :
    binary_apply_masks_loop c r hdr (n + 1) cur_loc ⟨content, pos⟩ I
      = binary_apply_masks_loop c r hdr n
          ⟨int16_at content pos, int16_at content (pos + 2)⟩ ⟨content, pos + 4⟩
          (set_cell RDouble.R_NaN (c * r) hdr.rows I
            (int16_at content pos, int16_at content (pos + 2))) := by
  rw [binary_apply_masks_loop]
  simp only [fread_int16_full _ content pos (by omega),
    fread_int16_full _ content (pos + 2) (by omega), set_cell]

theorem binary_apply_masks_loop_records {F : Type} (c r : Int) (hdr : binary_header)
    (content : List Char) :
    ∀ (n pos : Nat) (cur_loc : outliermask_loc) (I : Int → RDouble F),
      pos + 4 * n ≤ content.length →
      (binary_apply_masks_loop c r hdr n cur_loc ⟨content, pos⟩ I).2
        = (⟨content, pos + 4 * n⟩,
           set_cells RDouble.R_NaN (c * r) hdr.rows (locs_at content pos n) I) := by
  intro n
  induction n with
  | zero => intro pos cur_loc I _; simp [binary_apply_masks_loop, set_cells, locs_at]
  | succ n ih =>
    intro pos cur_loc I h
    rw [binary_apply_masks_loop_step c r hdr content pos (by omega), ih _ _ _ (by omega)]
    simp only [locs_at, set_cells, List.foldl_cons]
    congr 2
    omega

theorem apply_masks_section_of_lists {F : Type} (sectiontitle : List Char) (value : RDouble F)
    (c r d : Int) (stream : List Char) (I : Int → RDouble F)
    (lines : List (List Char)) (tail : List Char)
    (h : SectionLists stream sectiontitle lines tail) :
    apply_masks_section sectiontitle value c r d stream I
      = .ok (tail, set_cells value (c * r) d (lines.map line_coords) I) := by
  obtain ⟨b1, s1, b2, s2, count, b3, hsec, hnum, hcount, hn, hcell, hlines⟩ := h
  exact apply_masks_section_lines sectiontitle value c r d stream I b1 s1 b2 s2 count b3 tail
    lines hsec hnum hcount hn hcell hlines

/-! ## General lemmas: matched lines, tokens and the chip-name loops -/

theorem findStartsWith_loop_ok {starts : List Char} :
    ∀ (fuel : Nat) (s b r : List Char), findStartsWith_loop starts fuel s = .ok (b, r) →
      strncmp starts b starts.length = 0 ∧ Char.ofNat 0 ∉ b := by
  intro fuel
  induction fuel with
  | zero => intro s b r h; simp [findStartsWith_loop] at h
  | succ n ih =>
    intro s b r h
    rw [findStartsWith_loop] at h
    cases hr : ReadFileLine BUF_SIZE s with
    | error e => rw [hr] at h; cases h
    | ok p =>
      obtain ⟨buffer, rest⟩ := p
      rw [hr] at h
      simp only at h
      by_cases hm : strncmp starts buffer starts.length = 0
      · simp only [hm, if_true, Except.ok.injEq, Prod.mk.injEq] at h
        obtain ⟨rfl, rfl⟩ := h
        refine ⟨hm, ?_⟩
        unfold ReadFileLine at hr
        cases hf : fgets BUF_SIZE s with
        | none => rw [hf] at hr; cases hr
        | some q =>
          rw [hf] at hr
          simp only [Except.ok.injEq, Prod.mk.injEq] at hr
          rw [← hr.1]
          intro hmem
          have := List.mem_takeWhile_imp hmem
          simp at this
      · simp only [hm, if_false] at h
        exact ih rest b r h

theorem findStartsWith_ok {s starts b r : List Char} (hs : Char.ofNat 0 ∉ starts)
    (h : findStartsWith s starts = .ok (b, r)) : starts <+: b ∧ Char.ofNat 0 ∉ b := by
  have := findStartsWith_loop_ok _ s b r h
  exact ⟨(strncmp_eq_zero_iff starts hs b).mp this.1, this.2⟩

theorem strtok_mem {s d t r : List Char} (h : strtok s d = some (t, r)) :
    (∀ c ∈ t, c ∈ s) ∧ (∀ c ∈ r, c ∈ s) := by
  unfold strtok at h
  cases hs : s.dropWhile (fun c => d.contains c) with
  | nil => rw [hs] at h; cases h
  | cons c r' =>
    rw [hs] at h
    simp only [Option.some.injEq, Prod.mk.injEq] at h
    obtain ⟨ht, hr⟩ := h
    have hsub : ∀ x ∈ c :: r', x ∈ s := by
      intro x hx
      rw [← hs] at hx
      exact (List.dropWhile_sublist _).subset hx
    constructor
    · intro x hx
      rw [← ht] at hx
      exact hsub x ((List.takeWhile_sublist _).subset hx)
    · intro x hx
      rw [← hr] at hx
      exact hsub x ((List.dropWhile_sublist _).subset (List.mem_of_mem_drop hx))

theorem tokenize_mem {d : List Char} :
    ∀ (s : List Char) (t : List Char), t ∈ tokenize s d → ∀ c ∈ t, c ∈ s := by
  intro s
  generalize hn : s.length = n
  induction n using Nat.strong_induction_on generalizing s with
  | _ n ih =>
    intro t ht c hc
    cases hs : strtok s d with
    | none => rw [tokenize_none hs] at ht; cases ht
    | some p =>
      obtain ⟨t0, r⟩ := p
      rw [tokenize_some hs] at ht
      have hmem := strtok_mem hs
      rcases List.mem_cons.mp ht with rfl | ht'
      · exact hmem.1 c hc
      · have hr := (strtok_some hs).1
        exact hmem.2 c (ih r.length (by omega) r rfl t ht' c hc)

theorem tokenize_ne_nil {s d : List Char} (c : Char) (r : List Char) (hs : s = c :: r)
    (hc : d.contains c = false) : tokenize s d ≠ [] := by
  subst hs
  have : strtok (c :: r) d = some ((c :: r).takeWhile (fun x => !d.contains x),
      ((c :: r).dropWhile (fun x => !d.contains x)).drop 1) := by
    unfold strtok
    rw [List.dropWhile_cons_of_neg (p := fun c => d.contains c) (a := c) (by show ¬ d.contains c = true; rw [hc]; simp)]
  rw [tokenize_some this]
  simp

theorem strncmp_eq_zero_iff_eq (a : List Char) (ha : Char.ofNat 0 ∉ a) :
    ∀ (b : List Char) (n : Nat), Char.ofNat 0 ∉ b → a.length < n →
      (strncmp a b n = 0 ↔ a = b) := by
  induction a with
  | nil =>
    intro b n hb hn
    cases n with
    | zero => simp at hn
    | succ n =>
      cases b with
      | nil => simp [strncmp]
      | cons y bs =>
        have hy : y ≠ Char.ofNat 0 := fun e => hb (by simp [e])
        have := Char_toNat_ne_zero hy
        simp only [strncmp]
        constructor
        · intro h; exact absurd (by omega) this
        · intro h; cases h
  | cons x as ih =>
    intro b n hb hn
    have hx : x ≠ Char.ofNat 0 := fun e => ha (by simp [e])
    have has : Char.ofNat 0 ∉ as := fun e => ha (by simp [e])
    cases n with
    | zero => simp at hn
    | succ n =>
      cases b with
      | nil =>
        have := Char_toNat_ne_zero hx
        simp only [strncmp]
        constructor
        · intro h; exact absurd (by exact_mod_cast h) this
        · intro h; cases h
      | cons y bs =>
        have hbs : Char.ofNat 0 ∉ bs := fun e => hb (by simp [e])
        simp only [strncmp]
        by_cases hxy : x = y
        · subst hxy
          simp [ih has bs n hbs (by simpa using hn)]
        · have hne : (x.toNat : Int) - (y.toNat : Int) ≠ 0 := by
            intro e
            apply hxy
            apply Char_toNat_inj
            omega
          simp [hxy, hne]

theorem strcmp_eq_zero_iff (a b : List Char) (ha : Char.ofNat 0 ∉ a) (hb : Char.ofNat 0 ∉ b) :
    strcmp a b = 0 ↔ a = b :=
  strncmp_eq_zero_iff_eq a ha b _ hb (by omega)

theorem token_ends_with_spec (token ends_in : List Char) (ht : Char.ofNat 0 ∉ token)
    (he : Char.ofNat 0 ∉ ends_in) :
    (0 < token_ends_with token ends_in ↔ ends_in.length < token.length ∧ ends_in <:+ token) ∧
    (0 < token_ends_with token ends_in →
      (token_ends_with token ends_in).toNat = token.length - ends_in.length) := by
  unfold token_ends_with
  by_cases hlen : (token.length : Int) ≤ ends_in.length
  · simp only [hlen, if_true]
    constructor
    · constructor
      · intro h; omega
      · intro h; omega
    · intro h; omega
  · simp only [hlen, if_false]
    have hlen' : ends_in.length < token.length := by omega
    have hpos : ((token.length : Int) - ends_in.length).toNat = token.length - ends_in.length := by
      omega
    have hdrop : Char.ofNat 0 ∉ token.drop (token.length - ends_in.length) :=
      fun h => ht (List.mem_of_mem_drop h)
    rw [hpos]
    have hcmp := strcmp_eq_zero_iff _ _ hdrop he
    by_cases heq : token.drop (token.length - ends_in.length) = ends_in
    · have h0 : strcmp (token.drop (token.length - ends_in.length)) ends_in = 0 := hcmp.mpr heq
      simp only [h0, if_true]
      refine ⟨⟨fun _ => ⟨hlen', ?_⟩, fun _ => by omega⟩, fun _ => hpos⟩
      rw [List.suffix_iff_eq_drop]; exact heq.symm
    · have h0 : ¬ strcmp (token.drop (token.length - ends_in.length)) ends_in = 0 :=
        fun h => heq (hcmp.mp h)
      simp only [h0, if_false]
      refine ⟨⟨fun h => by omega, fun h => ?_⟩, fun h => by omega⟩
      exfalso; apply heq
      have := (List.suffix_iff_eq_drop).mp h.2
      exact this.symm

theorem check_cel_file_loop_hit (ref : List Char) :
    ∀ tokens : List (List Char), (∃ t ∈ tokens, strncasecmp t ref ref.length = 0) →
      check_cel_file_loop ref tokens = .ok () := by
  intro tokens
  induction tokens with
  | nil => intro h; obtain ⟨t, ht, -⟩ := h; cases ht
  | cons t ts ih =>
    intro h
    rw [check_cel_file_loop]
    by_cases hm : strncasecmp t ref ref.length = 0
    · simp only [hm, if_true]
    · simp only [hm, if_false]
      obtain ⟨t', ht', hm'⟩ := h
      rcases List.mem_cons.mp ht' with rfl | hin
      · exact absurd hm' hm
      · have hne : ts ≠ [] := List.ne_nil_of_mem hin
        simp only [hne, if_false]
        exact ih ⟨t', hin, hm'⟩

theorem check_cel_file_loop_miss (ref : List Char) :
    ∀ tokens : List (List Char), tokens ≠ [] →
      (∀ t ∈ tokens, strncasecmp t ref ref.length ≠ 0) →
      check_cel_file_loop ref tokens = .error .wrong_chip_type := by
  intro tokens
  induction tokens with
  | nil => intro h; exact absurd rfl h
  | cons t ts ih =>
    intro _ h
    rw [check_cel_file_loop]
    have hm := h t (by simp)
    simp only [hm, if_false]
    by_cases hts : ts = []
    · simp only [hts, if_true]
    · simp only [hts, if_false]
      exact ih hts (fun x hx => h x (by simp [hx]))

theorem cdfName_loop_hit (before : List (List Char)) (token : List Char)
    (later : List (List Char))
    (hbefore : ∀ b ∈ before, ¬ 0 < token_ends_with b ".1sq".toList)
    (htoken : 0 < token_ends_with token ".1sq".toList) :
    cdfName_loop (before ++ token :: later)
      = .ok (some (token.take (token_ends_with token ".1sq".toList).toNat)) := by
  induction before with
  | nil =>
    rw [List.nil_append, cdfName_loop]
    simp only [gt_iff_lt, htoken, if_true]
  | cons b bs ih =>
    have hb := hbefore b (by simp)
    rw [List.cons_append, cdfName_loop]
    simp only [gt_iff_lt, hb, if_false]
    have hne : bs ++ token :: later ≠ [] := by simp
    simp only [hne, if_false]
    exact ih (fun x hx => hbefore x (by simp [hx]))

theorem cdfName_loop_miss :
    ∀ tokens : List (List Char), tokens ≠ [] →
      (∀ t ∈ tokens, ¬ 0 < token_ends_with t ".1sq".toList) →
      cdfName_loop tokens = .error .no_cdf_information := by
  intro tokens
  induction tokens with
  | nil => intro h; exact absurd rfl h
  | cons t ts ih =>
    intro _ h
    rw [cdfName_loop]
    have hm := h t (by simp)
    simp only [gt_iff_lt, hm, if_false]
    by_cases hts : ts = []
    · simp only [hts, if_true]
    · simp only [hts, if_false]
      exact ih hts (fun x hx => h x (by simp [hx]))

theorem nul_not_mem_1sq : Char.ofNat 0 ∉ ".1sq".toList := by decide

theorem token_ends_with_name (name : List Char) (hname : name ≠ [])
    (hnul : Char.ofNat 0 ∉ name ++ ".1sq".toList) :
    0 < token_ends_with (name ++ ".1sq".toList) ".1sq".toList ∧
    (name ++ ".1sq".toList).take (token_ends_with (name ++ ".1sq".toList) ".1sq".toList).toNat
      = name := by
  have hspec := token_ends_with_spec (name ++ ".1sq".toList) ".1sq".toList hnul nul_not_mem_1sq
  have hlen : 0 < name.length := List.length_pos.mpr hname
  have hpos : 0 < token_ends_with (name ++ ".1sq".toList) ".1sq".toList :=
    hspec.1.mpr ⟨by simp only [List.length_append]; omega, List.suffix_append _ _⟩
  refine ⟨hpos, ?_⟩
  rw [hspec.2 hpos]
  simp

theorem tokens_datheader {b4 : List Char} (hp : "DatHeader".toList <+: b4)
    (hnul : Char.ofNat 0 ∉ b4) :
    tokenize b4 " ".toList ≠ [] ∧
    ∀ t ∈ tokenize b4 " ".toList, Char.ofNat 0 ∉ t := by
  constructor
  · obtain ⟨r, hr⟩ := hp
    exact tokenize_ne_nil 'D' ("atHeader".toList ++ r) (by rw [← hr]; rfl) (by decide)
  · intro t ht h0
    exact hnul (tokenize_mem b4 t ht _ h0)

theorem cstr_nul (l : List Char) : Char.ofNat 0 ∉ cstr l := by
  intro h
  have := List.mem_takeWhile_imp h
  simp at this

theorem read_blob_nul {len : Int} {infile infile2 : FILE} {blob : List Char}
    (h : read_blob len infile = .ok (blob, infile2)) : Char.ofNat 0 ∉ blob := by
  unfold read_blob at h
  split at h
  · cases h
  · split at h
    · cases h
    · simp only at h
      split at h
      · cases h
      · simp only [Except.ok.injEq, Prod.mk.injEq] at h
        rw [← h.1]
        exact cstr_nul _

theorem read_binary_header_blob_nul {infile infile2 : FILE} {len : Int} {blob : List Char}
    (h : read_binary_header_blob infile = .ok (len, blob, infile2)) : Char.ofNat 0 ∉ blob := by
  unfold read_binary_header_blob at h
  split at h
  rename_i result len0 infile0 heq
  split at h
  · cases h
  · split at h
    · cases h
    · rename_i blob0 infile1 hb
      simp only [Except.ok.injEq, Prod.mk.injEq] at h
      rw [← h.2.1]
      exact read_blob_nul hb

theorem read_binary_header_header_nul {file : Option (List Char)} {return_stream : Int}
    {my_header : binary_header}
    (h : read_binary_header file return_stream = .ok (some my_header)) :
    Char.ofNat 0 ∉ my_header.header := by
  unfold read_binary_header at h
  split at h
  · cases h
  · split at h
    · cases h
    · cases h
    · split at h
      · cases h
      · rename_i header_len header infile1 hb1
        split at h
        · cases h
        · split at h
          · cases h
          · split at h
            · cases h
            · simp only [Except.ok.injEq, Option.some.injEq] at h
              rw [← h]
              exact read_binary_header_blob_nul hb1

/-! ## General lemmas: the gzip readers read the decompressed stream as the text readers do -/

theorem gzgets_eq_fgets (len : Nat) (file : List Char) : gzgets len file = fgets len file := by
  cases file <;> rfl

theorem ReadgzFileLine_eq (buffersize : Nat) (currentFile : List Char) :
    ReadgzFileLine buffersize currentFile = ReadFileLine buffersize currentFile := by
  simp only [ReadgzFileLine, ReadFileLine, gzgets_eq_fgets]

theorem gzfindStartsWith_loop_eq (starts : List Char) :
    ∀ (fuel : Nat) (my_file : List Char),
      gzfindStartsWith_loop starts fuel my_file = findStartsWith_loop starts fuel my_file := by
  intro fuel
  induction fuel with
  | zero => intro my_file; rfl
  | succ n ih =>
    intro my_file
    rw [gzfindStartsWith_loop, findStartsWith_loop, ReadgzFileLine_eq]
    cases h : ReadFileLine BUF_SIZE my_file with
    | error e => rfl
    | ok r => simp only [ih]

theorem gzfindStartsWith_eq (my_file starts : List Char) :
    gzfindStartsWith my_file starts = findStartsWith my_file starts := by
  simp only [gzfindStartsWith, findStartsWith, gzfindStartsWith_loop_eq]

theorem gzAdvanceToSection_eq (my_file sectiontitle : List Char) :
    gzAdvanceToSection my_file sectiontitle = AdvanceToSection my_file sectiontitle := by
  simp only [gzAdvanceToSection, AdvanceToSection, gzfindStartsWith_eq]

theorem open_gz_cel_file_eq (inflate : List Char → List Char) (file : Option (List Char)) :
    open_gz_cel_file inflate file = open_cel_file (gzopen inflate file) := by
  cases file with
  | none => rfl
  | some content => simp only [open_gz_cel_file, open_cel_file, gzopen, ReadgzFileLine_eq]

theorem gz_apply_masks_loop_eq {F : Type} (value : RDouble F) (c r d : Int) :
    ∀ (n : Nat) (s : List Char) (I : Int → RDouble F),
      gz_apply_masks_loop value c r d n s I = apply_masks_loop value c r d n s I := by
  intro n
  induction n with
  | zero => intro s I; rfl
  | succ n ih =>
    intro s I
    rw [gz_apply_masks_loop, apply_masks_loop, ReadgzFileLine_eq]
    cases h : ReadFileLine BUF_SIZE s with
    | error e => rfl
    | ok r => simp only [ih]

theorem gz_apply_masks_section_eq {F : Type} (sectiontitle : List Char) (value : RDouble F)
    (c r d : Int) (s : List Char) (I : Int → RDouble F) :
    gz_apply_masks_section sectiontitle value c r d s I
      = apply_masks_section sectiontitle value c r d s I := by
  simp only [gz_apply_masks_section, apply_masks_section, gzAdvanceToSection_eq,
    gzfindStartsWith_eq, gz_apply_masks_loop_eq]

theorem gz_apply_masks_eq {F : Type} (inflate : List Char → List Char)
    (file : Option (List Char)) (I : Int → RDouble F) (c r cols d : Int) (m o : Bool) :
    gz_apply_masks inflate file I c r cols d m o
      = apply_masks (gzopen inflate file) I c r cols d m o := by
  simp only [gz_apply_masks, apply_masks, open_gz_cel_file_eq, gz_apply_masks_section_eq]

theorem gz_get_header_info_eq (inflate : List Char → List Char) (file : Option (List Char)) :
    gz_get_header_info inflate file = get_header_info (gzopen inflate file) := by
  simp only [gz_get_header_info, get_header_info, open_gz_cel_file_eq, gzAdvanceToSection_eq,
    gzfindStartsWith_eq]

theorem isgzTextCelFile_eq (inflate : List Char → List Char) (file : Option (List Char)) :
    isgzTextCelFile inflate file = isTextCelFile (gzopen inflate file) := by
  cases file with
  | none => rfl
  | some content => simp only [isgzTextCelFile, isTextCelFile, gzopen, ReadgzFileLine_eq]

/-! ## General lemmas: mask application is a sequence of stores fixed by the file -/

theorem apply_stores_cons {F : Type} (s : Int × RDouble F) (ss : List (Int × RDouble F))
    (I : Int → RDouble F) :
    apply_stores (s :: ss) I = apply_stores ss (Function.update I s.1 s.2) := rfl

theorem apply_stores_append {F : Type} (ss tt : List (Int × RDouble F)) (I : Int → RDouble F) :
    apply_stores (ss ++ tt) I = apply_stores tt (apply_stores ss I) := by
  simp only [apply_stores, List.foldl_append]

theorem apply_stores_pointwise {F : Type} (ss : List (Int × RDouble F)) :
    ∃ g : Int → Option (RDouble F), ∀ (I : Int → RDouble F) (p : Int),
      apply_stores ss I p = (g p).getD (I p) := by
  induction ss with
  | nil => exact ⟨fun _ => none, fun I p => rfl⟩
  | cons s ss ih =>
    obtain ⟨g, hg⟩ := ih
    refine ⟨fun p => match g p with
      | some v => some v
      | none => if p = s.1 then some s.2 else none, fun I p => ?_⟩
    rw [apply_stores_cons, hg]
    dsimp only
    cases hgp : g p with
    | some v => simp
    | none =>
      by_cases hp : p = s.1
      · subst hp; simp
      · simp [hp, Function.update_noteq hp]

theorem apply_stores_idem {F : Type} (ss : List (Int × RDouble F)) (I : Int → RDouble F) :
    apply_stores ss (apply_stores ss I) = apply_stores ss I := by
  obtain ⟨g, hg⟩ := apply_stores_pointwise ss
  funext p
  rw [hg (apply_stores ss I) p, hg I p]
  cases g p <;> simp

theorem apply_masks_loop_stores {F : Type} (value : RDouble F) (c r d : Int) :
    ∀ (n : Nat) (s : List Char),
      (∃ e, ∀ I : Int → RDouble F, apply_masks_loop value c r d n s I = .error e) ∨
      (∃ rest ss, ∀ I : Int → RDouble F,
        apply_masks_loop value c r d n s I = .ok (rest, apply_stores ss I)) := by
  intro n
  induction n with
  | zero => intro s; exact Or.inr ⟨s, [], fun I => rfl⟩
  | succ n ih =>
    intro s
    cases hr : ReadFileLine BUF_SIZE s with
    | error e => exact Or.inl ⟨e, fun I => by rw [apply_masks_loop]; simp only [hr]⟩
    | ok br =>
      obtain ⟨buffer, rest⟩ := br
      cases h0 : get_token (tokenize buffer " \t".toList) 0 with
      | error e => exact Or.inl ⟨e, fun I => by rw [apply_masks_loop]; simp only [hr, h0]⟩
      | ok token0 =>
        cases h1 : get_token (tokenize buffer " \t".toList) 1 with
        | error e => exact Or.inl ⟨e, fun I => by rw [apply_masks_loop]; simp only [hr, h0, h1]⟩
        | ok token1 =>
          rcases ih rest with ⟨e, he⟩ | ⟨rest2, ss, hss⟩
          · exact Or.inl ⟨e, fun I => by rw [apply_masks_loop]; simp only [hr, h0, h1, he]⟩
          · exact Or.inr ⟨rest2, (c * r + (atoi token0 + d * atoi token1), value) :: ss,
              fun I => by rw [apply_masks_loop]; simp only [hr, h0, h1, hss, apply_stores_cons]⟩

theorem apply_masks_section_stores {F : Type} (sectiontitle : List Char) (value : RDouble F)
    (c r d : Int) (s : List Char) :
    (∃ e, ∀ I : Int → RDouble F, apply_masks_section sectiontitle value c r d s I = .error e) ∨
    (∃ rest ss, ∀ I : Int → RDouble F,
      apply_masks_section sectiontitle value c r d s I = .ok (rest, apply_stores ss I)) := by
  cases h1 : AdvanceToSection s sectiontitle with
  | error e => exact Or.inl ⟨e, fun I => by simp only [apply_masks_section, h1]⟩
  | ok r1 =>
    obtain ⟨b1, s1⟩ := r1
    cases h2 : findStartsWith s1 "NumberCells=".toList with
    | error e => exact Or.inl ⟨e, fun I => by simp only [apply_masks_section, h1, h2]⟩
    | ok r2 =>
      obtain ⟨b2, s2⟩ := r2
      cases h3 : get_token (tokenize b2 "=".toList) 1 with
      | error e => exact Or.inl ⟨e, fun I => by simp only [apply_masks_section, h1, h2, h3]⟩
      | ok token1 =>
        cases h4 : findStartsWith s2 "CellHeader=".toList with
        | error e =>
          exact Or.inl ⟨e, fun I => by simp only [apply_masks_section, h1, h2, h3, h4]⟩
        | ok r4 =>
          obtain ⟨b4, s4⟩ := r4
          rcases apply_masks_loop_stores value c r d (atoi token1).toNat s4 with
            ⟨e, he⟩ | ⟨rest, ss, hss⟩
          · exact Or.inl ⟨e, fun I => by simp only [apply_masks_section, h1, h2, h3, h4, he]⟩
          · exact Or.inr ⟨rest, ss,
              fun I => by simp only [apply_masks_section, h1, h2, h3, h4, hss]⟩

theorem apply_masks_stores {F : Type} (file : Option (List Char)) (c r cols d : Int)
    (m o : Bool) :
    (∃ e, ∀ I : Int → RDouble F, apply_masks file I c r cols d m o = .error e) ∨
    (∃ ss, ∀ I : Int → RDouble F,
      apply_masks file I c r cols d m o = .ok (apply_stores ss I)) := by
  by_cases hflags : (!m && !o) = true
  · exact Or.inr ⟨[], fun I => by simp only [apply_masks, hflags, if_true]; rfl⟩
  · cases hopen : open_cel_file file with
    | error e => exact Or.inl ⟨e, fun I => by simp only [apply_masks, hflags, hopen, Bool.false_eq_true, if_false]⟩
    | ok s0 =>
      have hm : (∃ e, ∀ I : Int → RDouble F,
            (if m = true then
              apply_masks_section "[MASKS]".toList RDouble.R_NaN c r d s0 I
             else .ok (s0, I)) = .error e) ∨
          (∃ rest ss, ∀ I : Int → RDouble F,
            (if m = true then
              apply_masks_section "[MASKS]".toList RDouble.R_NaN c r d s0 I
             else .ok (s0, I)) = .ok (rest, apply_stores ss I)) := by
        cases m with
        | true =>
          simp only [if_true]
          exact apply_masks_section_stores "[MASKS]".toList RDouble.R_NaN c r d s0
        | false => exact Or.inr ⟨s0, [], fun I => by simp [apply_stores]⟩
      rcases hm with ⟨e, he⟩ | ⟨s1, ss1, hs1⟩
      · exact Or.inl ⟨e, fun I => by simp only [apply_masks, hflags, hopen, Bool.false_eq_true, if_false, he]⟩
      · have ho : (∃ e, ∀ I : Int → RDouble F,
              (if o = true then
                apply_masks_section "[OUTLIERS]".toList RDouble.R_NaReal c r d s1 I
               else .ok (s1, I)) = .error e) ∨
            (∃ rest ss, ∀ I : Int → RDouble F,
              (if o = true then
                apply_masks_section "[OUTLIERS]".toList RDouble.R_NaReal c r d s1 I
               else .ok (s1, I)) = .ok (rest, apply_stores ss I)) := by
          cases o with
          | true =>
            simp only [if_true]
            exact apply_masks_section_stores "[OUTLIERS]".toList RDouble.R_NaReal c r d s1
          | false => exact Or.inr ⟨s1, [], fun I => by simp [apply_stores]⟩
        rcases ho with ⟨e, he⟩ | ⟨s2, ss2, hs2⟩
        · exact Or.inl ⟨e, fun I => by
            simp only [apply_masks, hflags, hopen, Bool.false_eq_true, if_false, hs1, he]⟩
        · exact Or.inr ⟨ss1 ++ ss2, fun I => by
            simp only [apply_masks, hflags, hopen, Bool.false_eq_true, if_false, hs1, hs2, apply_stores_append]⟩

theorem binary_apply_masks_loop_stores {F : Type} (c r : Int) (hdr : binary_header) :
    ∀ (n : Nat) (cur_loc : outliermask_loc) (infile : FILE),
      ∃ (cl : outliermask_loc) (f : FILE) (ss : List (Int × RDouble F)),
        ∀ I : Int → RDouble F,
          binary_apply_masks_loop c r hdr n cur_loc infile I = (cl, f, apply_stores ss I) := by
  intro n
  induction n with
  | zero => intro cur_loc infile; exact ⟨cur_loc, infile, [], fun I => rfl⟩
  | succ n ih =>
    intro cur_loc infile
    obtain ⟨cl, f, ss, h⟩ := ih
      ⟨(fread_int16 cur_loc.x infile).2.1,
        (fread_int16 cur_loc.y (fread_int16 cur_loc.x infile).2.2).2.1⟩
      (fread_int16 cur_loc.y (fread_int16 cur_loc.x infile).2.2).2.2
    exact ⟨cl, f, (c * r + ((fread_int16 cur_loc.x infile).2.1 + hdr.rows *
        (fread_int16 cur_loc.y (fread_int16 cur_loc.x infile).2.2).2.1), RDouble.R_NaN) :: ss,
      fun I => by rw [binary_apply_masks_loop]; simp only [h, apply_stores_cons]⟩

theorem binary_apply_masks_stores {F : Type} (sizeof_pointer : Nat) (file : Option (List Char))
    (c r cols d : Int) (m o : Bool) :
    (∃ e, ∀ I : Int → RDouble F,
      binary_apply_masks sizeof_pointer file I c r cols d m o = .error e) ∨
    (∃ ss, ∀ I : Int → RDouble F,
      binary_apply_masks sizeof_pointer file I c r cols d m o = .ok (apply_stores ss I)) := by
  cases hh : read_binary_header file 1 with
  | error e => exact Or.inl ⟨e.1, fun I => by simp only [binary_apply_masks, hh]⟩
  | ok oh =>
    cases oh with
    | none => exact Or.inl ⟨.undefined_behaviour, fun I => by simp only [binary_apply_masks, hh]⟩
    | some my_header =>
      cases hin : my_header.infile with
      | none =>
        exact Or.inl ⟨.undefined_behaviour, fun I => by simp only [binary_apply_masks, hh, hin]⟩
      | some infile =>
        have hm : ∃ (cl : outliermask_loc) (f : FILE) (ss : List (Int × RDouble F)),
            ∀ I : Int → RDouble F,
              (if m = true then
                binary_apply_masks_loop c r my_header my_header.n_masks ⟨0, 0⟩
                  (fseek_cur infile (wrap32 (my_header.n_cells * (2 * 4 + 2)))) I
              else ((⟨0, 0⟩ : outliermask_loc),
                fseek_cur (fseek_cur infile (wrap32 (my_header.n_cells * (2 * 4 + 2))))
                  (my_header.n_masks * sizeof_pointer), I)) = (cl, f, apply_stores ss I) := by
          cases m with
          | true =>
            simp only [if_true]
            exact binary_apply_masks_loop_stores c r my_header _ _ _
          | false =>
            exact ⟨⟨0, 0⟩, fseek_cur (fseek_cur infile (wrap32 (my_header.n_cells * (2 * 4 + 2))))
              (my_header.n_masks * sizeof_pointer), [], fun I => by simp [apply_stores]⟩
        obtain ⟨cl1, f1, ss1, h1⟩ := hm
        have ho : ∃ (cl : outliermask_loc) (f : FILE) (ss : List (Int × RDouble F)),
            ∀ I : Int → RDouble F,
              (if o = true then
                binary_apply_masks_loop c r my_header my_header.n_outliers cl1 f1 I
              else (cl1, fseek_cur f1 (my_header.n_outliers * sizeof_pointer), I))
                = (cl, f, apply_stores ss I) := by
          cases o with
          | true =>
            simp only [if_true]
            exact binary_apply_masks_loop_stores c r my_header _ _ _
          | false =>
            exact ⟨cl1, fseek_cur f1 (my_header.n_outliers * sizeof_pointer), [],
              fun I => by simp [apply_stores]⟩
        obtain ⟨cl2, f2, ss2, h2⟩ := ho
        exact Or.inr ⟨ss1 ++ ss2, fun I => by
          simp only [binary_apply_masks, hh, hin, h1, h2, apply_stores_append]⟩

theorem set_cells_eq_apply_stores {F : Type} (value : RDouble F) (base stride : Int)
    (coords : List (Int × Int)) (I : Int → RDouble F) :
    set_cells value base stride coords I
      = apply_stores (coords.map (fun xy => (base + (xy.1 + stride * xy.2), value))) I := by
  induction coords generalizing I with
  | nil => rfl
  | cons xy rest ih =>
    simp only [set_cells, List.foldl_cons, List.map_cons, apply_stores_cons] at ih ⊢
    rw [ih]
    rfl

theorem set_cells_mem {F : Type} (value : RDouble F) (base stride : Int)
    (coords : List (Int × Int)) (I : Int → RDouble F) (xy : Int × Int) (h : xy ∈ coords) :
    set_cells value base stride coords I (base + (xy.1 + stride * xy.2)) = value := by
  induction coords using List.reverseRecOn with
  | nil => cases h
  | append_singleton rest last ih =>
    simp only [set_cells, List.foldl_append, List.foldl_cons, List.foldl_nil, set_cell] at ih ⊢
    by_cases hp : base + (xy.1 + stride * xy.2) = base + (last.1 + stride * last.2)
    · rw [hp, Function.update_same]
    · rw [Function.update_noteq hp]
      rcases List.mem_append.1 h with h1 | h1
      · exact ih h1
      · simp only [List.mem_singleton] at h1
        rw [h1] at hp
        exact absurd rfl hp

theorem set_cells_not_mem {F : Type} (value : RDouble F) (base stride : Int)
    (coords : List (Int × Int)) (I : Int → RDouble F) (p : Int)
    (h : ∀ xy ∈ coords, base + (xy.1 + stride * xy.2) ≠ p) :
    set_cells value base stride coords I p = I p := by
  induction coords generalizing I with
  | nil => rfl
  | cons xy rest ih =>
    simp only [set_cells, List.foldl_cons] at ih ⊢
    rw [ih _ (fun z hz => h z (List.mem_cons_of_mem _ hz))]
    simp only [set_cell]
    exact Function.update_noteq (fun hp => h xy (List.mem_cons_self _ _) hp.symm) _ _

/-! ## General lemmas: what the text mask application leaves in the matrix -/

theorem apply_masks_only_masks {F : Type} (file : Option (List Char)) (I : Int → RDouble F)
    (c r cols d : Int) (s0 : List Char) (masks : List (List Char)) (after_masks : List Char)
    (hopen : open_cel_file file = .ok s0)
    (hm : SectionLists s0 "[MASKS]".toList masks after_masks) :
    apply_masks file I c r cols d true false
      = .ok (set_cells RDouble.R_NaN (c * r) d (masks.map line_coords) I) := by
  have hs := apply_masks_section_of_lists "[MASKS]".toList RDouble.R_NaN c r d s0 I masks
    after_masks hm
  simp only [apply_masks, hopen, hs, Bool.not_true, Bool.not_false, Bool.and_false,
    Bool.false_and, Bool.and_true, Bool.false_eq_true, if_false, if_true]

theorem apply_masks_only_outliers {F : Type} (file : Option (List Char)) (I : Int → RDouble F)
    (c r cols d : Int) (s0 : List Char) (outliers : List (List Char))
    (after_outliers : List Char)
    (hopen : open_cel_file file = .ok s0)
    (ho : SectionLists s0 "[OUTLIERS]".toList outliers after_outliers) :
    apply_masks file I c r cols d false true
      = .ok (set_cells RDouble.R_NaReal (c * r) d (outliers.map line_coords) I) := by
  have hs := apply_masks_section_of_lists "[OUTLIERS]".toList RDouble.R_NaReal c r d s0 I
    outliers after_outliers ho
  simp only [apply_masks, hopen, hs, Bool.not_true, Bool.not_false, Bool.and_false,
    Bool.false_and, Bool.and_true, Bool.false_eq_true, if_false, if_true]

theorem apply_masks_both {F : Type} (file : Option (List Char)) (I : Int → RDouble F)
    (c r cols d : Int) (s0 : List Char) (masks : List (List Char)) (after_masks : List Char)
    (outliers : List (List Char)) (after_outliers : List Char)
    (hopen : open_cel_file file = .ok s0)
    (hm : SectionLists s0 "[MASKS]".toList masks after_masks)
    (ho : SectionLists after_masks "[OUTLIERS]".toList outliers after_outliers) :
    apply_masks file I c r cols d true true
      = .ok (set_cells RDouble.R_NaReal (c * r) d (outliers.map line_coords)
          (set_cells RDouble.R_NaN (c * r) d (masks.map line_coords) I)) := by
  have hs1 := apply_masks_section_of_lists "[MASKS]".toList RDouble.R_NaN c r d s0 I masks
    after_masks hm
  have hs2 := apply_masks_section_of_lists "[OUTLIERS]".toList RDouble.R_NaReal c r d
    after_masks (set_cells RDouble.R_NaN (c * r) d (masks.map line_coords) I) outliers
    after_outliers ho
  simp only [apply_masks, hopen, hs1, hs2, Bool.not_true, Bool.not_false, Bool.and_false,
    Bool.false_and, Bool.and_true, Bool.false_eq_true, if_false, if_true]

theorem set_cells_line {F : Type} (value : RDouble F) (c r d : Int) (lines : List (List Char))
    (I : Int → RDouble F) (l : List Char) (h : l ∈ lines) :
    set_cells value (c * r) d (lines.map line_coords) I (line_offset c r d l) = value :=
  set_cells_mem value (c * r) d (lines.map line_coords) I (line_coords l)
    (List.mem_map_of_mem line_coords h)

theorem set_cells_other_line {F : Type} (value : RDouble F) (c r d : Int)
    (lines : List (List Char)) (I : Int → RDouble F) (p : Int)
    (h : ∀ l ∈ lines, line_offset c r d l ≠ p) :
    set_cells value (c * r) d (lines.map line_coords) I p = I p := by
  apply set_cells_not_mem
  intro xy hxy
  obtain ⟨l, hl, rfl⟩ := List.mem_map.1 hxy
  exact h l hl

/-! ## General lemmas: the format probes -/

theorem strncmp_take : ∀ (n : Nat) (a b : List Char), strncmp a b n = strncmp (a.take n) b n := by
  intro n
  induction n with
  | zero => intro a b; simp [strncmp]
  | succ n ih =>
    intro a b
    cases a with
    | nil => rfl
    | cons x as =>
      cases b with
      | nil => simp [strncmp]
      | cons y bs =>
        simp only [List.take_succ_cons, strncmp]
        rw [ih as bs]

theorem strncmp_CEL (buffer : List Char) :
    strncmp "[CEL]".toList buffer 4 = 0 ↔ "[CEL".toList <+: buffer := by
  rw [strncmp_take]
  exact strncmp_eq_zero_iff "[CEL".toList (by decide) buffer

theorem ReadFileLine_of_ne_nil (content : List Char) (h : content ≠ []) :
    ∃ buffer rest, ReadFileLine BUF_SIZE content = .ok (buffer, rest) := by
  cases content with
  | nil => exact absurd rfl h
  | cons c s => exact ⟨_, _, rfl⟩

theorem isTextCelFile_spec (content buffer rest : List Char)
    (h : ReadFileLine BUF_SIZE content = .ok (buffer, rest)) :
    isTextCelFile (some content) = .ok (if "[CEL".toList <+: buffer then 1 else 0) := by
  simp only [isTextCelFile, h]
  by_cases hp : "[CEL".toList <+: buffer
  · rw [if_pos ((strncmp_CEL buffer).2 hp), if_pos hp]
  · rw [if_neg (fun e => hp ((strncmp_CEL buffer).1 e)), if_neg hp]

theorem fread_int32_short (destination : Int) (content : List Char) (pos : Nat)
    (h : content.length < pos + 4) :
    (fread_int32 destination ⟨content, pos⟩).1 = 0 := by
  have hlen : ((content.drop pos).take 4).length < 4 := by
    simp only [List.length_take, List.length_drop]; omega
  simp only [fread_int32, fread, Nat.mul_one]
  exact Nat.div_eq_of_lt hlen

theorem read_binary_header_version_truncated (content : List Char) (return_stream : Int)
    (h4 : 4 ≤ content.length) (h8 : content.length < 8) (hmagic : int32_at content 0 = 64) :
    read_binary_header (some content) return_stream = .ok none := by
  have r1 := fread_int32_full 0 content 0 (by omega)
  have r2 := fread_int32_short 0 content 4 (by omega)
  simp only [Nat.zero_add] at r1
  have hd : read_binary_header_dims ⟨content, 0⟩ = .ok none := by
    simp only [read_binary_header_dims, r1, r2, hmagic]
    simp
  simp only [read_binary_header, hd]

/-! ## General lemmas: the walk over the data groups -/

theorem multichannel_data_sets_loop_eq (infile : generic_file) :
    ∀ (n pos : Nat),
      multichannel_data_sets_loop infile n pos
        = (data_sets_at infile n pos).any
            (fun s => compare_AWSTRING_Intensity s.data_set_name = 0) := by
  intro n
  induction n with
  | zero => intro pos; rfl
  | succ n ih =>
    intro pos
    rw [multichannel_data_sets_loop, data_sets_at, List.any_cons]
    by_cases h : compare_AWSTRING_Intensity (infile.read_generic_data_set pos).1.data_set_name = 0
    · simp [h]
    · simp [h, ih]

theorem group_position_shift (infile : generic_file) (start : Nat) :
    ∀ k : Nat, group_position infile start (k + 1)
      = group_position infile
          (infile.read_generic_data_group start).1.file_position_nextgroup k := by
  intro k
  induction k with
  | zero => rfl
  | succ k ih =>
    show (infile.read_generic_data_group (group_position infile start (k + 1))).1.file_position_nextgroup = _
    rw [ih]
    rfl

theorem group_next_shift (infile : generic_file) (start : Nat) (k : Nat) :
    group_next infile start (k + 1)
      = group_next infile (infile.read_generic_data_group start).1.file_position_nextgroup k := by
  simp only [group_next, group_position_shift]

theorem group_data_sets_shift (infile : generic_file) (start : Nat) (k : Nat) :
    group_data_sets infile start (k + 1)
      = group_data_sets infile
          (infile.read_generic_data_group start).1.file_position_nextgroup k := by
  simp only [group_data_sets, group_position_shift]

theorem groups_counted_shift (infile : generic_file) (start : Nat) :
    ∀ k : Nat, groups_counted infile start (k + 1)
      = (if (group_data_sets infile start 0).any
              (fun s => compare_AWSTRING_Intensity s.data_set_name = 0)
          then 1 else 0)
        + groups_counted infile
            (infile.read_generic_data_group start).1.file_position_nextgroup k := by
  intro k
  induction k with
  | zero => simp [groups_counted]
  | succ k ih =>
    rw [groups_counted, ih, groups_counted, group_data_sets_shift]
    omega

theorem multichannel_groups_loop_step (infile : generic_file) (fuel start : Nat)
    (returnvalue : Int) :
    multichannel_groups_loop infile (fuel + 1) start returnvalue
      = if group_next infile start 0 > 0 then
          multichannel_groups_loop infile fuel
            (infile.read_generic_data_group start).1.file_position_nextgroup
            (returnvalue + groups_counted infile start 1)
        else some (returnvalue + groups_counted infile start 1) := by
  have hc : (if multichannel_data_sets_loop infile
        (infile.read_generic_data_group start).1.n_data_sets.toNat
        (infile.read_generic_data_group start).2 = true then returnvalue + 1 else returnvalue)
      = returnvalue + groups_counted infile start 1 := by
    rw [multichannel_data_sets_loop_eq]
    simp only [groups_counted, group_data_sets, group_position, Int.zero_add]
    split <;> simp
  rw [multichannel_groups_loop]
  simp only [hc, group_next, group_position]

theorem multichannel_groups_loop_returns (infile : generic_file) :
    ∀ (k start fuel : Nat) (returnvalue : Int),
      (∀ i, i < k → group_next infile start i ≠ 0) → group_next infile start k = 0 →
      k < fuel →
      multichannel_groups_loop infile fuel start returnvalue
        = some (returnvalue + groups_counted infile start (k + 1)) := by
  intro k
  induction k with
  | zero =>
    intro start fuel returnvalue _ h0 hfuel
    obtain ⟨f, rfl⟩ : ∃ f, fuel = f + 1 := ⟨fuel - 1, by omega⟩
    rw [multichannel_groups_loop_step, h0]
    simp
  | succ k ih =>
    intro start fuel returnvalue hne h0 hfuel
    obtain ⟨f, rfl⟩ : ∃ f, fuel = f + 1 := ⟨fuel - 1, by omega⟩
    have h1 : group_next infile start 0 > 0 := Nat.pos_of_ne_zero (hne 0 (by omega))
    rw [multichannel_groups_loop_step, if_pos h1,
      ih _ f _ (fun i hi => by rw [← group_next_shift]; exact hne (i + 1) (by omega))
        (by rw [← group_next_shift]; exact h0) (by omega),
      groups_counted_shift infile start (k + 1)]
    simp only [groups_counted, Int.zero_add]
    congr 1
    omega

theorem multichannel_groups_loop_running (infile : generic_file) :
    ∀ (fuel start : Nat) (returnvalue : Int),
      (∀ i, i < fuel → group_next infile start i ≠ 0) →
      multichannel_groups_loop infile fuel start returnvalue = none := by
  intro fuel
  induction fuel with
  | zero => intro start returnvalue _; rfl
  | succ f ih =>
    intro start returnvalue hne
    have h1 : group_next infile start 0 > 0 := Nat.pos_of_ne_zero (hne 0 (by omega))
    rw [multichannel_groups_loop_step, if_pos h1]
    exact ih _ _ (fun i hi => by rw [← group_next_shift]; exact hne (i + 1) (by omega))

theorem group_next_of_cycle (infile : generic_file) (start k j : Nat) (hjk : j ≤ k)
    (hne : ∀ i, i ≤ k → group_next infile start i ≠ 0)
    (hback : group_next infile start k = group_position infile start j) :
    ∀ n : Nat, group_next infile start n ≠ 0 := by
  have hpos : ∀ n : Nat, ∃ i, i ≤ k ∧ group_position infile start n
      = group_position infile start i := by
    intro n
    induction n with
    | zero => exact ⟨0, by omega, rfl⟩
    | succ n ih =>
      obtain ⟨i, hik, hi⟩ := ih
      by_cases hlt : i < k
      · refine ⟨i + 1, by omega, ?_⟩
        show (infile.read_generic_data_group (group_position infile start n)).1.file_position_nextgroup = (infile.read_generic_data_group (group_position infile start i)).1.file_position_nextgroup
        rw [hi]
      · have hik2 : i = k := by omega
        subst hik2
        refine ⟨j, hjk, ?_⟩
        rw [← hback]
        show (infile.read_generic_data_group (group_position infile start n)).1.file_position_nextgroup = _
        rw [hi]
        rfl
  intro n
  obtain ⟨i, hik, hi⟩ := hpos n
  have : group_next infile start n = group_next infile start i := by
    simp only [group_next, hi]
  rw [this]
  exact hne i hik

theorem multichannel_returns (infile : generic_file) (k : Nat)
    (hne : ∀ i, i < k →
      group_next infile (infile.read_generic_data_header (infile.read_generic_file_header 0)) i
        ≠ 0)
    (h0 : group_next infile
      (infile.read_generic_data_header (infile.read_generic_file_header 0)) k = 0) :
    Returns (fun fuel => multichannel_determine_number_channels fuel (some infile))
      (.ok (groups_counted infile
        (infile.read_generic_data_header (infile.read_generic_file_header 0)) (k + 1))) := by
  refine ⟨k + 1, fun n hn => ?_⟩
  simp only [multichannel_determine_number_channels]
  rw [multichannel_groups_loop_returns infile k _ n 0 hne h0 (by omega)]
  simp

theorem multichannel_diverges (infile : generic_file)
    (hne : ∀ i,
      group_next infile (infile.read_generic_data_header (infile.read_generic_file_header 0)) i
        ≠ 0) :
    Diverges (fun fuel => multichannel_determine_number_channels fuel (some infile)) := by
  intro fuel
  simp only [multichannel_determine_number_channels]
  rw [multichannel_groups_loop_running infile fuel _ 0 (fun i _ => hne i)]

/-! ## Lemmas on tokens, second part -/

theorem token_ends_with_nonneg (token ends_in : List Char) :
    0 ≤ token_ends_with token ends_in := by
  unfold token_ends_with
  by_cases hlen : (token.length : Int) ≤ ends_in.length
  · simp only [hlen, if_true]; omega
  · simp only [hlen, if_false]
    split_ifs
    · omega
    · omega

theorem strtok_cons_delimiter (c : Char) (s d : List Char) (hc : d.contains c = true) :
    strtok (c :: s) d = strtok s d := by
  unfold strtok
  rw [List.dropWhile_cons_of_pos (p := fun c => d.contains c) (a := c) hc]

theorem tokenize_cons_delimiter (c : Char) (s d : List Char) (hc : d.contains c = true) :
    tokenize (c :: s) d = tokenize s d := by
  have h := strtok_cons_delimiter c s d hc
  cases hs : strtok s d with
  | none => rw [tokenize_none hs, tokenize_none (h.trans hs)]
  | some p =>
    obtain ⟨t, r⟩ := p
    rw [tokenize_some hs, tokenize_some (h.trans hs)]

theorem tokenize_nil (d : List Char) : tokenize [] d = [] := by
  apply tokenize_none
  rfl

theorem tokenize_cons_token (c : Char) (s d : List Char) (hc : d.contains c = false) :
    tokenize (c :: s) d
      = (c :: s.takeWhile (fun x => !d.contains x))
          :: tokenize ((s.dropWhile (fun x => !d.contains x)).drop 1) d := by
  have hc2 : (!d.contains c) = true := by rw [hc]; rfl
  have h : strtok (c :: s) d = some (c :: s.takeWhile (fun x => !d.contains x),
      (s.dropWhile (fun x => !d.contains x)).drop 1) := by
    unfold strtok
    rw [List.dropWhile_cons_of_neg (p := fun c => d.contains c) (a := c)
      (by show ¬ d.contains c = true; rw [hc]; simp)]
    simp only [List.takeWhile_cons_of_pos (p := fun x => !d.contains x) (a := c) hc2,
      List.dropWhile_cons_of_pos (p := fun x => !d.contains x) (a := c) hc2]
  exact tokenize_some h

theorem splitOnP_cons_token (p : Char → Bool) :
    ∀ (s : List Char) (c : Char), p c = false →
      (c :: s).splitOnP p
        = (c :: s.takeWhile (fun x => !p x))
            :: (match s.dropWhile (fun x => !p x) with
                | [] => []
                | _ :: r => r.splitOnP p) := by
  intro s
  induction s with
  | nil =>
    intro c hc
    simp [List.splitOnP_cons, hc, List.splitOnP_nil, List.modifyHead]
  | cons x xs ih =>
    intro c hc
    rw [List.splitOnP_cons]
    simp only [hc, Bool.false_eq_true, if_false]
    by_cases hx : p x = true
    · rw [List.splitOnP_cons]
      simp [hx, List.modifyHead]
    · have hx2 : p x = false := by simpa using hx
      rw [ih x hx2]
      simp [hx2, List.modifyHead]

theorem tokenize_eq_maximal_runs (d : List Char) :
    ∀ s : List Char, tokenize s d = maximal_runs d s := by
  intro s
  generalize hn : s.length = n
  induction n using Nat.strong_induction_on generalizing s with
  | _ n ih =>
    cases s with
    | nil => rw [tokenize_nil]; simp [maximal_runs, List.splitOnP_nil]
    | cons c s =>
      by_cases hc : d.contains c = true
      · rw [tokenize_cons_delimiter c s d hc, ih s.length (by simp at hn; omega) s rfl]
        have hc3 : c ∈ d := by simpa using hc
        simp [maximal_runs, List.splitOnP_cons, hc3]
      · have hc2 : d.contains c = false := by simpa using hc
        rw [tokenize_cons_token c s d hc2]
        unfold maximal_runs
        rw [splitOnP_cons_token (fun c => d.contains c) s c hc2]
        cases hdrop : s.dropWhile (fun x => !d.contains x) with
        | nil =>
          simp [tokenize_nil]
        | cons y r =>
          have hlen : r.length < n := by
            have h1 : (y :: r).length ≤ s.length := by
              rw [← hdrop]; exact (List.dropWhile_sublist _).length_le
            simp only [List.length_cons] at h1 hn
            omega
          have := ih r.length hlen r rfl
          simp only [List.drop_succ_cons, List.drop_zero, this, maximal_runs]
          simp

theorem tokenize_token_spec {d : List Char} :
    ∀ (s : List Char) (t : List Char), t ∈ tokenize s d → t ≠ [] ∧ ∀ c ∈ t, c ∉ d := by
  intro s
  generalize hn : s.length = n
  induction n using Nat.strong_induction_on generalizing s with
  | _ n ih =>
    intro t ht
    cases s with
    | nil => rw [tokenize_nil] at ht; cases ht
    | cons c s =>
      by_cases hc : d.contains c = true
      · rw [tokenize_cons_delimiter c s d hc] at ht
        exact ih s.length (by simp at hn; omega) s rfl t ht
      · have hc2 : d.contains c = false := by simpa using hc
        rw [tokenize_cons_token c s d hc2] at ht
        rcases List.mem_cons.mp ht with rfl | ht'
        · refine ⟨by simp, ?_⟩
          intro x hx
          rcases List.mem_cons.mp hx with rfl | hx'
          · simpa using hc2
          · have := List.mem_takeWhile_imp hx'
            simpa using this
        · have hlen : ((s.dropWhile (fun x => !d.contains x)).drop 1).length < n := by
            have h1 : (s.dropWhile (fun x => !d.contains x)).length ≤ s.length :=
              (List.dropWhile_sublist _).length_le
            simp only [List.length_drop, List.length_cons] at *
            omega
          exact ih _ hlen _ rfl t ht'

theorem tokenize_all_delimiters {d : List Char} :
    ∀ s : List Char, (∀ c ∈ s, c ∈ d) → tokenize s d = [] := by
  intro s
  induction s with
  | nil => intro _; exact tokenize_nil d
  | cons c s ih =>
    intro h
    have hc : d.contains c = true := by simpa using h c (by simp)
    rw [tokenize_cons_delimiter c s d hc]
    exact ih (fun x hx => h x (by simp [hx]))

theorem read_cel_file_intensities_complete {F : Type} (atof : List Char → F)
    (file : Option (List Char)) (intensity : Int → RDouble F)
    (chip_num rows cols chip_dim_rows : Int)
    (s0 b1 s1 b2 tail : List Char) (lines : List (List Char))
    (hopen : open_cel_file file = .ok s0)
    (hsec : AdvanceToSection s0 "[INTENSITY]".toList = .ok (b1, s1))
    (hcell : findStartsWith s1 "CellHeader=".toList = .ok (b2, lines.flatten ++ tail))
    (hlines : ∀ l ∈ lines, isLine l = true ∧ 3 ≤ (tokenize l " \t".toList).length)
    (hk : (lines.length : Int) = rows) :
    read_cel_file_intensities atof file intensity chip_num rows cols chip_dim_rows
      = .ok ⟨0, lines.foldl (store_line atof chip_num rows chip_dim_rows) intensity, []⟩ := by
  have hn : rows.toNat = lines.length + 0 := by omega
  have hloop := read_loop_lines atof chip_num rows chip_dim_rows lines hlines tail 0 0 intensity
  rw [← hn, read_cel_file_intensities_loop] at hloop
  have he : (0 : Int) + lines.length = rows := by omega
  simp only [read_cel_file_intensities, hopen, hsec, hcell, hloop, he, ne_eq,
    not_true_eq_false, if_false]

theorem splitOnP_append_cons (p : Char → Bool) (c : Char) (v : List Char) (hc : p c = true) :
    ∀ u : List Char, (u ++ c :: v).splitOnP p = u.splitOnP p ++ v.splitOnP p := by
  intro u
  induction u with
  | nil => simp [List.splitOnP_cons, hc, List.splitOnP_nil]
  | cons x xs ih =>
    rw [List.cons_append, List.splitOnP_cons, List.splitOnP_cons, ih]
    by_cases hx : p x = true
    · simp [hx]
    · simp only [hx, Bool.false_eq_true, if_false]
      cases hsplit : xs.splitOnP p with
      | nil => exact absurd hsplit (List.splitOnP_ne_nil p xs)
      | cons a as => simp [List.modifyHead]

theorem tokenize_append_delimiter (c : Char) (u v d : List Char) (hc : d.contains c = true) :
    tokenize (u ++ c :: v) d = tokenize u d ++ tokenize v d := by
  rw [tokenize_eq_maximal_runs, tokenize_eq_maximal_runs, tokenize_eq_maximal_runs]
  unfold maximal_runs
  rw [splitOnP_append_cons (fun c => d.contains c) c v hc u, List.filter_append]

theorem tokenize_no_delimiter (t d : List Char) (ht : t ≠ [])
    (hd : ∀ c ∈ t, d.contains c = false) : tokenize t d = [t] := by
  cases t with
  | nil => exact absurd rfl ht
  | cons x xs =>
    rw [tokenize_cons_token x xs d (hd x (by simp))]
    have hall : ∀ y ∈ xs, (!d.contains y) = true := by
      intro y hy
      rw [hd y (by simp [hy])]; rfl
    have h1 : xs.takeWhile (fun y => !d.contains y) = xs := by
      rw [List.takeWhile_eq_self_iff]
      exact hall
    have h2 : xs.dropWhile (fun y => !d.contains y) = [] := by
      rw [List.dropWhile_eq_nil_iff]
      exact hall
    rw [h1, h2]
    simp [tokenize_nil]

theorem tokenize_key_value (key value more d : List Char) (c1 c2 : Char)
    (hkey : key ≠ []) (hkeyd : ∀ c ∈ key, d.contains c = false)
    (hvalue : value ≠ []) (hvalued : ∀ c ∈ value, d.contains c = false)
    (hc1 : d.contains c1 = true) (hc2 : d.contains c2 = true) :
    get_token (tokenize (key ++ c1 :: (value ++ c2 :: more)) d) 1 = .ok value := by
  rw [tokenize_append_delimiter c1 key _ d hc1, tokenize_append_delimiter c2 value more d hc2,
    tokenize_no_delimiter key d hkey hkeyd, tokenize_no_delimiter value d hvalue hvalued]
  rfl

theorem atoi_digits_append (c : Char) (hc : c.isDigit = false) :
    ∀ (r : List Char) (acc : Nat), atoi_digits (r ++ [c]) acc = atoi_digits r acc := by
  intro r
  induction r with
  | nil => intro acc; simp [atoi_digits, hc]
  | cons x xs ih =>
    intro acc
    rw [List.cons_append, atoi_digits, atoi_digits]
    split_ifs
    · exact ih _
    · rfl

theorem strtol_append_newline : ∀ t : List Char, strtol (t ++ ['\n']) = strtol t := by
  intro t
  induction t with
  | nil => decide
  | cons x xs ih =>
    by_cases hx : isspace x = true
    · have e1 : strtol (x :: xs ++ ['\n']) = strtol (xs ++ ['\n']) := by
        simp only [strtol, List.cons_append, List.dropWhile_cons_of_pos hx]
      have e2 : strtol (x :: xs) = strtol xs := by
        simp only [strtol, List.dropWhile_cons_of_pos hx]
      rw [e1, e2, ih]
    · have d1 : (x :: xs ++ ['\n']).dropWhile isspace = x :: (xs ++ ['\n']) := by
        rw [List.cons_append, List.dropWhile_cons_of_neg hx]
      have d2 : (x :: xs).dropWhile isspace = x :: xs := List.dropWhile_cons_of_neg hx
      have hd := atoi_digits_append '\n' (by decide)
      unfold strtol
      rw [d1, d2]
      by_cases h1 : x = '-'
      · subst h1; simp only [hd]
      · by_cases h2 : x = '+'
        · subst h2; simp only [hd]
        · have e : x :: (xs ++ ['\n']) = (x :: xs) ++ ['\n'] := rfl
          split
          · rename_i heq; injection heq with ha hb; exact absurd ha h1
          · rename_i heq; injection heq with ha hb; exact absurd ha h2
          · split
            · rename_i heq; injection heq with ha hb; exact absurd ha h1
            · rename_i heq; injection heq with ha hb; exact absurd ha h2
            · rw [e, hd]

theorem atoi_append_newline (t : List Char) : atoi (t ++ ['\n']) = atoi t := by
  rw [atoi, atoi, strtol_append_newline]

theorem last_delimiter (p : Char → Bool) :
    ∀ t : List Char, (∀ x ∈ t, p x = false) ∨
      ∃ u c w, t = u ++ c :: w ∧ p c = true ∧ ∀ x ∈ w, p x = false := by
  intro t
  induction t with
  | nil => left; simp
  | cons x xs ih =>
    rcases ih with h | ⟨u, c, w, hu, hc, hw⟩
    · by_cases hx : p x = true
      · right; exact ⟨[], x, xs, rfl, hx, h⟩
      · left
        intro y hy
        rcases List.mem_cons.mp hy with rfl | hy'
        · simpa using hx
        · exact h y hy'
    · right
      exact ⟨x :: u, c, w, by rw [hu]; rfl, hc, hw⟩

theorem tokenize_append_char (t d : List Char) (c : Char) (hc : d.contains c = false) :
    tokenize (t ++ [c]) d = tokenize t d ++ [[c]] ∨
    ∃ init last, tokenize t d = init ++ [last] ∧ tokenize (t ++ [c]) d = init ++ [last ++ [c]] := by
  have hone : ∀ w : List Char, (∀ x ∈ w, d.contains x = false) →
      tokenize (w ++ [c]) d = [w ++ [c]] := by
    intro w hw
    apply tokenize_no_delimiter _ d (by simp)
    intro x hx
    rcases List.mem_append.mp hx with h | h
    · exact hw x h
    · simp only [List.mem_singleton] at h; subst h; exact hc
  rcases last_delimiter (fun x => d.contains x) t with h | ⟨u, c1, w, hu, hc1, hw⟩
  · cases t with
    | nil => left; rw [tokenize_nil]; exact hone [] (by simp)
    | cons x xs =>
      right
      refine ⟨[], x :: xs, ?_, ?_⟩
      · exact tokenize_no_delimiter _ d (by simp) h
      · exact hone _ h
  · subst hu
    have e : (u ++ c1 :: w) ++ [c] = u ++ c1 :: (w ++ [c]) := by simp
    rw [e, tokenize_append_delimiter c1 u _ d hc1, tokenize_append_delimiter c1 u w d hc1,
      hone w hw]
    cases w with
    | nil => left; rw [tokenize_nil]; simp
    | cons y ys =>
      right
      exact ⟨tokenize u d, y :: ys, by rw [tokenize_no_delimiter _ d (by simp) hw], rfl⟩

theorem tokenize_append_char_get (t d : List Char) (c : Char) (hc : d.contains c = false)
    (i : Nat) (hi : i < (tokenize t d).length) :
    ∃ tok tok1, (tokenize t d).get? i = some tok ∧ (tokenize (t ++ [c]) d).get? i = some tok1 ∧
      (tok1 = tok ∨ tok1 = tok ++ [c]) := by
  simp only [List.get?_eq_getElem?]
  rcases tokenize_append_char t d c hc with h | ⟨init, last, h1, h2⟩
  · rw [h]
    refine ⟨(tokenize t d)[i], (tokenize t d)[i], List.getElem?_eq_getElem hi, ?_, Or.inl rfl⟩
    rw [List.getElem?_append_left hi, List.getElem?_eq_getElem hi]
  · rw [h1, h2]
    rw [h1] at hi
    simp only [List.length_append, List.length_singleton] at hi
    by_cases hlt : i < init.length
    · refine ⟨init[i], init[i], ?_, ?_, Or.inl rfl⟩
      · rw [List.getElem?_append_left hlt, List.getElem?_eq_getElem hlt]
      · rw [List.getElem?_append_left hlt, List.getElem?_eq_getElem hlt]
    · have he : i = init.length := by omega
      subst he
      refine ⟨last, last ++ [c], ?_, ?_, Or.inr rfl⟩
      · simp
      · simp

theorem tokenize_lines :
    ∀ lines : List (List Char), (∀ l ∈ lines, isLine l = true) →
      tokenize lines.flatten "\n".toList
        = (lines.map List.dropLast).filter (fun t => !t.isEmpty) := by
  intro lines
  induction lines with
  | nil => intro _; exact tokenize_nil _
  | cons l ls ih =>
    intro h
    obtain ⟨b, hb, hn, -, -⟩ := isLine_split (h l (by simp))
    have ihs := ih (fun x hx => h x (by simp [hx]))
    have e : (l :: ls).flatten = b ++ '\n' :: ls.flatten := by rw [hb]; simp
    have hdl : l.dropLast = b := by rw [hb]; simp
    rw [e, tokenize_append_delimiter '\n' b _ _ (by decide), ihs, List.map_cons, hdl]
    cases b with
    | nil => rw [tokenize_nil]; simp
    | cons y ys =>
      have hnd : ∀ c ∈ y :: ys, "\n".toList.contains c = false := by
        intro c hcm
        have : c ≠ '\n' := fun e => hn (e ▸ hcm)
        simpa using this
      rw [tokenize_no_delimiter _ _ (by simp) hnd]
      simp

theorem read_gzcel_file_intensities_loop_eq {F : Type} (atof : List Char → F)
    (c r d : Int) :
    ∀ (n : Nat) (i : Int) (s : List Char) (I : Int → RDouble F),
      (read_gzcel_file_intensities_loop atof c r d n i s I).map (fun x => (x.1, x.2.1))
        = (read_cel_file_intensities_loop atof c r d n i s I).map (fun x => (x.1, x.2.1)) := by
  intro n
  induction n with
  | zero => intro i s I; rfl
  | succ n ih =>
    intro i s I
    rw [read_gzcel_file_intensities_loop, read_cel_file_intensities_loop, ReadgzFileLine_eq]
    cases hr : ReadFileLine BUF_SIZE s with
    | error e => rfl
    | ok p =>
      obtain ⟨buffer, rest⟩ := p
      dsimp only
      have hlen := tokenize_length_lt (s := buffer) (d := " \t".toList)
      cases h1 : strtok buffer " \t".toList with
      | none =>
        by_cases hb : buffer.length ≤ 2
        · simp only [h1, hb, if_true]; rfl
        · simp only [h1, hb, if_false]
      | some p1 =>
        obtain ⟨tx, s1⟩ := p1
        rw [tokenize_some h1] at hlen
        cases h2 : strtok s1 " \t".toList with
        | none =>
          by_cases hb : buffer.length ≤ 2
          · simp only [h1, h2, hb, if_true]; rfl
          · simp only [h1, h2, hb, if_false]
        | some p2 =>
          obtain ⟨ty, s2⟩ := p2
          rw [tokenize_some h2] at hlen
          cases h3 : strtok s2 " \t".toList with
          | none =>
            by_cases hb : buffer.length ≤ 2
            · simp only [h1, h2, h3, hb, if_true]; rfl
            · simp only [h1, h2, h3, hb, if_false]
          | some p3 =>
            obtain ⟨tm, s3⟩ := p3
            rw [tokenize_some h3] at hlen
            have hb : ¬ buffer.length ≤ 2 := by
              simp only [List.length_cons] at hlen
              omega
            simp only [h1, h2, h3, hb, if_false]
            exact ih _ _ _

theorem read_gzcel_file_intensities_eq {F : Type} (atof : List Char → F)
    (inflate : List Char → List Char) (file : Option (List Char))
    (I : Int → RDouble F) (c r cols d : Int) :
    (read_gzcel_file_intensities atof inflate file I c r cols d).map
        (fun x => (x.ret, x.intensity))
      = (read_cel_file_intensities atof (gzopen inflate file) I c r cols d).map
        (fun x => (x.ret, x.intensity)) := by
  simp only [read_gzcel_file_intensities, read_cel_file_intensities, open_gz_cel_file_eq,
    gzAdvanceToSection_eq, gzfindStartsWith_eq]
  cases open_cel_file (gzopen inflate file) with
  | error e => rfl
  | ok s0 =>
    dsimp only
    cases AdvanceToSection s0 "[INTENSITY]".toList with
    | error e => rfl
    | ok p1 =>
      dsimp only
      cases findStartsWith p1.2 "CellHeader=".toList with
      | error e => rfl
      | ok p2 =>
        dsimp only
        have h := read_gzcel_file_intensities_loop_eq atof c r d r.toNat 0 p2.2 I
        cases hg : read_gzcel_file_intensities_loop atof c r d r.toNat 0 p2.2 I with
        | error e =>
          cases ht : read_cel_file_intensities_loop atof c r d r.toNat 0 p2.2 I with
          | error e2 =>
            rw [hg, ht] at h
            simp only [Except.map] at h ⊢
            exact h
          | ok q => rw [hg, ht] at h; simp [Except.map] at h
        | ok q1 =>
          cases ht : read_cel_file_intensities_loop atof c r d r.toNat 0 p2.2 I with
          | error e2 => rw [hg, ht] at h; simp [Except.map] at h
          | ok q2 =>
            rw [hg, ht] at h
            simp only [Except.map, Except.ok.injEq, Prod.mk.injEq] at h
            obtain ⟨q1i, q1m, q1w⟩ := q1
            obtain ⟨q2i, q2m, q2w⟩ := q2
            simp only at h
            obtain ⟨hi, hm⟩ := h
            subst hi; subst hm
            dsimp only
            by_cases hne : q1i ≠ r
            · simp only [hne, if_true, ne_eq, not_false_eq_true]; rfl
            · simp only [hne, if_false]; rfl

theorem fgets_take_full (c rest : List Char) (hc : '\n' ∉ c) :
    fgets_take c.length (c ++ rest) = (c, rest) := by
  induction c with
  | nil => simp [fgets_take]
  | cons x xs ih =>
    have hx : x ≠ '\n' := fun e => hc (by simp [e])
    have hxs : '\n' ∉ xs := fun e => hc (by simp [e])
    simp [fgets_take, hx, ih hxs]

theorem isFullChunk_spec {c : List Char} (h : isFullChunk c = true) :
    c.length = BUF_SIZE - 1 ∧ '\n' ∉ c ∧ Char.ofNat 0 ∉ c := by
  simp only [isFullChunk, Bool.and_eq_true, decide_eq_true_eq, Bool.not_eq_true'] at h
  obtain ⟨⟨h1, h2⟩, h3⟩ := h
  exact ⟨h1, by simpa using h2, by simpa using h3⟩

theorem ReadFileLine_full_chunk {c : List Char} (h : isFullChunk c = true) (rest : List Char) :
    ReadFileLine BUF_SIZE (c ++ rest) = .ok (c, rest) := by
  obtain ⟨hlen, hn, h0⟩ := isFullChunk_spec h
  have hne : c ++ rest ≠ [] := by
    intro e
    have : c = [] := (List.append_eq_nil.mp e).1
    rw [this] at hlen
    simp [BUF_SIZE] at hlen
  have hf : fgets BUF_SIZE (c ++ rest) = some (c, rest) := by
    rw [fgets_of_ne_nil _ _ hne, ← hlen, fgets_take_full c rest hn]
  simp [ReadFileLine, hf, cstr_eq_self _ h0]

theorem ReadFileLine_chunk {c : List Char} (h : isChunk c = true) (rest : List Char) :
    ReadFileLine BUF_SIZE (c ++ rest) = .ok (c, rest) := by
  simp only [isChunk, Bool.or_eq_true] at h
  rcases h with h | h
  · exact ReadFileLine_line h rest
  · exact ReadFileLine_full_chunk h rest

theorem isChunk_ne_nil {c : List Char} (h : isChunk c = true) : c ≠ [] := by
  simp only [isChunk, Bool.or_eq_true] at h
  rcases h with h | h
  · exact isLine_ne_nil h
  · rintro rfl
    have := (isFullChunk_spec h).1
    simp [BUF_SIZE] at this

theorem findStartsWith_loop_skip_chunks (starts : List Char) (hs : Char.ofNat 0 ∉ starts)
    (pre : List (List Char)) (hpre : ∀ l ∈ pre, isChunk l = true ∧ ¬ starts <+: l)
    (rest : List Char) :
    ∀ fuel, findStartsWith_loop starts (pre.length + fuel) (pre.flatten ++ rest)
      = findStartsWith_loop starts fuel rest := by
  induction pre with
  | nil => intro fuel; simp
  | cons l ls ih =>
    intro fuel
    have hl := hpre l (by simp)
    have hls : ∀ x ∈ ls, isChunk x = true ∧ ¬ starts <+: x := fun x hx => hpre x (by simp [hx])
    have hnm : strncmp starts l starts.length ≠ 0 := by
      rw [Ne, strncmp_eq_zero_iff starts hs]; exact hl.2
    have e1 : (l :: ls).length + fuel = (ls.length + fuel) + 1 := by simp; omega
    have e2 : (l :: ls).flatten ++ rest = l ++ (ls.flatten ++ rest) := by simp
    rw [e1, e2, findStartsWith_loop, ReadFileLine_chunk hl.1]
    simp only [hnm, if_false]
    exact ih hls fuel

theorem findStartsWith_found_chunks (starts : List Char) (hs : Char.ofNat 0 ∉ starts)
    (pre : List (List Char)) (hpre : ∀ l ∈ pre, isChunk l = true ∧ ¬ starts <+: l)
    (l rest : List Char) (hl : isChunk l = true) (hm : starts <+: l) :
    findStartsWith (pre.flatten ++ (l ++ rest)) starts = .ok (l, rest) := by
  unfold findStartsWith
  have h1 := length_le_length_flatten pre (fun x hx => isChunk_ne_nil (hpre x hx).1)
  have h2 : 0 < l.length := List.length_pos.mpr (isChunk_ne_nil hl)
  obtain ⟨k, hk⟩ : ∃ k, (pre.flatten ++ (l ++ rest)).length + 1 = pre.length + (k + 1) :=
    ⟨(pre.flatten ++ (l ++ rest)).length - pre.length, by
      simp only [List.length_append] at *; omega⟩
  have : strncmp starts l starts.length = 0 := (strncmp_eq_zero_iff starts hs l).mpr hm
  rw [hk, findStartsWith_loop_skip_chunks starts hs pre hpre, findStartsWith_loop,
    ReadFileLine_chunk hl]
  simp [this]

theorem at_line_start_flatten (pre : List (List Char)) (hpre : ∀ l ∈ pre, isChunk l = true) :
    at_line_start pre.flatten = (pre.getLast?.map isLine).getD true := by
  induction pre using List.reverseRecOn with
  | nil => rfl
  | append_singleton ls c _ =>
    have hc := hpre c (by simp)
    have hne := isChunk_ne_nil hc
    have hlast : (ls ++ [c]).flatten.getLast? = c.getLast? := by
      rw [List.flatten_append]
      simp only [List.flatten_cons, List.flatten_nil, List.append_nil]
      rw [List.getLast?_append_of_ne_nil _ hne]
    have hnotempty : (ls ++ [c]).flatten.isEmpty = false := by
      rw [List.flatten_append]
      cases c with
      | nil => exact absurd rfl hne
      | cons x xs => simp
    simp only [at_line_start, hnotempty, Bool.false_or, hlast, List.getLast?_append,
      List.getLast?_singleton, Option.or_some, Option.map_some', Option.getD_some]
    simp only [isChunk, Bool.or_eq_true] at hc
    rcases hc with h | h
    · obtain ⟨b, hb, -⟩ := isLine_split h
      rw [h, hb]
      simp
    · have hnl := (isFullChunk_spec h).2.1
      have hline : isLine c = false := by
        cases hcl : isLine c with
        | false => rfl
        | true =>
          obtain ⟨b, hb, -⟩ := isLine_split hcl
          exact absurd (by rw [hb]; simp) hnl
      rw [hline]
      have : c.getLast? ≠ some '\n' := by
        intro e
        exact hnl (List.mem_of_getLast?_eq_some e)
      simpa using this

/-! ## The multi-channel column readers -/

theorem multichannel_skip_groups_eq (infile : generic_file) :
    ∀ (k pos : Nat), multichannel_skip_groups infile k pos = group_position infile pos k := by
  intro k
  induction k with
  | zero => intro pos; rfl
  | succ k ih =>
    intro pos
    rw [group_position_shift]
    exact ih _

theorem Data_at_column (Data : List (List Int)) (col : List Int) (i : Nat)
    (hcol : Data.get? 0 = some col) (hi : i < col.length) :
    Data_at Data 0 i = .ok (col.getD i 0) := by
  have h : col.get? i = some (col.getD i 0) := by
    simp only [List.get?_eq_getElem?]
    rw [List.getElem?_eq_getElem hi, List.getD_eq_getElem _ _ hi]
  simp only [Data_at, hcol, h]

theorem intensities_multichannel_loop_column {F : Type} (f32 : Nat → F) (chip_num : Int)
    (my_data_set : generic_data_set) (col : List Int)
    (hcol : my_data_set.Data.get? 0 = some col) :
    ∀ (n i : Nat) (intensity : Int → RDouble F), i + n ≤ col.length →
      read_genericcel_file_intensities_multichannel_loop f32 chip_num my_data_set n (i : Int)
          intensity
        = .ok (fun p =>
            if chip_num * my_data_set.nrows + (i : Int) ≤ p
                ∧ p < chip_num * my_data_set.nrows + (i : Int) + (n : Int)
            then RDouble.num (f32 (col.getD (p - chip_num * my_data_set.nrows).toNat 0).toNat)
            else intensity p) := by
  intro n
  induction n with
  | zero =>
    intro i intensity _
    simp only [read_genericcel_file_intensities_multichannel_loop]
    congr 1
    funext p
    rw [if_neg]
    intro h
    have := h.1
    have := h.2
    push_cast at *
    omega
  | succ n ih =>
    intro i intensity hle
    have hd : Data_at my_data_set.Data 0 (i : Int).toNat = .ok (col.getD i 0) := by
      rw [Int.toNat_ofNat]
      exact Data_at_column _ _ _ hcol (by omega)
    simp only [read_genericcel_file_intensities_multichannel_loop, hd]
    have := ih (i + 1) (Function.update intensity (chip_num * my_data_set.nrows + (i : Int))
      (RDouble.num (f32 (col.getD i 0).toNat))) (by omega)
    rw [Nat.cast_add, Nat.cast_one] at this
    rw [this]
    congr 1
    funext p
    by_cases hp : p = chip_num * my_data_set.nrows + (i : Int)
    · subst hp
      rw [if_neg (by intro h; have := h.1; omega), Function.update_same, if_pos]
      · congr 3
        have : chip_num * my_data_set.nrows + (i : Int) - chip_num * my_data_set.nrows
            = (i : Int) := by ring
        rw [this, Int.toNat_ofNat]
      · constructor
        · exact le_refl _
        · push_cast; omega
    · rw [Function.update_noteq hp]
      by_cases hq : chip_num * my_data_set.nrows + ((i : Int) + 1) ≤ p
          ∧ p < chip_num * my_data_set.nrows + ((i : Int) + 1) + (n : Int)
      · rw [if_pos hq, if_pos]
        constructor
        · have := hq.1; omega
        · have := hq.2; push_cast; omega
      · rw [if_neg hq, if_neg]
        intro h
        apply hq
        constructor
        · have := h.1
          have : p ≠ chip_num * my_data_set.nrows + (i : Int) := hp
          omega
        · have := h.2; push_cast at this; omega

theorem npixels_multichannel_loop_column {F : Type} (of_int : Int → F) (chip_num : Int)
    (my_data_set : generic_data_set) (col : List Int)
    (hcol : my_data_set.Data.get? 0 = some col) :
    ∀ (n i : Nat) (intensity : Int → RDouble F), i + n ≤ col.length →
      read_genericcel_file_npixels_multichannel_loop of_int chip_num my_data_set n (i : Int)
          intensity
        = .ok (fun p =>
            if chip_num * my_data_set.nrows + (i : Int) ≤ p
                ∧ p < chip_num * my_data_set.nrows + (i : Int) + (n : Int)
            then RDouble.num (of_int (col.getD (p - chip_num * my_data_set.nrows).toNat 0))
            else intensity p) := by
  intro n
  induction n with
  | zero =>
    intro i intensity _
    simp only [read_genericcel_file_npixels_multichannel_loop]
    congr 1
    funext p
    rw [if_neg]
    intro h
    have := h.1
    have := h.2
    push_cast at *
    omega
  | succ n ih =>
    intro i intensity hle
    have hd : Data_at my_data_set.Data 0 (i : Int).toNat = .ok (col.getD i 0) := by
      rw [Int.toNat_ofNat]
      exact Data_at_column _ _ _ hcol (by omega)
    simp only [read_genericcel_file_npixels_multichannel_loop, hd]
    have := ih (i + 1) (Function.update intensity (chip_num * my_data_set.nrows + (i : Int))
      (RDouble.num (of_int (col.getD i 0)))) (by omega)
    rw [Nat.cast_add, Nat.cast_one] at this
    rw [this]
    congr 1
    funext p
    by_cases hp : p = chip_num * my_data_set.nrows + (i : Int)
    · subst hp
      rw [if_neg (by intro h; have := h.1; omega), Function.update_same, if_pos]
      · congr 2
        have : chip_num * my_data_set.nrows + (i : Int) - chip_num * my_data_set.nrows
            = (i : Int) := by ring
        rw [this, Int.toNat_ofNat]
      · constructor
        · exact le_refl _
        · push_cast; omega
    · rw [Function.update_noteq hp]
      by_cases hq : chip_num * my_data_set.nrows + ((i : Int) + 1) ≤ p
          ∧ p < chip_num * my_data_set.nrows + ((i : Int) + 1) + (n : Int)
      · rw [if_pos hq, if_pos]
        constructor
        · have := hq.1; omega
        · have := hq.2; push_cast; omega
      · rw [if_neg hq, if_neg]
        intro h
        apply hq
        constructor
        · have := h.1
          have : p ≠ chip_num * my_data_set.nrows + (i : Int) := hp
          omega
        · have := h.2; push_cast at this; omega

/-- The shape of a column copy: rows `0 .. nrows-1` of `col` stand at
`chip_num*nrows + i`, every other cell is the old one. -/
theorem column_copy_spec {F : Type} (value : Int → F) (chip_num nrows : Int)
    (col : List Int) (intensity : Int → RDouble F) (run : Except Err (Int → RDouble F))
    (hrun : run = .ok (fun p =>
      if chip_num * nrows + ((0 : Nat) : Int) ≤ p
          ∧ p < chip_num * nrows + ((0 : Nat) : Int) + ((nrows.toNat : Nat) : Int)
      then RDouble.num (value (col.getD (p - chip_num * nrows).toNat 0))
      else intensity p)) :
    ∃ out, run = .ok out
    ∧ (∀ i : Nat, (i : Int) < nrows →
        out (chip_num * nrows + (i : Int)) = RDouble.num (value (col.getD i 0)))
    ∧ (∀ p : Int, (∀ i : Nat, (i : Int) < nrows → p ≠ chip_num * nrows + (i : Int)) →
        out p = intensity p) := by
  refine ⟨_, hrun, ?_, ?_⟩
  · intro i hi
    have h0 : (0 : Int) ≤ nrows := by omega
    rw [if_pos]
    · have : chip_num * nrows + (i : Int) - chip_num * nrows = (i : Int) := by ring
      rw [this, Int.toNat_ofNat]
    · rw [Int.toNat_of_nonneg h0]
      constructor <;> push_cast <;> omega
  · intro p hp
    rw [if_neg]
    intro h
    have h1 := h.1
    have h2 := h.2
    push_cast at h1 h2
    have h0 : (0 : Int) ≤ p - chip_num * nrows := by omega
    have hn : (0 : Int) ≤ nrows := by
      by_contra hneg
      have : nrows.toNat = 0 := by omega
      omega
    rw [Int.toNat_of_nonneg hn] at h2
    apply hp (p - chip_num * nrows).toNat
    · rw [Int.toNat_of_nonneg h0]; omega
    · rw [Int.toNat_of_nonneg h0]; ring
/-! ## Lemmas on the detailed header readers -/

theorem first_line_with_spec (key : List Char) :
    ∀ (ls : List (List Char)) (l : List Char) (rest : List (List Char)),
      first_line_with key ls = some (l, rest) →
      ∃ before, ls = before ++ l :: rest ∧ (∀ x ∈ before, ¬ key <+: x) ∧ key <+: l := by
  intro ls
  induction ls with
  | nil => intro l rest h; cases h
  | cons x xs ih =>
    intro l rest h
    rw [first_line_with] at h
    by_cases hx : key <+: x
    · simp only [hx, if_true, Option.some.injEq, Prod.mk.injEq] at h
      obtain ⟨h1, h2⟩ := h
      subst h1; subst h2
      exact ⟨[], rfl, by simp, hx⟩
    · simp only [hx, if_false] at h
      obtain ⟨before, hb, hn, hl⟩ := ih l rest h
      refine ⟨x :: before, by rw [hb]; rfl, ?_, hl⟩
      intro y hy
      rcases List.mem_cons.mp hy with rfl | hy'
      · exact hx
      · exact hn y hy'

theorem findStartsWith_first (key : List Char) (hs : Char.ofNat 0 ∉ key)
    (ls : List (List Char)) (tail : List Char) (hls : ∀ x ∈ ls, isLine x = true)
    (l : List Char) (rest : List (List Char)) (h : first_line_with key ls = some (l, rest)) :
    findStartsWith (ls.flatten ++ tail) key = .ok (l, rest.flatten ++ tail) ∧
    (∀ x ∈ rest, isLine x = true) ∧ l ∈ ls ∧ key <+: l := by
  obtain ⟨before, hb, hn, hl⟩ := first_line_with_spec key ls l rest h
  subst hb
  refine ⟨?_, fun x hx => hls x (by simp [hx]), by simp, hl⟩
  have e : (before ++ l :: rest).flatten ++ tail
      = before.flatten ++ (l ++ (rest.flatten ++ tail)) := by simp
  rw [e]
  exact findStartsWith_found key hs before
    (fun x hx => ⟨hls x (by simp [hx]), hn x hx⟩) l _ (hls l (by simp)) hl

theorem gzfindStartsWith_first (key : List Char) (hs : Char.ofNat 0 ∉ key)
    (ls : List (List Char)) (tail : List Char) (hls : ∀ x ∈ ls, isLine x = true)
    (l : List Char) (rest : List (List Char)) (h : first_line_with key ls = some (l, rest)) :
    gzfindStartsWith (ls.flatten ++ tail) key = .ok (l, rest.flatten ++ tail) := by
  rw [gzfindStartsWith_eq]
  exact (findStartsWith_first key hs ls tail hls l rest h).1

theorem scan_keys_cons (key : List Char) (keys : List (List Char)) (ls : List (List Char))
    (l : List Char) (found : List (List Char))
    (h : scan_keys (key :: keys) ls = some (l :: found)) :
    ∃ rest, first_line_with key ls = some (l, rest) ∧ scan_keys keys rest = some found := by
  rw [scan_keys] at h
  cases h1 : first_line_with key ls with
  | none => rw [h1] at h; cases h
  | some p =>
    obtain ⟨l1, rest⟩ := p
    rw [h1] at h
    dsimp only at h
    cases h2 : scan_keys keys rest with
    | none => rw [h2] at h; cases h
    | some f =>
      rw [h2] at h
      simp only [Option.some.injEq, List.cons.injEq] at h
      obtain ⟨e1, e2⟩ := h
      subst e1; subst e2
      exact ⟨rest, rfl, h2⟩

theorem gz_get_detailed_header_info_eq (inflate : List Char → List Char)
    (file : Option (List Char)) (header_info : detailed_header_info) :
    gz_get_detailed_header_info inflate file header_info
      = get_detailed_header_info (gzopen inflate file) header_info := by
  simp only [gz_get_detailed_header_info, get_detailed_header_info,
    gz_get_detailed_header_info_dims, get_detailed_header_info_dims,
    gz_get_detailed_header_info_corner, get_detailed_header_info_corner,
    gz_get_detailed_header_info_DatHeader, get_detailed_header_info_DatHeader,
    gz_get_detailed_header_info_Algorithm, get_detailed_header_info_Algorithm,
    open_gz_cel_file_eq, gzAdvanceToSection_eq, gzfindStartsWith_eq]

theorem get_detailed_header_info_scan (file : Option (List Char)) (hi : detailed_header_info)
    (s0 b0 tail : List Char) (lines : List (List Char))
    (colsL rowsL ulL urL lrL llL datL algL parL : List Char)
    (ct rt dh alg par : List Char) (UL UR LR LL : Int × Int) (cdf : Option (List Char))
    (hopen : open_cel_file file = .ok s0)
    (hsec : AdvanceToSection s0 "[HEADER]".toList = .ok (b0, lines.flatten ++ tail))
    (hlines : ∀ l ∈ lines, isLine l = true)
    (hscan : scan_keys detailed_header_keys lines
      = some [colsL, rowsL, ulL, urL, lrL, llL, datL, algL, parL])
    (hcols : get_token (tokenize colsL "=".toList) 1 = .ok ct)
    (hrows : get_token (tokenize rowsL "=".toList) 1 = .ok rt)
    (hUL : GridCorner_xy ulL = .ok UL) (hUR : GridCorner_xy urL = .ok UR)
    (hLR : GridCorner_xy lrL = .ok LR) (hLL : GridCorner_xy llL = .ok LL)
    (hdat : DatHeader_value datL = .ok dh)
    (hname : cdfName_loop (tokenize datL " ".toList) = .ok cdf)
    (halg : get_token (tokenize algL "=\r\n".toList) 1 = .ok alg)
    (hpar : get_token (tokenize parL "=\r\n".toList) 1 = .ok par) :
    get_detailed_header_info file hi
      = .ok { cdfName := cdf.orElse (fun _ => hi.cdfName),
              cols := atoi ct, rows := atoi rt,
              GridCornerULx := UL.1, GridCornerULy := UL.2,
              GridCornerURx := UR.1, GridCornerURy := UR.2,
              GridCornerLRx := LR.1, GridCornerLRy := LR.2,
              GridCornerLLx := LL.1, GridCornerLLy := LL.2,
              DatHeader := some dh, Algorithm := some alg,
              AlgorithmParameters := some par } := by
  unfold detailed_header_keys at hscan
  obtain ⟨r1, f1, hscan⟩ := scan_keys_cons _ _ _ _ _ hscan
  obtain ⟨r2, f2, hscan⟩ := scan_keys_cons _ _ _ _ _ hscan
  obtain ⟨r3, f3, hscan⟩ := scan_keys_cons _ _ _ _ _ hscan
  obtain ⟨r4, f4, hscan⟩ := scan_keys_cons _ _ _ _ _ hscan
  obtain ⟨r5, f5, hscan⟩ := scan_keys_cons _ _ _ _ _ hscan
  obtain ⟨r6, f6, hscan⟩ := scan_keys_cons _ _ _ _ _ hscan
  obtain ⟨r7, f7, hscan⟩ := scan_keys_cons _ _ _ _ _ hscan
  obtain ⟨r8, f8, hscan⟩ := scan_keys_cons _ _ _ _ _ hscan
  obtain ⟨r9, f9, -⟩ := scan_keys_cons _ _ _ _ _ hscan
  have k1 := findStartsWith_first "Cols".toList (by decide) lines tail hlines colsL r1 f1
  have k2 := findStartsWith_first "Rows".toList (by decide) r1 tail k1.2.1 rowsL r2 f2
  have k3 := findStartsWith_first "GridCornerUL".toList (by decide) r2 tail k2.2.1 ulL r3 f3
  have k4 := findStartsWith_first "GridCornerUR".toList (by decide) r3 tail k3.2.1 urL r4 f4
  have k5 := findStartsWith_first "GridCornerLR".toList (by decide) r4 tail k4.2.1 lrL r5 f5
  have k6 := findStartsWith_first "GridCornerLL".toList (by decide) r5 tail k5.2.1 llL r6 f6
  have k7 := findStartsWith_first "DatHeader".toList (by decide) r6 tail k6.2.1 datL r7 f7
  have k8 := findStartsWith_first "Algorithm".toList (by decide) r7 tail k7.2.1 algL r8 f8
  have k9 := findStartsWith_first "AlgorithmParameters".toList (by decide) r8 tail k8.2.1
    parL r9 f9
  have hdims : get_detailed_header_info_dims file
      = .ok (atoi ct, atoi rt, r2.flatten ++ tail) := by
    simp only [get_detailed_header_info_dims, hopen, hsec, k1.1, hcols, k2.1, hrows]
  have hc1 : get_detailed_header_info_corner (r2.flatten ++ tail) "GridCornerUL".toList
      = .ok (UL, r3.flatten ++ tail) := by
    simp only [get_detailed_header_info_corner, k3.1, hUL]
  have hc2 : get_detailed_header_info_corner (r3.flatten ++ tail) "GridCornerUR".toList
      = .ok (UR, r4.flatten ++ tail) := by
    simp only [get_detailed_header_info_corner, k4.1, hUR]
  have hc3 : get_detailed_header_info_corner (r4.flatten ++ tail) "GridCornerLR".toList
      = .ok (LR, r5.flatten ++ tail) := by
    simp only [get_detailed_header_info_corner, k5.1, hLR]
  have hc4 : get_detailed_header_info_corner (r5.flatten ++ tail) "GridCornerLL".toList
      = .ok (LL, r6.flatten ++ tail) := by
    simp only [get_detailed_header_info_corner, k6.1, hLL]
  have hd : get_detailed_header_info_DatHeader (r6.flatten ++ tail)
      = .ok (dh, cdf, r7.flatten ++ tail) := by
    simp only [get_detailed_header_info_DatHeader, k7.1, hdat, hname]
  have ha : get_detailed_header_info_Algorithm (r7.flatten ++ tail) = .ok (alg, par) := by
    simp only [get_detailed_header_info_Algorithm, k8.1, halg, k9.1, hpar]
  simp only [get_detailed_header_info, hdims, hc1, hc2, hc3, hc4, hd, ha]
  cases cdf <;> rfl

theorem get_token_some (x : List (List Char)) (i : Nat) (t : List Char)
    (h : x.get? i = some t) : get_token x (i : Int) = .ok t := by
  unfold get_token
  have h0 : ¬ ((i : Int) < 0) := by omega
  simp only [h0, if_false, Int.toNat_ofNat, h]

theorem GridCorner_xy_ok (t : List Char) (h : 3 ≤ (tokenize t "= ".toList).length) :
    ∃ tok1 tok2, (tokenize t "= ".toList).get? 1 = some tok1 ∧
      (tokenize t "= ".toList).get? 2 = some tok2 ∧
      GridCorner_xy t = .ok (atoi tok1, atoi tok2) := by
  have h1 : 1 < (tokenize t "= ".toList).length := by omega
  have h2 : 2 < (tokenize t "= ".toList).length := by omega
  refine ⟨_, _, List.get?_eq_get h1, List.get?_eq_get h2, ?_⟩
  have e1 := get_token_some _ 1 _ (List.get?_eq_get h1)
  have e2 := get_token_some _ 2 _ (List.get?_eq_get h2)
  simp only [Nat.cast_one, Nat.cast_ofNat] at e1 e2
  simp only [GridCorner_xy, e1, e2]

theorem GridCorner_xy_append_newline (t : List Char)
    (h : 3 ≤ (tokenize t "= ".toList).length) :
    GridCorner_xy (t ++ ['\n']) = GridCorner_xy t := by
  obtain ⟨a1, b1, ha1, hb1, hor1⟩ :=
    tokenize_append_char_get t "= ".toList '\n' (by decide) 1 (by omega)
  obtain ⟨a2, b2, ha2, hb2, hor2⟩ :=
    tokenize_append_char_get t "= ".toList '\n' (by decide) 2 (by omega)
  have e1 := get_token_some _ 1 _ ha1
  have e2 := get_token_some _ 2 _ ha2
  have f1 := get_token_some _ 1 _ hb1
  have f2 := get_token_some _ 2 _ hb2
  simp only [Nat.cast_one, Nat.cast_ofNat] at e1 e2 f1 f2
  have g1 : atoi b1 = atoi a1 := by
    rcases hor1 with rfl | rfl
    · rfl
    · exact atoi_append_newline a1
  have g2 : atoi b2 = atoi a2 := by
    rcases hor2 with rfl | rfl
    · rfl
    · exact atoi_append_newline a2
  simp only [GridCorner_xy, e1, e2, f1, f2, g1, g2]

theorem prefix_of_prefix_append_singleton (key b : List Char) (c : Char)
    (h : key <+: b ++ [c]) (hc : c ∉ key) : key <+: b := by
  obtain ⟨r, hr⟩ := h
  rcases List.eq_nil_or_concat r with rfl | ⟨r1, x, rfl⟩
  · rw [List.append_nil] at hr
    exact absurd (by rw [hr]; simp) hc
  · rw [List.concat_eq_append, ← List.append_assoc] at hr
    have := List.append_inj_left' hr rfl
    exact ⟨r1, this⟩

theorem strncmp_key12 (key token : List Char) (hk : Char.ofNat 0 ∉ key)
    (hl : key.length = 12) : strncmp key token 12 = 0 ↔ key <+: token := by
  rw [← hl]
  exact strncmp_eq_zero_iff key hk token

theorem strncmp_key9 (key token : List Char) (hk : Char.ofNat 0 ∉ key)
    (hl : key.length = 9) : strncmp key token 9 = 0 ↔ key <+: token := by
  rw [← hl]
  exact strncmp_eq_zero_iff key hk token

theorem binary_line_inv (hi hi1 : detailed_header_info) (token : List Char)
    (h : binary_get_detailed_header_info_line hi token = .ok hi1) :
    hi1.cols = hi.cols ∧ hi1.rows = hi.rows ∧ hi1.cdfName = hi.cdfName ∧
    (if "GridCornerUL".toList <+: token
      then GridCorner_xy token = .ok (hi1.GridCornerULx, hi1.GridCornerULy)
      else (hi1.GridCornerULx, hi1.GridCornerULy) = (hi.GridCornerULx, hi.GridCornerULy)) ∧
    (if "GridCornerUR".toList <+: token
      then GridCorner_xy token = .ok (hi1.GridCornerURx, hi1.GridCornerURy)
      else (hi1.GridCornerURx, hi1.GridCornerURy) = (hi.GridCornerURx, hi.GridCornerURy)) ∧
    (if "GridCornerLR".toList <+: token
      then GridCorner_xy token = .ok (hi1.GridCornerLRx, hi1.GridCornerLRy)
      else (hi1.GridCornerLRx, hi1.GridCornerLRy) = (hi.GridCornerLRx, hi.GridCornerLRy)) ∧
    (if "GridCornerLL".toList <+: token
      then GridCorner_xy token = .ok (hi1.GridCornerLLx, hi1.GridCornerLLy)
      else (hi1.GridCornerLLx, hi1.GridCornerLLy) = (hi.GridCornerLLx, hi.GridCornerLLy)) := by
  have s1 := strncmp_key12 "GridCornerUL".toList token (by decide) rfl
  have s2 := strncmp_key12 "GridCornerUR".toList token (by decide) rfl
  have s3 := strncmp_key12 "GridCornerLR".toList token (by decide) rfl
  have s4 := strncmp_key12 "GridCornerLL".toList token (by decide) rfl
  have s5 := strncmp_key9 "DatHeader".toList token (by decide) rfl
  unfold binary_get_detailed_header_info_line at h
  simp only [s1, s2, s3, s4, s5] at h
  rcases hxy : GridCorner_xy token with e | xy
  all_goals
    by_cases h1 : "GridCornerUL".toList <+: token <;>
    by_cases h2 : "GridCornerUR".toList <+: token <;>
    by_cases h3 : "GridCornerLR".toList <+: token <;>
    by_cases h4 : "GridCornerLL".toList <+: token <;>
    by_cases h5 : "DatHeader".toList <+: token <;>
    by_cases h6 : token.length < 10 <;>
    simp only [h1, h2, h3, h4, h5, h6, hxy, if_true, if_false, reduceCtorEq,
      Except.ok.injEq] at h <;>
    first
      | exact h.elim
      | (subst h; simp only [h1, h2, h3, h4, if_true, if_false, and_self])

theorem binary_line_ok (hi : detailed_header_info) (token : List Char)
    (hc : ("GridCornerUL".toList <+: token ∨ "GridCornerUR".toList <+: token ∨
        "GridCornerLR".toList <+: token ∨ "GridCornerLL".toList <+: token) →
      ∃ xy, GridCorner_xy token = .ok xy)
    (hD : "DatHeader".toList <+: token → 10 ≤ token.length) :
    ∃ hi1, binary_get_detailed_header_info_line hi token = .ok hi1 := by
  have s1 := strncmp_key12 "GridCornerUL".toList token (by decide) rfl
  have s2 := strncmp_key12 "GridCornerUR".toList token (by decide) rfl
  have s3 := strncmp_key12 "GridCornerLR".toList token (by decide) rfl
  have s4 := strncmp_key12 "GridCornerLL".toList token (by decide) rfl
  have s5 := strncmp_key9 "DatHeader".toList token (by decide) rfl
  unfold binary_get_detailed_header_info_line
  simp only [s1, s2, s3, s4, s5]
  by_cases hany : ("GridCornerUL".toList <+: token ∨ "GridCornerUR".toList <+: token ∨
      "GridCornerLR".toList <+: token ∨ "GridCornerLL".toList <+: token)
  · obtain ⟨xy, hxy⟩ := hc hany
    by_cases h1 : "GridCornerUL".toList <+: token <;>
    by_cases h2 : "GridCornerUR".toList <+: token <;>
    by_cases h3 : "GridCornerLR".toList <+: token <;>
    by_cases h4 : "GridCornerLL".toList <+: token <;>
    by_cases h5 : "DatHeader".toList <+: token <;>
    by_cases h6 : token.length < 10 <;>
    first
      | (exfalso; have := hD h5; omega)
      | (simp only [h1, h2, h3, h4, h5, h6, hxy, if_true, if_false]
         exact ⟨_, rfl⟩)
  · have h1 : ¬ "GridCornerUL".toList <+: token := fun h => hany (Or.inl h)
    have h2 : ¬ "GridCornerUR".toList <+: token := fun h => hany (Or.inr (Or.inl h))
    have h3 : ¬ "GridCornerLR".toList <+: token := fun h => hany (Or.inr (Or.inr (Or.inl h)))
    have h4 : ¬ "GridCornerLL".toList <+: token := fun h => hany (Or.inr (Or.inr (Or.inr h)))
    by_cases h5 : "DatHeader".toList <+: token <;>
    by_cases h6 : token.length < 10 <;>
    first
      | (exfalso; have := hD h5; omega)
      | (simp only [h1, h2, h3, h4, h5, h6, if_true, if_false]
         exact ⟨_, rfl⟩)

theorem binary_lines_ok :
    ∀ (T : List (List Char)) (hi : detailed_header_info),
      (∀ t ∈ T, ("GridCornerUL".toList <+: t ∨ "GridCornerUR".toList <+: t ∨
          "GridCornerLR".toList <+: t ∨ "GridCornerLL".toList <+: t) →
        ∃ xy, GridCorner_xy t = .ok xy) →
      (∀ t ∈ T, "DatHeader".toList <+: t → 10 ≤ t.length) →
      ∃ hi1, binary_get_detailed_header_info_lines T hi = .ok hi1 := by
  intro T
  induction T with
  | nil => intro hi _ _; exact ⟨hi, rfl⟩
  | cons t ts ih =>
    intro hi hc hD
    obtain ⟨hi1, h1⟩ := binary_line_ok hi t (hc t (by simp)) (hD t (by simp))
    obtain ⟨hi2, h2⟩ := ih hi1 (fun x hx => hc x (by simp [hx])) (fun x hx => hD x (by simp [hx]))
    refine ⟨hi2, ?_⟩
    rw [binary_get_detailed_header_info_lines]
    simp only [h1, h2]

theorem binary_lines_frame {α : Type} (get : detailed_header_info → α)
    (hget : ∀ (hi : detailed_header_info) (t : List Char) (hi1 : detailed_header_info),
      binary_get_detailed_header_info_line hi t = .ok hi1 → get hi1 = get hi) :
    ∀ (T : List (List Char)) (hi hi2 : detailed_header_info),
      binary_get_detailed_header_info_lines T hi = .ok hi2 → get hi2 = get hi := by
  intro T
  induction T with
  | nil =>
    intro hi hi2 h
    rw [binary_get_detailed_header_info_lines] at h
    injection h with h
    rw [h]
  | cons t ts ih =>
    intro hi hi2 h
    rw [binary_get_detailed_header_info_lines] at h
    cases hl : binary_get_detailed_header_info_line hi t with
    | error e => rw [hl] at h; cases h
    | ok hi1 =>
      rw [hl] at h
      rw [ih hi1 hi2 h, hget hi t hi1 hl]

theorem binary_lines_get_none (key : List Char) (get : detailed_header_info → Int × Int)
    (hget : ∀ (hi : detailed_header_info) (t : List Char) (hi1 : detailed_header_info),
      binary_get_detailed_header_info_line hi t = .ok hi1 →
      if key <+: t then GridCorner_xy t = .ok (get hi1) else get hi1 = get hi) :
    ∀ (T : List (List Char)) (hi hi2 : detailed_header_info),
      binary_get_detailed_header_info_lines T hi = .ok hi2 →
      (∀ t ∈ T, ¬ key <+: t) → get hi2 = get hi := by
  intro T
  induction T with
  | nil =>
    intro hi hi2 h _
    rw [binary_get_detailed_header_info_lines] at h
    injection h with h
    rw [h]
  | cons t ts ih =>
    intro hi hi2 h hn
    rw [binary_get_detailed_header_info_lines] at h
    cases hl : binary_get_detailed_header_info_line hi t with
    | error e => rw [hl] at h; cases h
    | ok hi1 =>
      rw [hl] at h
      have h1 := hget hi t hi1 hl
      rw [if_neg (hn t (by simp))] at h1
      rw [ih hi1 hi2 h (fun x hx => hn x (by simp [hx])), h1]

theorem binary_lines_get (key : List Char) (get : detailed_header_info → Int × Int)
    (hget : ∀ (hi : detailed_header_info) (t : List Char) (hi1 : detailed_header_info),
      binary_get_detailed_header_info_line hi t = .ok hi1 →
      if key <+: t then GridCorner_xy t = .ok (get hi1) else get hi1 = get hi) :
    ∀ (T : List (List Char)) (hi hi2 : detailed_header_info),
      binary_get_detailed_header_info_lines T hi = .ok hi2 →
      ∀ xy : Int × Int, (∀ t ∈ T, key <+: t → GridCorner_xy t = .ok xy) →
      (∃ t ∈ T, key <+: t) → get hi2 = xy := by
  intro T
  induction T with
  | nil => intro hi hi2 _ xy _ hex; obtain ⟨t, ht, -⟩ := hex; cases ht
  | cons t ts ih =>
    intro hi hi2 h xy hall hex
    rw [binary_get_detailed_header_info_lines] at h
    cases hl : binary_get_detailed_header_info_line hi t with
    | error e => rw [hl] at h; cases h
    | ok hi1 =>
      rw [hl] at h
      by_cases hlater : ∃ x ∈ ts, key <+: x
      · exact ih hi1 hi2 h xy (fun x hx => hall x (by simp [hx])) hlater
      · have hnone : ∀ x ∈ ts, ¬ key <+: x := fun x hx hp => hlater ⟨x, hx, hp⟩
        have ht : key <+: t := by
          obtain ⟨x, hx, hp⟩ := hex
          rcases List.mem_cons.mp hx with rfl | hx'
          · exact hp
          · exact absurd hp (hnone x hx')
        have h1 := hget hi t hi1 hl
        rw [if_pos ht, hall t (by simp) ht] at h1
        rw [binary_lines_get_none key get hget ts hi1 hi2 h hnone]
        injection h1 with h1
        exact h1.symm

theorem mem_tokenize_lines (lines : List (List Char)) (hlines : ∀ l ∈ lines, isLine l = true)
    (t : List Char) (ht : t ∈ tokenize lines.flatten "\n".toList) :
    t ++ ['\n'] ∈ lines := by
  rw [tokenize_lines lines hlines] at ht
  obtain ⟨hm, -⟩ := List.mem_filter.mp ht
  obtain ⟨l, hl, rfl⟩ := List.mem_map.mp hm
  obtain ⟨b, hb, -⟩ := isLine_split (hlines l hl)
  subst hb
  simpa using hl

theorem tokenize_lines_mem (lines : List (List Char)) (hlines : ∀ l ∈ lines, isLine l = true)
    (l : List Char) (hl : l ∈ lines) (hne : l.dropLast ≠ []) :
    l.dropLast ∈ tokenize lines.flatten "\n".toList := by
  rw [tokenize_lines lines hlines]
  apply List.mem_filter.mpr
  refine ⟨List.mem_map.mpr ⟨l, hl, rfl⟩, ?_⟩
  cases h : l.dropLast with
  | nil => exact absurd h hne
  | cons x xs => rfl

theorem corner_token_eq (key : List Char) (lines : List (List Char))
    (hlines : ∀ l ∈ lines, isLine l = true) (cL : List Char)
    (huniq : ∀ l ∈ lines, key <+: l → l = cL)
    (t : List Char) (ht : t ∈ tokenize lines.flatten "\n".toList) (hp : key <+: t) :
    t = cL.dropLast := by
  have hm := mem_tokenize_lines lines hlines t ht
  have := huniq _ hm (hp.trans (List.prefix_append t ['\n']))
  rw [← this]
  simp

theorem binary_corner_of_lines (key : List Char) (hnl : '\n' ∉ key) (hkne : key ≠ [])
    (get : detailed_header_info → Int × Int)
    (hget : ∀ (hi : detailed_header_info) (t : List Char) (hi1 : detailed_header_info),
      binary_get_detailed_header_info_line hi t = .ok hi1 →
      if key <+: t then GridCorner_xy t = .ok (get hi1) else get hi1 = get hi)
    (lines : List (List Char)) (hlines : ∀ l ∈ lines, isLine l = true)
    (cL : List Char) (hin : cL ∈ lines) (hp : key <+: cL)
    (h3 : 3 ≤ (tokenize cL.dropLast "= ".toList).length)
    (huniq : ∀ l ∈ lines, key <+: l → l = cL)
    (hi0 hi2 : detailed_header_info)
    (hloop : binary_get_detailed_header_info_lines (tokenize lines.flatten "\n".toList) hi0
      = .ok hi2) :
    GridCorner_xy cL = .ok (get hi2) := by
  obtain ⟨b, hb, -⟩ := isLine_split (hlines cL hin)
  have hdl : cL.dropLast = b := by rw [hb]; simp
  obtain ⟨tok1, tok2, -, -, hxy⟩ := GridCorner_xy_ok cL.dropLast h3
  have hpb : key <+: cL.dropLast := by
    rw [hdl]
    rw [hb] at hp
    exact prefix_of_prefix_append_singleton key b '\n' hp hnl
  have hne : cL.dropLast ≠ [] := by
    intro e
    rw [e] at hpb
    exact hkne (List.prefix_nil.mp hpb)
  have hmem := tokenize_lines_mem lines hlines cL hin hne
  have hres := binary_lines_get key get hget _ hi0 hi2 hloop (atoi tok1, atoi tok2)
    (fun t ht hpt => by
      rw [corner_token_eq key lines hlines cL huniq t ht hpt]; exact hxy)
    ⟨cL.dropLast, hmem, hpb⟩
  have e : GridCorner_xy cL = GridCorner_xy cL.dropLast := by
    have h4 := GridCorner_xy_append_newline cL.dropLast h3
    rw [hdl, ← hb] at h4
    rw [h4, hdl]
  rw [e, hxy, hres]

theorem corner_token_ok (key : List Char) (lines : List (List Char))
    (hlines : ∀ l ∈ lines, isLine l = true) (cL : List Char)
    (h3 : 3 ≤ (tokenize cL.dropLast "= ".toList).length)
    (huniq : ∀ l ∈ lines, key <+: l → l = cL)
    (t : List Char) (ht : t ∈ tokenize lines.flatten "\n".toList) (hp : key <+: t) :
    ∃ xy, GridCorner_xy t = .ok xy := by
  rw [corner_token_eq key lines hlines cL huniq t ht hp]
  obtain ⟨tok1, tok2, -, -, hxy⟩ := GridCorner_xy_ok cL.dropLast h3
  exact ⟨_, hxy⟩

theorem binary_get_detailed_header_info_spec (file : Option (List Char))
    (hi : detailed_header_info) (my_header : binary_header) (lines : List (List Char))
    (ulL urL lrL llL name : List Char)
    (hread : read_binary_header file 0 = .ok (some my_header))
    (hblob : my_header.header = lines.flatten)
    (hparam : my_header.alg_param ≠ [])
    (hlines : ∀ l ∈ lines, isLine l = true)
    (hul : ulL ∈ lines ∧ "GridCornerUL".toList <+: ulL ∧
      3 ≤ (tokenize ulL.dropLast "= ".toList).length ∧
      ∀ l ∈ lines, "GridCornerUL".toList <+: l → l = ulL)
    (hur : urL ∈ lines ∧ "GridCornerUR".toList <+: urL ∧
      3 ≤ (tokenize urL.dropLast "= ".toList).length ∧
      ∀ l ∈ lines, "GridCornerUR".toList <+: l → l = urL)
    (hlr : lrL ∈ lines ∧ "GridCornerLR".toList <+: lrL ∧
      3 ≤ (tokenize lrL.dropLast "= ".toList).length ∧
      ∀ l ∈ lines, "GridCornerLR".toList <+: l → l = lrL)
    (hll : llL ∈ lines ∧ "GridCornerLL".toList <+: llL ∧
      3 ≤ (tokenize llL.dropLast "= ".toList).length ∧
      ∀ l ∈ lines, "GridCornerLL".toList <+: l → l = llL)
    (hDat : ∀ l ∈ lines, "DatHeader".toList <+: l → 11 ≤ l.length)
    (hname : cdfName_loop (tokenize lines.flatten " ".toList) = .ok (some name)) :
    ∃ hb, binary_get_detailed_header_info file hi = .ok hb ∧
      hb.cols = my_header.cols ∧ hb.rows = my_header.rows ∧ hb.cdfName = some name ∧
      GridCorner_xy ulL = .ok (hb.GridCornerULx, hb.GridCornerULy) ∧
      GridCorner_xy urL = .ok (hb.GridCornerURx, hb.GridCornerURy) ∧
      GridCorner_xy lrL = .ok (hb.GridCornerLRx, hb.GridCornerLRy) ∧
      GridCorner_xy llL = .ok (hb.GridCornerLLx, hb.GridCornerLLy) := by
  have hc : ∀ t ∈ tokenize lines.flatten "\n".toList,
      ("GridCornerUL".toList <+: t ∨ "GridCornerUR".toList <+: t ∨
        "GridCornerLR".toList <+: t ∨ "GridCornerLL".toList <+: t) →
      ∃ xy, GridCorner_xy t = .ok xy := by
    intro t ht hany
    rcases hany with h | h | h | h
    · exact corner_token_ok _ lines hlines ulL hul.2.2.1 hul.2.2.2 t ht h
    · exact corner_token_ok _ lines hlines urL hur.2.2.1 hur.2.2.2 t ht h
    · exact corner_token_ok _ lines hlines lrL hlr.2.2.1 hlr.2.2.2 t ht h
    · exact corner_token_ok _ lines hlines llL hll.2.2.1 hll.2.2.2 t ht h
  have hD : ∀ t ∈ tokenize lines.flatten "\n".toList,
      "DatHeader".toList <+: t → 10 ≤ t.length := by
    intro t ht hp
    have hm := mem_tokenize_lines lines hlines t ht
    have := hDat _ hm (hp.trans (List.prefix_append t ['\n']))
    simp only [List.length_append, List.length_singleton] at this
    omega
  obtain ⟨hi2, hloop⟩ := binary_lines_ok (tokenize lines.flatten "\n".toList)
    { hi with
      cols := my_header.cols, rows := my_header.rows,
      Algorithm := some my_header.algorithm,
      AlgorithmParameters := some my_header.alg_param.dropLast } hc hD
  have hcols := binary_lines_frame (fun h => h.cols)
    (fun hi t hi1 h => (binary_line_inv hi hi1 t h).1) _ _ _ hloop
  have hrows := binary_lines_frame (fun h => h.rows)
    (fun hi t hi1 h => (binary_line_inv hi hi1 t h).2.1) _ _ _ hloop
  have h1 := binary_corner_of_lines "GridCornerUL".toList (by decide) (by decide)
    (fun h => (h.GridCornerULx, h.GridCornerULy))
    (fun hi t hi1 h => (binary_line_inv hi hi1 t h).2.2.2.1)
    lines hlines ulL hul.1 hul.2.1 hul.2.2.1 hul.2.2.2 _ _ hloop
  have h2 := binary_corner_of_lines "GridCornerUR".toList (by decide) (by decide)
    (fun h => (h.GridCornerURx, h.GridCornerURy))
    (fun hi t hi1 h => (binary_line_inv hi hi1 t h).2.2.2.2.1)
    lines hlines urL hur.1 hur.2.1 hur.2.2.1 hur.2.2.2 _ _ hloop
  have h3 := binary_corner_of_lines "GridCornerLR".toList (by decide) (by decide)
    (fun h => (h.GridCornerLRx, h.GridCornerLRy))
    (fun hi t hi1 h => (binary_line_inv hi hi1 t h).2.2.2.2.2.1)
    lines hlines lrL hlr.1 hlr.2.1 hlr.2.2.1 hlr.2.2.2 _ _ hloop
  have h4 := binary_corner_of_lines "GridCornerLL".toList (by decide) (by decide)
    (fun h => (h.GridCornerLLx, h.GridCornerLLy))
    (fun hi t hi1 h => (binary_line_inv hi hi1 t h).2.2.2.2.2.2)
    lines hlines llL hll.1 hll.2.1 hll.2.2.1 hll.2.2.2 _ _ hloop
  refine ⟨{ hi2 with cdfName := some name }, ?_, hcols, hrows, rfl, h1, h2, h3, h4⟩
  simp only [binary_get_detailed_header_info, hread, hparam, if_false, hblob, hloop, hname]

theorem first_line_with_mem (key : List Char) (ls : List (List Char)) (l : List Char)
    (rest : List (List Char)) (h : first_line_with key ls = some (l, rest)) :
    l ∈ ls ∧ ∀ x ∈ rest, x ∈ ls := by
  obtain ⟨before, hb, -, -⟩ := first_line_with_spec key ls l rest h
  subst hb
  exact ⟨by simp, fun x hx => by simp [hx]⟩

theorem cdfName_between_spaces (pre token post : List Char)
    (htoken : 0 < token_ends_with token ".1sq".toList) (hsp : ' ' ∉ token)
    (hpre : ∀ t ∈ tokenize pre " ".toList, ¬ 0 < token_ends_with t ".1sq".toList) :
    cdfName_loop (tokenize (pre ++ ' ' :: (token ++ ' ' :: post)) " ".toList)
      = .ok (some (token.take (token_ends_with token ".1sq".toList).toNat)) := by
  have hne : token ≠ [] := by
    rintro rfl
    exact absurd htoken (by decide)
  have hd : ∀ c ∈ token, " ".toList.contains c = false := by
    intro c hc
    have : c ≠ ' ' := fun e => hsp (e ▸ hc)
    simpa using this
  rw [tokenize_append_delimiter ' ' pre _ _ (by decide),
    tokenize_append_delimiter ' ' token post _ (by decide),
    tokenize_no_delimiter token _ hne hd]
  exact cdfName_loop_hit _ token _ hpre htoken

theorem binary_line_algorithm (hi hi1 : detailed_header_info) (token : List Char)
    (h : binary_get_detailed_header_info_line hi token = .ok hi1) :
    hi1.Algorithm = hi.Algorithm ∧ hi1.AlgorithmParameters = hi.AlgorithmParameters := by
  have s1 := strncmp_key12 "GridCornerUL".toList token (by decide) rfl
  have s2 := strncmp_key12 "GridCornerUR".toList token (by decide) rfl
  have s3 := strncmp_key12 "GridCornerLR".toList token (by decide) rfl
  have s4 := strncmp_key12 "GridCornerLL".toList token (by decide) rfl
  have s5 := strncmp_key9 "DatHeader".toList token (by decide) rfl
  unfold binary_get_detailed_header_info_line at h
  simp only [s1, s2, s3, s4, s5] at h
  rcases hxy : GridCorner_xy token with e | xy
  all_goals
    by_cases h1 : "GridCornerUL".toList <+: token <;>
    by_cases h2 : "GridCornerUR".toList <+: token <;>
    by_cases h3 : "GridCornerLR".toList <+: token <;>
    by_cases h4 : "GridCornerLL".toList <+: token <;>
    by_cases h5 : "DatHeader".toList <+: token <;>
    by_cases h6 : token.length < 10 <;>
    simp only [h1, h2, h3, h4, h5, h6, hxy, if_true, if_false, reduceCtorEq,
      Except.ok.injEq] at h <;>
    first
      | exact h.elim
      | (subst h; exact ⟨rfl, rfl⟩)

theorem binary_get_detailed_header_info_algorithm (file : Option (List Char))
    (hi hb : detailed_header_info) (my_header : binary_header)
    (hread : read_binary_header file 0 = .ok (some my_header))
    (h : binary_get_detailed_header_info file hi = .ok hb) :
    my_header.alg_param ≠ [] ∧ hb.Algorithm = some my_header.algorithm ∧
    hb.AlgorithmParameters = some my_header.alg_param.dropLast := by
  unfold binary_get_detailed_header_info at h
  simp only [hread] at h
  by_cases hp : my_header.alg_param = []
  · simp only [hp, if_true, reduceCtorEq] at h
  · simp only [hp, if_false] at h
    refine ⟨hp, ?_⟩
    cases hl : binary_get_detailed_header_info_lines (tokenize my_header.header "\n".toList)
        { hi with
          cols := my_header.cols, rows := my_header.rows,
          Algorithm := some my_header.algorithm,
          AlgorithmParameters := some my_header.alg_param.dropLast } with
    | error e => rw [hl] at h; simp only [reduceCtorEq] at h
    | ok hi2 =>
      rw [hl] at h
      have ha := binary_lines_frame (fun x => x.Algorithm)
        (fun a t b hab => (binary_line_algorithm a b t hab).1) _ _ _ hl
      have hp2 := binary_lines_frame (fun x => x.AlgorithmParameters)
        (fun a t b hab => (binary_line_algorithm a b t hab).2) _ _ _ hl
      simp only at ha hp2 h
      cases hn : cdfName_loop (tokenize my_header.header " ".toList) with
      | error e => rw [hn] at h; simp only [reduceCtorEq] at h
      | ok name =>
        rw [hn] at h
        cases name with
        | none =>
          simp only [Except.ok.injEq] at h
          subst h
          exact ⟨ha, hp2⟩
        | some nm =>
          simp only [Except.ok.injEq] at h
          subst h
          exact ⟨ha, hp2⟩

/-! ## storeIntensities -/

theorem CountCDFProbes_loop_add : ∀ (l : List probeset) (a : Int),
    CountCDFProbes_loop l a = a + CountCDFProbes_loop l 0 := by
  intro l
  induction l with
  | nil => intro a; simp only [CountCDFProbes_loop, add_zero]
  | cons p rest ih =>
    intro a
    simp only [CountCDFProbes_loop]
    rw [ih (a + p.nrow), ih (0 + p.nrow)]
    ring

theorem CountCDFProbes_nil : CountCDFProbes [] = 0 := rfl

theorem CountCDFProbes_cons (p : probeset) (rest : List probeset) :
    CountCDFProbes (p :: rest) = p.nrow + CountCDFProbes rest := by
  simp only [CountCDFProbes, CountCDFProbes_loop]
  rw [CountCDFProbes_loop_add]
  ring

theorem CountCDFProbes_append (l1 l2 : List probeset) :
    CountCDFProbes (l1 ++ l2) = CountCDFProbes l1 + CountCDFProbes l2 := by
  induction l1 with
  | nil => simp only [List.nil_append, CountCDFProbes_nil, zero_add]
  | cons p rest ih =>
    rw [List.cons_append, CountCDFProbes_cons, CountCDFProbes_cons, ih]
    ring

theorem CountCDFProbes_nonneg (l : List probeset) (h : ∀ p ∈ l, 0 ≤ p.nrow) :
    0 ≤ CountCDFProbes l := by
  induction l with
  | nil => exact le_refl _
  | cons p rest ih =>
    rw [CountCDFProbes_cons]
    have h1 := h p (List.mem_cons_self _ _)
    have h2 := ih (fun q hq => h q (List.mem_cons_of_mem _ hq))
    omega

/-- Every row below the probe count is the `j`-th probe of exactly the
probeset whose predecessors hold fewer probes. -/
theorem CountCDFProbes_cover : ∀ (l : List probeset), (∀ p ∈ l, 0 ≤ p.nrow) →
    ∀ r : Int, 0 ≤ r → r < CountCDFProbes l →
      ∃ (before : List probeset) (p : probeset) (after : List probeset) (j : Nat),
        l = before ++ p :: after ∧ (j : Int) < p.nrow ∧ r = CountCDFProbes before + (j : Int) := by
  intro l
  induction l with
  | nil =>
    intro _ r h0 h1
    rw [CountCDFProbes_nil] at h1
    omega
  | cons p rest ih =>
    intro h r h0 h1
    rw [CountCDFProbes_cons] at h1
    by_cases hr : r < p.nrow
    · refine ⟨[], p, rest, r.toNat, rfl, ?_, ?_⟩
      · rw [Int.toNat_of_nonneg h0]; exact hr
      · rw [Int.toNat_of_nonneg h0, CountCDFProbes_nil]; ring
    · obtain ⟨before, q, after, j, he, hj, hrj⟩ :=
        ih (fun q hq => h q (List.mem_cons_of_mem _ hq)) (r - p.nrow) (by omega) (by omega)
      refine ⟨p :: before, q, after, j, ?_, hj, ?_⟩
      · rw [he]; rfl
      · rw [CountCDFProbes_cons]; omega

theorem cur_index_at_ok (cur_index : List Int) (k : Nat) (hk : k < cur_index.length) :
    cur_index_at cur_index (k : Int) = .ok (cur_index.getD k 0) := by
  have h : cur_index.get? k = some (cur_index.getD k 0) := by
    simp only [List.get?_eq_getElem?]
    rw [List.getElem?_eq_getElem hk, List.getD_eq_getElem _ _ hk]
  simp only [cur_index_at, Int.toNat_ofNat, h]

/-- One more store in front of a run of conditional stores. -/
theorem range_update_step {F : Type} (c : Prop) [Decidable c] (lo : Int) (n : Nat)
    (val : Nat → RDouble F) (old : Int → RDouble F) :
    (fun q => if c ∧ lo + 1 ≤ q ∧ q < lo + 1 + (n : Int)
        then val (1 + (q - (lo + 1)).toNat)
        else (if c then Function.update old lo (val 0) else old) q)
      = (fun q => if c ∧ lo ≤ q ∧ q < lo + ((n + 1 : Nat) : Int)
          then val (q - lo).toNat else old q) := by
  funext q
  by_cases hc : c
  · simp only [hc, true_and, if_true]
    by_cases hq : q = lo
    · subst hq
      rw [if_neg (by omega), Function.update_same, if_pos (by push_cast; omega)]
      congr 1
      omega
    · rw [Function.update_noteq hq]
      by_cases h1 : q + 1 ≤ lo + 1 + 0 ∨ lo + 1 + (n : Int) ≤ q
      · rw [if_neg (by omega), if_neg (by push_cast; omega)]
      · rw [if_pos (by omega), if_pos (by push_cast; omega)]
        congr 1
        omega
  · simp only [hc, false_and, if_false]

theorem storeIntensities_probes_spec {F : Type} (CurintensityMatrix : Int → RDouble F)
    (curcol tot_n_probes which n_probes : Int) (cur_index : List Int)
    (hn : 0 ≤ n_probes) (hlen : cur_index.length = 2 * n_probes.toNat) :
    ∀ (fuel j : Nat) (currow : Int) (pmMatrix mmMatrix : Int → RDouble F),
      j + fuel = n_probes.toNat →
      storeIntensities_probes CurintensityMatrix curcol tot_n_probes which n_probes cur_index
          fuel (j : Int) currow pmMatrix mmMatrix
        = .ok (currow + (fuel : Int),
            (fun q => if 0 ≤ which ∧ curcol * tot_n_probes + currow ≤ q
                ∧ q < curcol * tot_n_probes + currow + ((fuel : Nat) : Int)
              then CurintensityMatrix
                (cur_index.getD (j + (q - (curcol * tot_n_probes + currow)).toNat) 0 - 1)
              else pmMatrix q),
            (fun q => if which ≤ 0 ∧ curcol * tot_n_probes + currow ≤ q
                ∧ q < curcol * tot_n_probes + currow + ((fuel : Nat) : Int)
              then CurintensityMatrix
                (cur_index.getD
                  (j + (q - (curcol * tot_n_probes + currow)).toNat + n_probes.toNat) 0 - 1)
              else mmMatrix q)) := by
  intro fuel
  induction fuel with
  | zero =>
    intro j currow pm mm _
    simp only [storeIntensities_probes]
    congr 1
    rw [Prod.mk.injEq, Prod.mk.injEq]
    refine ⟨by simp, ?_, ?_⟩
    · funext q
      rw [if_neg]
      intro h
      have := h.2.1
      have := h.2.2
      push_cast at *
      omega
    · funext q
      rw [if_neg]
      intro h
      have := h.2.1
      have := h.2.2
      push_cast at *
      omega
  | succ fuel ih =>
    intro j currow pm mm hj
    have h1 : cur_index_at cur_index (j : Int) = .ok (cur_index.getD j 0) :=
      cur_index_at_ok _ _ (by omega)
    have h2 : cur_index_at cur_index ((j : Int) + n_probes)
        = .ok (cur_index.getD (j + n_probes.toNat) 0) := by
      have : (j : Int) + n_probes = ((j + n_probes.toNat : Nat) : Int) := by
        push_cast
        rw [Int.toNat_of_nonneg hn]
      rw [this]
      exact cur_index_at_ok _ _ (by omega)
    have hpm : (if which ≥ 0 then
          match cur_index_at cur_index (j : Int) with
          | .error e => .error e
          | .ok v =>
            .ok (Function.update pm (curcol * tot_n_probes + currow)
              (CurintensityMatrix (v - 1)))
        else .ok pm : Except Err (Int → RDouble F))
        = .ok (if 0 ≤ which then Function.update pm (curcol * tot_n_probes + currow)
            (CurintensityMatrix (cur_index.getD (j + 0) 0 - 1)) else pm) := by
      rw [h1]
      by_cases hw : 0 ≤ which
      · simp only [ge_iff_le, hw, if_true, Nat.add_zero]
      · simp only [ge_iff_le, hw, if_false]
    have hmm : (if which ≤ 0 then
          match cur_index_at cur_index ((j : Int) + n_probes) with
          | .error e => .error e
          | .ok v =>
            .ok (Function.update mm (curcol * tot_n_probes + currow)
              (CurintensityMatrix (v - 1)))
        else .ok mm : Except Err (Int → RDouble F))
        = .ok (if which ≤ 0 then Function.update mm (curcol * tot_n_probes + currow)
            (CurintensityMatrix (cur_index.getD (j + 0 + n_probes.toNat) 0 - 1)) else mm) := by
      rw [h2]
      by_cases hw : which ≤ 0
      · simp only [hw, if_true, Nat.add_zero]
      · simp only [hw, if_false]
    rw [storeIntensities_probes, hpm, hmm]
    simp only []
    have := ih (j + 1) (currow + 1)
      (if 0 ≤ which then Function.update pm (curcol * tot_n_probes + currow)
        (CurintensityMatrix (cur_index.getD (j + 0) 0 - 1)) else pm)
      (if which ≤ 0 then Function.update mm (curcol * tot_n_probes + currow)
        (CurintensityMatrix (cur_index.getD (j + 0 + n_probes.toNat) 0 - 1)) else mm)
      (by omega)
    rw [Nat.cast_add, Nat.cast_one] at this
    rw [this]
    congr 1
    rw [Prod.mk.injEq, Prod.mk.injEq]
    refine ⟨by push_cast; ring, ?_, ?_⟩
    · have e := range_update_step (0 ≤ which) (curcol * tot_n_probes + currow) fuel
        (fun k => CurintensityMatrix (cur_index.getD (j + k) 0 - 1)) pm
      simp only [← Int.add_assoc, Nat.add_assoc j 1] at e ⊢
      exact e
    · have e := range_update_step (which ≤ 0) (curcol * tot_n_probes + currow) fuel
        (fun k => CurintensityMatrix (cur_index.getD (j + k + n_probes.toNat) 0 - 1)) mm
      simp only [← Int.add_assoc, Nat.add_assoc j 1] at e ⊢
      exact e

theorem storeIntensities_loop_spec {F : Type} (CurintensityMatrix : Int → RDouble F)
    (curcol tot_n_probes which : Int) :
    ∀ (cdfInfo : List probeset),
      (∀ p ∈ cdfInfo, 0 ≤ p.nrow ∧ p.index.length = 2 * p.nrow.toNat) →
      ∀ (currow : Int) (pmMatrix mmMatrix : Int → RDouble F),
      ∃ pm mm, storeIntensities_loop CurintensityMatrix curcol tot_n_probes which cdfInfo
            currow pmMatrix mmMatrix = .ok (pm, mm)
        ∧ (∀ (before : List probeset) (p : probeset) (after : List probeset) (j : Nat),
            cdfInfo = before ++ p :: after → (j : Int) < p.nrow →
            (0 ≤ which →
              pm (curcol * tot_n_probes + (currow + CountCDFProbes before + (j : Int)))
                = CurintensityMatrix (p.index.getD j 0 - 1))
            ∧ (which ≤ 0 →
              mm (curcol * tot_n_probes + (currow + CountCDFProbes before + (j : Int)))
                = CurintensityMatrix (p.index.getD (j + p.nrow.toNat) 0 - 1)))
        ∧ (∀ q : Int, ¬ (curcol * tot_n_probes + currow ≤ q
              ∧ q < curcol * tot_n_probes + currow + CountCDFProbes cdfInfo) →
            pm q = pmMatrix q ∧ mm q = mmMatrix q)
        ∧ (which < 0 → pm = pmMatrix)
        ∧ (0 < which → mm = mmMatrix) := by
  intro cdfInfo
  induction cdfInfo with
  | nil =>
    intro _ currow pm mm
    refine ⟨pm, mm, rfl, ?_, fun _ _ => ⟨rfl, rfl⟩, fun _ => rfl, fun _ => rfl⟩
    intro before p after j he
    exact absurd he (by simp)
  | cons p0 rest ih =>
    intro h currow pm mm
    have h0 := h p0 (List.mem_cons_self _ _)
    have hrest : ∀ p ∈ rest, 0 ≤ p.nrow ∧ p.index.length = 2 * p.nrow.toNat :=
      fun q hq => h q (List.mem_cons_of_mem _ hq)
    have hinner := storeIntensities_probes_spec CurintensityMatrix curcol tot_n_probes which
      p0.nrow p0.index h0.1 h0.2 p0.nrow.toNat 0 currow pm mm (by omega)
    have hn : ((p0.nrow.toNat : Nat) : Int) = p0.nrow := Int.toNat_of_nonneg h0.1
    have hc := CountCDFProbes_nonneg rest (fun q hq => (hrest q hq).1)
    obtain ⟨pm2, mm2, hrun, hrows, hframe, hpm, hmm⟩ := ih hrest
      (currow + ((p0.nrow.toNat : Nat) : Int)) _ _
    have hrun2 : storeIntensities_loop CurintensityMatrix curcol tot_n_probes which
        (p0 :: rest) currow pm mm = .ok (pm2, mm2) := by
      rw [storeIntensities_loop]
      have hinner2 : storeIntensities_probes CurintensityMatrix curcol tot_n_probes which
          p0.nrow p0.index p0.nrow.toNat 0 currow pm mm = _ := hinner
      rw [hinner2]
      exact hrun
    refine ⟨pm2, mm2, hrun2, ?_, ?_, ?_, ?_⟩
    · intro before p after j he hj
      cases before with
      | nil =>
        rw [List.nil_append, List.cons.injEq] at he
        obtain ⟨hp, _⟩ := he
        subst hp
        have hout : ¬ (curcol * tot_n_probes + (currow + ((p0.nrow.toNat : Nat) : Int))
              ≤ curcol * tot_n_probes + (currow + CountCDFProbes [] + (j : Int))
            ∧ curcol * tot_n_probes + (currow + CountCDFProbes [] + (j : Int))
              < curcol * tot_n_probes + (currow + ((p0.nrow.toNat : Nat) : Int))
                + CountCDFProbes rest) := by
          rw [CountCDFProbes_nil, hn]
          intro hx
          have := hx.1
          omega
        have hf := hframe _ hout
        have hsub : (curcol * tot_n_probes + (currow + CountCDFProbes [] + (j : Int))
            - (curcol * tot_n_probes + currow)).toNat = j := by
          rw [CountCDFProbes_nil]
          have : curcol * tot_n_probes + (currow + 0 + (j : Int))
              - (curcol * tot_n_probes + currow) = (j : Int) := by ring
          rw [this, Int.toNat_ofNat]
        have hin : curcol * tot_n_probes + currow
              ≤ curcol * tot_n_probes + (currow + CountCDFProbes [] + (j : Int))
            ∧ curcol * tot_n_probes + (currow + CountCDFProbes [] + (j : Int))
              < curcol * tot_n_probes + currow + ((p0.nrow.toNat : Nat) : Int) := by
          rw [CountCDFProbes_nil, hn]
          constructor <;> omega
        constructor
        · intro hw
          rw [hf.1, if_pos ⟨hw, hin⟩, hsub, Nat.zero_add]
        · intro hw
          rw [hf.2, if_pos ⟨hw, hin⟩, hsub, Nat.zero_add]
      | cons b before2 =>
        rw [List.cons_append, List.cons.injEq] at he
        obtain ⟨hb, he2⟩ := he
        subst hb
        have hr := hrows before2 p after j he2 hj
        have e : curcol * tot_n_probes + (currow + CountCDFProbes (p0 :: before2) + (j : Int))
            = curcol * tot_n_probes
              + (currow + ((p0.nrow.toNat : Nat) : Int) + CountCDFProbes before2 + (j : Int)) := by
          rw [CountCDFProbes_cons, hn]
          ring
        rw [e]
        exact hr
    · intro q hq
      have hout : ¬ (curcol * tot_n_probes + (currow + ((p0.nrow.toNat : Nat) : Int)) ≤ q
          ∧ q < curcol * tot_n_probes + (currow + ((p0.nrow.toNat : Nat) : Int))
            + CountCDFProbes rest) := by
        rw [hn]
        rw [CountCDFProbes_cons] at hq
        intro hx
        apply hq
        have := hx.1
        have := hx.2
        have := h0.1
        constructor <;> omega
      have hf := hframe q hout
      have hout2 : ¬ (curcol * tot_n_probes + currow ≤ q
          ∧ q < curcol * tot_n_probes + currow + ((p0.nrow.toNat : Nat) : Int)) := by
        rw [hn]
        rw [CountCDFProbes_cons] at hq
        intro hx
        apply hq
        have := hx.1
        have := hx.2
        constructor <;> omega
      constructor
      · rw [hf.1, if_neg (fun hx => hout2 hx.2)]
      · rw [hf.2, if_neg (fun hx => hout2 hx.2)]
    · intro hw
      rw [hpm hw]
      funext q
      rw [if_neg (fun hx => by have := hx.1; omega)]
    · intro hw
      rw [hmm hw]
      funext q
      rw [if_neg (fun hx => by have := hx.1; omega)]
/-! ## Byte swaps -/

theorem nat_and_mod (n m k : Nat) (hm : m < 2 ^ k) : n &&& m = (n % 2 ^ k) &&& m := by
  apply Nat.eq_of_testBit_eq
  intro i
  rw [Nat.testBit_and, Nat.testBit_and, Nat.testBit_mod_two_pow]
  by_cases hi : i < k
  · simp only [hi, decide_True, Bool.true_and]
  · have hlt : m < 2 ^ i :=
      lt_of_lt_of_le hm (Nat.pow_le_pow_right (by decide) (by omega))
    rw [Nat.testBit_lt_two_pow hlt]
    simp only [Bool.and_false]

theorem nat_ldiff_mod (n m k : Nat) (hm : m < 2 ^ k) :
    Nat.ldiff m n = (2 ^ k - (n % 2 ^ k + 1)) &&& m := by
  apply Nat.eq_of_testBit_eq
  intro i
  have hlt : n % 2 ^ k < 2 ^ k := Nat.mod_lt _ (Nat.two_pow_pos k)
  rw [Nat.testBit_ldiff, Nat.testBit_and, Nat.testBit_two_pow_sub_succ hlt,
    Nat.testBit_mod_two_pow]
  by_cases hi : i < k
  · simp only [hi, decide_True, Bool.true_and]
    exact Bool.and_comm _ _
  · have hlt : m < 2 ^ i :=
      lt_of_lt_of_le hm (Nat.pow_le_pow_right (by decide) (by omega))
    rw [Nat.testBit_lt_two_pow hlt]
    simp only [Bool.false_and, Bool.and_false]

theorem int_land_mod (x : Int) (m k : Nat) (hm : m < 2 ^ k) :
    Int.land x (m : Int) = (((x % (2 ^ k : Nat)).toNat &&& m : Nat) : Int) := by
  cases x with
  | ofNat n =>
    have h1 : Int.land (Int.ofNat n) (m : Int) = ((n &&& m : Nat) : Int) := rfl
    rw [h1, nat_and_mod n m k hm]
    congr 2
  | negSucc n =>
    have h1 : Int.land (Int.negSucc n) (m : Int) = ((Nat.ldiff m n : Nat) : Int) := rfl
    rw [h1, nat_ldiff_mod n m k hm]
    congr 2
    have hpos : 0 < 2 ^ k := Nat.two_pow_pos k
    have hlt : n % 2 ^ k < 2 ^ k := Nat.mod_lt _ hpos
    have : (Int.negSucc n % ((2 ^ k : Nat) : Int))
        = ((2 ^ k - (n % 2 ^ k + 1) : Nat) : Int) := by
      generalize 2 ^ k = P at hpos hlt
      rw [Int.emod_negSucc, Int.natAbs_ofNat, Int.subNatNat_eq_coe]
      rw [Nat.succ_eq_add_one]
      omega
    rw [this, Int.toNat_ofNat]

theorem nat_and_ff (y : Nat) : y &&& 255 = y % 256 :=
  Nat.and_pow_two_sub_one_eq_mod y 8

theorem nat_and_ff00 (y : Nat) : y &&& 65280 = (y / 256 % 256) * 256 := by
  have e1 : (65280 : Nat) = (2 ^ 8 - 1) <<< 8 := by decide
  have h8 : (2 : Nat) ^ 8 = 256 := by decide
  have e2 : (y / 256 % 256) * 256 = ((y >>> 8) % 2 ^ 8) <<< 8 := by
    rw [Nat.shiftLeft_eq, Nat.shiftRight_eq_div_pow, h8]
  rw [e1, e2]
  apply Nat.eq_of_testBit_eq
  intro i
  rw [Nat.testBit_and, Nat.testBit_shiftLeft, Nat.testBit_shiftLeft, Nat.testBit_mod_two_pow,
    Nat.testBit_shiftRight, Nat.testBit_two_pow_sub_one]
  by_cases hi : 8 ≤ i
  · have : 8 + (i - 8) = i := by omega
    rw [this]
    simp only [ge_iff_le, hi, decide_True, Bool.true_and]
    exact Bool.and_comm _ _
  · simp only [ge_iff_le, hi, decide_False, Bool.false_and, Bool.and_false]

theorem nat_or_reorder (a b c d : Nat) : a ||| b ||| c ||| d = b ||| (d ||| (c ||| a)) := by
  rw [Nat.or_comm a b, Nat.or_assoc, Nat.or_assoc, Nat.or_comm c d, Nat.or_comm a,
    Nat.or_assoc]

theorem nat_or_bytes (b0 b1 b2 b3 : Nat) (h1 : b1 < 256) (h2 : b2 < 256) (h3 : b3 < 256) :
    b3 ||| b0 * 16777216 ||| b2 * 256 ||| b1 * 65536
      = b3 + b2 * 256 + b1 * 65536 + b0 * 16777216 := by
  have h8 : (256 : Nat) = 2 ^ 8 := by decide
  have h16 : (65536 : Nat) = 2 ^ 16 := by decide
  have h24 : (16777216 : Nat) = 2 ^ 24 := by decide
  have e2 : b2 * 256 ||| b3 = b2 * 256 + b3 := by
    rw [h8, Nat.mul_comm b2]
    exact (Nat.mul_add_lt_is_or (by omega) b2).symm
  have e1 : b1 * 65536 ||| (b2 * 256 + b3) = b1 * 65536 + (b2 * 256 + b3) := by
    rw [h16, Nat.mul_comm b1]
    exact (Nat.mul_add_lt_is_or (by omega) b1).symm
  have e0 : b0 * 16777216 ||| (b1 * 65536 + (b2 * 256 + b3))
      = b0 * 16777216 + (b1 * 65536 + (b2 * 256 + b3)) := by
    rw [h24, Nat.mul_comm b0]
    exact (Nat.mul_add_lt_is_or (by omega) b0).symm
  rw [nat_or_reorder, e2, e1, e0]
  omega

theorem int_land_ff (x : Int) : Int.land x 255 = x % 256 := by
  have h : Int.land x 255 = (((x % ((2 ^ 8 : Nat) : Int)).toNat &&& 255 : Nat) : Int) :=
    int_land_mod x 255 8 (by decide)
  rw [h, nat_and_ff]
  have h8 : (((2 ^ 8 : Nat) : Nat) : Int) = 256 := by decide
  rw [h8]
  omega

theorem int_land_ff00 (x : Int) : Int.land x 65280 = x / 256 % 256 * 256 := by
  have h : Int.land x 65280 = (((x % ((2 ^ 16 : Nat) : Int)).toNat &&& 65280 : Nat) : Int) :=
    int_land_mod x 65280 16 (by decide)
  rw [h, nat_and_ff00]
  have h16 : (((2 ^ 16 : Nat) : Nat) : Int) = 65536 := by decide
  rw [h16]
  omega

theorem int_shiftRight_24 (x : Int) : x >>> (24 : Nat) = x / 16777216 := by
  rw [Int.shiftRight_eq_div_pow]
  rfl

theorem int_shiftRight_8 (x : Int) : x >>> (8 : Nat) = x / 256 := by
  rw [Int.shiftRight_eq_div_pow]
  rfl

theorem int_shiftLeft_24 (x : Int) : x <<< (24 : Int) = x * 16777216 :=
  Int.shiftLeft_eq_mul_pow x 24

theorem int_shiftLeft_8 (x : Int) : x <<< (8 : Int) = x * 256 :=
  Int.shiftLeft_eq_mul_pow x 8

theorem int_lor_cast (a b : Nat) : Int.lor (a : Int) (b : Int) = ((a ||| b : Nat) : Int) := rfl

theorem byte_of_zero (v : Int) : byte_of v 0 = v % 256 := by
  simp only [byte_of, pow_zero, Int.ediv_one]

theorem byte_of_one (v : Int) : byte_of v 1 = v / 256 % 256 := by
  simp only [byte_of, pow_one]

theorem byte_of_two (v : Int) : byte_of v 2 = v / 65536 % 256 := by
  have : (256 : Int) ^ 2 = 65536 := by decide
  simp only [byte_of, this]

theorem byte_of_three (v : Int) : byte_of v 3 = v / 16777216 % 256 := by
  have : (256 : Int) ^ 3 = 16777216 := by decide
  simp only [byte_of, this]

/-- The value of the swap expression of `fread_int32`, byte by byte. -/
theorem swap_int32_eq (v : Int) :
    swap_int32 v
      = wrap32 (v / 16777216 % 256 + v / 65536 % 256 * 256 + v / 256 % 256 * 65536
          + v % 256 * 16777216) := by
  have hP1 : Int.land (v >>> (24 : Nat)) 255 = (((v / 16777216 % 256).toNat : Nat) : Int) := by
    rw [int_land_ff, int_shiftRight_24]
    omega
  have hP2 : Int.land v 255 <<< (24 : Int)
      = (((v % 256).toNat * 16777216 : Nat) : Int) := by
    rw [int_land_ff, int_shiftLeft_24]
    push_cast
    omega
  have hP3 : Int.land (v >>> (8 : Nat)) 65280
      = (((v / 65536 % 256).toNat * 256 : Nat) : Int) := by
    rw [int_land_ff00, int_shiftRight_8]
    push_cast
    omega
  have hP4 : Int.land v 65280 <<< (8 : Int)
      = (((v / 256 % 256).toNat * 65536 : Nat) : Int) := by
    rw [int_land_ff00, int_shiftLeft_8]
    push_cast
    omega
  rw [swap_int32, hP1, hP2, hP3, hP4, int_lor_cast, int_lor_cast, int_lor_cast,
    nat_or_bytes _ _ _ _ (by omega) (by omega) (by omega)]
  congr 1
  push_cast
  omega

/-- The value of the swap expression of `fread_int16`, byte by byte. -/
theorem swap_int16_eq (s : Int) :
    swap_int16 s = wrap16 (s / 256 % 256 + s % 256 * 256) := by
  have hP1 : Int.land (s >>> (8 : Nat)) 255 = s / 256 % 256 := by
    rw [int_land_ff, int_shiftRight_8]
  have hP2 : Int.land s 255 <<< (8 : Int) = (((s % 256).toNat * 256 : Nat) : Int) := by
    rw [int_land_ff, int_shiftLeft_8]
    push_cast
    omega
  have hP1b : s / 256 % 256 = (((s / 256 % 256).toNat : Nat) : Int) := by omega
  have h8 : (256 : Nat) = 2 ^ 8 := by decide
  have hor : (s / 256 % 256).toNat ||| (s % 256).toNat * 256
      = (s % 256).toNat * 256 + (s / 256 % 256).toNat := by
    rw [Nat.or_comm, h8, Nat.mul_comm]
    exact (Nat.mul_add_lt_is_or (by omega) _).symm
  rw [swap_int16, hP1, hP2, hP1b, int_lor_cast, hor]
  congr 1
  push_cast
  omega

/-- The bytes of a 32-bit value composed of four bytes. -/
theorem wrap32_bytes (a b c d : Int) (ha : 0 ≤ a ∧ a < 256) (hb : 0 ≤ b ∧ b < 256)
    (hc : 0 ≤ c ∧ c < 256) (hd : 0 ≤ d ∧ d < 256) :
    wrap32 (a + b * 256 + c * 65536 + d * 16777216) % 256 = a
    ∧ wrap32 (a + b * 256 + c * 65536 + d * 16777216) / 256 % 256 = b
    ∧ wrap32 (a + b * 256 + c * 65536 + d * 16777216) / 65536 % 256 = c
    ∧ wrap32 (a + b * 256 + c * 65536 + d * 16777216) / 16777216 % 256 = d
    ∧ -2147483648 ≤ wrap32 (a + b * 256 + c * 65536 + d * 16777216)
    ∧ wrap32 (a + b * 256 + c * 65536 + d * 16777216) < 2147483648 := by
  simp only [wrap32]
  refine ⟨?_, ?_, ?_, ?_, ?_, ?_⟩ <;> omega

/-- A 32-bit value is composed of its four bytes. -/
theorem wrap32_of_bytes (w : Int) :
    wrap32 (w % 256 + w / 256 % 256 * 256 + w / 65536 % 256 * 65536
      + w / 16777216 % 256 * 16777216) = wrap32 w := by
  simp only [wrap32]
  omega

theorem wrap32_id (w : Int) (hw : -2147483648 ≤ w ∧ w < 2147483648) : wrap32 w = w := by
  simp only [wrap32]
  omega

theorem wrap16_bytes (a b : Int) (ha : 0 ≤ a ∧ a < 256) (hb : 0 ≤ b ∧ b < 256) :
    wrap16 (a + b * 256) % 256 = a
    ∧ wrap16 (a + b * 256) / 256 % 256 = b
    ∧ -32768 ≤ wrap16 (a + b * 256)
    ∧ wrap16 (a + b * 256) < 32768 := by
  simp only [wrap16]
  refine ⟨?_, ?_, ?_, ?_⟩ <;> omega

theorem wrap16_of_bytes (w : Int) : wrap16 (w % 256 + w / 256 % 256 * 256) = wrap16 w := by
  simp only [wrap16]
  omega

theorem wrap16_id (w : Int) (hw : -32768 ≤ w ∧ w < 32768) : wrap16 w = w := by
  simp only [wrap16]
  omega

theorem byte_range (w k : Int) : 0 ≤ w / k % 256 ∧ w / k % 256 < 256 :=
  ⟨Int.emod_nonneg _ (by decide), Int.emod_lt_of_pos _ (by decide)⟩

theorem byte_range_zero (w : Int) : 0 ≤ w % 256 ∧ w % 256 < 256 :=
  ⟨Int.emod_nonneg _ (by decide), Int.emod_lt_of_pos _ (by decide)⟩

/-- The four bytes and the range of `swap_int32 w`. -/
theorem swap_int32_bytes (w : Int) :
    swap_int32 w % 256 = w / 16777216 % 256
    ∧ swap_int32 w / 256 % 256 = w / 65536 % 256
    ∧ swap_int32 w / 65536 % 256 = w / 256 % 256
    ∧ swap_int32 w / 16777216 % 256 = w % 256
    ∧ -2147483648 ≤ swap_int32 w
    ∧ swap_int32 w < 2147483648 := by
  rw [swap_int32_eq]
  exact wrap32_bytes _ _ _ _ (byte_range w 16777216) (byte_range w 65536) (byte_range w 256)
    (byte_range_zero w)

theorem swap_int32_twice (w : Int) : swap_int32 (swap_int32 w) = wrap32 w := by
  obtain ⟨h0, h1, h2, h3, _, _⟩ := swap_int32_bytes w
  rw [swap_int32_eq (swap_int32 w), h0, h1, h2, h3]
  exact wrap32_of_bytes w

/-- The two bytes and the range of `swap_int16 w`. -/
theorem swap_int16_bytes (w : Int) :
    swap_int16 w % 256 = w / 256 % 256
    ∧ swap_int16 w / 256 % 256 = w % 256
    ∧ -32768 ≤ swap_int16 w
    ∧ swap_int16 w < 32768 := by
  rw [swap_int16_eq]
  exact wrap16_bytes _ _ (byte_range w 256) (byte_range_zero w)

theorem swap_int16_twice (w : Int) : swap_int16 (swap_int16 w) = wrap16 w := by
  obtain ⟨h0, h1, _, _⟩ := swap_int16_bytes w
  rw [swap_int16_eq (swap_int16 w), h0, h1]
  exact wrap16_of_bytes w

/-- The four little-endian bytes of a 32-bit value. -/
theorem le_bytes_four (w : Int) :
    le_bytes 4 (w % 4294967296).toNat
      = [Char.ofNat (w % 256).toNat, Char.ofNat (w / 256 % 256).toNat,
         Char.ofNat (w / 65536 % 256).toNat, Char.ofNat (w / 16777216 % 256).toNat] := by
  have e0 : (w % 4294967296).toNat % 256 = (w % 256).toNat := by omega
  have e1 : (w % 4294967296).toNat / 256 % 256 = (w / 256 % 256).toNat := by omega
  have e2 : (w % 4294967296).toNat / 256 / 256 % 256 = (w / 65536 % 256).toNat := by omega
  have e3 : (w % 4294967296).toNat / 256 / 256 / 256 % 256 = (w / 16777216 % 256).toNat := by
    omega
  simp only [le_bytes, e0, e1, e2, e3]

theorem le_bytes_two (w : Int) :
    le_bytes 2 (w % 65536).toNat
      = [Char.ofNat (w % 256).toNat, Char.ofNat (w / 256 % 256).toNat] := by
  have e0 : (w % 65536).toNat % 256 = (w % 256).toNat := by omega
  have e1 : (w % 65536).toNat / 256 % 256 = (w / 256 % 256).toNat := by omega
  simp only [le_bytes, e0, e1]
theorem wrap32_toNat (r : Int) (flo : -2147483648 ≤ r) (fhi : r < 2147483648) :
    wrap32 (((r % 4294967296).toNat : Nat) : Int) = r := by
  simp only [wrap32]
  omega

theorem wrap32_cast (f : Nat) (hf : f < 4294967296) :
    (wrap32 (f : Int) % 4294967296).toNat = f
    ∧ -2147483648 ≤ wrap32 (f : Int) ∧ wrap32 (f : Int) < 2147483648 := by
  simp only [wrap32]
  omega

theorem swap_float_4_eq (f : Nat) :
    swap_float_4 f = (swap_int32 (wrap32 (f : Int)) % 4294967296).toNat := rfl

theorem swap_float_4_twice (f : Nat) (hf : f < 4294967296) :
    swap_float_4 (swap_float_4 f) = f := by
  obtain ⟨hw, hr⟩ := wrap32_cast f hf
  have flo := (swap_int32_bytes (wrap32 (f : Int))).2.2.2.2.1
  have fhi := (swap_int32_bytes (wrap32 (f : Int))).2.2.2.2.2
  have e : wrap32 ((swap_float_4 f : Nat) : Int) = swap_int32 (wrap32 (f : Int)) := by
    rw [swap_float_4_eq f]
    exact wrap32_toNat _ flo fhi
  rw [swap_float_4_eq (swap_float_4 f), e, swap_int32_twice, wrap32_id (wrap32 (f : Int)) hr]
  exact hw

theorem swap_float_4_lt (f : Nat) : swap_float_4 f < 4294967296 := by
  rw [swap_float_4_eq]
  omega
/-! ## read_binary_header on a stream that holds magic number and version -/

/-- C1, counterexample: for the chip geometry cols = 2, rows = 3 and the masked
cell (x, y) = (0, 1), both files pass their consistency check against the
reference dimensions (2, 3); driven as in read_abatch, apply_masks sets
offset 2 = x + cols*y of the column, not x + rows*y = 3, while
binary_apply_masks sets offset 3. -/
theorem C1_counterexample :
    check_cel_file (some example_text_2x3) "HG_U95Av2".toList 2 3 = .ok 0 ∧
    check_binary_cel_file (some (example_binary 2 3 example_records_6 [(0, 1)] [(1, 1)]))
      "HG_U95Av2".toList 2 3 = .ok 0 ∧
    (read_abatch_apply_masks (some example_text_2x3) (filled 0) 0 1 2 3 true false false).map
        (fun m => cells m 6)
      = .ok [.num 0, .num 0, .R_NaN, .num 0, .num 0, .num 0] ∧
    (read_abatch_binary_apply_masks 8
        (some (example_binary 2 3 example_records_6 [(0, 1)] [(1, 1)]))
        (filled 0) 0 1 2 3 true false false).map (fun m => cells m 6)
      = .ok [.num 0, .num 0, .num 0, .R_NaN, .num 0, .num 0] := by
  refine ⟨by decide, by decide, by decide, by decide⟩

/-- C1 (amended): mask and outlier application as read_abatch drives it for
file number `i` of a batch with reference dimensions
`(ref_dim_1, ref_dim_2) = (cols, rows)`.
* Text: when the `[MASKS]` section lists the coordinate lines `masks` (and the
  `[OUTLIERS]` section the lines `outliers`), apply_masks stores R_NaN
  (R_NaReal for outliers) at offset `i*(ref_dim_1*ref_dim_2) + x + ref_dim_1*y`
  for every listed `(x, y)`: the stride is `ref_dim_1`, the number of columns.
* Binary, square chip (header cols = ref_dim_1 = ref_dim_2 = header rows):
  when the mask (and outlier) records are all present, binary_apply_masks
  stores its marker at the same offset `i*(ref_dim_1*ref_dim_2) + x + ref_dim_1*y`
  for every listed `(x, y)`. -/
theorem C1_mask_index_text_and_square_binary {F : Type}
    (intensityMatrix : Int → RDouble F) (i n_files ref_dim_1 ref_dim_2 : Int) :
    (∀ (file : Option (List Char)) (s0 : List Char) (masks : List (List Char))
        (after_masks : List Char) (outliers : List (List Char)) (after_outliers : List Char),
      open_cel_file file = .ok s0 →
      (SectionLists s0 "[MASKS]".toList masks after_masks →
        read_abatch_apply_masks file intensityMatrix i n_files ref_dim_1 ref_dim_2
            true false false
          = .ok (set_cells RDouble.R_NaN (i * (ref_dim_1 * ref_dim_2)) ref_dim_1
              (masks.map line_coords) intensityMatrix)) ∧
      (SectionLists s0 "[OUTLIERS]".toList outliers after_outliers →
        read_abatch_apply_masks file intensityMatrix i n_files ref_dim_1 ref_dim_2
            false true false
          = .ok (set_cells RDouble.R_NaReal (i * (ref_dim_1 * ref_dim_2)) ref_dim_1
              (outliers.map line_coords) intensityMatrix)) ∧
      (SectionLists s0 "[MASKS]".toList masks after_masks →
        SectionLists after_masks "[OUTLIERS]".toList outliers after_outliers →
        ∀ rm_mask rm_outliers rm_extra : Bool,
          (rm_extra = true ∨ (rm_mask = true ∧ rm_outliers = true)) →
          read_abatch_apply_masks file intensityMatrix i n_files ref_dim_1 ref_dim_2
              rm_mask rm_outliers rm_extra
            = .ok (set_cells RDouble.R_NaReal (i * (ref_dim_1 * ref_dim_2)) ref_dim_1
                (outliers.map line_coords)
                (set_cells RDouble.R_NaN (i * (ref_dim_1 * ref_dim_2)) ref_dim_1
                  (masks.map line_coords) intensityMatrix)))) ∧
    (∀ (sizeof_pointer : Nat) (content : List Char) (my_header : binary_header)
        (pos mpos : Nat),
      read_binary_header (some content) 1 = .ok (some my_header) →
      my_header.infile = some ⟨content, pos⟩ →
      fseek_cur ⟨content, pos⟩ (wrap32 (my_header.n_cells * (2 * 4 + 2))) = ⟨content, mpos⟩ →
      my_header.cols = ref_dim_1 → my_header.rows = ref_dim_2 → ref_dim_1 = ref_dim_2 →
      (mpos + 4 * my_header.n_masks ≤ content.length →
        read_abatch_binary_apply_masks sizeof_pointer (some content) intensityMatrix i n_files
            ref_dim_1 ref_dim_2 true false false
          = .ok (set_cells RDouble.R_NaN (i * (ref_dim_1 * ref_dim_2)) ref_dim_1
              (locs_at content mpos my_header.n_masks) intensityMatrix)) ∧
      (mpos + 4 * my_header.n_masks + 4 * my_header.n_outliers ≤ content.length →
        ∀ rm_mask rm_outliers rm_extra : Bool,
          (rm_extra = true ∨ (rm_mask = true ∧ rm_outliers = true)) →
          read_abatch_binary_apply_masks sizeof_pointer (some content) intensityMatrix i n_files
              ref_dim_1 ref_dim_2 rm_mask rm_outliers rm_extra
            = .ok (set_cells RDouble.R_NaN (i * (ref_dim_1 * ref_dim_2)) ref_dim_1
                (locs_at content (mpos + 4 * my_header.n_masks) my_header.n_outliers)
                (set_cells RDouble.R_NaN (i * (ref_dim_1 * ref_dim_2)) ref_dim_1
                  (locs_at content mpos my_header.n_masks) intensityMatrix)))) := by
  constructor
  · intro file s0 masks after_masks outliers after_outliers hopen
    refine ⟨fun hm => ?_, fun ho => ?_, fun hm ho rm_mask rm_outliers rm_extra hflags => ?_⟩
    · have hs := apply_masks_section_of_lists "[MASKS]".toList RDouble.R_NaN i
        (ref_dim_1 * ref_dim_2) ref_dim_1 s0 intensityMatrix masks after_masks hm
      simp only [read_abatch_apply_masks, apply_masks, hopen, hs, Bool.not_true, Bool.not_false,
        Bool.and_false, Bool.false_and, Bool.and_true, Bool.false_eq_true, if_false, if_true]
    · have hs := apply_masks_section_of_lists "[OUTLIERS]".toList RDouble.R_NaReal i
        (ref_dim_1 * ref_dim_2) ref_dim_1 s0 intensityMatrix outliers after_outliers ho
      simp only [read_abatch_apply_masks, apply_masks, hopen, hs, Bool.not_true, Bool.not_false,
        Bool.and_false, Bool.false_and, Bool.and_true, Bool.false_eq_true, if_false, if_true]
    · have hs1 := apply_masks_section_of_lists "[MASKS]".toList RDouble.R_NaN i
        (ref_dim_1 * ref_dim_2) ref_dim_1 s0 intensityMatrix masks after_masks hm
      have hs2 := apply_masks_section_of_lists "[OUTLIERS]".toList RDouble.R_NaReal i
        (ref_dim_1 * ref_dim_2) ref_dim_1 after_masks
        (set_cells RDouble.R_NaN (i * (ref_dim_1 * ref_dim_2)) ref_dim_1
          (masks.map line_coords) intensityMatrix) outliers after_outliers ho
      have hboth : apply_masks file intensityMatrix i (ref_dim_1 * ref_dim_2) n_files ref_dim_1
          true true = .ok (set_cells RDouble.R_NaReal (i * (ref_dim_1 * ref_dim_2)) ref_dim_1
            (outliers.map line_coords)
            (set_cells RDouble.R_NaN (i * (ref_dim_1 * ref_dim_2)) ref_dim_1
              (masks.map line_coords) intensityMatrix)) := by
        simp only [apply_masks, hopen, hs1, hs2, Bool.not_true, Bool.not_false,
          Bool.and_false, Bool.false_and, Bool.and_true, Bool.false_eq_true, if_false, if_true]
      rcases hflags with he | ⟨h1, h2⟩
      · simp only [read_abatch_apply_masks, he, if_true, hboth]
      · subst h1; subst h2
        cases rm_extra <;> simp [read_abatch_apply_masks, hboth]
  · intro sizeof_pointer content my_header pos mpos hhdr hin hseek hcols hrows hsq
    have hstride : my_header.rows = ref_dim_1 := by rw [hrows, hsq]
    refine ⟨fun hlen => ?_, fun hlen rm_mask rm_outliers rm_extra hflags => ?_⟩
    · have hloop := binary_apply_masks_loop_records (F := F) i (ref_dim_1 * ref_dim_2) my_header
        content my_header.n_masks mpos ⟨0, 0⟩ intensityMatrix hlen
      simp only [read_abatch_binary_apply_masks, binary_apply_masks, hhdr, hin, hseek]
      simp [hloop, hstride]
    · have hloop1 := binary_apply_masks_loop_records (F := F) i (ref_dim_1 * ref_dim_2)
        my_header content my_header.n_masks mpos ⟨0, 0⟩ intensityMatrix (by omega)
      have hloop2 := binary_apply_masks_loop_records (F := F) i (ref_dim_1 * ref_dim_2)
        my_header content my_header.n_outliers (mpos + 4 * my_header.n_masks)
        (binary_apply_masks_loop i (ref_dim_1 * ref_dim_2) my_header my_header.n_masks ⟨0, 0⟩
          ⟨content, mpos⟩ intensityMatrix).1
        (set_cells RDouble.R_NaN (i * (ref_dim_1 * ref_dim_2)) my_header.rows
          (locs_at content mpos my_header.n_masks) intensityMatrix) hlen
      have hboth : binary_apply_masks sizeof_pointer (some content) intensityMatrix i
          (ref_dim_1 * ref_dim_2) n_files ref_dim_1 true true
          = .ok (set_cells RDouble.R_NaN (i * (ref_dim_1 * ref_dim_2)) ref_dim_1
              (locs_at content (mpos + 4 * my_header.n_masks) my_header.n_outliers)
              (set_cells RDouble.R_NaN (i * (ref_dim_1 * ref_dim_2)) ref_dim_1
                (locs_at content mpos my_header.n_masks) intensityMatrix)) := by
        rw [hstride] at hloop1 hloop2
        simp only [binary_apply_masks, hhdr, hin, hseek]
        simp [hloop1, hloop2]
      rcases hflags with he | ⟨h1, h2⟩
      · simp only [read_abatch_binary_apply_masks, he, if_true, hboth]
      · subst h1; subst h2
        cases rm_extra <;> simp [read_abatch_binary_apply_masks, hboth]

/-- C1, witness: the text and the binary example file of the 2x2 chip, both
with the masked cell (0, 1) and the outlier cell (1, 1), with both flags set. -/
theorem C1_mask_index_text_and_square_binary_witness :
    (open_cel_file (some example_text_2x2) = .ok example_text_2x2 ∧
     SectionLists example_text_2x2 "[MASKS]".toList ["0\t1\n".toList] (example_masks.drop 42) ∧
     SectionLists (example_masks.drop 42) "[OUTLIERS]".toList ["1\t1\n".toList] []) ∧
    read_abatch_apply_masks (some example_text_2x2) (filled (0 : Nat)) 0 1 2 2 true true false
      = .ok (set_cells RDouble.R_NaReal (0 * (2 * 2)) 2 (["1\t1\n".toList].map line_coords)
          (set_cells RDouble.R_NaN (0 * (2 * 2)) 2 (["0\t1\n".toList].map line_coords)
            (filled 0))) ∧
    (read_binary_header (some (example_binary 2 2 example_records_4 [(0, 1)] [(1, 1)])) 1
       = .ok (some (example_binary_header 2 2 1 1
          (some ⟨example_binary 2 2 example_records_4 [(0, 1)] [(1, 1)], 157⟩))) ∧
     fseek_cur ⟨example_binary 2 2 example_records_4 [(0, 1)] [(1, 1)], 157⟩
        (wrap32 ((example_binary_header 2 2 1 1 none).n_cells * (2 * 4 + 2)))
       = ⟨example_binary 2 2 example_records_4 [(0, 1)] [(1, 1)], 197⟩ ∧
     197 + 4 * 1 + 4 * 1 ≤ (example_binary 2 2 example_records_4 [(0, 1)] [(1, 1)]).length) ∧
    read_abatch_binary_apply_masks 8 (some (example_binary 2 2 example_records_4 [(0, 1)] [(1, 1)]))
        (filled (0 : Nat)) 0 1 2 2 true true false
      = .ok (set_cells RDouble.R_NaN (0 * (2 * 2)) 2
          (locs_at (example_binary 2 2 example_records_4 [(0, 1)] [(1, 1)]) (197 + 4 * 1) 1)
          (set_cells RDouble.R_NaN (0 * (2 * 2)) 2
            (locs_at (example_binary 2 2 example_records_4 [(0, 1)] [(1, 1)]) 197 1)
            (filled 0))) ∧
    (["0\t1\n".toList].map line_coords = [(0, 1)] ∧
     locs_at (example_binary 2 2 example_records_4 [(0, 1)] [(1, 1)]) 197 1 = [(0, 1)] ∧
     ["1\t1\n".toList].map line_coords = [(1, 1)] ∧
     locs_at (example_binary 2 2 example_records_4 [(0, 1)] [(1, 1)]) (197 + 4 * 1) 1
       = [(1, 1)]) :=
  ⟨⟨by decide,
    ⟨"[MASKS]\n".toList, example_masks.drop 9, "NumberCells=1\n".toList, example_masks.drop 23,
      "1\n".toList, "CellHeader=X\tY\n".toList,
      by decide, by decide, by decide, by decide, by decide, by decide⟩,
    ⟨"[OUTLIERS]\n".toList, example_masks.drop 54, "NumberCells=1\n".toList,
      example_masks.drop 68, "1\n".toList, "CellHeader=X\tY\n".toList,
      by decide, by decide, by decide, by decide, by decide, by decide⟩⟩,
   ((C1_mask_index_text_and_square_binary (filled (0 : Nat)) 0 1 2 2).1
      (some example_text_2x2) example_text_2x2 ["0\t1\n".toList] (example_masks.drop 42)
      ["1\t1\n".toList] [] (by decide)).2.2
      ⟨"[MASKS]\n".toList, example_masks.drop 9, "NumberCells=1\n".toList, example_masks.drop 23,
        "1\n".toList, "CellHeader=X\tY\n".toList,
        by decide, by decide, by decide, by decide, by decide, by decide⟩
      ⟨"[OUTLIERS]\n".toList, example_masks.drop 54, "NumberCells=1\n".toList,
        example_masks.drop 68, "1\n".toList, "CellHeader=X\tY\n".toList,
        by decide, by decide, by decide, by decide, by decide, by decide⟩
      true true false (Or.inr ⟨rfl, rfl⟩),
   ⟨by decide, by decide, by decide⟩,
   ((C1_mask_index_text_and_square_binary (filled (0 : Nat)) 0 1 2 2).2 8
      (example_binary 2 2 example_records_4 [(0, 1)] [(1, 1)])
      (example_binary_header 2 2 1 1
        (some ⟨example_binary 2 2 example_records_4 [(0, 1)] [(1, 1)], 157⟩))
      157 197 (by decide) (by decide) (by decide) (by decide) (by decide) (by decide)).2
      (by decide) true true false (Or.inr ⟨rfl, rfl⟩),
   ⟨by decide, by decide, by decide, by decide⟩⟩

/-! ## C2: binary intensities of a non-square chip -/

/-- C2, at the failing input: a valid binary file with cols = 3, rows = 2 and six
complete records with intensities 1.0 .. 6.0 (float32 bit patterns).
read_binarycel_file_intensities, called as read_abatch calls it, returns 0,
but offset 2 holds the intensity of record 3 (4.0, not the 3.0 of record 2),
offsets 3 and 4 hold records 4 and 5, and offset 5 is never written.  On the
square 2x2 scenario the four records land at offsets 0 .. 3 in file order. -/
theorem C2_binary_3x2_misplaced :
    (read_abatch_read_binarycel_file (fun bits => bits)
        (some (example_binary 3 2 example_records_6 [] [])) (filled 0) 0 1 3 2).map
        (fun r => (r.1, cells r.2 6))
      = .ok (0, [.num 0x3F800000, .num 0x40000000, .num 0x40800000, .num 0x40A00000,
                 .num 0x40C00000, .num 0]) ∧
    (read_abatch_read_binarycel_file (fun bits => bits)
        (some (example_binary 2 2 example_records_4 [] [])) (filled 0) 0 1 2 2).map
        (fun r => (r.1, cells r.2 4))
      = .ok (0, [.num 0x3F800000, .num 0x40000000, .num 0x40400000, .num 0x40800000]) := by
  refine ⟨by decide, by decide⟩

/-! ## C3: binary intensities written outside the column -/

/-- C3, at the failing input: a valid binary file with cols = 2, rows = 3 (so
n_cells = 6) and six complete records.  The records of row i = 2 are written
at offsets 6 and 7, outside the block [0, 6) of the file, and offsets 2 and 5
are never written. -/
theorem C3_binary_2x3_out_of_block :
    (read_abatch_read_binarycel_file (fun bits => bits)
        (some (example_binary 2 3 example_records_6 [] [])) (filled 0) 0 1 2 3).map
        (fun r => (r.1, cells r.2 8))
      = .ok (0, [.num 0x3F800000, .num 0x40000000, .num 0, .num 0x40400000,
                 .num 0x40800000, .num 0, .num 0x40A00000, .num 0x40C00000]) := by
  decide

/-! ## C4: the read path and the mask path use the same index -/

/-- C4: within each backend one iteration of the intensity-read loop and one
iteration of the mask loop address the same linear index.
* Text: for a data line and a coordinate line that start with the same `(x, y)`,
  read_cel_file_intensities and apply_masks, run with the same `chip_num`,
  `rows` and `chip_dim_rows`, both write the cell `chip_num*rows + cur_index`
  with `cur_index = x + chip_dim_rows*y`.
* Binary: the record read at row `i = y`, column `j = x` is stored at
  `cur_index = x + rows*y` (header rows) of the column that starts at
  `chip_num*n_cells`, and binary_apply_masks computes the same `cur_index` for
  the mask record `(x, y)`, in the column that starts at `chip_num*rows`
  (the function argument `rows`). -/
theorem C4_read_and_mask_same_index {F : Type} (atof : List Char → F) (f32 : Nat → F) :
    (∀ (value : RDouble F) (chip_num rows chip_dim_rows i : Int)
        (data_line mask_line rest1 rest2 : List Char) (m1 m2 : Int → RDouble F),
      isLine data_line = true → 3 ≤ (tokenize data_line " \t".toList).length →
      isLine mask_line = true → 2 ≤ (tokenize mask_line " \t".toList).length →
      line_coords data_line = line_coords mask_line →
      ∃ cur_index : Int,
        cur_index = (line_coords mask_line).1 + chip_dim_rows * (line_coords mask_line).2 ∧
        read_cel_file_intensities_loop atof chip_num rows chip_dim_rows 1 i
            (data_line ++ rest1) m1
          = .ok (i + 1, Function.update m1 (chip_num * rows + cur_index)
              (RDouble.num (atof (token_at data_line 2))), []) ∧
        apply_masks_loop value chip_num rows chip_dim_rows 1 (mask_line ++ rest2) m2
          = .ok (rest2, Function.update m2 (chip_num * rows + cur_index) value)) ∧
    (∀ (chip_num rows : Int) (my_header : binary_header) (x y : Int)
        (content : List Char) (pos : Nat) (content2 : List Char) (pos2 : Nat)
        (cur_intensity : celintens_record) (cur_loc : outliermask_loc)
        (m1 m2 : Int → RDouble F),
      pos + 10 ≤ content.length → pos2 + 4 ≤ content2.length →
      int16_at content2 pos2 = x → int16_at content2 (pos2 + 2) = y →
      ∃ cur_index : Int,
        cur_index = x + my_header.rows * y ∧
        (read_binarycel_file_intensities_cols f32 chip_num my_header y 1 x cur_intensity
            ⟨content, pos⟩ m1).2.2.2
          = Function.update m1 (chip_num * my_header.n_cells + cur_index)
              (RDouble.num (f32 (uint32_at content pos))) ∧
        (binary_apply_masks_loop chip_num rows my_header 1 cur_loc ⟨content2, pos2⟩ m2).2.2
          = Function.update m2 (chip_num * rows + cur_index) RDouble.R_NaN) := by
  constructor
  · intro value c r d i dl ml rest1 rest2 m1 m2 hdl hd3 hml hm2 hxy
    refine ⟨_, rfl, ?_, ?_⟩
    · rw [read_loop_good atof c r d _ dl rest1 (ReadFileLine_line hdl rest1) hd3,
        read_cel_file_intensities_loop]
      have h0 : atoi (token_at dl 0) = atoi (token_at ml 0) := congrArg Prod.fst hxy
      have h1 : atoi (token_at dl 1) = atoi (token_at ml 1) := congrArg Prod.snd hxy
      simp only [store_line, line_index, line_coords, h0, h1]
    · rw [apply_masks_loop_step value c r d _ ml rest2 (ReadFileLine_line hml rest2) hm2,
        apply_masks_loop]
      simp only [set_cell]
  · intro c r hdr x y content pos content2 pos2 cur cur_loc m1 m2 hlen hlen2 hx hy
    refine ⟨_, rfl, ?_, ?_⟩
    · rw [read_binarycel_file_intensities_cols]
      simp only [fread_float32_full _ content pos (by omega),
        fread_float32_full _ content (pos + 4) (by omega),
        fread_int16_full _ content (pos + 4 + 4) (by omega)]
      simp [read_binarycel_file_intensities_cols]
    · rw [binary_apply_masks_loop_step c r hdr content2 pos2 hlen2, binary_apply_masks_loop]
      simp only [set_cell, hx, hy]

/-- C4, witness: the data line and the mask line of the cell (0, 1) of the
2x2 example chip, and the record and mask record of that cell in the binary
example file. -/
theorem C4_read_and_mask_same_index_witness :
    (∃ cur_index : Int,
      cur_index = (line_coords "0\t1\n".toList).1 + 2 * (line_coords "0\t1\n".toList).2 ∧
      read_cel_file_intensities_loop (fun token => atoi_digits token 0) 0 4 2 1 2
          ("  0\t  1\t3.0\t0.3\t 30\n".toList ++ []) (filled (0 : Nat))
        = .ok (2 + 1, Function.update (filled (0 : Nat)) (0 * 4 + cur_index)
            (RDouble.num (atoi_digits (token_at "  0\t  1\t3.0\t0.3\t 30\n".toList 2) 0)), []) ∧
      apply_masks_loop RDouble.R_NaN 0 4 2 1 ("0\t1\n".toList ++ []) (filled (0 : Nat))
        = .ok ([], Function.update (filled (0 : Nat)) (0 * 4 + cur_index) RDouble.R_NaN)) ∧
    (∃ cur_index : Int,
      cur_index = 0 + (example_binary_header 2 2 1 1 none).rows * 1 ∧
      (read_binarycel_file_intensities_cols (fun bits => bits) 0
          (example_binary_header 2 2 1 1 none) 1 1 0 ⟨0, 0, 0⟩
          ⟨example_binary 2 2 example_records_4 [(0, 1)] [(1, 1)], 177⟩ (filled (0 : Nat))).2.2.2
        = Function.update (filled (0 : Nat))
            (0 * (example_binary_header 2 2 1 1 none).n_cells + cur_index)
            (RDouble.num (uint32_at (example_binary 2 2 example_records_4 [(0, 1)] [(1, 1)]) 177)) ∧
      (binary_apply_masks_loop 0 4 (example_binary_header 2 2 1 1 none) 1 ⟨0, 0⟩
          ⟨example_binary 2 2 example_records_4 [(0, 1)] [(1, 1)], 197⟩ (filled (0 : Nat))).2.2
        = Function.update (filled (0 : Nat)) (0 * 4 + cur_index) RDouble.R_NaN) :=
  ⟨(C4_read_and_mask_same_index (fun token => atoi_digits token 0) (fun bits => bits)).1 RDouble.R_NaN 0 4 2 2
      "  0\t  1\t3.0\t0.3\t 30\n".toList "0\t1\n".toList [] [] (filled (0 : Nat)) (filled (0 : Nat))
      (by decide) (by decide) (by decide) (by decide) (by decide),
   (C4_read_and_mask_same_index (fun token => atoi_digits token 0) (fun bits => bits)).2 0 4
      (example_binary_header 2 2 1 1 none) 0 1
      (example_binary 2 2 example_records_4 [(0, 1)] [(1, 1)]) 177
      (example_binary 2 2 example_records_4 [(0, 1)] [(1, 1)]) 197
      ⟨0, 0, 0⟩ ⟨0, 0⟩ (filled (0 : Nat)) (filled (0 : Nat))
      (by decide) (by decide) (by decide) (by decide)⟩

/-! ## C5: a text body that ends early -/

/-- C5, counterexample: the example text file cut at a line boundary after
k = 2 of the 6 expected data lines.  read_cel_file_intensities, called as
read_abatch calls it, does not return 1: it raises the fatal "End of file
reached unexpectedly" error. -/
theorem C5_counterexample :
    (read_abatch_read_cel_file (fun token => token) (some (example_text 3 2 [])) (filled [])
        0 1 2 3).map (fun r => r.ret) = .error .eof_unexpected := by
  decide

/-- C5 (amended): a text CEL file whose input ends inside the `[INTENSITY]`
body after the `k < rows` whole data lines `lines` (each with at least three
tokens); `tail` is what remains of the file after them.
* If the file ends at that line boundary, read_cel_file_intensities raises the
  fatal end-of-file error.
* If the file ends inside a line before its third token, it returns 1, prints
  one warning that reports `k - 1` records, and leaves the `k` values stored.
* If the file ends inside a line after the start of its third token and more
  than `k + 1` lines are expected, it raises the fatal end-of-file error. -/
theorem C5_truncated_body {F : Type} (atof : List Char → F)
    (file : Option (List Char)) (intensity : Int → RDouble F)
    (chip_num rows cols chip_dim_rows : Int)
    (s0 b1 s1 b2 tail : List Char) (lines : List (List Char))
    (hopen : open_cel_file file = .ok s0)
    (hsec : AdvanceToSection s0 "[INTENSITY]".toList = .ok (b1, s1))
    (hcell : findStartsWith s1 "CellHeader=".toList = .ok (b2, lines.flatten ++ tail))
    (hlines : ∀ l ∈ lines, isLine l = true ∧ 3 ≤ (tokenize l " \t".toList).length)
    (hk : (lines.length : Int) < rows) :
    (tail = [] →
      read_cel_file_intensities atof file intensity chip_num rows cols chip_dim_rows
        = .error .eof_unexpected) ∧
    (isPartialLine tail = true → (tokenize tail " \t".toList).length < 3 →
      ∃ r, read_cel_file_intensities atof file intensity chip_num rows cols chip_dim_rows
            = .ok r ∧ r.ret = 1 ∧
          r.warnings = [if tail.length ≤ 2
                        then Warning.empty_line ((lines.length : Int) - 1) lines.length
                        else Warning.incomplete_line ((lines.length : Int) - 1) rows] ∧
          StoredLines atof chip_num rows chip_dim_rows intensity lines r.intensity) ∧
    (isPartialLine tail = true → 3 ≤ (tokenize tail " \t".toList).length →
      (lines.length : Int) + 1 < rows →
      read_cel_file_intensities atof file intensity chip_num rows cols chip_dim_rows
        = .error .eof_unexpected) := by
  refine ⟨?_, ?_, ?_⟩
  · intro htail
    obtain ⟨n, hn⟩ : ∃ n, rows.toNat = lines.length + (n + 1) :=
      ⟨rows.toNat - lines.length - 1, by omega⟩
    have hloop := read_loop_lines atof chip_num rows chip_dim_rows lines hlines tail (n + 1) 0
      intensity
    rw [htail, read_loop_eof] at hloop
    rw [← htail, ← hn] at hloop
    simp only [read_cel_file_intensities, hopen, hsec, hcell, hloop]
  · intro hpart htok
    obtain ⟨n, hn⟩ : ∃ n, rows.toNat = lines.length + (n + 1) :=
      ⟨rows.toNat - lines.length - 1, by omega⟩
    have hloop := read_loop_lines atof chip_num rows chip_dim_rows lines hlines tail (n + 1) 0
      intensity
    rw [read_loop_short atof chip_num rows chip_dim_rows tail tail []
      (ReadFileLine_unterminated hpart) htok, ← hn] at hloop
    have hne : (0 : Int) + lines.length ≠ rows := by omega
    have hfun : read_cel_file_intensities atof file intensity chip_num rows cols chip_dim_rows
        = .ok ⟨1, lines.foldl (store_line atof chip_num rows chip_dim_rows) intensity,
            [if tail.length ≤ 2 then Warning.empty_line (0 + lines.length - 1) (0 + lines.length)
             else Warning.incomplete_line (0 + lines.length - 1) rows]⟩ := by
      simp only [read_cel_file_intensities, hopen, hsec, hcell, hloop, hne, ne_eq,
        not_false_eq_true, if_true]
    refine ⟨_, hfun, rfl, ?_, storedLines_foldl atof chip_num rows chip_dim_rows intensity lines⟩
    simp only [Int.zero_add]
  · intro hpart htok hk2
    obtain ⟨n, hn⟩ : ∃ n, rows.toNat = lines.length + (n + 1 + 1) :=
      ⟨rows.toNat - lines.length - 2, by omega⟩
    have hloop := read_loop_lines atof chip_num rows chip_dim_rows lines hlines tail (n + 1 + 1) 0
      intensity
    rw [read_loop_good atof chip_num rows chip_dim_rows tail tail []
      (ReadFileLine_unterminated hpart) htok, read_loop_eof, ← hn] at hloop
    simp only [read_cel_file_intensities, hopen, hsec, hcell, hloop]

/-- C5, witness: the example text file cut after two data lines, read with
rows = 6. -/
theorem C5_truncated_body_witness :
    open_cel_file (some (example_text 3 2 [])) = .ok (example_text 3 2 []) ∧
    AdvanceToSection (example_text 3 2 []) "[INTENSITY]".toList
      = .ok ("[INTENSITY]\n".toList, example_body 3 2 []) ∧
    findStartsWith (example_body 3 2 [])
        "CellHeader=".toList
      = .ok (example_cellheader, (example_data.take 2).flatten ++ []) ∧
    (∀ l ∈ example_data.take 2, isLine l = true ∧ 3 ≤ (tokenize l " \t".toList).length) ∧
    (((example_data.take 2).length : Int) < 6) ∧
    read_cel_file_intensities (fun token => token) (some (example_text 3 2 [])) (filled []) 0 6 1 2
      = .error .eof_unexpected :=
  ⟨by decide, by decide, by decide, by decide, by decide,
   (C5_truncated_body (fun token => token) (some (example_text 3 2 [])) (filled []) 0 6 1 2
      (example_text 3 2 []) "[INTENSITY]\n".toList
      (example_body 3 2 [])
      example_cellheader [] (example_data.take 2)
      (by decide) (by decide) (by decide) (by decide) (by decide)).1 rfl⟩

/-! ## C6: a short line in the text body -/

/-- C6, counterexample: the text file of the 2x2 chip whose first data line is
1030 characters long (1010 blanks stand before its newline).  Each of the
four data lines ends in its only newline and has at least three tokens, but
read_cel_file_intensities, called with rows = 4, returns 1 instead of 0:
ReadFileLine delivers the first 1023 characters of the long line, whose value
is stored, and then the rest of that line, seven blanks and the newline, as
the data line number 1, which has one token. -/
theorem C6_counterexample :
    example_long_data_line.length = 1030 ∧
    example_data_long.length = 4 ∧
    (∀ l ∈ example_data_long,
      l.getLast? = some '\n' ∧ l.dropLast.contains '\n' = false ∧
      3 ≤ (tokenize l " \t".toList).length) ∧
    (read_cel_file_intensities (fun token => token) (some example_text_long_line)
        (filled []) 0 4 1 2).map (fun r => (r.ret, r.warnings, cells r.intensity 4))
      = .ok (1, [Warning.incomplete_line 0 4],
          [.num "1.0".toList, .num [], .num [], .num []]) := by
  refine ⟨by decide, by decide, by decide, by decide⟩

/-- C6 (amended): a text CEL file whose `[INTENSITY]` body (what follows the
`CellHeader=` line) starts with the data lines `lines`, each of them a whole
line of at most 1023 characters (its newline included) with at least three
space/tab-delimited tokens.  If fewer than `rows`
such lines are followed by a line `short` with fewer than three tokens (an
empty line has at most one), read_cel_file_intensities stops there and returns
1 without raising; if there are exactly `rows` of them it returns 0.  In both
cases the matrix is the input matrix with the values of `lines` stored at
`chip_num*rows + x + chip_dim_rows*y` and every other cell unchanged. -/
theorem C6_short_line_returns_1 {F : Type} (atof : List Char → F)
    (file : Option (List Char)) (intensity : Int → RDouble F)
    (chip_num rows cols chip_dim_rows : Int)
    (s0 b1 s1 b2 tail : List Char) (lines : List (List Char))
    (hopen : open_cel_file file = .ok s0)
    (hsec : AdvanceToSection s0 "[INTENSITY]".toList = .ok (b1, s1))
    (hcell : findStartsWith s1 "CellHeader=".toList = .ok (b2, lines.flatten ++ tail))
    (hlines : ∀ l ∈ lines, isLine l = true ∧ 3 ≤ (tokenize l " \t".toList).length) :
    ((lines.length : Int) < rows →
      ∀ short rest : List Char, tail = short ++ rest → isLine short = true →
        (tokenize short " \t".toList).length < 3 →
        ∃ r, read_cel_file_intensities atof file intensity chip_num rows cols chip_dim_rows
              = .ok r ∧ r.ret = 1 ∧
            StoredLines atof chip_num rows chip_dim_rows intensity lines r.intensity) ∧
    ((lines.length : Int) = rows →
      ∃ r, read_cel_file_intensities atof file intensity chip_num rows cols chip_dim_rows
            = .ok r ∧ r.ret = 0 ∧
          StoredLines atof chip_num rows chip_dim_rows intensity lines r.intensity) := by
  constructor
  · intro hk short rest htail hshort htok
    obtain ⟨n, hn⟩ : ∃ n, rows.toNat = lines.length + (n + 1) :=
      ⟨rows.toNat - lines.length - 1, by omega⟩
    have hloop := read_loop_lines atof chip_num rows chip_dim_rows lines hlines tail (n + 1) 0
      intensity
    rw [htail, read_loop_short atof chip_num rows chip_dim_rows _ short rest
      (ReadFileLine_line hshort rest) htok] at hloop
    rw [← htail, ← hn] at hloop
    have hne : (0 : Int) + lines.length ≠ rows := by omega
    have hfun : read_cel_file_intensities atof file intensity chip_num rows cols chip_dim_rows
        = .ok ⟨1, lines.foldl (store_line atof chip_num rows chip_dim_rows) intensity,
            [if short.length ≤ 2 then Warning.empty_line (0 + lines.length - 1) (0 + lines.length)
             else Warning.incomplete_line (0 + lines.length - 1) rows]⟩ := by
      simp only [read_cel_file_intensities, hopen, hsec, hcell, hloop, hne, ne_eq,
        not_false_eq_true, if_true]
    exact ⟨_, hfun, rfl, storedLines_foldl atof chip_num rows chip_dim_rows intensity lines⟩
  · intro hk
    have hn : rows.toNat = lines.length + 0 := by omega
    have hloop := read_loop_lines atof chip_num rows chip_dim_rows lines hlines tail 0 0 intensity
    rw [← hn, read_cel_file_intensities_loop] at hloop
    have he : (0 : Int) + lines.length = rows := by omega
    have hfun : read_cel_file_intensities atof file intensity chip_num rows cols chip_dim_rows
        = .ok ⟨0, lines.foldl (store_line atof chip_num rows chip_dim_rows) intensity, []⟩ := by
      simp only [read_cel_file_intensities, hopen, hsec, hcell, hloop, he, ne_eq,
        not_true_eq_false, if_false]
    exact ⟨_, hfun, rfl, storedLines_foldl atof chip_num rows chip_dim_rows intensity lines⟩

/-- C6, witness: the example text file with only two data lines before the
blank line that ends the section, read with rows = 6. -/
theorem C6_short_line_returns_1_witness :
    open_cel_file (some (example_text 3 2 example_masks)) = .ok (example_text 3 2 example_masks) ∧
    AdvanceToSection (example_text 3 2 example_masks) "[INTENSITY]".toList
      = .ok ("[INTENSITY]\n".toList,
          example_body 3 2 example_masks) ∧
    findStartsWith (example_body 3 2 example_masks)
        "CellHeader=".toList
      = .ok (example_cellheader,
          (example_data.take 2).flatten ++ example_masks) ∧
    (∀ l ∈ example_data.take 2, isLine l = true ∧ 3 ≤ (tokenize l " \t".toList).length) ∧
    (((example_data.take 2).length : Int) < 6) ∧
    example_masks = "\n".toList ++ example_masks.drop 1 ∧
    isLine "\n".toList = true ∧ (tokenize "\n".toList " \t".toList).length < 3 ∧
    ∃ r, read_cel_file_intensities (fun token => token) (some (example_text 3 2 example_masks))
          (filled []) 0 6 1 2 = .ok r ∧ r.ret = 1 ∧
        StoredLines (fun token => token) 0 6 2 (filled []) (example_data.take 2) r.intensity :=
  ⟨by decide, by decide, by decide, by decide, by decide, by decide, by decide, by decide,
   (C6_short_line_returns_1 (fun token => token) (some (example_text 3 2 example_masks))
      (filled []) 0 6 1 2
      (example_text 3 2 example_masks) "[INTENSITY]\n".toList
      (example_body 3 2 example_masks)
      example_cellheader example_masks (example_data.take 2)
      (by decide) (by decide) (by decide) (by decide)).1 (by decide)
      "\n".toList (example_masks.drop 1) (by decide) (by decide) (by decide)⟩

/-! ## C7: findStartsWith and AdvanceToSection -/

/-- C7, counterexample: a text file whose fourth line consists of 1023 times
'y' followed by "[HEADER]".  No line of the file starts with "[HEADER]", but
findStartsWith and AdvanceToSection do not raise the end-of-file error: they
return with the buffer "[HEADER]", the rest of the long line, and
get_header_info and check_cel_file succeed on the file. -/
theorem C7_counterexample :
    example_no_header_line = example_no_header_lines.flatten ∧
    (∀ l ∈ example_no_header_lines,
      l.getLast? = some '\n' ∧ l.dropLast.contains '\n' = false ∧
      ¬ "[HEADER]".toList <+: l) ∧
    (findStartsWith example_no_header_line "[HEADER]".toList).map (fun r => r.1)
      = .ok "[HEADER]\n".toList ∧
    (AdvanceToSection example_no_header_line "[HEADER]".toList).map (fun r => r.1)
      = .ok "[HEADER]\n".toList ∧
    get_header_info (some example_no_header_line) = .ok (some "HG_U95Av2".toList, 2, 2) ∧
    check_cel_file (some example_no_header_line) "HG_U95Av2".toList 2 2 = .ok 0 := by
  refine ⟨rfl, by decide, by decide, by decide, by decide, by decide⟩

/-- C7 (amended): the input from the cursor on starts with the whole lines
`before`, none of which starts with `marker`.
* If a whole line `line` that starts with `marker` follows, findStartsWith
  (and AdvanceToSection, which only calls it) returns with `line` in the buffer
  and the cursor just after it.
* If the input ends after `before`, possibly inside a last line that does not
  start with `marker`, both raise the fatal "End of file reached
  unexpectedly" error; hence for a file without a `[HEADER]` line
  get_header_info and check_cel_file end in a fatal error (that one, or "does
  not look like a CEL file" when the first line does not start with "[CEL").
A whole line is one of at most 1023 characters, its newline included. -/
theorem C7_findStartsWith_first_match (marker : List Char) (hmarker : Char.ofNat 0 ∉ marker)
    (before : List (List Char))
    (hbefore : ∀ l ∈ before, isLine l = true ∧ ¬ marker <+: l) :
    (∀ line rest : List Char, isLine line = true → marker <+: line →
        findStartsWith (before.flatten ++ (line ++ rest)) marker = .ok (line, rest) ∧
        AdvanceToSection (before.flatten ++ (line ++ rest)) marker = .ok (line, rest)) ∧
    (∀ last : List Char, (last = [] ∨ (isPartialLine last = true ∧ ¬ marker <+: last)) →
        findStartsWith (before.flatten ++ last) marker = .error .eof_unexpected ∧
        AdvanceToSection (before.flatten ++ last) marker = .error .eof_unexpected ∧
        (marker = "[HEADER]".toList →
          (get_header_info (some (before.flatten ++ last)) = .error .eof_unexpected ∨
           get_header_info (some (before.flatten ++ last)) = .error .not_a_cel_file) ∧
          (∀ (ref_cdfName : List Char) (ref_dim_1 ref_dim_2 : Int),
            check_cel_file (some (before.flatten ++ last)) ref_cdfName ref_dim_1 ref_dim_2
              = .error .eof_unexpected ∨
            check_cel_file (some (before.flatten ++ last)) ref_cdfName ref_dim_1 ref_dim_2
              = .error .not_a_cel_file))) := by
  refine ⟨fun line rest hl hm => ?_, fun last hlast => ?_⟩
  · have h := findStartsWith_found marker hmarker before hbefore line rest hl hm
    exact ⟨h, h⟩
  · have h := findStartsWith_missing marker hmarker before hbefore last hlast
    refine ⟨h, h, ?_⟩
    rintro rfl
    have hadv : AdvanceToSection (before.flatten ++ last) "[HEADER]".toList
        = .error .eof_unexpected := h
    rcases open_cel_file_cases (before.flatten ++ last) with ho | ho | ho
    · refine ⟨Or.inl ?_, fun r d1 d2 => Or.inl ?_⟩
      · simp only [get_header_info, ho, hadv]
      · simp only [check_cel_file, ho, hadv]
    · refine ⟨Or.inl ?_, fun r d1 d2 => Or.inl ?_⟩
      · simp only [get_header_info, ho]
      · simp only [check_cel_file, ho]
    · refine ⟨Or.inr ?_, fun r d1 d2 => Or.inr ?_⟩
      · simp only [get_header_info, ho]
      · simp only [check_cel_file, ho]

/-- C7, witness: the marker "[HEADER]" after two other lines, and a file that
ends without a "[HEADER]" line. -/
theorem C7_findStartsWith_first_match_witness :
    (Char.ofNat 0 ∉ "[HEADER]".toList) ∧
    (∀ l ∈ ["[CEL]\n".toList, "Version=3\n".toList],
      isLine l = true ∧ ¬ "[HEADER]".toList <+: l) ∧
    findStartsWith (["[CEL]\n".toList, "Version=3\n".toList].flatten ++
        ("[HEADER]\n".toList ++ "Cols=2\nRows=2\n".toList)) "[HEADER]".toList
      = .ok ("[HEADER]\n".toList, "Cols=2\nRows=2\n".toList) ∧
    findStartsWith (["[CEL]\n".toList, "Version=3\n".toList].flatten ++ "Cols=2".toList)
        "[HEADER]".toList = .error .eof_unexpected ∧
    get_header_info (some (["[CEL]\n".toList, "Version=3\n".toList].flatten ++ "Cols=2".toList))
      = .error .eof_unexpected :=
  ⟨by decide, by decide,
   ((C7_findStartsWith_first_match "[HEADER]".toList (by decide)
      ["[CEL]\n".toList, "Version=3\n".toList] (by decide)).1
        "[HEADER]\n".toList "Cols=2\nRows=2\n".toList (by decide) (by decide)).1,
   ((C7_findStartsWith_first_match "[HEADER]".toList (by decide)
      ["[CEL]\n".toList, "Version=3\n".toList] (by decide)).2
        "Cols=2".toList (by decide)).1,
   by decide⟩

/-! ## C8: the n_cells check of read_binary_header -/

/-- C8: for every binary file that holds the five leading header fields (20
bytes) with magic number 64 and version 4 and whose n_cells field differs
from cols*rows (the product as the 32-bit int the code computes),
read_binary_header raises the "number of cells" error with the read position
at byte 20, right after the n_cells field: the header length, the header
blobs and the records that follow have not been read. -/
theorem C8_ncells_mismatch_raised_first (content : List Char) (return_stream : Int)
    (hlen : 20 ≤ content.length)
    (hmagic : int32_at content 0 = 64) (hversion : int32_at content 4 = 4)
    (hcells : int32_at content 16 ≠ wrap32 (int32_at content 8 * int32_at content 12)) :
    read_binary_header (some content) return_stream = .error (.ncells_mismatch, 20) := by
  have r0 := fread_int32_full 0 content 0 (by omega)
  have r4 := fread_int32_full 0 content 4 (by omega)
  have r8 := fread_int32_full 0 content 8 (by omega)
  have r12 := fread_int32_full 0 content 12 (by omega)
  have r16 := fread_int32_full 0 content 16 (by omega)
  simp only [Nat.zero_add, Nat.reduceAdd] at r0 r4 r8 r12 r16
  have hd : read_binary_header_dims ⟨content, 0⟩ = .error (.ncells_mismatch, 20) := by
    simp only [read_binary_header_dims, r0, r4, r8, r12, r16, hmagic, hversion]
    simp [hcells]
  simp only [read_binary_header, hd]

/-- C8, witness: a header with cols = 2, rows = 2 and n_cells = 5. -/
theorem C8_ncells_mismatch_raised_first_witness :
    20 ≤ example_bad_ncells.length ∧
    int32_at example_bad_ncells 0 = 64 ∧ int32_at example_bad_ncells 4 = 4 ∧
    int32_at example_bad_ncells 16
      ≠ wrap32 (int32_at example_bad_ncells 8 * int32_at example_bad_ncells 12) ∧
    read_binary_header (some example_bad_ncells) 1 = .error (.ncells_mismatch, 20) :=
  ⟨by decide, by decide, by decide, by decide,
   C8_ncells_mismatch_raised_first example_bad_ncells 1 (by decide) (by decide) (by decide)
     (by decide)⟩

/-! ## C9: the consistency checks -/

/-- C9, counterexample: the example text file (chip name HG_U95Av2, 2 columns,
3 rows) checked against the reference name "RWS" and the reference
dimensions (2, 3).  check_cel_file succeeds, because the token "RWS=4733" of
the DatHeader line begins with the reference name, although the chip name
does not; check_binary_cel_file rejects the binary file with the same
DatHeader text.  The dimensions are compared as the `int` values that `atoi`
returns: the file whose header says "Cols=4294967298" is accepted for the
reference dimensions (2, 3). -/
theorem C9_counterexample :
    check_cel_file (some example_text_2x3) "RWS".toList 2 3 = .ok 0 ∧
    get_header_info (some example_text_2x3) = .ok (some "HG_U95Av2".toList, 2, 3) ∧
    strncasecmp "HG_U95Av2".toList "RWS".toList "RWS".toList.length ≠ 0 ∧
    check_binary_cel_file (some (example_binary 2 3 example_records_6 [(0, 1)] [(1, 1)]))
      "RWS".toList 2 3 = .error .wrong_chip_type ∧
    atoi "4294967298\n".toList = 2 ∧
    check_cel_file (some example_text_big_cols) "HG_U95Av2".toList 2 3 = .ok 0 := by
  refine ⟨by decide, by decide, by decide, by decide, by decide, by decide⟩

/-- C9 (amended): the consistency checks against a reference name and
reference dimensions `(ref_dim_1, ref_dim_2)`.
* Text: for a file whose `[HEADER]` section holds a `Cols` line, a `Rows` line
  and a `DatHeader` line, check_cel_file succeeds exactly when cols and rows,
  the `int` values that `atoi` returns for the texts after "Cols=" and
  "Rows=", equal the reference and SOME space-delimited token of the DatHeader line
  matches the reference name under `strncasecmp` over `strlen(ref_cdfName)`
  characters; unequal dimensions raise the dimension error, and equal
  dimensions without such a token raise the chip-type error.
* Binary: for a file whose header is read and whose header text has a first
  space-delimited token of the form `name ++ ".1sq"` (name not empty),
  check_binary_cel_file succeeds exactly when cols and rows equal the
  reference and `name` matches the reference name under `strncasecmp` over
  `strlen(ref_cdfName)` characters, with the same two errors. -/
theorem C9_consistency_check (ref_cdfName : List Char) (ref_dim_1 ref_dim_2 : Int) :
    (∀ (file : Option (List Char))
        (s0 b1 s1 b2 s2 token_cols b3 s3 token_rows b4 s4 : List Char),
      open_cel_file file = .ok s0 →
      AdvanceToSection s0 "[HEADER]".toList = .ok (b1, s1) →
      findStartsWith s1 "Cols".toList = .ok (b2, s2) →
      get_token (tokenize b2 "=".toList) 1 = .ok token_cols →
      findStartsWith s2 "Rows".toList = .ok (b3, s3) →
      get_token (tokenize b3 "=".toList) 1 = .ok token_rows →
      findStartsWith s3 "DatHeader".toList = .ok (b4, s4) →
      (check_cel_file file ref_cdfName ref_dim_1 ref_dim_2 = .ok 0 ↔
        (atoi token_cols = ref_dim_1 ∧ atoi token_rows = ref_dim_2 ∧
          ∃ t ∈ tokenize b4 " ".toList, strncasecmp t ref_cdfName ref_cdfName.length = 0)) ∧
      (¬ (atoi token_cols = ref_dim_1 ∧ atoi token_rows = ref_dim_2) →
        check_cel_file file ref_cdfName ref_dim_1 ref_dim_2 = .error .wrong_dimensions) ∧
      (atoi token_cols = ref_dim_1 → atoi token_rows = ref_dim_2 →
        (∀ t ∈ tokenize b4 " ".toList, strncasecmp t ref_cdfName ref_cdfName.length ≠ 0) →
        check_cel_file file ref_cdfName ref_dim_1 ref_dim_2 = .error .wrong_chip_type)) ∧
    (∀ (content : List Char) (my_header : binary_header)
        (before : List (List Char)) (name : List Char) (later : List (List Char)),
      read_binary_header (some content) 0 = .ok (some my_header) →
      tokenize my_header.header " ".toList = before ++ (name ++ ".1sq".toList) :: later →
      name ≠ [] →
      (∀ b ∈ before, ¬ (4 < b.length ∧ ".1sq".toList <:+ b)) →
      (check_binary_cel_file (some content) ref_cdfName ref_dim_1 ref_dim_2 = .ok 0 ↔
        (my_header.cols = ref_dim_1 ∧ my_header.rows = ref_dim_2 ∧
          strncasecmp name ref_cdfName ref_cdfName.length = 0)) ∧
      (¬ (my_header.cols = ref_dim_1 ∧ my_header.rows = ref_dim_2) →
        check_binary_cel_file (some content) ref_cdfName ref_dim_1 ref_dim_2
          = .error .wrong_dimensions) ∧
      (my_header.cols = ref_dim_1 → my_header.rows = ref_dim_2 →
        strncasecmp name ref_cdfName ref_cdfName.length ≠ 0 →
        check_binary_cel_file (some content) ref_cdfName ref_dim_1 ref_dim_2
          = .error .wrong_chip_type)) := by
  constructor
  · intro file s0 b1 s1 b2 s2 token_cols b3 s3 token_rows b4 s4 hopen hsec hcols htc hrows htr
      hdat
    have hb4 := findStartsWith_ok (by decide) hdat
    have htok := tokens_datheader hb4.1 hb4.2
    have hbad : ¬ (atoi token_cols = ref_dim_1 ∧ atoi token_rows = ref_dim_2) →
        check_cel_file file ref_cdfName ref_dim_1 ref_dim_2 = .error .wrong_dimensions := by
      intro hd
      have hd' : atoi token_cols ≠ ref_dim_1 ∨ atoi token_rows ≠ ref_dim_2 := by
        by_cases h1 : atoi token_cols = ref_dim_1
        · exact Or.inr (fun h2 => hd ⟨h1, h2⟩)
        · exact Or.inl h1
      simp only [check_cel_file, hopen, hsec, hcols, htc, hrows, htr, hd', if_true]
    have hmiss : atoi token_cols = ref_dim_1 → atoi token_rows = ref_dim_2 →
        (∀ t ∈ tokenize b4 " ".toList, strncasecmp t ref_cdfName ref_cdfName.length ≠ 0) →
        check_cel_file file ref_cdfName ref_dim_1 ref_dim_2 = .error .wrong_chip_type := by
      intro h1 h2 hno
      have hd' : ¬ (atoi token_cols ≠ ref_dim_1 ∨ atoi token_rows ≠ ref_dim_2) := by
        rintro (h | h)
        · exact h h1
        · exact h h2
      have hloop := check_cel_file_loop_miss ref_cdfName _ htok.1 hno
      simp only [check_cel_file, hopen, hsec, hcols, htc, hrows, htr, hd', if_false, hdat, hloop]
    refine ⟨⟨fun hok => ?_, fun hok => ?_⟩, hbad, hmiss⟩
    · by_cases hd : atoi token_cols = ref_dim_1 ∧ atoi token_rows = ref_dim_2
      · refine ⟨hd.1, hd.2, ?_⟩
        by_contra hex
        have hno : ∀ t ∈ tokenize b4 " ".toList,
            strncasecmp t ref_cdfName ref_cdfName.length ≠ 0 :=
          fun t ht hm => hex ⟨t, ht, hm⟩
        rw [hmiss hd.1 hd.2 hno] at hok
        cases hok
      · rw [hbad hd] at hok
        cases hok
    · obtain ⟨h1, h2, hex⟩ := hok
      have hd' : ¬ (atoi token_cols ≠ ref_dim_1 ∨ atoi token_rows ≠ ref_dim_2) := by
        rintro (h | h)
        · exact h h1
        · exact h h2
      have hloop := check_cel_file_loop_hit ref_cdfName _ hex
      simp only [check_cel_file, hopen, hsec, hcols, htc, hrows, htr, hd', if_false, hdat, hloop]
  · intro content my_header before name later hhdr hsplit hname hbefore
    have hnul := read_binary_header_header_nul hhdr
    have htoknul : ∀ t ∈ tokenize my_header.header " ".toList, Char.ofNat 0 ∉ t :=
      fun t ht h0 => hnul (tokenize_mem _ t ht _ h0)
    have hin : name ++ ".1sq".toList ∈ tokenize my_header.header " ".toList := by
      rw [hsplit]; simp
    have hn := token_ends_with_name name hname (htoknul _ hin)
    have hloop := cdfName_loop_hit before (name ++ ".1sq".toList) later
      (fun b hb => by
        have hbin : b ∈ tokenize my_header.header " ".toList := by rw [hsplit]; simp [hb]
        rw [(token_ends_with_spec b ".1sq".toList (htoknul b hbin) nul_not_mem_1sq).1]
        exact hbefore b hb)
      hn.1
    rw [hn.2, ← hsplit] at hloop
    have hbad : ¬ (my_header.cols = ref_dim_1 ∧ my_header.rows = ref_dim_2) →
        check_binary_cel_file (some content) ref_cdfName ref_dim_1 ref_dim_2
          = .error .wrong_dimensions := by
      intro hd
      have hd' : my_header.cols ≠ ref_dim_1 ∨ my_header.rows ≠ ref_dim_2 := by
        by_cases h1 : my_header.cols = ref_dim_1
        · exact Or.inr (fun h2 => hd ⟨h1, h2⟩)
        · exact Or.inl h1
      simp only [check_binary_cel_file, hhdr, hd', if_true]
    have hmiss : my_header.cols = ref_dim_1 → my_header.rows = ref_dim_2 →
        strncasecmp name ref_cdfName ref_cdfName.length ≠ 0 →
        check_binary_cel_file (some content) ref_cdfName ref_dim_1 ref_dim_2
          = .error .wrong_chip_type := by
      intro h1 h2 hno
      have hd' : ¬ (my_header.cols ≠ ref_dim_1 ∨ my_header.rows ≠ ref_dim_2) := by
        rintro (h | h)
        · exact h h1
        · exact h h2
      simp only [check_binary_cel_file, hhdr, hd', if_false, hloop, hno, ne_eq,
        not_false_eq_true, if_true]
    refine ⟨⟨fun hok => ?_, fun hok => ?_⟩, hbad, hmiss⟩
    · by_cases hd : my_header.cols = ref_dim_1 ∧ my_header.rows = ref_dim_2
      · refine ⟨hd.1, hd.2, ?_⟩
        by_contra hno
        rw [hmiss hd.1 hd.2 hno] at hok
        cases hok
      · rw [hbad hd] at hok
        cases hok
    · obtain ⟨h1, h2, hm⟩ := hok
      have hd' : ¬ (my_header.cols ≠ ref_dim_1 ∨ my_header.rows ≠ ref_dim_2) := by
        rintro (h | h)
        · exact h h1
        · exact h h2
      simp only [check_binary_cel_file, hhdr, hd', if_false, hloop, hm, ne_eq,
        not_true_eq_false]

/-- C9, witness: the example text and binary files of the 2x3 chip HG_U95Av2
checked against the reference name "hg_u95a" and the dimensions (2, 3). -/
theorem C9_consistency_check_witness :
    (open_cel_file (some example_text_2x3) = .ok example_text_2x3 ∧
     AdvanceToSection example_text_2x3 "[HEADER]".toList
       = .ok ("[HEADER]\n".toList, example_text_2x3.drop 26) ∧
     findStartsWith (example_text_2x3.drop 26) "Cols".toList
       = .ok ("Cols=2\n".toList, example_text_2x3.drop 33) ∧
     get_token (tokenize "Cols=2\n".toList "=".toList) 1 = .ok "2\n".toList ∧
     findStartsWith (example_text_2x3.drop 33) "Rows".toList
       = .ok ("Rows=3\n".toList, example_text_2x3.drop 40) ∧
     get_token (tokenize "Rows=3\n".toList "=".toList) 1 = .ok "3\n".toList ∧
     findStartsWith (example_text_2x3.drop 40) "DatHeader".toList
       = .ok (example_datheader, example_text_2x3.drop 147)) ∧
    (atoi "2\n".toList = 2 ∧ atoi "3\n".toList = 3 ∧
      ∃ t ∈ tokenize example_datheader " ".toList,
        strncasecmp t "hg_u95a".toList "hg_u95a".toList.length = 0) ∧
    check_cel_file (some example_text_2x3) "hg_u95a".toList 2 3 = .ok 0 ∧
    (read_binary_header (some (example_binary 2 3 example_records_6 [(0, 1)] [(1, 1)])) 0
       = .ok (some (example_binary_header 2 3 1 1 none)) ∧
     tokenize (example_binary_header 2 3 1 1 none).header " ".toList
       = (tokenize example_blob " ".toList).take 8
           ++ ("HG_U95Av2".toList ++ ".1sq".toList) :: (tokenize example_blob " ".toList).drop 9 ∧
     "HG_U95Av2".toList ≠ [] ∧
     (∀ b ∈ (tokenize example_blob " ".toList).take 8, ¬ (4 < b.length ∧ ".1sq".toList <:+ b))) ∧
    ((example_binary_header 2 3 1 1 none).cols = 2 ∧ (example_binary_header 2 3 1 1 none).rows = 3 ∧
      strncasecmp "HG_U95Av2".toList "hg_u95a".toList "hg_u95a".toList.length = 0) ∧
    check_binary_cel_file (some (example_binary 2 3 example_records_6 [(0, 1)] [(1, 1)]))
      "hg_u95a".toList 2 3 = .ok 0 :=
  ⟨⟨by decide, by decide, by decide, by decide, by decide, by decide, by decide⟩,
   by decide,
   ((C9_consistency_check "hg_u95a".toList 2 3).1 (some example_text_2x3) example_text_2x3
      "[HEADER]\n".toList (example_text_2x3.drop 26) "Cols=2\n".toList (example_text_2x3.drop 33)
      "2\n".toList "Rows=3\n".toList (example_text_2x3.drop 40) "3\n".toList
      example_datheader (example_text_2x3.drop 147)
      (by decide) (by decide) (by decide) (by decide) (by decide) (by decide) (by decide)).1.mpr
      (by decide),
   ⟨by decide, by decide, by decide, by decide⟩,
   by decide,
   ((C9_consistency_check "hg_u95a".toList 2 3).2
      (example_binary 2 3 example_records_6 [(0, 1)] [(1, 1)])
      (example_binary_header 2 3 1 1 none)
      ((tokenize example_blob " ".toList).take 8) "HG_U95Av2".toList
      ((tokenize example_blob " ".toList).drop 9)
      (by decide) (by decide) (by decide) (by decide)).1.mpr (by decide)⟩

/-! ## C10: the chip name returned by get_header_info -/

/-- C10, counterexample: two DatHeader lines whose tokens, when split at
spaces, tabs and the line terminator, contain "HG_U95Av2.1sq" (as the last
token of the line, and between two tabs).  For the files that hold these
lines get_header_info raises the "does not seem to be have cdf information"
error instead of returning "HG_U95Av2". -/
theorem C10_counterexample :
    tokenize example_datheader_last " \t\n".toList
      = ["DatHeader=[0..46111]".toList, "t1:CLS=4733".toList, "RWS=4733".toList,
         "XIN=3".toList, "YIN=3".toList, "VE=17".toList, "HG_U95Av2.1sq".toList] ∧
    get_header_info (some (example_text_with example_datheader_last))
      = .error .no_cdf_information ∧
    tokenize example_datheader_tab " \t\n".toList
      = ["DatHeader=[0..46111]".toList, "t1:CLS=4733".toList, "RWS=4733".toList,
         "XIN=3".toList, "YIN=3".toList, "VE=17".toList, "HG_U95Av2.1sq".toList, "6".toList] ∧
    get_header_info (some (example_text_with example_datheader_tab))
      = .error .no_cdf_information := by
  refine ⟨by decide, by decide, by decide, by decide⟩

/-- C10 (amended): for a text file whose `[HEADER]` section holds a `Cols` line,
a `Rows` line and a `DatHeader` line, with the DatHeader line split at space
characters only (tabs and the line terminator stay inside the tokens):
* if `name ++ ".1sq"` with a non-empty `name` is the first token that is
  longer than 4 characters and ends in ".1sq", get_header_info returns `name`
  as chip name (with cols and rows);
* if no token is longer than 4 characters and ends in ".1sq", it raises the
  "does not seem to be have cdf information" error. -/
theorem C10_cdfName_of_space_delimited_token (file : Option (List Char))
    (s0 b1 s1 b2 s2 token_cols b3 s3 token_rows b4 s4 : List Char)
    (hopen : open_cel_file file = .ok s0)
    (hsec : AdvanceToSection s0 "[HEADER]".toList = .ok (b1, s1))
    (hcols : findStartsWith s1 "Cols".toList = .ok (b2, s2))
    (htc : get_token (tokenize b2 "=".toList) 1 = .ok token_cols)
    (hrows : findStartsWith s2 "Rows".toList = .ok (b3, s3))
    (htr : get_token (tokenize b3 "=".toList) 1 = .ok token_rows)
    (hdat : findStartsWith s3 "DatHeader".toList = .ok (b4, s4)) :
    (∀ (before : List (List Char)) (name : List Char) (later : List (List Char)),
      tokenize b4 " ".toList = before ++ (name ++ ".1sq".toList) :: later →
      name ≠ [] →
      (∀ b ∈ before, ¬ (4 < b.length ∧ ".1sq".toList <:+ b)) →
      get_header_info file = .ok (some name, atoi token_cols, atoi token_rows)) ∧
    ((∀ t ∈ tokenize b4 " ".toList, ¬ (4 < t.length ∧ ".1sq".toList <:+ t)) →
      get_header_info file = .error .no_cdf_information) := by
  have hb4 := findStartsWith_ok (by decide) hdat
  have htok := tokens_datheader hb4.1 hb4.2
  have hacc : ∀ t ∈ tokenize b4 " ".toList,
      (0 < token_ends_with t ".1sq".toList ↔ (4 < t.length ∧ ".1sq".toList <:+ t)) := by
    intro t ht
    exact (token_ends_with_spec t ".1sq".toList (htok.2 t ht) nul_not_mem_1sq).1
  constructor
  · intro before name later hsplit hname hbefore
    have hin : name ++ ".1sq".toList ∈ tokenize b4 " ".toList := by rw [hsplit]; simp
    have hn := token_ends_with_name name hname (htok.2 _ hin)
    have hloop := cdfName_loop_hit before (name ++ ".1sq".toList) later
      (fun b hb => by
        have hbin : b ∈ tokenize b4 " ".toList := by rw [hsplit]; simp [hb]
        rw [hacc b hbin]; exact hbefore b hb)
      hn.1
    rw [hn.2, ← hsplit] at hloop
    simp only [get_header_info, hopen, hsec, hcols, htc, hrows, htr, hdat, hloop]
  · intro hnone
    have hloop := cdfName_loop_miss (tokenize b4 " ".toList) htok.1
      (fun t ht => by rw [hacc t ht]; exact hnone t ht)
    simp only [get_header_info, hopen, hsec, hcols, htc, hrows, htr, hdat, hloop]

/-- C10, witness: the example text file, whose DatHeader line holds the token
"HG_U95Av2.1sq" between spaces as its ninth token. -/
theorem C10_cdfName_of_space_delimited_token_witness :
    open_cel_file (some example_text_2x3) = .ok example_text_2x3 ∧
    AdvanceToSection example_text_2x3 "[HEADER]".toList
      = .ok ("[HEADER]\n".toList, example_text_2x3.drop 26) ∧
    findStartsWith (example_text_2x3.drop 26) "Cols".toList
      = .ok ("Cols=2\n".toList, example_text_2x3.drop 33) ∧
    get_token (tokenize "Cols=2\n".toList "=".toList) 1 = .ok "2\n".toList ∧
    findStartsWith (example_text_2x3.drop 33) "Rows".toList
      = .ok ("Rows=3\n".toList, example_text_2x3.drop 40) ∧
    get_token (tokenize "Rows=3\n".toList "=".toList) 1 = .ok "3\n".toList ∧
    findStartsWith (example_text_2x3.drop 40) "DatHeader".toList
      = .ok (example_datheader, example_text_2x3.drop 147) ∧
    tokenize example_datheader " ".toList
      = (tokenize example_datheader " ".toList).take 8
          ++ ("HG_U95Av2".toList ++ ".1sq".toList)
            :: (tokenize example_datheader " ".toList).drop 9 ∧
    "HG_U95Av2".toList ≠ [] ∧
    (∀ b ∈ (tokenize example_datheader " ".toList).take 8,
      ¬ (4 < b.length ∧ ".1sq".toList <:+ b)) ∧
    get_header_info (some example_text_2x3)
      = .ok (some "HG_U95Av2".toList, atoi "2\n".toList, atoi "3\n".toList) :=
  ⟨by decide, by decide, by decide, by decide, by decide, by decide, by decide, by decide,
   by decide, by decide,
   (C10_cdfName_of_space_delimited_token (some example_text_2x3) example_text_2x3
      "[HEADER]\n".toList (example_text_2x3.drop 26) "Cols=2\n".toList (example_text_2x3.drop 33)
      "2\n".toList "Rows=3\n".toList (example_text_2x3.drop 40) "3\n".toList
      example_datheader (example_text_2x3.drop 147)
      (by decide) (by decide) (by decide) (by decide) (by decide) (by decide) (by decide)).1
      ((tokenize example_datheader " ".toList).take 8) "HG_U95Av2".toList
      ((tokenize example_datheader " ".toList).drop 9) (by decide) (by decide) (by decide)⟩

/-! ## C11: masked cells are set to NaN, outlier cells to NA (text and gzip text) -/

/-- C11, counterexample: the text file of the 2x2 chip whose `[MASKS]` section
announces two cells and lists the cell (0, 0), on a line of 1027 characters
(1020 blanks and the further tokens "1", "1" follow the coordinates), and the
cell (0, 1).  With rm_mask set, apply_masks and gz_apply_masks set the cells
at the offsets 0 and 3 to NaN: ReadFileLine delivers the first 1023 characters
of the long line and then its rest "1 1", which is taken as the second
coordinate line; the listed cell (0, 1) at offset 2 is never read and keeps
its value. -/
theorem C11_counterexample :
    example_long_coordinate_line.length = 1027 ∧
    example_mask_lines_long.map line_coords = [(0, 0), (0, 1)] ∧
    example_mask_lines_long.map (line_offset 0 4 2) = [0, 2] ∧
    (apply_masks (some (example_text 2 4 example_masks_long_line)) (filled (0 : Nat))
        0 4 1 2 true false).map (fun m => cells m 4)
      = .ok [.R_NaN, .num 0, .num 0, .R_NaN] ∧
    (gz_apply_masks (fun bytes => bytes) (some (example_text 2 4 example_masks_long_line))
        (filled (0 : Nat)) 0 4 1 2 true false).map (fun m => cells m 4)
      = .ok [.R_NaN, .num 0, .num 0, .R_NaN] ∧
    (apply_masks (some (example_text 2 4 example_masks_long_line)) (filled (0 : Nat))
        0 4 1 2 true true).map (fun m => cells m 4)
      = .ok [.R_NaN, .R_NaReal, .num 0, .R_NaN] := by
  refine ⟨by decide, by decide, by decide, by decide, by decide, by decide⟩

/-- C11 (amended): let `run` be apply_masks on a text file, or gz_apply_masks
on a gzipped file, that opens on the stream `s0`, with any matrix, `chip_num`,
`rows`, `cols` and `chip_dim_rows`.  A section "lists" coordinate lines when
it announces their number and each of them is a whole line of at most 1023
characters with at least two tokens (`SectionLists`).
* rm_mask only: when `[MASKS]` lists the coordinate lines `masks`, the call
  succeeds and every cell listed there holds R_NaN.
* rm_outliers only: when `[OUTLIERS]` lists the coordinate lines `outliers`,
  the call succeeds and every cell listed there holds R_NaReal (NA).
* both flags: the result is the matrix `mid`, in which every cell listed in
  `[MASKS]` has been set to R_NaN, with every cell listed in `[OUTLIERS]` then
  set to R_NaReal; so every outlier cell holds R_NaReal, and every masked cell
  holds R_NaN unless `[OUTLIERS]` lists it too. -/
theorem C11_masks_NaN_outliers_NA {F : Type} (inflate : List Char → List Char)
    (file : Option (List Char)) (intensity : Int → RDouble F)
    (chip_num rows cols chip_dim_rows : Int) (s0 : List Char)
    (run : Bool → Bool → Except Err (Int → RDouble F))
    (hrun : (run = apply_masks file intensity chip_num rows cols chip_dim_rows ∧
              open_cel_file file = .ok s0) ∨
            (run = gz_apply_masks inflate file intensity chip_num rows cols chip_dim_rows ∧
              open_gz_cel_file inflate file = .ok s0))
    (masks : List (List Char)) (after_masks : List Char)
    (outliers : List (List Char)) (after_outliers : List Char) :
    (SectionLists s0 "[MASKS]".toList masks after_masks →
      ∃ out, run true false = .ok out ∧
        ∀ l ∈ masks, out (line_offset chip_num rows chip_dim_rows l) = RDouble.R_NaN) ∧
    (SectionLists s0 "[OUTLIERS]".toList outliers after_outliers →
      ∃ out, run false true = .ok out ∧
        ∀ l ∈ outliers, out (line_offset chip_num rows chip_dim_rows l) = RDouble.R_NaReal) ∧
    (SectionLists s0 "[MASKS]".toList masks after_masks →
      SectionLists after_masks "[OUTLIERS]".toList outliers after_outliers →
      ∃ mid out, run true true = .ok out ∧
        mid = set_cells RDouble.R_NaN (chip_num * rows) chip_dim_rows
                (masks.map line_coords) intensity ∧
        out = set_cells RDouble.R_NaReal (chip_num * rows) chip_dim_rows
                (outliers.map line_coords) mid ∧
        (∀ l ∈ masks, mid (line_offset chip_num rows chip_dim_rows l) = RDouble.R_NaN) ∧
        (∀ l ∈ outliers, out (line_offset chip_num rows chip_dim_rows l) = RDouble.R_NaReal) ∧
        (∀ l ∈ masks,
          (∀ o ∈ outliers, line_offset chip_num rows chip_dim_rows o
              ≠ line_offset chip_num rows chip_dim_rows l) →
          out (line_offset chip_num rows chip_dim_rows l) = RDouble.R_NaN)) := by
  have key : ∃ f : Option (List Char), open_cel_file f = .ok s0 ∧
      ∀ m o, run m o = apply_masks f intensity chip_num rows cols chip_dim_rows m o := by
    rcases hrun with ⟨h, hopen⟩ | ⟨h, hopen⟩
    · exact ⟨file, hopen, fun m o => by rw [h]⟩
    · exact ⟨gzopen inflate file, by rw [← open_gz_cel_file_eq]; exact hopen,
        fun m o => by rw [h, gz_apply_masks_eq]⟩
  obtain ⟨f, hopen, hf⟩ := key
  refine ⟨fun hm => ?_, fun ho => ?_, fun hm ho => ?_⟩
  · have h := apply_masks_only_masks f intensity chip_num rows cols chip_dim_rows s0 masks
      after_masks hopen hm
    exact ⟨_, (hf true false).trans h, fun l hl => set_cells_line _ _ _ _ _ _ l hl⟩
  · have h := apply_masks_only_outliers f intensity chip_num rows cols chip_dim_rows s0
      outliers after_outliers hopen ho
    exact ⟨_, (hf false true).trans h, fun l hl => set_cells_line _ _ _ _ _ _ l hl⟩
  · have h := apply_masks_both f intensity chip_num rows cols chip_dim_rows s0 masks
      after_masks outliers after_outliers hopen hm ho
    refine ⟨_, _, (hf true true).trans h, rfl, rfl, fun l hl => set_cells_line _ _ _ _ _ _ l hl,
      fun l hl => set_cells_line _ _ _ _ _ _ l hl, fun l hl hno => ?_⟩
    rw [set_cells_other_line _ _ _ _ _ _ _ hno]
    exact set_cells_line _ _ _ _ _ _ l hl

/-- C11, witness: gz_apply_masks with both flags on a gzipped file whose
decompressed stream is the 2x2 example file that lists the cells (0, 1) and
(1, 1) in `[MASKS]` and the cell (1, 1) in `[OUTLIERS]`; the decompression is
taken to be the identity, as for a file stored without compression. -/
theorem C11_masks_NaN_outliers_NA_witness :
    open_gz_cel_file (fun bytes => bytes) (some example_text_both) = .ok example_text_both ∧
    SectionLists example_text_both "[MASKS]".toList ["0\t1\n".toList, "1\t1\n".toList]
      (example_masks_both.drop 46) ∧
    SectionLists (example_masks_both.drop 46) "[OUTLIERS]".toList ["1\t1\n".toList] [] ∧
    ∃ mid out,
      gz_apply_masks (fun bytes => bytes) (some example_text_both) (filled (0 : Nat)) 0 4 1 2
          true true = .ok out ∧
      mid = set_cells RDouble.R_NaN (0 * 4) 2
              (["0\t1\n".toList, "1\t1\n".toList].map line_coords) (filled (0 : Nat)) ∧
      out = set_cells RDouble.R_NaReal (0 * 4) 2 (["1\t1\n".toList].map line_coords) mid ∧
      (∀ l ∈ ["0\t1\n".toList, "1\t1\n".toList], mid (line_offset 0 4 2 l) = RDouble.R_NaN) ∧
      (∀ l ∈ ["1\t1\n".toList], out (line_offset 0 4 2 l) = RDouble.R_NaReal) ∧
      (∀ l ∈ ["0\t1\n".toList, "1\t1\n".toList],
        (∀ o ∈ ["1\t1\n".toList], line_offset 0 4 2 o ≠ line_offset 0 4 2 l) →
        out (line_offset 0 4 2 l) = RDouble.R_NaN) :=
  ⟨by decide,
   ⟨"[MASKS]\n".toList, example_masks_both.drop 9, "NumberCells=2\n".toList,
     example_masks_both.drop 23, "2\n".toList, "CellHeader=X\tY\n".toList,
     by decide, by decide, by decide, by decide, by decide, by decide⟩,
   ⟨"[OUTLIERS]\n".toList, example_masks_both.drop 58, "NumberCells=1\n".toList,
     example_masks_both.drop 72, "1\n".toList, "CellHeader=X\tY\n".toList,
     by decide, by decide, by decide, by decide, by decide, by decide⟩,
   (C11_masks_NaN_outliers_NA (fun bytes => bytes) (some example_text_both) (filled (0 : Nat))
      0 4 1 2 example_text_both
      (gz_apply_masks (fun bytes => bytes) (some example_text_both) (filled (0 : Nat)) 0 4 1 2)
      (Or.inr ⟨rfl, by decide⟩)
      ["0\t1\n".toList, "1\t1\n".toList] (example_masks_both.drop 46)
      ["1\t1\n".toList] []).2.2
      ⟨"[MASKS]\n".toList, example_masks_both.drop 9, "NumberCells=2\n".toList,
        example_masks_both.drop 23, "2\n".toList, "CellHeader=X\tY\n".toList,
        by decide, by decide, by decide, by decide, by decide, by decide⟩
      ⟨"[OUTLIERS]\n".toList, example_masks_both.drop 58, "NumberCells=1\n".toList,
        example_masks_both.drop 72, "1\n".toList, "CellHeader=X\tY\n".toList,
        by decide, by decide, by decide, by decide, by decide, by decide⟩⟩

/-! ## C12: binary_apply_masks stores NaN for outlier cells -/

/-- C12, failing input: the binary file of the 2x2 chip with the mask record
(0, 1) and the outlier record (1, 1), and the text file with the same masked
and outlier cells, both flags set.  apply_masks leaves R_NaN in the masked
cell (offset 2) and R_NaReal in the outlier cell (offset 3);
binary_apply_masks leaves R_NaN in both.  The same holds for the binary file
without mask records when only rm_outliers is set. -/
theorem C12_binary_outlier_is_NaN :
    (apply_masks (some example_text_2x2) (filled (0 : Nat)) 0 4 1 2 true true).map
        (fun m => cells m 4)
      = .ok [.num 0, .num 0, .R_NaN, .R_NaReal] ∧
    (binary_apply_masks 8 (some (example_binary 2 2 example_records_4 [(0, 1)] [(1, 1)]))
        (filled (0 : Nat)) 0 4 1 2 true true).map (fun m => cells m 4)
      = .ok [.num 0, .num 0, .R_NaN, .R_NaN] ∧
    (binary_apply_masks 8 (some (example_binary 2 2 example_records_4 [] [(1, 1)]))
        (filled (0 : Nat)) 0 4 1 2 false true).map (fun m => cells m 4)
      = .ok [.num 0, .num 0, .num 0, .R_NaN] := by
  refine ⟨by decide, by decide, by decide⟩

/-! ## C13: applying the masks twice is the same as applying them once -/

/-- C13: for every file, matrix, `chip_num`, `rows`, `cols`, `chip_dim_rows`
and pair of flags, running apply_masks and then, on the resulting matrix,
apply_masks again with the same arguments gives what the first run gives: the
same matrix when the first run completes, the same error when it raises one.
The same holds for gz_apply_masks and for binary_apply_masks. -/
theorem C13_apply_masks_idempotent {F : Type} (inflate : List Char → List Char)
    (sizeof_pointer : Nat) (file : Option (List Char)) (intensity : Int → RDouble F)
    (chip_num rows cols chip_dim_rows : Int) (rm_mask rm_outliers : Bool) :
    ((apply_masks file intensity chip_num rows cols chip_dim_rows rm_mask rm_outliers).bind
        (fun once => apply_masks file once chip_num rows cols chip_dim_rows rm_mask rm_outliers)
      = apply_masks file intensity chip_num rows cols chip_dim_rows rm_mask rm_outliers) ∧
    ((gz_apply_masks inflate file intensity chip_num rows cols chip_dim_rows rm_mask
          rm_outliers).bind
        (fun once => gz_apply_masks inflate file once chip_num rows cols chip_dim_rows rm_mask
          rm_outliers)
      = gz_apply_masks inflate file intensity chip_num rows cols chip_dim_rows rm_mask
          rm_outliers) ∧
    ((binary_apply_masks sizeof_pointer file intensity chip_num rows cols chip_dim_rows rm_mask
          rm_outliers).bind
        (fun once => binary_apply_masks sizeof_pointer file once chip_num rows cols
          chip_dim_rows rm_mask rm_outliers)
      = binary_apply_masks sizeof_pointer file intensity chip_num rows cols chip_dim_rows
          rm_mask rm_outliers) := by
  have idem : ∀ f : (Int → RDouble F) → Except Err (Int → RDouble F),
      ((∃ e, ∀ I, f I = .error e) ∨ (∃ ss, ∀ I, f I = .ok (apply_stores ss I))) →
      (f intensity).bind f = f intensity := by
    intro f hf
    rcases hf with ⟨e, he⟩ | ⟨ss, hss⟩
    · rw [he]; rfl
    · rw [hss intensity]
      show f (apply_stores ss intensity) = _
      rw [hss, apply_stores_idem]
  refine ⟨?_, ?_, ?_⟩
  · exact idem (fun I => apply_masks file I chip_num rows cols chip_dim_rows rm_mask rm_outliers)
      (apply_masks_stores file chip_num rows cols chip_dim_rows rm_mask rm_outliers)
  · refine idem (fun I => gz_apply_masks inflate file I chip_num rows cols chip_dim_rows
      rm_mask rm_outliers) ?_
    simp only [gz_apply_masks_eq]
    exact apply_masks_stores (gzopen inflate file) chip_num rows cols chip_dim_rows rm_mask
      rm_outliers
  · exact idem (fun I => binary_apply_masks sizeof_pointer file I chip_num rows cols
      chip_dim_rows rm_mask rm_outliers)
      (binary_apply_masks_stores sizeof_pointer file chip_num rows cols chip_dim_rows rm_mask
        rm_outliers)

/-! ## C14: with rm_mask only, exactly the cells of `[MASKS]` change -/

/-- C14, counterexample: the text file of the 2x2 chip whose `[MASKS]` section
announces two cells and lists the cell (0, 0), on a line of 1027 characters,
and the cell (0, 1), masked as file number 1 with 4 entries per column and
rm_mask only.  The coordinate lines name the offsets 4 and 6; after the call
the offsets 4 and 7 hold NaN: offset 6 is unchanged, and offset 7, which no
coordinate line names, has changed. -/
theorem C14_counterexample :
    example_mask_lines_long.length = 2 ∧
    (∀ l ∈ example_mask_lines_long,
      l.getLast? = some '\n' ∧ l.dropLast.contains '\n' = false ∧
      2 ≤ (tokenize l " \t".toList).length) ∧
    example_mask_lines_long.map (line_offset 1 4 2) = [4, 6] ∧
    (apply_masks (some (example_text 2 4 example_masks_long_line)) (filled (0 : Nat))
        1 4 2 2 true false).map (fun m => cells m 8)
      = .ok [.num 0, .num 0, .num 0, .num 0, .R_NaN, .num 0, .num 0, .R_NaN] := by
  refine ⟨by decide, by decide, by decide, by decide⟩

/-- C14 (amended): for a text CEL file that opens on the stream `s0` and whose
`[MASKS]` section announces and lists, after `CellHeader=`, the coordinate
lines `masks`, each a whole line of at most 1023 characters with at least two
tokens (`SectionLists`), apply_masks with rm_mask = true and rm_outliers = false completes; in the
resulting matrix every offset `chip_num*rows + x + chip_dim_rows*y` of a listed
line holds R_NaN and every other entry, the cells listed only in `[OUTLIERS]`
included, is the entry of the matrix before the call.  For the file of the 2x2
chip whose only masked cell is (0, 0), with chip_dim_rows = 2, offset 0 holds
R_NaN after the call and every other entry is unchanged. -/
theorem C14_masks_only_frame {F : Type} (intensity : Int → RDouble F) :
    (∀ (file : Option (List Char)) (chip_num rows cols chip_dim_rows : Int)
        (s0 : List Char) (masks : List (List Char)) (after_masks : List Char),
      open_cel_file file = .ok s0 →
      SectionLists s0 "[MASKS]".toList masks after_masks →
      ∃ out, apply_masks file intensity chip_num rows cols chip_dim_rows true false = .ok out ∧
        (∀ l ∈ masks, out (line_offset chip_num rows chip_dim_rows l) = RDouble.R_NaN) ∧
        (∀ p : Int, (∀ l ∈ masks, line_offset chip_num rows chip_dim_rows l ≠ p) →
          out p = intensity p)) ∧
    (∃ out, apply_masks (some example_text_masked_00) intensity 0 4 1 2 true false = .ok out ∧
      out 0 = RDouble.R_NaN ∧ ∀ p : Int, p ≠ 0 → out p = intensity p) := by
  have general : ∀ (file : Option (List Char)) (chip_num rows cols chip_dim_rows : Int)
        (s0 : List Char) (masks : List (List Char)) (after_masks : List Char),
      open_cel_file file = .ok s0 →
      SectionLists s0 "[MASKS]".toList masks after_masks →
      ∃ out, apply_masks file intensity chip_num rows cols chip_dim_rows true false = .ok out ∧
        (∀ l ∈ masks, out (line_offset chip_num rows chip_dim_rows l) = RDouble.R_NaN) ∧
        (∀ p : Int, (∀ l ∈ masks, line_offset chip_num rows chip_dim_rows l ≠ p) →
          out p = intensity p) := by
    intro file c r cols d s0 masks after_masks hopen hm
    exact ⟨_, apply_masks_only_masks file intensity c r cols d s0 masks after_masks hopen hm,
      fun l hl => set_cells_line _ _ _ _ _ _ l hl,
      fun p hp => set_cells_other_line _ _ _ _ _ _ p hp⟩
  refine ⟨general, ?_⟩
  have hm : SectionLists example_text_masked_00 "[MASKS]".toList ["0\t0\n".toList]
      (example_masks_00.drop 42) :=
    ⟨"[MASKS]\n".toList, example_masks_00.drop 9, "NumberCells=1\n".toList,
      example_masks_00.drop 23, "1\n".toList, "CellHeader=X\tY\n".toList,
      by decide, by decide, by decide, by decide, by decide, by decide⟩
  obtain ⟨out, hout, hin, hother⟩ := general (some example_text_masked_00) 0 4 1 2
    example_text_masked_00 ["0\t0\n".toList] (example_masks_00.drop 42) (by decide) hm
  have h0 : line_offset 0 4 2 "0\t0\n".toList = 0 := by decide
  refine ⟨out, hout, ?_, fun p hp => hother p ?_⟩
  · have := hin "0\t0\n".toList (by simp)
    rwa [h0] at this
  · intro l hl
    simp only [List.mem_singleton] at hl
    rw [hl, h0]
    exact fun h => hp h.symm

/-- C14, witness: the text file of the 2x2 chip whose `[MASKS]` section lists
the cell (0, 1) and whose `[OUTLIERS]` section lists the cell (1, 1), in the
second column (chip_num = 1) of a matrix with 4 rows. -/
theorem C14_masks_only_frame_witness :
    open_cel_file (some example_text_2x2) = .ok example_text_2x2 ∧
    SectionLists example_text_2x2 "[MASKS]".toList ["0\t1\n".toList] (example_masks.drop 42) ∧
    ∃ out, apply_masks (some example_text_2x2) (filled (0 : Nat)) 1 4 2 2 true false = .ok out ∧
      (∀ l ∈ ["0\t1\n".toList], out (line_offset 1 4 2 l) = RDouble.R_NaN) ∧
      (∀ p : Int, (∀ l ∈ ["0\t1\n".toList], line_offset 1 4 2 l ≠ p) →
        out p = filled (0 : Nat) p) :=
  ⟨by decide,
   ⟨"[MASKS]\n".toList, example_masks.drop 9, "NumberCells=1\n".toList, example_masks.drop 23,
     "1\n".toList, "CellHeader=X\tY\n".toList,
     by decide, by decide, by decide, by decide, by decide, by decide⟩,
   (C14_masks_only_frame (filled (0 : Nat))).1 (some example_text_2x2) 1 4 2 2
      example_text_2x2 ["0\t1\n".toList] (example_masks.drop 42) (by decide)
      ⟨"[MASKS]\n".toList, example_masks.drop 9, "NumberCells=1\n".toList,
        example_masks.drop 23, "1\n".toList, "CellHeader=X\tY\n".toList,
        by decide, by decide, by decide, by decide, by decide, by decide⟩⟩

/-! ## C15: isTextCelFile compares four characters -/

/-- C15, failing input: a file whose first line is "[CELL]" (or just "[CEL")
does not begin with the five characters "[CEL]", yet isTextCelFile returns 1
for it, as it does for a file that begins with "[CEL]"; it returns 0 for a
first line that does not begin with "[CEL". -/
theorem C15_isTextCelFile_four_characters :
    isTextCelFile (some "[CELL]\nVersion=3\n".toList) = .ok 1 ∧
    ¬ ("[CEL]".toList <+: "[CELL]\nVersion=3\n".toList) ∧
    isTextCelFile (some "[CEL\n".toList) = .ok 1 ∧
    isTextCelFile (some "[CEL]\nVersion=3\n".toList) = .ok 1 ∧
    isTextCelFile (some "[CDF]\nVersion=3\n".toList) = .ok 0 := by
  refine ⟨by decide, by decide, by decide, by decide, by decide⟩

/-! ## C16: isBinaryCelFile -/

/-- C16: for every file that can be opened, and whatever the two locals hold
before they are read, isBinaryCelFile returns 1 when the file holds at least
8 bytes and its first two little-endian 32-bit integers are 64 and 4, and 0
otherwise. -/
theorem C16_isBinaryCelFile (magicnumber version_number : Int) (content : List Char) :
    isBinaryCelFile magicnumber version_number (some content)
      = .ok (if 8 ≤ content.length ∧ int32_at content 0 = 64 ∧ int32_at content 4 = 4
          then 1 else 0) := by
  by_cases h8 : 8 ≤ content.length
  · have r1 := fread_int32_full magicnumber content 0 (by omega)
    have r2 := fread_int32_full version_number content 4 (by omega)
    simp only [Nat.zero_add] at r1
    simp only [isBinaryCelFile, r1, r2]
    by_cases hm : int32_at content 0 = 64
    · by_cases hv : int32_at content 4 = 4
      · simp [h8, hm, hv]
      · simp [h8, hm, hv]
    · simp [h8, hm]
  · have hrhs : ¬ (8 ≤ content.length ∧ int32_at content 0 = 64 ∧ int32_at content 4 = 4) :=
      fun h => h8 h.1
    rw [if_neg hrhs]
    by_cases h4 : 4 ≤ content.length
    · have r1 := fread_int32_full magicnumber content 0 (by omega)
      have r2 := fread_int32_short version_number content 4 (by omega)
      simp only [Nat.zero_add] at r1
      simp only [isBinaryCelFile, r1, r2]
      simp
    · have r1 := fread_int32_short magicnumber content 0 (by omega)
      simp only [isBinaryCelFile, r1]
      simp

/-! ## C17: the text probe raises an error on an empty file -/

/-- C17, counterexample: for the empty file, from which no first line can be
read, isTextCelFile does not report "no match" but raises the end-of-file
error of ReadFileLine, and ReadHeader stops with that error instead of the
"is it really a CEL file" error. -/
theorem C17_counterexample :
    ReadFileLine BUF_SIZE [] = .error .eof_unexpected ∧
    isTextCelFile (some []) = .error .eof_unexpected ∧
    ReadHeader (fun bytes => bytes) 0 0 (some []) = .error .eof_unexpected := by
  refine ⟨by decide, by decide, by decide⟩

/-- C17 (amended): the text probe cannot read a first line exactly when the
file is empty.  For the empty file isTextCelFile raises the end-of-file error,
and ReadHeader stops with that error without running the other probes.  For
every other file isTextCelFile returns 0 or 1 without raising; when it returns
0 the dispatch of ReadHeader goes on to the gzip-text and binary probes, and
when these report no match either it ends in the "is it really a CEL file"
error. -/
theorem C17_text_probe_on_unreadable_first_line (inflate : List Char → List Char)
    (magicnumber version_number : Int) (content : List Char) :
    (ReadFileLine BUF_SIZE content = .error .eof_unexpected ↔ content = []) ∧
    (content = [] →
      isTextCelFile (some content) = .error .eof_unexpected ∧
      ReadHeader inflate magicnumber version_number (some content)
        = .error .eof_unexpected) ∧
    (content ≠ [] →
      isTextCelFile (some content) = .ok 0 ∨ isTextCelFile (some content) = .ok 1) ∧
    (isTextCelFile (some content) = .ok 0 →
      isgzTextCelFile inflate (some content) = .ok 0 →
      isBinaryCelFile magicnumber version_number (some content) = .ok 0 →
      ReadHeader inflate magicnumber version_number (some content)
        = .error .not_really_a_cel_file) := by
  refine ⟨?_, ?_, ?_, ?_⟩
  · cases content with
    | nil => simp [ReadFileLine_nil]
    | cons c s =>
      obtain ⟨buffer, rest, h⟩ := ReadFileLine_of_ne_nil (c :: s) (by simp)
      simp [h]
  · intro h
    subst h
    exact ⟨rfl, rfl⟩
  · intro h
    obtain ⟨buffer, rest, hr⟩ := ReadFileLine_of_ne_nil content h
    rw [isTextCelFile_spec content buffer rest hr]
    by_cases hp : "[CEL".toList <+: buffer
    · right; rw [if_pos hp]
    · left; rw [if_neg hp]
  · intro ht hg hb
    simp only [ReadHeader, ht, hg, hb]
    simp

/-- C17, witness: a file whose first line can be read and is not the start of
a CEL file: the three probes report no match and ReadHeader ends in the
"is it really a CEL file" error. -/
theorem C17_text_probe_on_unreadable_first_line_witness :
    "Hello\n".toList ≠ [] ∧
    (isTextCelFile (some "Hello\n".toList) = .ok 0 ∨
      isTextCelFile (some "Hello\n".toList) = .ok 1) ∧
    isTextCelFile (some "Hello\n".toList) = .ok 0 ∧
    isgzTextCelFile (fun bytes => bytes) (some "Hello\n".toList) = .ok 0 ∧
    isBinaryCelFile 0 0 (some "Hello\n".toList) = .ok 0 ∧
    ReadHeader (fun bytes => bytes) 0 0 (some "Hello\n".toList)
      = .error .not_really_a_cel_file :=
  ⟨by decide,
   (C17_text_probe_on_unreadable_first_line (fun bytes => bytes) 0 0 "Hello\n".toList).2.2.1
     (by decide),
   by decide, by decide, by decide,
   (C17_text_probe_on_unreadable_first_line (fun bytes => bytes) 0 0 "Hello\n".toList).2.2.2
     (by decide) (by decide) (by decide)⟩

/-! ## C18: read_binary_header on a truncated stream -/

/-- C19, failing input: a generic file with one data group (next-group offset
0) whose only data set has a name of length 0.  No data set is named
"Intensity", yet multichannel_determine_number_channels returns 1.  For the
file with three sibling data groups that each hold an "Intensity" data set it
returns 3. -/
theorem C19_empty_name_is_counted :
    (group_data_sets example_empty_name 100 0).map (fun s => s.data_set_name)
      = [⟨0, []⟩] ∧
    group_next example_empty_name 100 0 = 0 ∧
    Returns (fun fuel => multichannel_determine_number_channels fuel (some example_empty_name))
      (.ok 1) ∧
    Returns (fun fuel => multichannel_determine_number_channels fuel
      (some example_three_channels)) (.ok 3) := by
  refine ⟨by decide, by decide, ?_, ?_⟩
  · have h := multichannel_returns example_empty_name 0 (fun i hi => absurd hi (by omega))
      (by decide)
    have hc : groups_counted example_empty_name
        (example_empty_name.read_generic_data_header
          (example_empty_name.read_generic_file_header 0)) (0 + 1) = 1 := by decide
    rw [hc] at h
    exact h
  · have h := multichannel_returns example_three_channels 2
      (fun i hi => by
        have : i = 0 ∨ i = 1 := by omega
        rcases this with rfl | rfl <;> decide)
      (by decide)
    have hc : groups_counted example_three_channels
        (example_three_channels.read_generic_data_header
          (example_three_channels.read_generic_file_header 0)) (2 + 1) = 3 := by decide
    rw [hc] at h
    exact h

/-! ## C20: the walk over the data groups has no progress guard -/

/-- C20, counterexample: in the first file the only data group, at offset 100,
gives its own offset 100 as next-group offset; in the second file the second
data group, at offset 400, gives the offset 100 of the first one.  On both
files the walk of multichannel_determine_number_channels is still running
after any number of iterations. -/
theorem C20_counterexample :
    (example_cyclic.read_generic_data_group 100).1.file_position_nextgroup = 100 ∧
    Diverges (fun fuel => multichannel_determine_number_channels fuel (some example_cyclic)) ∧
    (example_cyclic_back.read_generic_data_group 100).1.file_position_nextgroup = 400 ∧
    (example_cyclic_back.read_generic_data_group 400).1.file_position_nextgroup = 100 ∧
    Diverges (fun fuel => multichannel_determine_number_channels fuel
      (some example_cyclic_back)) := by
  refine ⟨by decide, ?_, by decide, by decide, ?_⟩
  · exact multichannel_diverges example_cyclic
      (group_next_of_cycle example_cyclic _ 0 0 (by omega)
        (fun i hi => by
          have : i = 0 := by omega
          subst this; decide)
        (by decide))
  · exact multichannel_diverges example_cyclic_back
      (group_next_of_cycle example_cyclic_back _ 1 0 (by omega)
        (fun i hi => by
          have : i = 0 ∨ i = 1 := by omega
          rcases this with rfl | rfl <;> decide)
        (by decide))

/-- C20 (amended): let `start` be the read position after the file header and
the data header, and let the `i`-th iteration of the walk read the group at
`group_position infile start i`, whose next-group offset is
`group_next infile start i`.
* The walk stops when a next-group offset of 0 is seen: if the group read by
  iteration `k` is the first one with offset 0, the function returns (the
  number of counted groups among the first `k + 1`) once `k + 1` iterations are
  allowed, and is still running with fewer.
* There is no guard for an offset that makes no progress: if no group of the
  walk has offset 0, the walk never ends; this is the case when the non-zero
  offset of the group read by iteration `k` points at that same group or at
  one read before it. -/
theorem C20_walk_stops_only_at_offset_zero (infile : generic_file) (start : Nat)
    (hstart : start
      = infile.read_generic_data_header (infile.read_generic_file_header 0)) :
    (∀ k : Nat, (∀ i, i < k → group_next infile start i ≠ 0) →
      group_next infile start k = 0 →
      Returns (fun fuel => multichannel_determine_number_channels fuel (some infile))
        (.ok (groups_counted infile start (k + 1))) ∧
      ∀ fuel, fuel ≤ k → multichannel_determine_number_channels fuel (some infile) = none) ∧
    ((∀ k : Nat, group_next infile start k ≠ 0) →
      Diverges (fun fuel => multichannel_determine_number_channels fuel (some infile))) ∧
    (∀ k j : Nat, j ≤ k → (∀ i, i ≤ k → group_next infile start i ≠ 0) →
      group_next infile start k = group_position infile start j →
      Diverges (fun fuel => multichannel_determine_number_channels fuel (some infile))) := by
  subst hstart
  refine ⟨fun k hne h0 => ⟨multichannel_returns infile k hne h0, fun fuel hfuel => ?_⟩,
    fun hne => multichannel_diverges infile hne,
    fun k j hjk hne hback =>
      multichannel_diverges infile (group_next_of_cycle infile _ k j hjk hne hback)⟩
  simp only [multichannel_determine_number_channels]
  rw [multichannel_groups_loop_running infile fuel _ 0 (fun i hi => hne i (by omega))]

/-- C20, witness: the file with three sibling data groups, whose third group
has the next-group offset 0 (the walk returns after three iterations), and the
file whose second group points back at the first one (the walk never ends). -/
theorem C20_walk_stops_only_at_offset_zero_witness :
    ((∀ i, i < 2 → group_next example_three_channels 100 i ≠ 0) ∧
      group_next example_three_channels 100 2 = 0 ∧
      Returns (fun fuel => multichannel_determine_number_channels fuel
          (some example_three_channels))
        (.ok (groups_counted example_three_channels 100 (2 + 1))) ∧
      ∀ fuel, fuel ≤ 2 →
        multichannel_determine_number_channels fuel (some example_three_channels) = none) ∧
    ((0 : Nat) ≤ 1 ∧ (∀ i, i ≤ 1 → group_next example_cyclic_back 100 i ≠ 0) ∧
      group_next example_cyclic_back 100 1 = group_position example_cyclic_back 100 0 ∧
      Diverges (fun fuel => multichannel_determine_number_channels fuel
        (some example_cyclic_back))) :=
  ⟨⟨fun i hi => by
      have : i = 0 ∨ i = 1 := by omega
      rcases this with rfl | rfl <;> decide,
    by decide,
    (C20_walk_stops_only_at_offset_zero example_three_channels 100 rfl).1 2
      (fun i hi => by
        have : i = 0 ∨ i = 1 := by omega
        rcases this with rfl | rfl <;> decide)
      (by decide)⟩,
   ⟨by omega,
    fun i hi => by
      have : i = 0 ∨ i = 1 := by omega
      rcases this with rfl | rfl <;> decide,
    by decide,
    (C20_walk_stops_only_at_offset_zero example_cyclic_back 100 rfl).2.2 1 0 (by omega)
      (fun i hi => by
        have : i = 0 ∨ i = 1 := by omega
        rcases this with rfl | rfl <;> decide)
      (by decide)⟩⟩

/-! ## C21: generic_apply_masks_multichannel does not use channelindex -/

/-- C21, failing input: the two-channel file of the 2x2 chip and channelindex
1.  The file has two channels, and read_genericcel_file_intensities_multichannel
with channelindex 1 reads the intensities of the second data group.
generic_apply_masks_multichannel with channelindex 1 marks the cells (1, 1) and
(0, 1) that the first data group lists, not the cells (0, 0), (1, 0) and
(1, 1) of the second; for every input its result is the one for channelindex
0. -/
theorem C21_apply_masks_ignores_channelindex :
    multichannel_determine_number_channels 10 (some example_two_channels) = some (.ok 2) ∧
    (read_genericcel_file_intensities_multichannel (fun bits => bits)
        (some example_two_channels) (filled 0) 0 4 1 2 1).map (fun r => (r.1, cells r.2 4))
      = .ok (0, [.num 5, .num 6, .num 7, .num 8]) ∧
    (generic_apply_masks_multichannel (some example_two_channels) (filled (0 : Nat))
        0 4 1 2 true true 1).map (fun m => cells m 4)
      = .ok [.num 0, .num 0, .R_NaN, .R_NaN] ∧
    (generic_apply_masks_multichannel (some example_two_channels) (filled (0 : Nat))
        0 4 1 2 true true 1).map (fun m => cells m 4)
      ≠ .ok (cells (set_cells .R_NaN 0 2 [(0, 0), (1, 0), (1, 1)] (filled (0 : Nat))) 4) ∧
    (∀ (F : Type) (file : Option generic_file) (intensity : Int → RDouble F)
        (chip_num rows cols chip_dim_rows : Int) (rm_mask rm_outliers : Bool)
        (channelindex : Int),
      generic_apply_masks_multichannel file intensity chip_num rows cols chip_dim_rows
          rm_mask rm_outliers channelindex
        = generic_apply_masks_multichannel file intensity chip_num rows cols chip_dim_rows
            rm_mask rm_outliers 0) := by
  refine ⟨by decide, by decide, by decide, by decide, ?_⟩
  intro F file intensity chip_num rows cols chip_dim_rows rm_mask rm_outliers channelindex
  rfl

/-! ## C22: generic_get_masks_outliers_multichannel fills one list only -/

/-- C22, failing input: the two-channel file of the 2x2 chip, whose first data
group lists the outlier cell (1, 1) and the masked cell (0, 1).  For
channelindex 0 the function hands back nmasks = 1 with masks_x[0] = 0 and
masks_y[0] = 0, the zeros of the allocation, and noutliers = 1 with
outliers_x[0] = 0 and outliers_y[0] = 1, the row of the Mask data set.  For
channelindex 1 (outlier cells (0, 0) and (1, 0), masked cell (1, 1)) the first
outlier entry is the masked cell.  When the Mask data set has more rows than
the Outlier data set, the stores run past the end of the outlier arrays. -/
theorem C22_mask_rows_stored_in_outlier_arrays :
    generic_get_masks_outliers_multichannel (some example_two_channels) 0
      = .ok { nmasks := 1, masks_x := [0], masks_y := [0],
              noutliers := 1, outliers_x := [0], outliers_y := [1] } ∧
    generic_get_masks_outliers_multichannel (some example_two_channels) 1
      = .ok { nmasks := 1, masks_x := [0], masks_y := [0],
              noutliers := 2, outliers_x := [1, 1], outliers_y := [1, 0] } ∧
    generic_get_masks_outliers_multichannel (some example_mask_only) 0
      = .error .undefined_behaviour := by
  refine ⟨by decide, by decide, by decide⟩

/-! ## C23: read_cel_file does not hand back the mask and outlier arrays -/

/-- C23, failing input: the text CEL file of the 2x2 chip with the masked cell
(0, 1) and the outlier cell (1, 1).  get_masks_outliers reads both sections
into arrays that only its own parameters point to; the CEL that read_cel_file
returns has nmasks = 1 and noutliers = 1, and its four array pointers are
NULL.  For every input the four pointers of a returned CEL are NULL. -/
theorem C23_cel_arrays_stay_null :
    get_masks_outliers (some (example_detailed_text example_lines))
      = .ok { nmasks := 1, masks_x := [0], masks_y := [1],
              noutliers := 1, outliers_x := [1], outliers_y := [1] } ∧
    (read_cel_file (fun _ => ()) (fun _ => ()) (fun _ => ()) (fun bytes => bytes) 0 0
        (some (example_detailed_text example_lines))).map
        (fun c => (c.header.cols, c.header.rows, c.nmasks, c.noutliers))
      = .ok (2, 2, 1, 1) ∧
    (read_cel_file (fun _ => ()) (fun _ => ()) (fun _ => ()) (fun bytes => bytes) 0 0
        (some (example_detailed_text example_lines))).map
        (fun c => (c.masks_x, c.masks_y, c.outliers_x, c.outliers_y))
      = .ok (none, none, none, none) ∧
    (∀ (F : Type) (atof : List Char → F) (of_int : Int → F) (f32 : Nat → F)
        (inflate : List Char → List Char) (magicnumber version_number : Int)
        (file : Option (List Char)),
      (read_cel_file atof of_int f32 inflate magicnumber version_number file).map
          (fun c => (c.masks_x, c.masks_y, c.outliers_x, c.outliers_y))
        = (read_cel_file atof of_int f32 inflate magicnumber version_number file).map
          (fun _ => (none, none, none, none))) := by
  refine ⟨by decide, by decide, by decide, ?_⟩
  intro F atof of_int f32 inflate magicnumber version_number file
  unfold read_cel_file
  cases read_cel_file_header inflate magicnumber version_number file with
  | error e => rfl
  | ok header =>
    dsimp only
    cases read_cel_file_arrays atof of_int f32 inflate magicnumber version_number file
        header with
    | error e => rfl
    | ok arrays =>
      obtain ⟨intensities, stddev, npixels⟩ := arrays
      dsimp only
      cases read_cel_file_masks inflate magicnumber version_number file with
      | error e => rfl
      | ok counts =>
        obtain ⟨nmasks, noutliers⟩ := counts
        rfl

/-! ## C24: the three detailed header readers on the same header lines -/

/-- C24, counterexample: three headers of the example chip, each as the text
file and as the binary file whose blob consists of the same header lines.
With a second `GridCornerUL=` line after the other header lines the text
reader returns the upper left corner (219, 235) of the first such line, the
binary reader (1, 2) of the last.  With the `GridCornerLL=` line before the
`GridCornerLR=` line the text reader raises the end-of-file error and the
binary reader returns the four corners.  With the chip token directly after
"DatHeader=" the text and gzip-text readers return the chip name
"DatHeader=HG_U95Av2", the binary reader a name that starts in the
`GridCornerLL=` line. -/
theorem C24_counterexample :
    (get_detailed_header_info (some (example_detailed_text example_lines_twice))
        detailed_header_info_zero).map compared_fields
      = .ok (2, 2, [(219, 235), (4484, 253), (4470, 4518), (205, 4501)],
          some "HG_U95Av2".toList) ∧
    (binary_get_detailed_header_info (some (example_detailed_binary example_lines_twice))
        detailed_header_info_zero).map compared_fields
      = .ok (2, 2, [(1, 2), (4484, 253), (4470, 4518), (205, 4501)],
          some "HG_U95Av2".toList) ∧
    (get_detailed_header_info (some (example_detailed_text example_lines_swapped))
        detailed_header_info_zero).map compared_fields
      = .error .eof_unexpected ∧
    (binary_get_detailed_header_info (some (example_detailed_binary example_lines_swapped))
        detailed_header_info_zero).map compared_fields
      = .ok (2, 2, [(219, 235), (4484, 253), (4470, 4518), (205, 4501)],
          some "HG_U95Av2".toList) ∧
    (get_detailed_header_info (some (example_detailed_text example_lines_glued))
        detailed_header_info_zero).map (fun h => h.cdfName)
      = .ok (some "DatHeader=HG_U95Av2".toList) ∧
    (gz_get_detailed_header_info (fun bytes => bytes)
        (some (example_detailed_text example_lines_glued))
        detailed_header_info_zero).map (fun h => h.cdfName)
      = .ok (some "DatHeader=HG_U95Av2".toList) ∧
    (binary_get_detailed_header_info (some (example_detailed_binary example_lines_glued))
        detailed_header_info_zero).map (fun h => h.cdfName)
      = .ok (some "4501\nAxis-invertX=0\nAxisInvertY=0\nswapXY=0\nDatHeader=HG_U95Av2".toList) := by
  refine ⟨by decide, by decide, by decide, by decide, by decide, by decide, by decide⟩

/-- C24 (amended): a text CEL file whose `[HEADER]` section consists of the
whole lines `lines`, the gzip-text file that decompresses to it, and a binary
CEL file whose header blob consists of the same lines and whose `cols` and
`rows` fields hold the numbers of the `Cols=` and `Rows=` lines.  Assume that
* the scan of the text reader for its nine keys, each from the line after the
  previous hit, finds the lines `colsL` .. `parL`, and the values it takes from
  the `Cols`, `Rows`, `DatHeader`, `Algorithm` and `AlgorithmParameters` lines
  exist;
* each of the four `GridCorner` keys starts one header line only, and that
  line, without its newline, has at least three tokens between '=' and ' ';
* every line that starts with "DatHeader" has at least ten characters before
  its newline;
* on the `DatHeader` line the token `token` that ends in ".1sq" stands between
  two spaces, and no space-delimited token of the header text before it, or of
  the `DatHeader` line before it, ends in ".1sq";
* the AlgorithmParameters string of the binary file is not empty.
Then the three readers return, and their results agree in `cols`, `rows`, the
four grid corners and the chip name, which is `token` without ".1sq". -/
theorem C24_readers_agree_on_regular_headers (inflate : List Char → List Char)
    (text_file gz_file binary_file : Option (List Char)) (hi : detailed_header_info)
    (my_header : binary_header) (s0 b0 tail : List Char)
    (lines before after : List (List Char))
    (colsL rowsL ulL urL lrL llL datL algL parL : List Char)
    (ct rt dh alg par head token rest : List Char)
    (hgz : gzopen inflate gz_file = text_file)
    (hopen : open_cel_file text_file = .ok s0)
    (hsec : AdvanceToSection s0 "[HEADER]".toList = .ok (b0, lines.flatten ++ tail))
    (hlines : ∀ l ∈ lines, isLine l = true)
    (hscan : scan_keys detailed_header_keys lines
      = some [colsL, rowsL, ulL, urL, lrL, llL, datL, algL, parL])
    (hcols : get_token (tokenize colsL "=".toList) 1 = .ok ct)
    (hrows : get_token (tokenize rowsL "=".toList) 1 = .ok rt)
    (hdat : DatHeader_value datL = .ok dh)
    (halg : get_token (tokenize algL "=\r\n".toList) 1 = .ok alg)
    (hpar : get_token (tokenize parL "=\r\n".toList) 1 = .ok par)
    (hread : read_binary_header binary_file 0 = .ok (some my_header))
    (hblob : my_header.header = lines.flatten)
    (hparam : my_header.alg_param ≠ [])
    (hbcols : my_header.cols = atoi ct) (hbrows : my_header.rows = atoi rt)
    (hul : 3 ≤ (tokenize ulL.dropLast "= ".toList).length ∧
      ∀ l ∈ lines, "GridCornerUL".toList <+: l → l = ulL)
    (hur : 3 ≤ (tokenize urL.dropLast "= ".toList).length ∧
      ∀ l ∈ lines, "GridCornerUR".toList <+: l → l = urL)
    (hlr : 3 ≤ (tokenize lrL.dropLast "= ".toList).length ∧
      ∀ l ∈ lines, "GridCornerLR".toList <+: l → l = lrL)
    (hll : 3 ≤ (tokenize llL.dropLast "= ".toList).length ∧
      ∀ l ∈ lines, "GridCornerLL".toList <+: l → l = llL)
    (hDat : ∀ l ∈ lines, "DatHeader".toList <+: l → 11 ≤ l.length)
    (hsplit : lines = before ++ datL :: after)
    (hdatL : datL = head ++ ' ' :: (token ++ ' ' :: rest))
    (htoken : 0 < token_ends_with token ".1sq".toList) (hsp : ' ' ∉ token)
    (htext : ∀ t ∈ tokenize head " ".toList, ¬ 0 < token_ends_with t ".1sq".toList)
    (hbin : ∀ t ∈ tokenize (before.flatten ++ head) " ".toList,
      ¬ 0 < token_ends_with t ".1sq".toList) :
    ∃ ht hg hb,
      get_detailed_header_info text_file hi = .ok ht ∧
      gz_get_detailed_header_info inflate gz_file hi = .ok hg ∧
      binary_get_detailed_header_info binary_file hi = .ok hb ∧
      compared_fields hg = compared_fields ht ∧
      compared_fields hb = compared_fields ht ∧
      ht.cdfName = some (token.take (token_ends_with token ".1sq".toList).toNat) := by
  have hscan0 := hscan
  unfold detailed_header_keys at hscan
  obtain ⟨r1, f1, hscan⟩ := scan_keys_cons _ _ _ _ _ hscan
  obtain ⟨r2, f2, hscan⟩ := scan_keys_cons _ _ _ _ _ hscan
  obtain ⟨r3, f3, hscan⟩ := scan_keys_cons _ _ _ _ _ hscan
  obtain ⟨r4, f4, hscan⟩ := scan_keys_cons _ _ _ _ _ hscan
  obtain ⟨r5, f5, hscan⟩ := scan_keys_cons _ _ _ _ _ hscan
  obtain ⟨r6, f6, -⟩ := scan_keys_cons _ _ _ _ _ hscan
  have m1 := first_line_with_mem _ _ _ _ f1
  have m2 := first_line_with_mem _ _ _ _ f2
  have m3 := first_line_with_mem _ _ _ _ f3
  have m4 := first_line_with_mem _ _ _ _ f4
  have m5 := first_line_with_mem _ _ _ _ f5
  have m6 := first_line_with_mem _ _ _ _ f6
  have p3 := (first_line_with_spec _ _ _ _ f3).choose_spec.2.2
  have p4 := (first_line_with_spec _ _ _ _ f4).choose_spec.2.2
  have p5 := (first_line_with_spec _ _ _ _ f5).choose_spec.2.2
  have p6 := (first_line_with_spec _ _ _ _ f6).choose_spec.2.2
  have s2 : ∀ x ∈ r2, x ∈ lines := fun x hx => m1.2 x (m2.2 x hx)
  have s3 : ∀ x ∈ r3, x ∈ lines := fun x hx => s2 x (m3.2 x hx)
  have s4 : ∀ x ∈ r4, x ∈ lines := fun x hx => s3 x (m4.2 x hx)
  have s5 : ∀ x ∈ r5, x ∈ lines := fun x hx => s4 x (m5.2 x hx)
  have hname_text := cdfName_between_spaces head token rest htoken hsp htext
  rw [← hdatL] at hname_text
  have hname_bin := cdfName_between_spaces (before.flatten ++ head) token
    (rest ++ after.flatten) htoken hsp hbin
  have eblob : (before.flatten ++ head) ++ ' ' :: (token ++ ' ' :: (rest ++ after.flatten))
      = lines.flatten := by
    rw [hsplit, hdatL]; simp
  rw [eblob] at hname_bin
  obtain ⟨hb, hbin_ok, hbc, hbr, hbn, c1, c2, c3, c4⟩ :=
    binary_get_detailed_header_info_spec binary_file hi my_header lines ulL urL lrL llL _
      hread hblob hparam hlines
      ⟨s2 _ m3.1, p3, hul.1, hul.2⟩ ⟨s3 _ m4.1, p4, hur.1, hur.2⟩
      ⟨s4 _ m5.1, p5, hlr.1, hlr.2⟩ ⟨s5 _ m6.1, p6, hll.1, hll.2⟩ hDat hname_bin
  have htext_ok := get_detailed_header_info_scan text_file hi s0 b0 tail lines colsL rowsL
    ulL urL lrL llL datL algL parL ct rt dh alg par _ _ _ _ _ hopen hsec hlines hscan0 hcols
    hrows c1 c2 c3 c4 hdat hname_text halg hpar
  refine ⟨_, _, hb, htext_ok, ?_, hbin_ok, rfl, ?_, rfl⟩
  · rw [gz_get_detailed_header_info_eq, hgz]
    exact htext_ok
  · simp only [compared_fields, hbc, hbr, hbn, hbcols, hbrows, Option.orElse]

/-- C24, witness: the example chip as text file, as gzip-text file (with the
identity as decompression) and as binary file with the same header lines. -/
theorem C24_readers_agree_on_regular_headers_witness :
    (∀ l ∈ example_lines, isLine l = true) ∧
    scan_keys detailed_header_keys example_lines
      = some ["Cols=2\n".toList, "Rows=2\n".toList, "GridCornerUL=219 235\n".toList,
          "GridCornerUR=4484 253\n".toList, "GridCornerLR=4470 4518\n".toList,
          "GridCornerLL=205 4501\n".toList, example_datheader_short,
          "Algorithm=Percentile\n".toList, example_parameters] ∧
    read_binary_header (some (example_detailed_binary example_lines)) 0
      = .ok (some (example_detailed_header example_lines)) ∧
    (example_detailed_header example_lines).header = example_lines.flatten ∧
    example_datheader_short
      = "DatHeader=[0..46111]  t1:CLS=4733 \x14".toList
          ++ ' ' :: ("HG_U95Av2.1sq".toList ++ ' ' :: "\x14 6\n".toList) ∧
    ∃ ht hg hb,
      get_detailed_header_info (some (example_detailed_text example_lines))
        detailed_header_info_zero = .ok ht ∧
      gz_get_detailed_header_info (fun bytes => bytes)
        (some (example_detailed_text example_lines)) detailed_header_info_zero = .ok hg ∧
      binary_get_detailed_header_info (some (example_detailed_binary example_lines))
        detailed_header_info_zero = .ok hb ∧
      compared_fields hg = compared_fields ht ∧
      compared_fields hb = compared_fields ht ∧
      ht.cdfName = some ("HG_U95Av2.1sq".toList.take
        (token_ends_with "HG_U95Av2.1sq".toList ".1sq".toList).toNat) :=
  ⟨by decide, by decide, by decide, by decide, by decide,
   C24_readers_agree_on_regular_headers (fun bytes => bytes)
     (some (example_detailed_text example_lines)) (some (example_detailed_text example_lines))
     (some (example_detailed_binary example_lines)) detailed_header_info_zero
     (example_detailed_header example_lines)
     (example_detailed_text example_lines) "[HEADER]\n".toList
     ("\n[INTENSITY]\n".toList ++ example_body 2 4 example_masks)
     example_lines (example_lines.take 13) (example_lines.drop 14)
     "Cols=2\n".toList "Rows=2\n".toList "GridCornerUL=219 235\n".toList
     "GridCornerUR=4484 253\n".toList "GridCornerLR=4470 4518\n".toList
     "GridCornerLL=205 4501\n".toList example_datheader_short
     "Algorithm=Percentile\n".toList example_parameters
     "2\n".toList "2\n".toList "[0..46111]  t1:CLS=4733 \x14 HG_U95Av2.1sq \x14 6".toList
     "Percentile".toList "Percentile:75;CellMargin:2".toList
     "DatHeader=[0..46111]  t1:CLS=4733 \x14".toList "HG_U95Av2.1sq".toList "\x14 6\n".toList
     (by decide) (by decide) (by decide) (by decide) (by decide) (by decide) (by decide)
     (by decide) (by decide) (by decide) (by decide) (by decide) (by decide) (by decide)
     (by decide) (by decide) (by decide) (by decide) (by decide) (by decide) (by decide)
     (by decide) (by decide) (by decide) (by decide) (by decide)⟩

/-! ## C25: a short binary read in the four drivers -/

/-- C25, failing input: the binary file of the 2x2 chip that ends after its
second record.  read_binarycel_file_intensities returns 1 with two cells
stored.  The reading steps of read_abatch, read_abatch_stddev and
read_abatch_npixels raise the "file is corrupted" error; the reading step of
read_probeintensities raises nothing and hands the half-filled matrix on,
although for the text file with only two data lines it raises its "was
corrupted" error. -/
theorem C25_probeintensities_ignores_short_read :
    (read_binarycel_file_intensities (fun bits => bits) (some example_binary_truncated)
        (filled 0) 0 4 1 2).map (fun r => (r.1, cells r.2 4))
      = .ok (1, [.num 0x3F800000, .num 0x40000000, .num 0, .num 0]) ∧
    cel_file_format (fun bytes => bytes) 0 0 (some example_binary_truncated) = .ok .binary ∧
    (read_abatch_read_file (fun _ => 0) (fun bits => bits) (fun bytes => bytes) 0 0
        (some example_binary_truncated) (filled 0) 0 1 2 2).map (fun m => cells m 4)
      = .error .file_corrupted ∧
    (read_abatch_stddev_read_file (fun _ => 0) (fun bits => bits) (fun bytes => bytes) 0 0
        (some example_binary_truncated) (filled 0) 0 1 2 2).map (fun m => cells m 4)
      = .error .file_corrupted ∧
    (read_abatch_npixels_read_file (fun v => v) (fun bytes => bytes) 0 0
        (some example_binary_truncated) (filled 0) 0 1 2 2).map (fun m => cells m 4)
      = .error .file_corrupted ∧
    (read_probeintensities_read_file (fun _ => 0) (fun bits => bits) (fun bytes => bytes) 0 0
        (some example_binary_truncated) (filled 0) 1 2 2).map (fun m => cells m 4)
      = .ok [.num 0x3F800000, .num 0x40000000, .num 0, .num 0] ∧
    (read_probeintensities_read_file (fun _ => 0) (fun bits => bits) (fun bytes => bytes) 0 0
        (some (example_text 2 2 example_masks)) (filled 7) 1 2 2).map (fun m => cells m 4)
      = .error .cel_file_corrupted := by
  refine ⟨by decide, by decide, by decide, by decide, by decide, by decide, by decide⟩

/-! ## C26: where read_cel_file_intensities writes -/

/-- C26, counterexample: the text file of the 2x2 chip whose fourth data line
names the cell (5, 0).  check_cel_file accepts the file for the chip type
"HG_U95Av2" with 2 columns and 2 rows.  Read as file number 0 of two, with 4
entries per column, the value of that line is stored at offset 5, an entry of
the column [4, 8) of file number 1, and the entry 3 of the own column keeps its
old value.  (The coordinates are the `int` values that `atoi` returns: a data
line that starts with "4294967297" and "1" names the cell (1, 1), offset 3.) -/
theorem C26_counterexample :
    check_cel_file (some example_text_x5) "HG_U95Av2".toList 2 2 = .ok 0 ∧
    (read_cel_file_intensities (fun token => token) (some example_text_x5)
        (filled []) 0 4 2 2).map (fun r => (r.ret, r.warnings, cells r.intensity 8))
      = .ok (0, [], [.num "1.0".toList, .num "2.0".toList, .num "3.0".toList, .num [],
          .num [], .num "9.0".toList, .num [], .num []]) ∧
    line_coords "4294967297\t1\t9.0\n".toList = (1, 1) ∧
    line_offset 0 4 2 "4294967297\t1\t9.0\n".toList = 3 := by
  refine ⟨by decide, by decide, by decide, by decide⟩

/-- C26 (amended): a text CEL file whose `[INTENSITY]` body holds the `rows`
whole data lines `lines`, each with at least three space/tab-delimited tokens.
read_cel_file_intensities stores the value of a data line with the coordinates
x and y (the `int` values that `atoi` returns for its first two tokens) at
offset `chip_num*rows + x + chip_dim_rows*y` and writes nowhere
else.  If `0 ≤ x + chip_dim_rows*y < rows` holds for every data line, every
entry outside the column `[chip_num*rows, (chip_num+1)*rows)` keeps its value.
A data line for which it does not hold has its value stored outside that
column (when no later line names the same offset). -/
theorem C26_writes_at_line_offsets {F : Type} (atof : List Char → F)
    (file : Option (List Char)) (intensity : Int → RDouble F)
    (chip_num rows cols chip_dim_rows : Int)
    (s0 b1 s1 b2 tail : List Char) (lines : List (List Char))
    (hopen : open_cel_file file = .ok s0)
    (hsec : AdvanceToSection s0 "[INTENSITY]".toList = .ok (b1, s1))
    (hcell : findStartsWith s1 "CellHeader=".toList = .ok (b2, lines.flatten ++ tail))
    (hlines : ∀ l ∈ lines, isLine l = true ∧ 3 ≤ (tokenize l " \t".toList).length)
    (hk : (lines.length : Int) = rows) :
    ∃ r, read_cel_file_intensities atof file intensity chip_num rows cols chip_dim_rows
          = .ok r ∧
      StoredLines atof chip_num rows chip_dim_rows intensity lines r.intensity ∧
      ((∀ l ∈ lines, 0 ≤ line_index chip_dim_rows l ∧ line_index chip_dim_rows l < rows) →
        ∀ p : Int, (p < chip_num * rows ∨ (chip_num + 1) * rows ≤ p) →
          r.intensity p = intensity p) ∧
      (∀ (before : List (List Char)) (l : List Char) (later : List (List Char)),
        lines = before ++ l :: later →
        (∀ x ∈ later, line_index chip_dim_rows x ≠ line_index chip_dim_rows l) →
        (line_index chip_dim_rows l < 0 ∨ rows ≤ line_index chip_dim_rows l) →
        r.intensity (chip_num * rows + line_index chip_dim_rows l)
            = RDouble.num (atof (token_at l 2)) ∧
          (chip_num * rows + line_index chip_dim_rows l < chip_num * rows ∨
            (chip_num + 1) * rows ≤ chip_num * rows + line_index chip_dim_rows l)) := by
  have hfun := read_cel_file_intensities_complete atof file intensity chip_num rows cols
    chip_dim_rows s0 b1 s1 b2 tail lines hopen hsec hcell hlines hk
  have hstored := storedLines_foldl atof chip_num rows chip_dim_rows intensity lines
  refine ⟨_, hfun, hstored, ?_, ?_⟩
  · intro hrange p hp
    apply hstored.2.1 p
    intro l hl heq
    have := hrange l hl
    rcases hp with hp | hp
    · omega
    · have e : (chip_num + 1) * rows = chip_num * rows + rows := by ring
      omega
  · intro before l later hl hlater hout
    refine ⟨hstored.2.2 before l later hl (fun x hx h => hlater x hx (by omega)), ?_⟩
    rcases hout with h | h
    · left; omega
    · right
      have e : (chip_num + 1) * rows = chip_num * rows + rows := by ring
      omega

/-- C26, witness: the file whose fourth data line names the cell (5, 0), read
as file number 0 of two. -/
theorem C26_writes_at_line_offsets_witness :
    open_cel_file (some example_text_x5) = .ok example_text_x5 ∧
    AdvanceToSection example_text_x5 "[INTENSITY]".toList
      = .ok ("[INTENSITY]\n".toList,
          example_body 2 3 ("  5\t  0\t9.0\t0.9\t 90\n".toList ++ example_masks)) ∧
    findStartsWith (example_body 2 3 ("  5\t  0\t9.0\t0.9\t 90\n".toList ++ example_masks))
        "CellHeader=".toList
      = .ok (example_cellheader,
          (example_data.take 3 ++ ["  5\t  0\t9.0\t0.9\t 90\n".toList]).flatten
            ++ example_masks) ∧
    (∀ l ∈ example_data.take 3 ++ ["  5\t  0\t9.0\t0.9\t 90\n".toList],
      isLine l = true ∧ 3 ≤ (tokenize l " \t".toList).length) ∧
    (((example_data.take 3 ++ ["  5\t  0\t9.0\t0.9\t 90\n".toList]).length : Int) = 4) ∧
    ∃ r, read_cel_file_intensities (fun token => token) (some example_text_x5) (filled [])
          0 4 2 2 = .ok r ∧
      r.intensity (0 * 4 + line_index 2 "  5\t  0\t9.0\t0.9\t 90\n".toList)
          = RDouble.num (token_at "  5\t  0\t9.0\t0.9\t 90\n".toList 2) ∧
      (0 * 4 + line_index 2 "  5\t  0\t9.0\t0.9\t 90\n".toList < 0 * 4 ∨
        (0 + 1) * 4 ≤ 0 * 4 + line_index 2 "  5\t  0\t9.0\t0.9\t 90\n".toList) :=
  ⟨by decide, by decide, by decide, by decide, by decide,
   (C26_writes_at_line_offsets (fun token => token) (some example_text_x5) (filled [])
      0 4 2 2 example_text_x5 "[INTENSITY]\n".toList
      (example_body 2 3 ("  5\t  0\t9.0\t0.9\t 90\n".toList ++ example_masks))
      example_cellheader example_masks
      (example_data.take 3 ++ ["  5\t  0\t9.0\t0.9\t 90\n".toList])
      (by decide) (by decide) (by decide) (by decide) (by decide)).elim
    (fun r h => ⟨r, h.1,
      h.2.2.2 (example_data.take 3) "  5\t  0\t9.0\t0.9\t 90\n".toList [] (by decide)
        (by decide) (by decide)⟩)⟩

/-! ## C27: tokenize returns the maximal delimiter-free runs -/

/-- C27: for every string `s` and delimiter set `d`, tokenize(s, d) returns,
from left to right, exactly the maximal non-empty substrings of `s` that hold
no character of `d`; its size is their number; no token is empty and no token
holds a delimiter; a string made only of delimiters, the empty string
included, gives no token. -/
theorem C27_tokenize_maximal_runs (s d : List Char) :
    tokenize s d = maximal_runs d s ∧
    tokenset_size (tokenize s d) = ((maximal_runs d s).length : Int) ∧
    (∀ t ∈ tokenize s d, t ≠ [] ∧ ∀ c ∈ t, c ∉ d) ∧
    ((∀ c ∈ s, c ∈ d) → tokenize s d = [] ∧ tokenset_size (tokenize s d) = 0) := by
  refine ⟨tokenize_eq_maximal_runs d s, ?_, tokenize_token_spec s, ?_⟩
  · rw [tokenize_eq_maximal_runs d s]; rfl
  · intro h
    rw [tokenize_all_delimiters s h]
    exact ⟨rfl, rfl⟩

/-- C27, witness: a coordinate line split at spaces and tabs, and a string of
delimiters only. -/
theorem C27_tokenize_maximal_runs_witness :
    tokenize "  0\t  1\t3.0\n".toList " \t".toList
      = ["0".toList, "1".toList, "3.0\n".toList] ∧
    maximal_runs " \t".toList "  0\t  1\t3.0\n".toList
      = ["0".toList, "1".toList, "3.0\n".toList] ∧
    (∀ c ∈ " \t \t".toList, c ∈ " \t".toList) ∧
    tokenize " \t \t".toList " \t".toList = [] :=
  ⟨by decide, by decide, by decide,
   ((C27_tokenize_maximal_runs " \t \t".toList " \t".toList).2.2.2 (by decide)).1⟩

/-! ## C28 -/

/-- C28: for C strings `token` and `ends_in`, `token_ends_with` returns
`strlen(token) - strlen(ends_in)` when the token is strictly longer than
`ends_in` and ends with it, and 0 otherwise; a positive result is the index at
which `ends_in` starts in the token; for the token "TestStr" the results for
"TestStr", "estStr" and "stStr" are 0, 1 and 2. -/
theorem C28_token_ends_with (token ends_in : List Char) (ht : Char.ofNat 0 ∉ token)
    (he : Char.ofNat 0 ∉ ends_in) :
    ((ends_in.length < token.length ∧ ends_in <:+ token) →
      token_ends_with token ends_in = (token.length : Int) - ends_in.length) ∧
    (¬ (ends_in.length < token.length ∧ ends_in <:+ token) →
      token_ends_with token ends_in = 0) ∧
    (0 < token_ends_with token ends_in →
      token = token.take (token_ends_with token ends_in).toNat ++ ends_in) ∧
    token_ends_with "TestStr".toList "TestStr".toList = 0 ∧
    token_ends_with "TestStr".toList "estStr".toList = 1 ∧
    token_ends_with "TestStr".toList "stStr".toList = 2 := by
  have hspec := token_ends_with_spec token ends_in ht he
  have hnn := token_ends_with_nonneg token ends_in
  refine ⟨?_, ?_, ?_, by decide, by decide, by decide⟩
  · intro h
    have hpos := hspec.1.mpr h
    have := hspec.2 hpos
    omega
  · intro h
    have : ¬ 0 < token_ends_with token ends_in := fun hpos => h (hspec.1.mp hpos)
    omega
  · intro hpos
    have hcond := hspec.1.mp hpos
    rw [hspec.2 hpos]
    obtain ⟨before, hb⟩ := hcond.2
    subst hb
    simp

/-- C28 at the token "HG_U95Av2.1sq" and the ending ".1sq": the result is 9. -/
theorem C28_token_ends_with_witness :
    Char.ofNat 0 ∉ "HG_U95Av2.1sq".toList ∧ Char.ofNat 0 ∉ ".1sq".toList ∧
    token_ends_with "HG_U95Av2.1sq".toList ".1sq".toList = 9 :=
  ⟨by decide, by decide,
    ((C28_token_ends_with "HG_U95Av2.1sq".toList ".1sq".toList (by decide) (by decide)).1
      ⟨by decide, by decide⟩).trans (by decide)⟩

/-! ## C29: the numbers in the early-stop message -/

/-- C29, counterexample: the example text file with two data lines followed
by a line of two tokens, read with rows = 6, stops at data line 2 with two
records stored and returns 1; the message names 1 of 6, not 2 of 6.  When the
first data line has two tokens the message names -1 of 6. -/
theorem C29_counterexample :
    (read_cel_file_intensities (fun token => token)
        (some (example_text 3 2 ("0\t1\n".toList ++ example_masks)))
        (filled []) 0 6 1 2).map (fun r => (r.ret, r.warnings, cells r.intensity 6))
      = .ok (1, [Warning.incomplete_line 1 6],
          [.num "1.0".toList, .num "2.0".toList, .num [], .num [], .num [], .num []]) ∧
    (read_cel_file_intensities (fun token => token)
        (some (example_text 3 0 ("0\t1\n".toList ++ example_masks)))
        (filled []) 0 6 1 2).map (fun r => (r.ret, r.warnings))
      = .ok (1, [Warning.incomplete_line (-1) 6]) := by
  refine ⟨by decide, by decide⟩

/-- C29 (amended): a text CEL file whose `[INTENSITY]` body starts with the
whole data lines `lines` (each with at least three space/tab-delimited
tokens), fewer than `rows` of them, followed by a whole line `short` with
fewer than three tokens.  read_cel_file_intensities stops at data line
number `lines.length` (0-based) and returns 1; the values of `lines` have been
stored; one message is printed, and it names `lines.length - 1` as the
intensity read to.  When `short` has more than two characters it is the
"incomplete line" message, which names `rows` as the number expected;
otherwise it is the "empty line" message. -/
theorem C29_message_names_last_index {F : Type} (atof : List Char → F)
    (file : Option (List Char)) (intensity : Int → RDouble F)
    (chip_num rows cols chip_dim_rows : Int)
    (s0 b1 s1 b2 short rest : List Char) (lines : List (List Char))
    (hopen : open_cel_file file = .ok s0)
    (hsec : AdvanceToSection s0 "[INTENSITY]".toList = .ok (b1, s1))
    (hcell : findStartsWith s1 "CellHeader=".toList
      = .ok (b2, lines.flatten ++ (short ++ rest)))
    (hlines : ∀ l ∈ lines, isLine l = true ∧ 3 ≤ (tokenize l " \t".toList).length)
    (hk : (lines.length : Int) < rows)
    (hshort : isLine short = true) (htok : (tokenize short " \t".toList).length < 3) :
    ∃ r, read_cel_file_intensities atof file intensity chip_num rows cols chip_dim_rows
          = .ok r ∧ r.ret = 1 ∧
        StoredLines atof chip_num rows chip_dim_rows intensity lines r.intensity ∧
        (2 < short.length →
          r.warnings = [Warning.incomplete_line ((lines.length : Int) - 1) rows]) ∧
        (short.length ≤ 2 →
          ∃ expected, r.warnings = [Warning.empty_line ((lines.length : Int) - 1) expected]) := by
  obtain ⟨n, hn⟩ : ∃ n, rows.toNat = lines.length + (n + 1) :=
    ⟨rows.toNat - lines.length - 1, by omega⟩
  have hloop := read_loop_lines atof chip_num rows chip_dim_rows lines hlines (short ++ rest)
    (n + 1) 0 intensity
  rw [read_loop_short atof chip_num rows chip_dim_rows _ short rest
    (ReadFileLine_line hshort rest) htok] at hloop
  rw [← hn] at hloop
  have hne : (0 : Int) + lines.length ≠ rows := by omega
  have hfun : read_cel_file_intensities atof file intensity chip_num rows cols chip_dim_rows
      = .ok ⟨1, lines.foldl (store_line atof chip_num rows chip_dim_rows) intensity,
          [if short.length ≤ 2 then Warning.empty_line (0 + lines.length - 1) (0 + lines.length)
           else Warning.incomplete_line (0 + lines.length - 1) rows]⟩ := by
    simp only [read_cel_file_intensities, hopen, hsec, hcell, hloop, hne, ne_eq,
      not_false_eq_true, if_true]
  refine ⟨_, hfun, rfl, storedLines_foldl atof chip_num rows chip_dim_rows intensity lines,
    ?_, ?_⟩
  · intro hlong
    have hnot : ¬ short.length ≤ 2 := by omega
    simp only [hnot, if_false, zero_add]
  · intro hle
    refine ⟨(0 : Int) + lines.length, ?_⟩
    simp only [hle, if_true, zero_add]

/-- C29, witness: the example text file with two data lines and then a line of
two tokens, read with rows = 6. -/
theorem C29_message_names_last_index_witness :
    open_cel_file (some (example_text 3 2 ("0\t1\n".toList ++ example_masks)))
      = .ok (example_text 3 2 ("0\t1\n".toList ++ example_masks)) ∧
    AdvanceToSection (example_text 3 2 ("0\t1\n".toList ++ example_masks)) "[INTENSITY]".toList
      = .ok ("[INTENSITY]\n".toList, example_body 3 2 ("0\t1\n".toList ++ example_masks)) ∧
    findStartsWith (example_body 3 2 ("0\t1\n".toList ++ example_masks)) "CellHeader=".toList
      = .ok (example_cellheader,
          (example_data.take 2).flatten ++ ("0\t1\n".toList ++ example_masks)) ∧
    (∀ l ∈ example_data.take 2, isLine l = true ∧ 3 ≤ (tokenize l " \t".toList).length) ∧
    (((example_data.take 2).length : Int) < 6) ∧
    isLine "0\t1\n".toList = true ∧ (tokenize "0\t1\n".toList " \t".toList).length < 3 ∧
    2 < "0\t1\n".toList.length ∧
    ∃ r, read_cel_file_intensities (fun token => token)
          (some (example_text 3 2 ("0\t1\n".toList ++ example_masks))) (filled []) 0 6 1 2
          = .ok r ∧ r.ret = 1 ∧
        StoredLines (fun token => token) 0 6 2 (filled []) (example_data.take 2) r.intensity ∧
        r.warnings = [Warning.incomplete_line (((example_data.take 2).length : Int) - 1) 6] :=
  ⟨by decide, by decide, by decide, by decide, by decide, by decide, by decide, by decide,
   (C29_message_names_last_index (fun token => token)
      (some (example_text 3 2 ("0\t1\n".toList ++ example_masks))) (filled []) 0 6 1 2
      (example_text 3 2 ("0\t1\n".toList ++ example_masks)) "[INTENSITY]\n".toList
      (example_body 3 2 ("0\t1\n".toList ++ example_masks))
      example_cellheader "0\t1\n".toList example_masks (example_data.take 2)
      (by decide) (by decide) (by decide) (by decide) (by decide) (by decide) (by decide)).elim
    (fun r h => ⟨r, h.1, h.2.1, h.2.2.1, h.2.2.2.1 (by decide)⟩)⟩
/-! ## C30: the values of the Algorithm and AlgorithmParameters lines -/

/-- C30, counterexample: the text file whose header holds the line
"AlgorithmParameters=Percentile:75;CellMargin=2".  get_detailed_header_info
returns "Percentile:75;CellMargin" as AlgorithmParameters, the value cut at
its '='. -/
theorem C30_counterexample :
    (get_detailed_header_info (some (example_detailed_text example_lines_eq))
        detailed_header_info_zero).map (fun h => (h.Algorithm, h.AlgorithmParameters))
      = .ok (some "Percentile".toList, some "Percentile:75;CellMargin".toList) := by
  decide

/-- C30 (amended): a text CEL file whose `[HEADER]` section consists of the
whole lines `lines`, in which the scan of get_detailed_header_info for its
nine keys stops at the lines `colsL` .. `parL` and the fields before Algorithm
can be read.  If the Algorithm line is "Algorithm=" followed by a non-empty
text `v1` without '=', CR and LF and then one of these three characters, the
returned Algorithm is `v1`; likewise the returned AlgorithmParameters is the
text `v2` between the first '=' of its line and the next '=', CR or LF.  So the
complete value is returned when it holds no '=', and the part before its first
'=' otherwise. -/
theorem C30_value_up_to_next_delimiter (file : Option (List Char))
    (hi : detailed_header_info) (s0 b0 tail : List Char) (lines : List (List Char))
    (colsL rowsL ulL urL lrL llL datL algL parL : List Char)
    (ct rt dh : List Char) (UL UR LR LL : Int × Int) (cdf : Option (List Char))
    (v1 more1 v2 more2 : List Char) (c1 c2 : Char)
    (hopen : open_cel_file file = .ok s0)
    (hsec : AdvanceToSection s0 "[HEADER]".toList = .ok (b0, lines.flatten ++ tail))
    (hlines : ∀ l ∈ lines, isLine l = true)
    (hscan : scan_keys detailed_header_keys lines
      = some [colsL, rowsL, ulL, urL, lrL, llL, datL, algL, parL])
    (hcols : get_token (tokenize colsL "=".toList) 1 = .ok ct)
    (hrows : get_token (tokenize rowsL "=".toList) 1 = .ok rt)
    (hUL : GridCorner_xy ulL = .ok UL) (hUR : GridCorner_xy urL = .ok UR)
    (hLR : GridCorner_xy lrL = .ok LR) (hLL : GridCorner_xy llL = .ok LL)
    (hdat : DatHeader_value datL = .ok dh)
    (hname : cdfName_loop (tokenize datL " ".toList) = .ok cdf)
    (halg : algL = "Algorithm".toList ++ '=' :: (v1 ++ c1 :: more1))
    (hv1 : v1 ≠ []) (hv1d : ∀ c ∈ v1, c ∉ "=\r\n".toList) (hc1 : c1 ∈ "=\r\n".toList)
    (hpar : parL = "AlgorithmParameters".toList ++ '=' :: (v2 ++ c2 :: more2))
    (hv2 : v2 ≠ []) (hv2d : ∀ c ∈ v2, c ∉ "=\r\n".toList) (hc2 : c2 ∈ "=\r\n".toList) :
    ∃ h, get_detailed_header_info file hi = .ok h ∧
      h.Algorithm = some v1 ∧ h.AlgorithmParameters = some v2 := by
  have hd : ∀ c : Char, c ∉ "=\r\n".toList → "=\r\n".toList.contains c = false := by
    intro c hc
    simpa using hc
  have hm : ∀ c : Char, c ∈ "=\r\n".toList → "=\r\n".toList.contains c = true := by
    intro c hc
    simpa using hc
  have ha : get_token (tokenize algL "=\r\n".toList) 1 = .ok v1 := by
    rw [halg]
    exact tokenize_key_value "Algorithm".toList v1 more1 "=\r\n".toList '=' c1 (by decide)
      (by decide) hv1 (fun c hc => hd c (hv1d c hc)) (by decide) (hm c1 hc1)
  have hp : get_token (tokenize parL "=\r\n".toList) 1 = .ok v2 := by
    rw [hpar]
    exact tokenize_key_value "AlgorithmParameters".toList v2 more2 "=\r\n".toList '=' c2
      (by decide) (by decide) hv2 (fun c hc => hd c (hv2d c hc)) (by decide) (hm c2 hc2)
  exact ⟨_, get_detailed_header_info_scan file hi s0 b0 tail lines colsL rowsL ulL urL lrL llL
    datL algL parL ct rt dh v1 v2 UL UR LR LL cdf hopen hsec hlines hscan hcols hrows hUL hUR
    hLR hLL hdat hname ha hp, rfl, rfl⟩

/-- C30, witness: the example file whose AlgorithmParameters value holds a
'=': the returned Algorithm is the complete value "Percentile", the returned
AlgorithmParameters is "Percentile:75;CellMargin". -/
theorem C30_value_up_to_next_delimiter_witness :
    open_cel_file (some (example_detailed_text example_lines_eq))
      = .ok (example_detailed_text example_lines_eq) ∧
    AdvanceToSection (example_detailed_text example_lines_eq) "[HEADER]".toList
      = .ok ("[HEADER]\n".toList, example_lines_eq.flatten ++
          ("\n[INTENSITY]\n".toList ++ example_body 2 4 example_masks)) ∧
    (∀ l ∈ example_lines_eq, isLine l = true) ∧
    scan_keys detailed_header_keys example_lines_eq
      = some ["Cols=2\n".toList, "Rows=2\n".toList, "GridCornerUL=219 235\n".toList,
          "GridCornerUR=4484 253\n".toList, "GridCornerLR=4470 4518\n".toList,
          "GridCornerLL=205 4501\n".toList, example_datheader_short,
          "Algorithm=Percentile\n".toList, example_parameters_eq] ∧
    ∃ h, get_detailed_header_info (some (example_detailed_text example_lines_eq))
        detailed_header_info_zero = .ok h ∧
      h.Algorithm = some "Percentile".toList ∧
      h.AlgorithmParameters = some "Percentile:75;CellMargin".toList :=
  ⟨by decide, by decide, by decide, by decide,
   C30_value_up_to_next_delimiter (some (example_detailed_text example_lines_eq))
     detailed_header_info_zero (example_detailed_text example_lines_eq) "[HEADER]\n".toList
     ("\n[INTENSITY]\n".toList ++ example_body 2 4 example_masks) example_lines_eq
     "Cols=2\n".toList "Rows=2\n".toList "GridCornerUL=219 235\n".toList
     "GridCornerUR=4484 253\n".toList "GridCornerLR=4470 4518\n".toList
     "GridCornerLL=205 4501\n".toList example_datheader_short
     "Algorithm=Percentile\n".toList example_parameters_eq
     "2\n".toList "2\n".toList "[0..46111]  t1:CLS=4733 \x14 HG_U95Av2.1sq \x14 6".toList
     (219, 235) (4484, 253) (4470, 4518) (205, 4501) (some "HG_U95Av2".toList)
     "Percentile".toList [] "Percentile:75;CellMargin".toList "2\n".toList '\n' '='
     (by decide) (by decide) (by decide) (by decide) (by decide) (by decide) (by decide)
     (by decide) (by decide) (by decide) (by decide) (by decide) (by decide) (by decide)
     (by decide) (by decide) (by decide) (by decide) (by decide) (by decide)⟩

/-! ## C31: the skip over the mask records uses the size of a pointer -/

/-- C31, failing input: the binary file of the 2x2 chip with the mask record
(0, 1) at byte 197 and the outlier record (1, 1) at byte 201, read with
rm_mask = 0 and rm_outliers = 1.  With `sizeof(cur_loc)` = 8 the skip over
the one mask record moves the cursor by 8 bytes to the end of the file, both
reads of the outlier loop fail and the loop marks the cell (0, 0) that the
zeroed `cur_loc` names: the column becomes [NaN, 0, 0, 0].  A skip of 4 bytes
for the record gives [0, 0, 0, NaN], the outlier cell (1, 1).  With two mask
records and the outlier records (1, 1) and (0, 0) the 8-byte skip marks the
cell (0, 0) only. -/
theorem C31_skip_by_pointer_size :
    locs_at (example_binary 2 2 example_records_4 [(0, 1)] [(1, 1)]) 197 1 = [(0, 1)] ∧
    locs_at (example_binary 2 2 example_records_4 [(0, 1)] [(1, 1)]) (197 + 4) 1 = [(1, 1)] ∧
    (example_binary 2 2 example_records_4 [(0, 1)] [(1, 1)]).length = 197 + 8 ∧
    (binary_apply_masks 8 (some (example_binary 2 2 example_records_4 [(0, 1)] [(1, 1)]))
        (filled (0 : Nat)) 0 4 1 2 false true).map (fun m => cells m 4)
      = .ok [.R_NaN, .num 0, .num 0, .num 0] ∧
    (binary_apply_masks 4 (some (example_binary 2 2 example_records_4 [(0, 1)] [(1, 1)]))
        (filled (0 : Nat)) 0 4 1 2 false true).map (fun m => cells m 4)
      = .ok [.num 0, .num 0, .num 0, .R_NaN] ∧
    (binary_apply_masks 8
        (some (example_binary 2 2 example_records_4 [(0, 1), (1, 0)] [(1, 1), (0, 0)]))
        (filled (0 : Nat)) 0 4 1 2 false true).map (fun m => cells m 4)
      = .ok [.R_NaN, .num 0, .num 0, .num 0] ∧
    (binary_apply_masks 4
        (some (example_binary 2 2 example_records_4 [(0, 1), (1, 0)] [(1, 1), (0, 0)]))
        (filled (0 : Nat)) 0 4 1 2 false true).map (fun m => cells m 4)
      = .ok [.R_NaN, .num 0, .num 0, .R_NaN] := by
  refine ⟨by decide, by decide, by decide, by decide, by decide, by decide, by decide⟩

/-! ## C32 -/

/-- C32: the swap statement of `fread_int32` (and of `swap_float_4`) reverses
the four bytes of the 32-bit two's complement pattern of `v`: byte `i` of the
result is byte `3 - i` of `v`, the result is a 32-bit value, and its
little-endian bytes are those of `v` in reverse order.  The swap statement of
`fread_int16`, truncated to 16 bits, exchanges the two bytes of `s`.  Each swap
applied twice gives the value back for every 32-bit `v`, 16-bit `s` and 32-bit
`float` pattern `f`. -/
theorem C32_swaps_reverse_bytes (v s : Int) (f : Nat) :
    (∀ i : Nat, i < 4 → byte_of (swap_int32 v) i = byte_of v (3 - i))
    ∧ (-2147483648 ≤ swap_int32 v ∧ swap_int32 v < 2147483648)
    ∧ le_bytes 4 (swap_int32 v % 4294967296).toNat
        = (le_bytes 4 (v % 4294967296).toNat).reverse
    ∧ (-2147483648 ≤ v ∧ v < 2147483648 → swap_int32 (swap_int32 v) = v)
    ∧ (∀ i : Nat, i < 2 → byte_of (swap_int16 s) i = byte_of s (1 - i))
    ∧ (-32768 ≤ swap_int16 s ∧ swap_int16 s < 32768)
    ∧ le_bytes 2 (swap_int16 s % 65536).toNat = (le_bytes 2 (s % 65536).toNat).reverse
    ∧ (-32768 ≤ s ∧ s < 32768 → swap_int16 (swap_int16 s) = s)
    ∧ (f < 4294967296 →
        le_bytes 4 (swap_float_4 f) = (le_bytes 4 f).reverse
        ∧ swap_float_4 f < 4294967296
        ∧ swap_float_4 (swap_float_4 f) = f) := by
  have hb32 : ∀ w : Int, le_bytes 4 (swap_int32 w % 4294967296).toNat
      = (le_bytes 4 (w % 4294967296).toNat).reverse := by
    intro w
    obtain ⟨h0, h1, h2, h3, _, _⟩ := swap_int32_bytes w
    rw [le_bytes_four, le_bytes_four, h0, h1, h2, h3]
    rfl
  obtain ⟨h0, h1, h2, h3, hlo, hhi⟩ := swap_int32_bytes v
  obtain ⟨k0, k1, klo, khi⟩ := swap_int16_bytes s
  refine ⟨?_, ⟨hlo, hhi⟩, hb32 v, ?_, ?_, ⟨klo, khi⟩, ?_, ?_, ?_⟩
  · intro i hi
    interval_cases i
    · rw [byte_of_zero, byte_of_three]; exact h0
    · rw [byte_of_one, byte_of_two]; exact h1
    · rw [byte_of_two, byte_of_one]; exact h2
    · rw [byte_of_three, byte_of_zero]; exact h3
  · intro hv
    rw [swap_int32_twice, wrap32_id v hv]
  · intro i hi
    interval_cases i
    · rw [byte_of_zero, byte_of_one]; exact k0
    · rw [byte_of_one, byte_of_zero]; exact k1
  · rw [le_bytes_two, le_bytes_two, k0, k1]
    rfl
  · intro hs
    rw [swap_int16_twice, wrap16_id s hs]
  · intro hf
    have hw := (wrap32_cast f hf).1
    refine ⟨?_, swap_float_4_lt f, swap_float_4_twice f hf⟩
    have := hb32 (wrap32 (f : Int))
    rw [hw] at this
    exact this

/-- Witness for C32: the value 0x12345678, the short 0x1234, the pattern
0x3f800000 of the float 1.0, and the double swap of -2 (pattern 0xfffffffe,
and 0xfffe as a short). -/
theorem C32_swaps_reverse_bytes_witness :
    swap_int32 305419896 = 2018915346
    ∧ swap_int16 4660 = 13330
    ∧ swap_float_4 1065353216 = 32831
    ∧ swap_int32 (swap_int32 (-2)) = -2
    ∧ swap_int16 (swap_int16 (-2)) = -2
    ∧ swap_float_4 (swap_float_4 1065353216) = 1065353216 :=
  ⟨by decide, by decide, by decide,
    (C32_swaps_reverse_bytes (-2) (-2) 1065353216).2.2.2.1 (by decide),
    (C32_swaps_reverse_bytes (-2) (-2) 1065353216).2.2.2.2.2.2.2.1 (by decide),
    ((C32_swaps_reverse_bytes (-2) (-2) 1065353216).2.2.2.2.2.2.2.2 (by decide)).2.2⟩
/-! ## C33: the gzip text body reader against the plain one -/

/-- C33: for every gzip file, decompression, matrix and arguments,
read_gzcel_file_intensities on the file and read_cel_file_intensities on the
decompressed stream raise the same error or return the same code and leave the
same matrix.  Only the messages can differ: on the body with two data lines
and then a blank line, read with rows = 6, both return 1 with the same two
cells stored, the plain reader after its "empty line" message and the gzip
reader after its "incomplete line" message. -/
theorem C33_gz_reader_same_code_and_matrix :
    (∀ (F : Type) (atof : List Char → F) (inflate : List Char → List Char)
        (file : Option (List Char)) (intensity : Int → RDouble F)
        (chip_num rows cols chip_dim_rows : Int),
      (read_gzcel_file_intensities atof inflate file intensity chip_num rows cols
          chip_dim_rows).map (fun r => (r.ret, r.intensity))
        = (read_cel_file_intensities atof (gzopen inflate file) intensity chip_num rows cols
          chip_dim_rows).map (fun r => (r.ret, r.intensity))) ∧
    (read_cel_file_intensities (fun token => token) (some (example_text 3 2 example_masks))
        (filled []) 0 6 1 2).map (fun r => (r.ret, r.warnings, cells r.intensity 6))
      = .ok (1, [Warning.empty_line 1 2],
          [.num "1.0".toList, .num "2.0".toList, .num [], .num [], .num [], .num []]) ∧
    (read_gzcel_file_intensities (fun token => token) (fun bytes => bytes)
        (some (example_text 3 2 example_masks))
        (filled []) 0 6 1 2).map (fun r => (r.ret, r.warnings, cells r.intensity 6))
      = .ok (1, [Warning.incomplete_line 1 6],
          [.num "1.0".toList, .num "2.0".toList, .num [], .num [], .num [], .num []]) := by
  refine ⟨?_, by decide, by decide⟩
  intro F atof inflate file intensity chip_num rows cols chip_dim_rows
  exact read_gzcel_file_intensities_eq atof inflate file intensity chip_num rows cols
    chip_dim_rows

/-! ## C34 -/

/-- C34: for every generic multi-channel file and every channel index `k`, the
three channel readers pick their data set by position inside the `k`-th data
group (`channel_data_set infile k j` for `j = 0, 1, 2`).  Whenever that data
set has a column 0 with at least `nrows` values, the reader returns 0, row `i`
of the column stands at output index `chip_num*nrows + i` for every
`i < nrows` (a float32 value for the intensity and the standard deviation
reader, an int16 value for the pixel reader), and every other cell of the
matrix is unchanged. -/
theorem C34_channel_readers_select_by_position {F : Type} (f32 : Nat → F) (of_int : Int → F)
    (infile : generic_file) (intensity : Int → RDouble F)
    (chip_num rows cols chip_dim_rows : Int) (k : Nat) :
    (∀ col : List Int, (channel_data_set infile k 0).Data.get? 0 = some col →
      (channel_data_set infile k 0).nrows.toNat ≤ col.length →
      ∃ out, read_genericcel_file_intensities_multichannel f32 (some infile) intensity
            chip_num rows cols chip_dim_rows (k : Int) = .ok (0, out)
        ∧ (∀ i : Nat, (i : Int) < (channel_data_set infile k 0).nrows →
            out (chip_num * (channel_data_set infile k 0).nrows + (i : Int))
              = RDouble.num (f32 (col.getD i 0).toNat))
        ∧ (∀ p : Int, (∀ i : Nat, (i : Int) < (channel_data_set infile k 0).nrows →
              p ≠ chip_num * (channel_data_set infile k 0).nrows + (i : Int)) →
            out p = intensity p))
    ∧ (∀ col : List Int, (channel_data_set infile k 1).Data.get? 0 = some col →
      (channel_data_set infile k 1).nrows.toNat ≤ col.length →
      ∃ out, read_genericcel_file_stddev_multichannel f32 (some infile) intensity
            chip_num rows cols chip_dim_rows (k : Int) = .ok (0, out)
        ∧ (∀ i : Nat, (i : Int) < (channel_data_set infile k 1).nrows →
            out (chip_num * (channel_data_set infile k 1).nrows + (i : Int))
              = RDouble.num (f32 (col.getD i 0).toNat))
        ∧ (∀ p : Int, (∀ i : Nat, (i : Int) < (channel_data_set infile k 1).nrows →
              p ≠ chip_num * (channel_data_set infile k 1).nrows + (i : Int)) →
            out p = intensity p))
    ∧ (∀ col : List Int, (channel_data_set infile k 2).Data.get? 0 = some col →
      (channel_data_set infile k 2).nrows.toNat ≤ col.length →
      ∃ out, read_genericcel_file_npixels_multichannel of_int (some infile) intensity
            chip_num rows cols chip_dim_rows (k : Int) = .ok (0, out)
        ∧ (∀ i : Nat, (i : Int) < (channel_data_set infile k 2).nrows →
            out (chip_num * (channel_data_set infile k 2).nrows + (i : Int))
              = RDouble.num (of_int (col.getD i 0)))
        ∧ (∀ p : Int, (∀ i : Nat, (i : Int) < (channel_data_set infile k 2).nrows →
              p ≠ chip_num * (channel_data_set infile k 2).nrows + (i : Int)) →
            out p = intensity p)) := by
  refine ⟨?_, ?_, ?_⟩
  · intro col hcol hlen
    have hloop := intensities_multichannel_loop_column f32 chip_num
      (channel_data_set infile k 0) col hcol (channel_data_set infile k 0).nrows.toNat 0
      intensity (by omega)
    obtain ⟨out, hout, h1, h2⟩ := column_copy_spec (fun v => f32 v.toNat) chip_num
      (channel_data_set infile k 0).nrows col intensity _ hloop
    have hrun : read_genericcel_file_intensities_multichannel f32 (some infile) intensity
        chip_num rows cols chip_dim_rows (k : Int) = .ok (0, out) := by
      have hout2 : read_genericcel_file_intensities_multichannel_loop f32 chip_num
          (channel_data_set infile k 0) (channel_data_set infile k 0).nrows.toNat 0
          intensity = .ok out := hout
      have e : read_genericcel_file_intensities_multichannel f32 (some infile) intensity
          chip_num rows cols chip_dim_rows (k : Int)
          = (match read_genericcel_file_intensities_multichannel_loop f32 chip_num
              (channel_data_set infile k 0) (channel_data_set infile k 0).nrows.toNat 0
              intensity with
            | .error e => .error e
            | .ok intensity => .ok (0, intensity)) := by
        simp only [read_genericcel_file_intensities_multichannel, Int.toNat_ofNat,
          multichannel_skip_groups_eq]
        rfl
      rw [e, hout2]
    exact ⟨out, hrun, h1, h2⟩
  · intro col hcol hlen
    have hloop := intensities_multichannel_loop_column f32 chip_num
      (channel_data_set infile k 1) col hcol (channel_data_set infile k 1).nrows.toNat 0
      intensity (by omega)
    obtain ⟨out, hout, h1, h2⟩ := column_copy_spec (fun v => f32 v.toNat) chip_num
      (channel_data_set infile k 1).nrows col intensity _ hloop
    have hrun : read_genericcel_file_stddev_multichannel f32 (some infile) intensity
        chip_num rows cols chip_dim_rows (k : Int) = .ok (0, out) := by
      have hout2 : read_genericcel_file_intensities_multichannel_loop f32 chip_num
          (channel_data_set infile k 1) (channel_data_set infile k 1).nrows.toNat 0
          intensity = .ok out := hout
      have e : read_genericcel_file_stddev_multichannel f32 (some infile) intensity
          chip_num rows cols chip_dim_rows (k : Int)
          = (match read_genericcel_file_intensities_multichannel_loop f32 chip_num
              (channel_data_set infile k 1) (channel_data_set infile k 1).nrows.toNat 0
              intensity with
            | .error e => .error e
            | .ok intensity => .ok (0, intensity)) := by
        simp only [read_genericcel_file_stddev_multichannel, Int.toNat_ofNat,
          multichannel_skip_groups_eq]
        rfl
      rw [e, hout2]
    exact ⟨out, hrun, h1, h2⟩
  · intro col hcol hlen
    have hloop := npixels_multichannel_loop_column of_int chip_num
      (channel_data_set infile k 2) col hcol (channel_data_set infile k 2).nrows.toNat 0
      intensity (by omega)
    obtain ⟨out, hout, h1, h2⟩ := column_copy_spec of_int chip_num
      (channel_data_set infile k 2).nrows col intensity _ hloop
    have hrun : read_genericcel_file_npixels_multichannel of_int (some infile) intensity
        chip_num rows cols chip_dim_rows (k : Int) = .ok (0, out) := by
      have hout2 : read_genericcel_file_npixels_multichannel_loop of_int chip_num
          (channel_data_set infile k 2) (channel_data_set infile k 2).nrows.toNat 0
          intensity = .ok out := hout
      have e : read_genericcel_file_npixels_multichannel of_int (some infile) intensity
          chip_num rows cols chip_dim_rows (k : Int)
          = (match read_genericcel_file_npixels_multichannel_loop of_int chip_num
              (channel_data_set infile k 2) (channel_data_set infile k 2).nrows.toNat 0
              intensity with
            | .error e => .error e
            | .ok intensity => .ok (0, intensity)) := by
        simp only [read_genericcel_file_npixels_multichannel, Int.toNat_ofNat,
          multichannel_skip_groups_eq]
        rfl
      rw [e, hout2]
    exact ⟨out, hrun, h1, h2⟩

/-- Witness for C34: channel 1 of a two-channel file of a 2x2 chip, read into
column 1 of a matrix; the three data sets hold the columns 5..8, 15..18 and
25..28. -/
theorem C34_channel_readers_select_by_position_witness :
    (channel_data_set example_two_channels_full 1 0).Data.get? 0 = some [5, 6, 7, 8]
    ∧ (channel_data_set example_two_channels_full 1 1).Data.get? 0 = some [15, 16, 17, 18]
    ∧ (channel_data_set example_two_channels_full 1 2).Data.get? 0 = some [25, 26, 27, 28]
    ∧ (∃ out, read_genericcel_file_intensities_multichannel (fun n : Nat => n)
          (some example_two_channels_full) (filled 0) 1 4 2 2 ((1 : Nat) : Int) = .ok (0, out)
        ∧ cells out 8 = [.num 0, .num 0, .num 0, .num 0, .num 5, .num 6, .num 7, .num 8])
    ∧ (∃ out, read_genericcel_file_stddev_multichannel (fun n : Nat => n)
          (some example_two_channels_full) (filled 0) 1 4 2 2 ((1 : Nat) : Int) = .ok (0, out)
        ∧ cells out 8 = [.num 0, .num 0, .num 0, .num 0, .num 15, .num 16, .num 17, .num 18])
    ∧ (∃ out, read_genericcel_file_npixels_multichannel (fun n : Int => n.toNat)
          (some example_two_channels_full) (filled 0) 1 4 2 2 ((1 : Nat) : Int) = .ok (0, out)
        ∧ cells out 8 = [.num 0, .num 0, .num 0, .num 0, .num 25, .num 26, .num 27, .num 28]) := by
  have h := C34_channel_readers_select_by_position (fun n : Nat => n) (fun n : Int => n.toNat)
    example_two_channels_full (filled 0) 1 4 2 2 1
  refine ⟨by decide, by decide, by decide, ?_, ?_, ?_⟩
  · obtain ⟨out, hrun, _, _⟩ := h.1 [5, 6, 7, 8] (by decide) (by decide)
    refine ⟨out, hrun, ?_⟩
    have hrun2 := hrun
    rw [show read_genericcel_file_intensities_multichannel (fun n : Nat => n)
        (some example_two_channels_full) (filled 0) 1 4 2 2 ((1 : Nat) : Int)
        = .ok (0, _) from rfl] at hrun2
    cases hrun2
    decide
  · obtain ⟨out, hrun, _, _⟩ := h.2.1 [15, 16, 17, 18] (by decide) (by decide)
    refine ⟨out, hrun, ?_⟩
    have hrun2 := hrun
    rw [show read_genericcel_file_stddev_multichannel (fun n : Nat => n)
        (some example_two_channels_full) (filled 0) 1 4 2 2 ((1 : Nat) : Int)
        = .ok (0, _) from rfl] at hrun2
    cases hrun2
    decide
  · obtain ⟨out, hrun, _, _⟩ := h.2.2 [25, 26, 27, 28] (by decide) (by decide)
    refine ⟨out, hrun, ?_⟩
    have hrun2 := hrun
    rw [show read_genericcel_file_npixels_multichannel (fun n : Int => n.toNat)
        (some example_two_channels_full) (filled 0) 1 4 2 2 ((1 : Nat) : Int)
        = .ok (0, _) from rfl] at hrun2
    cases hrun2
    decide
/-! ## C35: the cells of a chip fill the column of the file -/

/-- C35, counterexample: the text file of the 2x2 chip whose body lists every
coordinate of the chip once and whose first data line is 1030 characters long,
read as read_abatch reads file number 0 of one.  The reader returns 1 and only
the entry 0 of the column is written: the rest of the long line is taken as
the second data line. -/
theorem C35_counterexample :
    example_data_long.map line_coords = [(0, 0), (1, 0), (0, 1), (1, 1)] ∧
    example_long_data_line.length = 1030 ∧
    (read_abatch_read_cel_file (fun token => token) (some example_text_long_line)
        (filled []) 0 1 2 2).map (fun r => (r.ret, cells r.intensity 4))
      = .ok (1, [.num "1.0".toList, .num [], .num [], .num []]) := by
  refine ⟨by decide, by decide, by decide⟩

/-- C35 (amended): read_cel_file_intensities as read_abatch calls it for file
number `i` (`rows` = `ref_dim_1*ref_dim_2`, `chip_dim_rows` = `ref_dim_1`, the
number of columns of the chip), on a text file whose `[INTENSITY]` body holds
`ref_dim_1*ref_dim_2` whole data lines of at most 1023 characters with at
least three tokens, each with `0 ≤ x < ref_dim_1` and `0 ≤ y < ref_dim_2`.  Every data line is stored at an
offset inside `[i*rows, (i+1)*rows)`; two data lines with different (x, y) are
stored at different offsets; entries outside the column keep their value; and
if the body lists every coordinate of the chip once, every entry of the column
holds the value of a data line. -/
theorem C35_chip_cells_fill_the_column {F : Type} (atof : List Char → F)
    (file : Option (List Char)) (intensityMatrix : Int → RDouble F)
    (i n_files ref_dim_1 ref_dim_2 : Int)
    (s0 b1 s1 b2 tail : List Char) (lines : List (List Char))
    (hopen : open_cel_file file = .ok s0)
    (hsec : AdvanceToSection s0 "[INTENSITY]".toList = .ok (b1, s1))
    (hcell : findStartsWith s1 "CellHeader=".toList = .ok (b2, lines.flatten ++ tail))
    (hlines : ∀ l ∈ lines, isLine l = true ∧ 3 ≤ (tokenize l " \t".toList).length)
    (hk : (lines.length : Int) = ref_dim_1 * ref_dim_2)
    (hdim : 0 < ref_dim_1)
    (hcoords : ∀ l ∈ lines, 0 ≤ (line_coords l).1 ∧ (line_coords l).1 < ref_dim_1 ∧
      0 ≤ (line_coords l).2 ∧ (line_coords l).2 < ref_dim_2) :
    ∃ r, read_abatch_read_cel_file atof file intensityMatrix i n_files ref_dim_1 ref_dim_2
          = .ok r ∧ r.ret = 0 ∧
      (∀ l ∈ lines,
        i * (ref_dim_1 * ref_dim_2) ≤ line_offset i (ref_dim_1 * ref_dim_2) ref_dim_1 l ∧
        line_offset i (ref_dim_1 * ref_dim_2) ref_dim_1 l < (i + 1) * (ref_dim_1 * ref_dim_2)) ∧
      (∀ l ∈ lines, ∀ m ∈ lines, line_coords l ≠ line_coords m →
        line_offset i (ref_dim_1 * ref_dim_2) ref_dim_1 l
          ≠ line_offset i (ref_dim_1 * ref_dim_2) ref_dim_1 m) ∧
      (∀ p : Int, (p < i * (ref_dim_1 * ref_dim_2) ∨ (i + 1) * (ref_dim_1 * ref_dim_2) ≤ p) →
        r.intensity p = intensityMatrix p) ∧
      ((lines.map line_coords).Nodup →
        (∀ x y : Int, 0 ≤ x → x < ref_dim_1 → 0 ≤ y → y < ref_dim_2 →
          ∃ l ∈ lines, line_coords l = (x, y)) →
        ∀ p : Int, i * (ref_dim_1 * ref_dim_2) ≤ p → p < (i + 1) * (ref_dim_1 * ref_dim_2) →
          ∃ l ∈ lines, line_offset i (ref_dim_1 * ref_dim_2) ref_dim_1 l = p ∧
            r.intensity p = RDouble.num (atof (token_at l 2))) := by
  have hfun := read_cel_file_intensities_complete atof file intensityMatrix i
    (ref_dim_1 * ref_dim_2) n_files ref_dim_1 s0 b1 s1 b2 tail lines hopen hsec hcell hlines hk
  have hstored := storedLines_foldl atof i (ref_dim_1 * ref_dim_2) ref_dim_1 intensityMatrix
    lines
  have hidx : ∀ l, line_index ref_dim_1 l = (line_coords l).1 + ref_dim_1 * (line_coords l).2 :=
    fun l => rfl
  have hoff : ∀ l, line_offset i (ref_dim_1 * ref_dim_2) ref_dim_1 l
      = i * (ref_dim_1 * ref_dim_2) + line_index ref_dim_1 l := fun l => rfl
  have hexp : (i + 1) * (ref_dim_1 * ref_dim_2)
      = i * (ref_dim_1 * ref_dim_2) + ref_dim_1 * ref_dim_2 := by ring
  have hrange : ∀ l ∈ lines, 0 ≤ line_index ref_dim_1 l ∧
      line_index ref_dim_1 l < ref_dim_1 * ref_dim_2 := by
    intro l hl
    obtain ⟨hx0, hx1, hy0, hy1⟩ := hcoords l hl
    rw [hidx]
    constructor
    · nlinarith
    · nlinarith
  have hinj : ∀ l ∈ lines, ∀ m ∈ lines, line_index ref_dim_1 l = line_index ref_dim_1 m →
      line_coords l = line_coords m := by
    intro l hl m hm he
    obtain ⟨hx0, hx1, hy0, hy1⟩ := hcoords l hl
    obtain ⟨mx0, mx1, my0, my1⟩ := hcoords m hm
    rw [hidx, hidx] at he
    have hy : (line_coords l).2 = (line_coords m).2 := by
      rcases lt_trichotomy (line_coords l).2 (line_coords m).2 with h | h | h
      · nlinarith
      · exact h
      · nlinarith
    have hx : (line_coords l).1 = (line_coords m).1 := by
      rw [hy] at he
      omega
    exact Prod.ext hx hy
  refine ⟨_, hfun, rfl, ?_, ?_, ?_, ?_⟩
  · intro l hl
    have := hrange l hl
    rw [hoff, hexp]
    omega
  · intro l hl m hm hne he
    apply hne
    apply hinj l hl m hm
    rw [hoff, hoff] at he
    omega
  · intro p hp
    apply hstored.2.1 p
    intro l hl heq
    have := hrange l hl
    rw [hexp] at hp
    omega
  · intro hnodup hall p hp0 hp1
    rw [hexp] at hp1
    have hq0 : 0 ≤ p - i * (ref_dim_1 * ref_dim_2) := by omega
    have hq1 : p - i * (ref_dim_1 * ref_dim_2) < ref_dim_1 * ref_dim_2 := by omega
    obtain ⟨l, hl, hc⟩ := hall ((p - i * (ref_dim_1 * ref_dim_2)) % ref_dim_1)
      ((p - i * (ref_dim_1 * ref_dim_2)) / ref_dim_1)
      (Int.emod_nonneg _ (by omega)) (Int.emod_lt_of_pos _ hdim)
      (Int.ediv_nonneg hq0 (by omega)) (Int.ediv_lt_of_lt_mul hdim (by rw [mul_comm ref_dim_2 ref_dim_1]; exact hq1))
    have hlp : line_offset i (ref_dim_1 * ref_dim_2) ref_dim_1 l = p := by
      rw [hoff, hidx, hc]
      have := Int.emod_add_ediv (p - i * (ref_dim_1 * ref_dim_2)) ref_dim_1
      simp only
      omega
    refine ⟨l, hl, hlp, ?_⟩
    obtain ⟨before, later, hsplit⟩ := List.append_of_mem hl
    have hlater : ∀ x ∈ later, i * (ref_dim_1 * ref_dim_2) + line_index ref_dim_1 x
        ≠ i * (ref_dim_1 * ref_dim_2) + line_index ref_dim_1 l := by
      intro x hx he
      have hxl : x ∈ lines := by rw [hsplit]; simp [hx]
      have hcx := hinj x hxl l hl (by omega)
      rw [hsplit, List.map_append, List.map_cons] at hnodup
      have := (List.nodup_append.mp hnodup).2.1
      have hnot := (List.nodup_cons.mp this).1
      exact hnot (List.mem_map.mpr ⟨x, hx, hcx⟩)
    have := hstored.2.2 before l later hsplit hlater
    rw [← hlp, hoff]
    exact this

/-- C35, witness: the text file of the 2x2 chip, read as file number 1 of two:
its four data lines fill the entries 4 .. 7. -/
theorem C35_chip_cells_fill_the_column_witness :
    open_cel_file (some example_text_2x2) = .ok example_text_2x2 ∧
    findStartsWith (example_body 2 4 example_masks) "CellHeader=".toList
      = .ok (example_cellheader, (example_data.take 4).flatten ++ example_masks) ∧
    (example_data.take 4).map line_coords = [(0, 0), (1, 0), (0, 1), (1, 1)] ∧
    ∃ r, read_abatch_read_cel_file (fun token => token) (some example_text_2x2) (filled [])
          1 2 2 2 = .ok r ∧ r.ret = 0 ∧
      (∀ p : Int, (p < 4 ∨ 8 ≤ p) → r.intensity p = filled [] p) ∧
      (∀ p : Int, 4 ≤ p → p < 8 →
        ∃ l ∈ example_data.take 4, line_offset 1 (2 * 2) 2 l = p ∧
          r.intensity p = RDouble.num (token_at l 2)) :=
  ⟨by decide, by decide, by decide,
   (C35_chip_cells_fill_the_column (fun token => token) (some example_text_2x2) (filled [])
      1 2 2 2 example_text_2x2 "[INTENSITY]\n".toList (example_body 2 4 example_masks)
      example_cellheader example_masks (example_data.take 4)
      (by decide) (by decide) (by decide) (by decide) (by decide) (by decide)
      (by decide)).elim
    (fun r h => ⟨r, h.1, h.2.1,
      fun p hp => h.2.2.2.2.1 p (by omega),
      fun p hp0 hp1 => h.2.2.2.2.2 (by decide)
        (fun x y hx0 hx1 hy0 hy1 => by
          have hx : x = 0 ∨ x = 1 := by omega
          have hy : y = 0 ∨ y = 1 := by omega
          rcases hx with rfl | rfl <;> rcases hy with rfl | rfl <;> decide)
        p (by omega) (by omega)⟩)⟩

/-! ## C36: apply_masks indexes tokens that do not exist -/

/-- C36, failing input: three text files of the 2x2 chip, read with both
flags set.
* `[MASKS]` announces two cells and lists one: the second pass of the loop
  reads the blank line after it, whose only token is the newline, and
  `get_token(., 1)` indexes past the token array.
* A coordinate line "5" has one token; `get_token(., 1)` indexes past the
  token array.
* The file stops after "NumberCells=": the line has the one token
  "NumberCells", and `get_token(., 1)` indexes past the token array.
With "NumberCells=" followed by its newline, token 1 is the newline and the
count is 0; when the file ends inside the coordinate lines the end-of-file
error is raised.  The body reader, given a line with fewer than three tokens,
stops and returns 1. -/
theorem C36_get_token_past_the_tokens :
    tokenize "\n".toList " \t".toList = ["\n".toList] ∧
    get_token (tokenize "\n".toList " \t".toList) 1 = .error .undefined_behaviour ∧
    (apply_masks (some (example_text 2 4 example_masks_one_of_two)) (filled (0 : Nat))
        0 4 1 2 true true).map (fun m => cells m 4)
      = .error .undefined_behaviour ∧
    tokenize "5\n".toList " \t".toList = ["5\n".toList] ∧
    (apply_masks (some (example_text 2 4 example_masks_one_token)) (filled (0 : Nat))
        0 4 1 2 true true).map (fun m => cells m 4)
      = .error .undefined_behaviour ∧
    tokenize "NumberCells=".toList "=".toList = ["NumberCells".toList] ∧
    (apply_masks (some (example_text 2 4 example_masks_cut)) (filled (0 : Nat))
        0 4 1 2 true true).map (fun m => cells m 4)
      = .error .undefined_behaviour ∧
    (apply_masks (some (example_text 2 4 example_masks_no_value)) (filled (0 : Nat))
        0 4 1 2 true true).map (fun m => cells m 4)
      = .ok [.num 0, .num 0, .num 0, .R_NaReal] ∧
    (apply_masks (some (example_text 2 4 example_masks_short_end)) (filled (0 : Nat))
        0 4 1 2 true true).map (fun m => cells m 4)
      = .error .eof_unexpected ∧
    (read_cel_file_intensities (fun token => token) (some (example_text 3 2 example_masks))
        (filled []) 0 6 1 2).map (fun r => r.ret) = .ok 1 := by
  refine ⟨by decide, by decide, by decide, by decide, by decide, by decide, by decide,
    by decide, by decide, by decide⟩

/-! ## C37: findStartsWith on lines longer than the buffer -/

/-- C37, counterexample: a line of 1030 characters, 1023 times 'x' and then
"Cols=9", followed by the line "Cols=2".  The line does not start with
"Cols", but findStartsWith returns with the buffer "Cols=9", which starts
1023 characters into it; get_header_info on the text file of the example chip
with this line put before its header lines returns 9 columns. -/
theorem C37_counterexample :
    example_long_line = List.replicate 1023 'x' ++ "Cols=9\n".toList ∧
    ¬ "Cols".toList <+: example_long_line ∧
    findStartsWith (example_long_line ++ "Cols=2\n".toList) "Cols".toList
      = .ok ("Cols=9\n".toList, "Cols=2\n".toList) ∧
    at_line_start (List.replicate 1023 'x') = false ∧
    get_header_info (some (example_detailed_text (example_long_line :: example_lines)))
      = .ok (some "HG_U95Av2".toList, 9, 2) ∧
    get_header_info (some (example_detailed_text example_lines))
      = .ok (some "HG_U95Av2".toList, 2, 2) := by
  refine ⟨by decide, by decide, by decide, by decide, by decide, by decide⟩

/-- C37 (amended): the input from the cursor on starts with the chunks `pre`,
each a whole line of at most 1023 characters (newline included) or a piece of
1023 characters of a longer line, none of which starts with `marker`, followed
by such a chunk `l` that starts with `marker`.  findStartsWith and
AdvanceToSection return with `l` in the buffer.  The buffer begins at the
start of a physical line exactly when no chunk precedes it or the chunk before
it is a whole line; so it does for a file whose lines all have at most 1023
characters, and it does not when the chunk before it is a piece of 1023
characters of the same line. -/
theorem C37_buffer_starts_at_a_chunk (marker : List Char) (hmarker : Char.ofNat 0 ∉ marker)
    (pre : List (List Char)) (hpre : ∀ c ∈ pre, isChunk c = true ∧ ¬ marker <+: c)
    (l rest : List Char) (hl : isChunk l = true) (hm : marker <+: l) :
    findStartsWith (pre.flatten ++ (l ++ rest)) marker = .ok (l, rest) ∧
    AdvanceToSection (pre.flatten ++ (l ++ rest)) marker = .ok (l, rest) ∧
    at_line_start pre.flatten = (pre.getLast?.map isLine).getD true ∧
    ((∀ c ∈ pre, isLine c = true) → at_line_start pre.flatten = true) ∧
    (∀ c, pre.getLast? = some c → isFullChunk c = true → at_line_start pre.flatten = false) := by
  have h := findStartsWith_found_chunks marker hmarker pre hpre l rest hl hm
  have ha := at_line_start_flatten pre (fun c hc => (hpre c hc).1)
  refine ⟨h, h, ha, ?_, ?_⟩
  · intro hall
    rw [ha]
    cases hlast : pre.getLast? with
    | none => rfl
    | some c =>
      have hc : c ∈ pre := List.mem_of_getLast?_eq_some hlast
      simp [hall c hc]
  · intro c hlast hfull
    rw [ha, hlast]
    have hnl := (isFullChunk_spec hfull).2.1
    have hline : isLine c = false := by
      cases hcl : isLine c with
      | false => rfl
      | true =>
        obtain ⟨b, hb, -⟩ := isLine_split hcl
        exact absurd (by rw [hb]; simp) hnl
    simp [hline]

/-- C37, witness: the line of 1030 characters is delivered as a piece of 1023
characters and the chunk "Cols=9". -/
theorem C37_buffer_starts_at_a_chunk_witness :
    Char.ofNat 0 ∉ "Cols".toList ∧
    (∀ c ∈ [List.replicate 1023 'x'], isChunk c = true ∧ ¬ "Cols".toList <+: c) ∧
    isChunk "Cols=9\n".toList = true ∧ "Cols".toList <+: "Cols=9\n".toList ∧
    findStartsWith ([List.replicate 1023 'x'].flatten ++ ("Cols=9\n".toList ++ "Cols=2\n".toList))
        "Cols".toList = .ok ("Cols=9\n".toList, "Cols=2\n".toList) ∧
    at_line_start [List.replicate 1023 'x'].flatten = false :=
  ⟨by decide, by decide, by decide, by decide,
   (C37_buffer_starts_at_a_chunk "Cols".toList (by decide) [List.replicate 1023 'x']
      (by decide) "Cols=9\n".toList "Cols=2\n".toList (by decide) (by decide)).1,
   (C37_buffer_starts_at_a_chunk "Cols".toList (by decide) [List.replicate 1023 'x']
      (by decide) "Cols=9\n".toList "Cols=2\n".toList (by decide) (by decide)).2.2.2.2
      (List.replicate 1023 'x') (by decide) (by decide)⟩

/-! ## C38: Algorithm and AlgorithmParameters of the binary detailed header -/

/-- C38: a binary CEL file whose header has a non-empty AlgorithmParameters
string, in which every header line that starts with a `GridCorner` key has at
least three tokens between '=' and ' ', every header line that starts with
"DatHeader" has at least ten characters, and the search for the chip name
ends without error.  binary_get_detailed_header_info returns; the returned
Algorithm is the complete algorithm string, and the returned
AlgorithmParameters is the parameter string without its last character. -/
theorem C38_parameters_lose_last_character (file : Option (List Char))
    (hi : detailed_header_info) (my_header : binary_header)
    (hread : read_binary_header file 0 = .ok (some my_header))
    (hparam : my_header.alg_param ≠ [])
    (hcorner : ∀ t ∈ tokenize my_header.header "\n".toList,
      ("GridCornerUL".toList <+: t ∨ "GridCornerUR".toList <+: t ∨
        "GridCornerLR".toList <+: t ∨ "GridCornerLL".toList <+: t) →
      3 ≤ (tokenize t "= ".toList).length)
    (hdat : ∀ t ∈ tokenize my_header.header "\n".toList,
      "DatHeader".toList <+: t → 10 ≤ t.length)
    (hname : ∃ name, cdfName_loop (tokenize my_header.header " ".toList) = .ok name) :
    ∃ hb, binary_get_detailed_header_info file hi = .ok hb ∧
      hb.Algorithm = some my_header.algorithm ∧
      hb.AlgorithmParameters = some my_header.alg_param.dropLast := by
  obtain ⟨hi2, hloop⟩ := binary_lines_ok (tokenize my_header.header "\n".toList)
    { hi with
      cols := my_header.cols, rows := my_header.rows,
      Algorithm := some my_header.algorithm,
      AlgorithmParameters := some my_header.alg_param.dropLast }
    (fun t ht hany => by
      obtain ⟨tok1, tok2, -, -, hxy⟩ := GridCorner_xy_ok t (hcorner t ht hany)
      exact ⟨_, hxy⟩)
    hdat
  obtain ⟨name, hn⟩ := hname
  have hret : ∃ hb, binary_get_detailed_header_info file hi = .ok hb := by
    cases name with
    | none =>
      exact ⟨hi2, by
        simp only [binary_get_detailed_header_info, hread, hparam, if_false, hloop, hn]⟩
    | some nm =>
      exact ⟨{ hi2 with cdfName := some nm }, by
        simp only [binary_get_detailed_header_info, hread, hparam, if_false, hloop, hn]⟩
  obtain ⟨hb, hok⟩ := hret
  exact ⟨hb, hok, (binary_get_detailed_header_info_algorithm file hi hb my_header hread hok).2⟩

/-- C38, witness: the binary file of the example chip, whose parameter string
is "Percentile:75;CellMargin:2" followed by a newline. -/
theorem C38_parameters_lose_last_character_witness :
    read_binary_header (some (example_detailed_binary example_lines)) 0
      = .ok (some (example_detailed_header example_lines)) ∧
    (example_detailed_header example_lines).algorithm = "Percentile".toList ∧
    (example_detailed_header example_lines).alg_param
      = "Percentile:75;CellMargin:2\n".toList ∧
    (binary_get_detailed_header_info (some (example_detailed_binary example_lines))
        detailed_header_info_zero).map (fun h => (h.Algorithm, h.AlgorithmParameters))
      = .ok (some "Percentile".toList, some "Percentile:75;CellMargin:2".toList) ∧
    ∃ hb, binary_get_detailed_header_info (some (example_detailed_binary example_lines))
        detailed_header_info_zero = .ok hb ∧
      hb.Algorithm = some (example_detailed_header example_lines).algorithm ∧
      hb.AlgorithmParameters
        = some (example_detailed_header example_lines).alg_param.dropLast :=
  ⟨by decide, by decide, by decide, by decide,
   C38_parameters_lose_last_character (some (example_detailed_binary example_lines))
     detailed_header_info_zero (example_detailed_header example_lines)
     (by decide) (by decide) (by decide) (by decide) ⟨some "HG_U95Av2".toList, by decide⟩⟩

/-! ## C39 -/

/-- C39: for every `cdfInfo` list whose probesets have `nrow ≥ 0` rows and an
index matrix of two columns (`2 * nrow` values, PM indices first),
`storeIntensities` returns, and for the `j`-th probe of a probeset `p` that
stands after the probesets `before` it has written row
`CountCDFProbes before + j` of column `curcol`: the PM matrix holds
`CurintensityMatrix[PM index - 1]` there when `which >= 0`, the MM matrix
`CurintensityMatrix[MM index - 1]` when `which <= 0`.  These rows are exactly
the rows `0 .. CountCDFProbes cdfInfo - 1`; every cell outside them is
unchanged, the PM matrix is untouched for `which < 0` and the MM matrix for
`which > 0`.  In `read_probeintensities`, where `tot_n_probes` is
`CountCDFProbes cdfInfo`, every cell outside column `i` keeps its value. -/
theorem C39_store_rows_follow_cdfInfo {F : Type}
    (CurintensityMatrix pmMatrix mmMatrix : Int → RDouble F)
    (curcol rows cols tot_n_probes : Int) (cdfInfo : List probeset) (which : Int)
    (hcdf : ∀ p ∈ cdfInfo, 0 ≤ p.nrow ∧ p.index.length = 2 * p.nrow.toNat) :
    (∃ pm mm, storeIntensities CurintensityMatrix pmMatrix mmMatrix curcol rows cols
          tot_n_probes cdfInfo which = .ok (pm, mm)
      ∧ (∀ (before : List probeset) (p : probeset) (after : List probeset) (j : Nat),
          cdfInfo = before ++ p :: after → (j : Int) < p.nrow →
          (0 ≤ which →
            pm (curcol * tot_n_probes + (CountCDFProbes before + (j : Int)))
              = CurintensityMatrix (p.index.getD j 0 - 1))
          ∧ (which ≤ 0 →
            mm (curcol * tot_n_probes + (CountCDFProbes before + (j : Int)))
              = CurintensityMatrix (p.index.getD (j + p.nrow.toNat) 0 - 1)))
      ∧ (∀ q : Int, ¬ (curcol * tot_n_probes ≤ q
            ∧ q < curcol * tot_n_probes + CountCDFProbes cdfInfo) →
          pm q = pmMatrix q ∧ mm q = mmMatrix q)
      ∧ (which < 0 → pm = pmMatrix)
      ∧ (0 < which → mm = mmMatrix))
    ∧ (∀ r : Int, 0 ≤ r → r < CountCDFProbes cdfInfo →
        ∃ (before : List probeset) (p : probeset) (after : List probeset) (j : Nat),
          cdfInfo = before ++ p :: after ∧ (j : Int) < p.nrow
          ∧ r = CountCDFProbes before + (j : Int))
    ∧ (∀ (i ref_dim_1 ref_dim_2 n_files : Int) (which_name : List Char),
        ∃ pm mm, read_probeintensities_store CurintensityMatrix pmMatrix mmMatrix i
            ref_dim_1 ref_dim_2 n_files cdfInfo which_name = .ok (pm, mm)
          ∧ ∀ q : Int, ¬ (i * CountCDFProbes cdfInfo ≤ q
                ∧ q < (i + 1) * CountCDFProbes cdfInfo) →
              pm q = pmMatrix q ∧ mm q = mmMatrix q) := by
  refine ⟨?_, ?_, ?_⟩
  · obtain ⟨pm, mm, hrun, hrows, hframe, hpm, hmm⟩ :=
      storeIntensities_loop_spec CurintensityMatrix curcol tot_n_probes which cdfInfo hcdf 0
        pmMatrix mmMatrix
    refine ⟨pm, mm, hrun, ?_, ?_, hpm, hmm⟩
    · intro before p after j he hj
      have := hrows before p after j he hj
      rw [zero_add] at this
      exact this
    · intro q hq
      apply hframe q
      rw [add_zero]
      exact hq
  · exact CountCDFProbes_cover cdfInfo (fun p hp => (hcdf p hp).1)
  · intro i ref_dim_1 ref_dim_2 n_files which_name
    obtain ⟨pm, mm, hrun, _, hframe, _, _⟩ :=
      storeIntensities_loop_spec CurintensityMatrix i (CountCDFProbes cdfInfo)
        (which_flag which_name) cdfInfo hcdf 0 pmMatrix mmMatrix
    refine ⟨pm, mm, hrun, ?_⟩
    intro q hq
    apply hframe q
    rw [add_zero]
    intro hx
    apply hq
    have := hx.1
    have := hx.2
    constructor
    · omega
    · rw [add_mul, one_mul]; omega

/-- Witness for C39: two probesets (two probes and one probe) stored from a
chip of eight cells into column 1 of matrices with three rows. -/
theorem C39_store_rows_follow_cdfInfo_witness :
    (∀ p ∈ example_cdfInfo, 0 ≤ p.nrow ∧ p.index.length = 2 * p.nrow.toNat)
    ∧ (∃ pm mm, storeIntensities example_chip (filled 0) (filled 0) 1 8 2 3
          example_cdfInfo 0 = .ok (pm, mm)
        ∧ pm (1 * 3 + (CountCDFProbes [{ nrow := 2, index := [1, 2, 5, 6] }] + ((0 : Nat) : Int)))
            = example_chip (4 - 1)
        ∧ mm (1 * 3 + (CountCDFProbes [{ nrow := 2, index := [1, 2, 5, 6] }] + ((0 : Nat) : Int)))
            = example_chip (8 - 1))
    ∧ (storeIntensities example_chip (filled 0) (filled 0) 1 8 2 3 example_cdfInfo 0).map
        (fun r => (cells r.1 6, cells r.2 6))
      = .ok ([.num 0, .num 0, .num 0, .num 10, .num 20, .num 40],
             [.num 0, .num 0, .num 0, .num 50, .num 60, .num 80])
    ∧ CountCDFProbes example_cdfInfo = 3 := by
  have hcdf : ∀ p ∈ example_cdfInfo, 0 ≤ p.nrow ∧ p.index.length = 2 * p.nrow.toNat := by
    decide
  refine ⟨hcdf, ?_, by decide, by decide⟩
  obtain ⟨pm, mm, hrun, hrows, _⟩ :=
    (C39_store_rows_follow_cdfInfo example_chip (filled 0) (filled 0) 1 8 2 3
      example_cdfInfo 0 hcdf).1
  have h := hrows [{ nrow := 2, index := [1, 2, 5, 6] }] { nrow := 1, index := [4, 8] } [] 0
    rfl (by decide)
  exact ⟨pm, mm, hrun, h.1 (by decide), h.2 (by decide)⟩
/-! ## C40: compare_AWSTRING_Intensity and names of length 0 -/

/-- C40: compare_AWSTRING_Intensity returns 0 for every name of length 0; for
a name of positive length it returns 0 exactly when the converted name is
"Intensity".  Hence a data group whose first data set has a name of length 0
is counted by the channel count: the loop over its data sets stops at that
data set with a match, and the number of counted groups grows by one; the file
with one data group whose only data set has an empty name has the channel
count 1. -/
theorem C40_empty_name_matches (string : AWSTRING) :
    (string.len = 0 → compare_AWSTRING_Intensity string = 0) ∧
    (0 < string.len →
      (compare_AWSTRING_Intensity string = 0 ↔
        wcstombs string.value string.len.toNat = "Intensity".toList)) ∧
    (∀ (infile : generic_file) (n pos : Nat),
      (infile.read_generic_data_set pos).1.data_set_name.len = 0 →
      multichannel_data_sets_loop infile (n + 1) pos = true) ∧
    (∀ (infile : generic_file) (start k : Nat),
      0 < (infile.read_generic_data_group (group_position infile start k)).1.n_data_sets →
      (infile.read_generic_data_set
        (infile.read_generic_data_group (group_position infile start k)).2).1.data_set_name.len
          = 0 →
      groups_counted infile start (k + 1) = groups_counted infile start k + 1) ∧
    Returns (fun fuel => multichannel_determine_number_channels fuel (some example_empty_name))
      (.ok 1) := by
  refine ⟨?_, ?_, ?_, ?_, ?_⟩
  · intro h
    simp [compare_AWSTRING_Intensity, h]
  · intro h
    have hnul : Char.ofNat 0 ∉ wcstombs string.value string.len.toNat := by
      intro hm
      exact cstr_nul string.value (List.mem_of_mem_take hm)
    simp only [compare_AWSTRING_Intensity, gt_iff_lt, h, if_true]
    exact strcmp_eq_zero_iff _ _ hnul (by decide)
  · intro infile n pos h
    rw [multichannel_data_sets_loop]
    simp [compare_AWSTRING_Intensity, h]
  · intro infile start k hn h
    obtain ⟨m, hm⟩ : ∃ m,
        (infile.read_generic_data_group (group_position infile start k)).1.n_data_sets.toNat
          = m + 1 :=
      ⟨(infile.read_generic_data_group (group_position infile start k)).1.n_data_sets.toNat - 1,
        by omega⟩
    have hany : (group_data_sets infile start k).any
        (fun s => compare_AWSTRING_Intensity s.data_set_name = 0) = true := by
      simp only [group_data_sets, hm, data_sets_at, List.any_cons]
      simp [compare_AWSTRING_Intensity, h]
    simp only [groups_counted, hany, if_true]
  · have h := multichannel_returns example_empty_name 0 (fun i hi => absurd hi (by omega))
      (by decide)
    have hc : groups_counted example_empty_name
        (example_empty_name.read_generic_data_header
          (example_empty_name.read_generic_file_header 0)) (0 + 1) = 1 := by decide
    rw [hc] at h
    exact h

/-- C40, witness: the name of length 0, the name "Intensity" and the name
"StdDev". -/
theorem C40_empty_name_matches_witness :
    compare_AWSTRING_Intensity ⟨0, []⟩ = 0 ∧
    (compare_AWSTRING_Intensity ⟨9, "Intensity".toList⟩ = 0 ↔
      wcstombs "Intensity".toList 9 = "Intensity".toList) ∧
    (compare_AWSTRING_Intensity ⟨6, "StdDev".toList⟩ = 0 ↔
      wcstombs "StdDev".toList 6 = "Intensity".toList) ∧
    multichannel_data_sets_loop example_empty_name (0 + 1) 130 = true ∧
    groups_counted example_empty_name 100 (0 + 1) = groups_counted example_empty_name 100 0 + 1 :=
  ⟨(C40_empty_name_matches ⟨0, []⟩).1 rfl,
   (C40_empty_name_matches ⟨9, "Intensity".toList⟩).2.1 (by decide),
   (C40_empty_name_matches ⟨6, "StdDev".toList⟩).2.1 (by decide),
   (C40_empty_name_matches ⟨0, []⟩).2.2.1 example_empty_name 0 130 (by decide),
   (C40_empty_name_matches ⟨0, []⟩).2.2.2.1 example_empty_name 100 0 (by decide) (by decide)⟩

end Affyio
